import Mathlib

/-!
# Image core of IceT (layered-icet): `src/ice-t/image.c`, `include/IceTDevImage.h`

A shallow embedding of the image core and theorems about it.

Conventions of the embedding.

* `IceTSizeType` and `IceTInt` are signed 32-bit C integers.  They are modelled by
  `Int`; C division and remainder truncate toward zero and are modelled by `Int.tdiv`
  and `Int.tmod`.  The size calculators and the capacity test of
  `icetImageSetDimensions` multiply a width by a height; their arithmetic is modelled as
  the machine carries it out, every result reduced into the 32-bit range
  (`wrapSizeType`).  The other arithmetic describes the executions in which no
  intermediate value leaves that range.
* `IceTFloat` is an IEEE-754 binary32 value.  It is modelled by its bit pattern (a
  natural number below `2^32`); the comparison `<` of C is `floatLt`.
* The enumerators of `IceT.h` (color format, depth format, composite mode, error
  kinds) are kept symbolic: that header is not part of the sources, and the code
  only compares the values for equality.
* A color buffer is the list of its channel values in memory order (one entry per
  `IceTUByte` for RGBA8, one entry per `IceTFloat` for the float formats); a depth
  buffer is the list of its float values.
-/

namespace IceT

/-! ## Enumerations -/

/-- The color formats an image header can carry; `invalid` stands for every other
`IceTEnum` value (the `default:` branches of the source). -/
inductive ColorFormat where
  | RGBA_UBYTE
  | RGBA_FLOAT
  | RGB_FLOAT
  | NONE
  | invalid (raw : Nat)
  deriving DecidableEq, Repr

/-- The depth formats an image header can carry. -/
inductive DepthFormat where
  | FLOAT
  | NONE
  | invalid (raw : Nat)
  deriving DecidableEq, Repr

/-- The process-wide composite mode (`ICET_COMPOSITE_MODE`). -/
inductive CompositeMode where
  | Z_BUFFER
  | BLEND
  | invalid (raw : Nat)
  deriving DecidableEq, Repr

/-- The kinds of diagnostics of `icetRaiseError` and `icetRaiseWarning`. -/
inductive Diagnostic where
  | INVALID_VALUE
  | INVALID_ENUM
  | INVALID_OPERATION
  | SANITY_CHECK_FAIL
  deriving DecidableEq, Repr

/-- Observable calls into the external collaborators (diagnostics and timing). -/
inductive Event where
  | raiseError (kind : Diagnostic)
  | raiseWarning (kind : Diagnostic)
  | timingBlendBegin
  | timingBlendEnd
  | timingCompressBegin
  | timingCompressEnd
  | timingInterlaceBegin
  | timingInterlaceEnd
  deriving DecidableEq, Repr

/-! ## Constants of `image.c` -/

def ICET_IMAGE_MAGIC_NUM : Nat := 0x004D5000
def ICET_IMAGE_POINTERS_MAGIC_NUM : Nat := 0x004D5100
def ICET_SPARSE_IMAGE_MAGIC_NUM : Nat := 0x004D6000
def ICET_IMAGE_FLAG_LAYERED : Nat := 0x00000001

def ICET_IMAGE_DATA_START_INDEX : Int := 7

/-- The value of `sizeof(IceTUInt)`, `sizeof(IceTFloat)` and `sizeof(IceTRunLengthType)`. -/
def SIZEOF_WORD : Int := 4

/-- The macro `RUN_LENGTH_SIZE`: `2*sizeof(IceTRunLengthType)`. -/
def RUN_LENGTH_SIZE : Int := 2 * SIZEOF_WORD

/-- The macro `RUN_LENGTH_SIZE_LAYERED`: `3*sizeof(IceTRunLengthType)`. -/
def RUN_LENGTH_SIZE_LAYERED : Int := 3 * SIZEOF_WORD

/-- Modelled from the spec: `sizeof(IceTLayerCount)`; the type is declared in `IceT.h`,
which is not part of the sources (section 3 speaks of a 16/32-bit fragment count; the
32-bit reading is taken). -/
def SIZEOF_LAYER_COUNT : Int := 4

/-- The macro `MIN(x, y)`: `((x) < (y) ? (x) : (y))`, over any comparison. -/
def MIN {α : Type} (lt : α → α → Bool) (x y : α) : α := if lt x y then x else y

/-! ## IEEE-754 binary32 comparison -/

/-- A binary32 bit pattern is a NaN: exponent all ones and a non-zero fraction. -/
def floatIsNaN (x : Nat) : Bool := (x / 2 ^ 23 % 256 == 255) && (x % 2 ^ 23 != 0)

/-- The position of a non-NaN binary32 value on the number line: the magnitude
bits, negated when the sign bit is set (so `+0` and `-0` coincide). -/
def floatKey (x : Nat) : Int :=
  if x / 2 ^ 31 % 2 = 1 then - ((x % 2 ^ 31 : Nat) : Int) else ((x % 2 ^ 31 : Nat) : Int)

/-- The C comparison `a < b` of two `IceTFloat` values given by their bits: false
as soon as one operand is a NaN. -/
def floatLt (a b : Nat) : Bool :=
  !floatIsNaN a && !floatIsNaN b && decide (floatKey a < floatKey b)

/-- The bits of the `IceTFloat` constant `1.0f`. -/
def FLOAT_ONE : Nat := 0x3F800000

/-! ## Size calculator -/

/-- `colorPixelSize`: bytes of one color value (0 for an invalid format, for which
the source also raises `ICET_INVALID_ENUM`). -/
def colorPixelSize : ColorFormat → Int
  | .RGBA_UBYTE => 4
  | .RGBA_FLOAT => 4 * SIZEOF_WORD
  | .RGB_FLOAT => 3 * SIZEOF_WORD
  | .NONE => 0
  | .invalid _ => 0

/-- `depthPixelSize`: bytes of one depth value. -/
def depthPixelSize : DepthFormat → Int
  | .FLOAT => SIZEOF_WORD
  | .NONE => 0
  | .invalid _ => 0

/-- The diagnostic of `colorPixelSize`: `ICET_INVALID_ENUM` in the `default:` branch. -/
def colorPixelSizeDiagnostics : ColorFormat → List Event
  | .invalid _ => [.raiseError .INVALID_ENUM]
  | _ => []

/-- The diagnostic of `depthPixelSize`: `ICET_INVALID_ENUM` in the `default:` branch. -/
def depthPixelSizeDiagnostics : DepthFormat → List Event
  | .invalid _ => [.raiseError .INVALID_ENUM]
  | _ => []

/-- The diagnostics raised while the size of one fragment is computed:
`colorPixelSize(color_format)`, then `depthPixelSize(depth_format)`. -/
def fragmentSizeDiagnostics (color_format : ColorFormat) (depth_format : DepthFormat) :
    List Event :=
  colorPixelSizeDiagnostics color_format ++ depthPixelSizeDiagnostics depth_format

/-- The value a 32-bit `IceTSizeType` holds when the exact result of an operation is
`x`: `x` reduced modulo `2^32` into `[-2^31, 2^31)`.  A value inside the range is kept. -/
def wrapSizeType (x : Int) : Int := (x + 2 ^ 31) % 2 ^ 32 - 2 ^ 31

/-- `icetImageBufferSizeType`: the value returned (its diagnostics are
`fragmentSizeDiagnostics`).  The two products are `IceTSizeType` products; the sum with
the header size is returned as an `IceTSizeType`. -/
def icetImageBufferSizeType (color_format : ColorFormat) (depth_format : DepthFormat)
    (width height : Int) : Int :=
  let color_pixel_size := colorPixelSize color_format
  let depth_pixel_size := depthPixelSize depth_format
  wrapSizeType (ICET_IMAGE_DATA_START_INDEX * SIZEOF_WORD
    + wrapSizeType (wrapSizeType (width * height) * (color_pixel_size + depth_pixel_size)))

/-- `icetSparseImageBufferSizeType`, every operation in `IceTSizeType`. -/
def icetSparseImageBufferSizeType (color_format : ColorFormat) (depth_format : DepthFormat)
    (width height : Int) : Int :=
  let size := wrapSizeType
    (RUN_LENGTH_SIZE + icetImageBufferSizeType color_format depth_format width height)
  let pixel_size := colorPixelSize color_format + depthPixelSize depth_format
  if pixel_size < RUN_LENGTH_SIZE then
    wrapSizeType (size + wrapSizeType ((RUN_LENGTH_SIZE - pixel_size)
      * Int.tdiv (wrapSizeType (wrapSizeType (width * height) + 1)) 2))
  else
    size

/-! ## Choosing the partitions of a split -/

/-- The loop of `icetSparseImageSplitChoosePartitions`: `count` iterations are left,
`this_offset` and `remainder` are the loop variables; the result is the list of the
values stored in `offsets[partition_idx]`, in order. -/
def choosePartitionsLoop (sub_partitions partition_lower_size : Int) :
    Nat → Int → Int → List Int
  | 0, _, _ => []
  | count + 1, this_offset, remainder =>
    let this_offset1 := this_offset + partition_lower_size
    if remainder > sub_partitions then
      this_offset ::
        choosePartitionsLoop sub_partitions partition_lower_size count
          (this_offset1 + sub_partitions) (remainder - sub_partitions)
    else
      this_offset ::
        choosePartitionsLoop sub_partitions partition_lower_size count
          (this_offset1 + remainder) 0

/-- `icetSparseImageSplitChoosePartitions`: the array `offsets` it fills, entries
`0 .. num_partitions-1`.  The source divides by both partition counts, so it is only
defined for non-zero counts. -/
def icetSparseImageSplitChoosePartitions (num_partitions eventual_num_partitions : Int)
    (size first_offset : Int) : List Int :=
  let remainder := Int.tmod size eventual_num_partitions
  let sub_partitions := Int.tdiv eventual_num_partitions num_partitions
  let partition_lower_size := Int.tdiv size eventual_num_partitions * sub_partitions
  choosePartitionsLoop sub_partitions partition_lower_size num_partitions.toNat
    first_offset remainder

/-- The value `partition_num_pixels` that the loop of `icetSparseImageSplit` computes
for `partition`, from the filled `offsets`. -/
def splitPartitionNumPixels (offsets : List Int) (num_partitions total_num_pixels
    in_image_offset : Int) (partition : Nat) : Int :=
  if (partition : Int) < num_partitions - 1 then
    offsets.getD (partition + 1) 0 - offsets.getD partition 0
  else
    total_num_pixels + in_image_offset - offsets.getD partition 0

/-- `icetSparseImageSplitPartitionNumPixels`. -/
def icetSparseImageSplitPartitionNumPixels (input_num_pixels num_partitions
    eventual_num_partitions : Int) : Int :=
  let sub_partitions := Int.tdiv eventual_num_partitions num_partitions
  Int.tdiv input_num_pixels num_partitions + sub_partitions

/-! ## Blending macros of `IceTDevImage.h` -/

/-- The two color buffers a blend macro works on. -/
structure BlendMem where
  src : List Nat
  dest : List Nat
  deriving DecidableEq, Repr

/-- A pointer argument of a blend macro: a buffer and an element offset into it. -/
inductive BlendPtr where
  | src (off : Nat)
  | dest (off : Nat)
  deriving DecidableEq, Repr

/-- The read `(p)[k]`. -/
def BlendMem.read (m : BlendMem) : BlendPtr → Nat → Nat
  | .src off, k => m.src.getD (off + k) 0
  | .dest off, k => m.dest.getD (off + k) 0

/-- The assignment `(p)[k] = v`. -/
def BlendMem.write (m : BlendMem) : BlendPtr → Nat → Nat → BlendMem
  | .src off, k, v => { m with src := m.src.set (off + k) v }
  | .dest off, k, v => { m with dest := m.dest.set (off + k) v }

/-- The macro `ICET_BLEND_UBYTE(front, back, dest)`: `afactor` is read first, the
four channels are then written in order, each cast to `IceTUByte`. -/
def ICET_BLEND_UBYTE (front back dest : BlendPtr) (m : BlendMem) : BlendMem :=
  let afactor := 255 - m.read front 3
  let m := m.write dest 0 (((m.read back 0 * afactor) / 255 + m.read front 0) % 256)
  let m := m.write dest 1 (((m.read back 1 * afactor) / 255 + m.read front 1) % 256)
  let m := m.write dest 2 (((m.read back 2 * afactor) / 255 + m.read front 2) % 256)
  let m := m.write dest 3 (((m.read back 3 * afactor) / 255 + m.read front 3) % 256)
  m

/-- The macro `ICET_OVER_UBYTE(src, dest)`. -/
def ICET_OVER_UBYTE (src dest : BlendPtr) (m : BlendMem) : BlendMem :=
  ICET_BLEND_UBYTE src dest dest m

/-- The macro `ICET_UNDER_UBYTE(src, dest)`. -/
def ICET_UNDER_UBYTE (src dest : BlendPtr) (m : BlendMem) : BlendMem :=
  ICET_BLEND_UBYTE dest src dest m

/-- The single-precision operations the float blend uses, on bit patterns.  Their
rounding is not modelled: they are a parameter of the embedding. -/
structure FloatArith where
  add : Nat → Nat → Nat
  sub : Nat → Nat → Nat
  mul : Nat → Nat → Nat

/-- The macro `ICET_BLEND_FLOAT(front, back, dest)`. -/
def ICET_BLEND_FLOAT (fa : FloatArith) (front back dest : BlendPtr) (m : BlendMem) :
    BlendMem :=
  let afactor := fa.sub FLOAT_ONE (m.read front 3)
  let m := m.write dest 0 (fa.add (fa.mul (m.read back 0) afactor) (m.read front 0))
  let m := m.write dest 1 (fa.add (fa.mul (m.read back 1) afactor) (m.read front 1))
  let m := m.write dest 2 (fa.add (fa.mul (m.read back 2) afactor) (m.read front 2))
  let m := m.write dest 3 (fa.add (fa.mul (m.read back 3) afactor) (m.read front 3))
  m

/-- The macro `ICET_OVER_FLOAT(src, dest)`. -/
def ICET_OVER_FLOAT (fa : FloatArith) (src dest : BlendPtr) (m : BlendMem) : BlendMem :=
  ICET_BLEND_FLOAT fa src dest dest m

/-- The macro `ICET_UNDER_FLOAT(src, dest)`. -/
def ICET_UNDER_FLOAT (fa : FloatArith) (src dest : BlendPtr) (m : BlendMem) : BlendMem :=
  ICET_BLEND_FLOAT fa dest src dest m

/-! ## Dense images -/

/-- The process-wide state the image core reads from the state store. -/
structure IceTState where
  /-- The state variable `ICET_COMPOSITE_MODE`. -/
  composite_mode : CompositeMode
  /-- The state variable `ICET_BACKGROUND_COLOR`: four floats. -/
  background_color : List Nat
  /-- The state variable `ICET_BACKGROUND_COLOR_WORD`: its four bytes in memory order. -/
  background_color_word : List Nat
  /-- The state variable `ICET_COLOR_FORMAT`. -/
  color_format : ColorFormat := .RGBA_UBYTE
  /-- The state variable `ICET_DEPTH_FORMAT`. -/
  depth_format : DepthFormat := .FLOAT
  /-- The state variable `ICET_IS_DRAWING_FRAME`. -/
  is_drawing_frame : Bool := false
  /-- Whether `ICET_COMPOSITE_ONE_BUFFER` is enabled. -/
  composite_one_buffer : Bool := false
  /-- The state variable `ICET_NEED_BACKGROUND_CORRECTION`. -/
  need_background_correction : Bool := false
  /-- The state variable `ICET_TRUE_BACKGROUND_COLOR`: four floats. -/
  true_background_color : List Nat := [0, 0, 0, 0]
  /-- The state variable `ICET_TRUE_BACKGROUND_COLOR_WORD`: its four bytes in memory
  order. -/
  true_background_color_word : List Nat := [0, 0, 0, 0]
  deriving DecidableEq, Repr

/-- The buffer behind a non-null `IceTImage`: the seven header integers, the
sub-header of a layered image, and the color and depth arrays that the accessors
resolve to (inside the buffer, or behind the two stored pointers). -/
structure IceTImageData where
  magic_num : Nat
  color_format : ColorFormat
  depth_format : DepthFormat
  width : Int
  height : Int
  max_num_pixels : Int
  actual_buffer_size : Int
  num_layers : Nat
  color : List Nat
  depth : List Nat
  /-- The value of `opaque_internals`, which `icetImageEqual` compares. -/
  address : Nat := 0
  deriving DecidableEq, Repr

/-- An `IceTImage` handle: `none` is the null image (`opaque_internals == NULL`). -/
abbrev IceTImage := Option IceTImageData

/-- `icetImageIsLayered`, on a non-null handle (the source reads the header
unconditionally). -/
def icetImageIsLayered (image : IceTImageData) : Bool :=
  image.magic_num &&& ICET_IMAGE_FLAG_LAYERED != 0

/-- `icetImageGetColorFormat`. -/
def icetImageGetColorFormat : IceTImage → ColorFormat
  | none => .NONE
  | some image => image.color_format

/-- `icetImageGetDepthFormat`. -/
def icetImageGetDepthFormat : IceTImage → DepthFormat
  | none => .NONE
  | some image => image.depth_format

/-- `icetImageGetWidth`. -/
def icetImageGetWidth : IceTImage → Int
  | none => 0
  | some image => image.width

/-- `icetImageGetHeight`. -/
def icetImageGetHeight : IceTImage → Int
  | none => 0
  | some image => image.height

/-- `icetImageGetNumPixels`. -/
def icetImageGetNumPixels : IceTImage → Int
  | none => 0
  | some image => image.width * image.height

/-- The four magic numbers the `switch` of the buffer accessors accepts. -/
def isImageMagic (magic_number : Nat) : Bool :=
  magic_number == ICET_IMAGE_MAGIC_NUM
    || magic_number == (ICET_IMAGE_MAGIC_NUM ||| ICET_IMAGE_FLAG_LAYERED)
    || magic_number == ICET_IMAGE_POINTERS_MAGIC_NUM
    || magic_number == (ICET_IMAGE_POINTERS_MAGIC_NUM ||| ICET_IMAGE_FLAG_LAYERED)

/-- `icetImageGetColorConstVoid(image, NULL)`: the color array (`none` is `NULL`)
and the diagnostics raised. -/
def icetImageGetColorConstVoid (image : IceTImageData) : Option (List Nat) × List Event :=
  if isImageMagic image.magic_num then (some image.color, [])
  else (none, [.raiseError .SANITY_CHECK_FAIL])

/-- `icetImageGetColorVoid(image, NULL)`. -/
def icetImageGetColorVoid (image : IceTImageData) : Option (List Nat) × List Event :=
  let const_buffer := icetImageGetColorConstVoid image
  if image.magic_num = ICET_IMAGE_POINTERS_MAGIC_NUM then
    (const_buffer.1, const_buffer.2 ++ [.raiseError .SANITY_CHECK_FAIL])
  else const_buffer

/-- `icetImageGetColorcub`. -/
def icetImageGetColorcub (image : IceTImageData) : Option (List Nat) × List Event :=
  if image.color_format ≠ .RGBA_UBYTE then (none, [.raiseError .INVALID_OPERATION])
  else icetImageGetColorConstVoid image

/-- `icetImageGetColorub`. -/
def icetImageGetColorub (image : IceTImageData) : Option (List Nat) × List Event :=
  if image.color_format ≠ .RGBA_UBYTE then (none, [.raiseError .INVALID_OPERATION])
  else icetImageGetColorVoid image

/-- `icetImageGetColorui`: the same bytes, read and written four at a time. -/
def icetImageGetColorui (image : IceTImageData) : Option (List Nat) × List Event :=
  icetImageGetColorub image

/-- `icetImageGetColorcf`. -/
def icetImageGetColorcf (image : IceTImageData) : Option (List Nat) × List Event :=
  if image.color_format ≠ .RGBA_FLOAT ∧ image.color_format ≠ .RGB_FLOAT then
    (none, [.raiseError .INVALID_OPERATION])
  else icetImageGetColorConstVoid image

/-- `icetImageGetColorf`. -/
def icetImageGetColorf (image : IceTImageData) : Option (List Nat) × List Event :=
  if image.color_format ≠ .RGBA_FLOAT ∧ image.color_format ≠ .RGB_FLOAT then
    (none, [.raiseError .INVALID_OPERATION])
  else icetImageGetColorVoid image

/-- `icetImageGetDepthConstVoid(image, NULL)`. -/
def icetImageGetDepthConstVoid (image : IceTImageData) : Option (List Nat) × List Event :=
  if isImageMagic image.magic_num then (some image.depth, [])
  else (none, [.raiseError .SANITY_CHECK_FAIL])

/-- `icetImageGetDepthVoid(image, NULL)`. -/
def icetImageGetDepthVoid (image : IceTImageData) : Option (List Nat) × List Event :=
  let const_buffer := icetImageGetDepthConstVoid image
  if image.magic_num = ICET_IMAGE_POINTERS_MAGIC_NUM then
    (const_buffer.1, const_buffer.2 ++ [.raiseError .SANITY_CHECK_FAIL])
  else const_buffer

/-- `icetImageGetDepthcf`. -/
def icetImageGetDepthcf (image : IceTImageData) : Option (List Nat) × List Event :=
  if image.depth_format ≠ .FLOAT then (none, [.raiseError .INVALID_OPERATION])
  else icetImageGetDepthConstVoid image

/-- `icetImageGetDepthf`. -/
def icetImageGetDepthf (image : IceTImageData) : Option (List Nat) × List Event :=
  if image.depth_format ≠ .FLOAT then (none, [.raiseError .INVALID_OPERATION])
  else icetImageGetDepthVoid image

/-! ## `icetComposite` -/

/-- The assignment `dest[k] = src[k]` on two arrays. -/
def copyElement (src : List Nat) (dest : List Nat) (k : Nat) : List Nat :=
  dest.set k (src.getD k 0)

/-- The elements of the color array that the Z-buffer loop body assigns for pixel
`i`: the four bytes of the `IceTUInt` at index `i` for RGBA8, the floats
`4*i+0 .. 4*i+3` for RGBA32F, `3*i+0 .. 3*i+2` for RGB32F, none without color. -/
def zBufferColorElements : ColorFormat → Nat → List Nat
  | .RGBA_UBYTE, i => [4 * i + 0, 4 * i + 1, 4 * i + 2, 4 * i + 3]
  | .RGBA_FLOAT, i => [4 * i + 0, 4 * i + 1, 4 * i + 2, 4 * i + 3]
  | .RGB_FLOAT, i => [3 * i + 0, 3 * i + 1, 3 * i + 2]
  | _, _ => []

/-- One iteration of a Z-buffer loop of `icetComposite`; the state is the pair
(destination depth array, destination color array). -/
def zBufferStep (color_format : ColorFormat) (srcDepthBuffer srcColorBuffer : List Nat)
    (dest : List Nat × List Nat) (i : Nat) : List Nat × List Nat :=
  if floatLt (srcDepthBuffer.getD i 0) (dest.1.getD i 0) then
    (dest.1.set i (srcDepthBuffer.getD i 0),
      (zBufferColorElements color_format i).foldl (copyElement srcColorBuffer) dest.2)
  else dest

/-- A Z-buffer loop `for (i = 0; i < pixels; i++)` of `icetComposite`. -/
def zBufferLoop (color_format : ColorFormat) (pixels : Int)
    (srcDepthBuffer srcColorBuffer : List Nat) (dest : List Nat × List Nat) :
    List Nat × List Nat :=
  (List.range pixels.toNat).foldl (zBufferStep color_format srcDepthBuffer srcColorBuffer) dest

/-- The RGBA8 blend loop of `icetComposite`, over or under according to `srcOnTop`. -/
def blendUbyteLoop (srcOnTop : Bool) (pixels : Int) (srcColorBuffer destColorBuffer : List Nat) :
    List Nat :=
  ((List.range pixels.toNat).foldl
    (fun m i =>
      if srcOnTop then ICET_OVER_UBYTE (.src (i * 4)) (.dest (i * 4)) m
      else ICET_UNDER_UBYTE (.src (i * 4)) (.dest (i * 4)) m)
    { src := srcColorBuffer, dest := destColorBuffer }).dest

/-- The RGBA32F blend loop of `icetComposite`. -/
def blendFloatLoop (fa : FloatArith) (srcOnTop : Bool) (pixels : Int)
    (srcColorBuffer destColorBuffer : List Nat) : List Nat :=
  ((List.range pixels.toNat).foldl
    (fun m i =>
      if srcOnTop then ICET_OVER_FLOAT fa (.src (i * 4)) (.dest (i * 4)) m
      else ICET_UNDER_FLOAT fa (.src (i * 4)) (.dest (i * 4)) m)
    { src := srcColorBuffer, dest := destColorBuffer }).dest

/-- The RGB32F loop of the blend branch: the source overwrites the destination. -/
def overwriteRgbLoop (pixels : Int) (srcColorBuffer destColorBuffer : List Nat) : List Nat :=
  (List.range pixels.toNat).foldl
    (fun dest i => [3 * i + 0, 3 * i + 1, 3 * i + 2].foldl (copyElement srcColorBuffer) dest)
    destColorBuffer

/-- Run a loop body that dereferences the given pointers: with no iteration nothing
is dereferenced; otherwise a `NULL` pointer is undefined behaviour (`none`). -/
def guardPointers (pixels : Int) (pointers : List (Option (List Nat))) : Option Unit :=
  if pixels ≤ 0 then some ()
  else if pointers.all Option.isSome then some () else none

/-- `icetComposite(destBuffer, srcBuffer, srcOnTop)`: the destination image afterwards
and the events, in order; `none` when the source dereferences a null pointer. -/
def icetComposite (fa : FloatArith) (st : IceTState) (destBuffer srcBuffer : IceTImage)
    (srcOnTop : Bool) : Option (IceTImage × List Event) :=
  match srcBuffer with
  | none => none
  | some src =>
    let ev0 : List Event :=
      if icetImageIsLayered src then [.raiseError .INVALID_OPERATION] else []
    let pixels := icetImageGetNumPixels destBuffer
    if pixels ≠ icetImageGetNumPixels srcBuffer then
      some (destBuffer, ev0 ++ [.raiseError .SANITY_CHECK_FAIL])
    else
      let color_format := icetImageGetColorFormat destBuffer
      let depth_format := icetImageGetDepthFormat destBuffer
      if color_format ≠ icetImageGetColorFormat srcBuffer
          ∨ depth_format ≠ icetImageGetDepthFormat srcBuffer then
        some (destBuffer, ev0 ++ [.raiseError .SANITY_CHECK_FAIL])
      else
        let ev1 := ev0 ++ [Event.timingBlendBegin]
        match st.composite_mode with
        | .Z_BUFFER =>
          match depth_format, destBuffer with
          | .FLOAT, some dest =>
            let srcDepthBuffer := icetImageGetDepthf src
            let destDepthBuffer := icetImageGetDepthf dest
            let ev2 := ev1 ++ srcDepthBuffer.2 ++ destDepthBuffer.2
            match color_format with
            | .RGBA_UBYTE =>
              let srcColorBuffer := icetImageGetColorui src
              let destColorBuffer := icetImageGetColorui dest
              (guardPointers pixels [srcDepthBuffer.1, destDepthBuffer.1,
                  srcColorBuffer.1, destColorBuffer.1]).map fun _ =>
                let r := zBufferLoop color_format pixels src.depth src.color
                  (dest.depth, dest.color)
                (some { dest with depth := r.1, color := r.2 },
                  ev2 ++ srcColorBuffer.2 ++ destColorBuffer.2 ++ [.timingBlendEnd])
            | .RGBA_FLOAT | .RGB_FLOAT =>
              let srcColorBuffer := icetImageGetColorf src
              let destColorBuffer := icetImageGetColorf dest
              (guardPointers pixels [srcDepthBuffer.1, destDepthBuffer.1,
                  srcColorBuffer.1, destColorBuffer.1]).map fun _ =>
                let r := zBufferLoop color_format pixels src.depth src.color
                  (dest.depth, dest.color)
                (some { dest with depth := r.1, color := r.2 },
                  ev2 ++ srcColorBuffer.2 ++ destColorBuffer.2 ++ [.timingBlendEnd])
            | .NONE =>
              (guardPointers pixels [srcDepthBuffer.1, destDepthBuffer.1]).map fun _ =>
                let r := zBufferLoop color_format pixels src.depth src.color
                  (dest.depth, dest.color)
                (some { dest with depth := r.1, color := r.2 }, ev2 ++ [.timingBlendEnd])
            | .invalid _ =>
              some (destBuffer, ev2 ++ [.raiseError .SANITY_CHECK_FAIL, .timingBlendEnd])
          | .FLOAT, none => none
          | .NONE, _ =>
            some (destBuffer, ev1 ++ [.raiseError .INVALID_OPERATION, .timingBlendEnd])
          | .invalid _, _ =>
            some (destBuffer, ev1 ++ [.raiseError .SANITY_CHECK_FAIL, .timingBlendEnd])
        | .BLEND =>
          let ev2 : List Event :=
            if depth_format ≠ .NONE then ev1 ++ [.raiseWarning .INVALID_VALUE] else ev1
          match color_format, destBuffer with
          | .RGBA_UBYTE, some dest =>
            let srcColorBuffer := icetImageGetColorcub src
            let destColorBuffer := icetImageGetColorub dest
            (guardPointers pixels [srcColorBuffer.1, destColorBuffer.1]).map fun _ =>
              (some { dest with
                  color := blendUbyteLoop srcOnTop pixels src.color dest.color },
                ev2 ++ srcColorBuffer.2 ++ destColorBuffer.2 ++ [.timingBlendEnd])
          | .RGBA_FLOAT, some dest =>
            let srcColorBuffer := icetImageGetColorcf src
            let destColorBuffer := icetImageGetColorf dest
            (guardPointers pixels [srcColorBuffer.1, destColorBuffer.1]).map fun _ =>
              (some { dest with
                  color := blendFloatLoop fa srcOnTop pixels src.color dest.color },
                ev2 ++ srcColorBuffer.2 ++ destColorBuffer.2 ++ [.timingBlendEnd])
          | .RGB_FLOAT, some dest =>
            let srcColorBuffer := icetImageGetColorf src
            let destColorBuffer := icetImageGetColorf dest
            let ev3 := ev2 ++ srcColorBuffer.2 ++ destColorBuffer.2
              ++ [.raiseWarning .INVALID_VALUE]
            if srcOnTop then
              (guardPointers pixels [srcColorBuffer.1, destColorBuffer.1]).map fun _ =>
                (some { dest with color := overwriteRgbLoop pixels src.color dest.color },
                  ev3 ++ [.timingBlendEnd])
            else some (destBuffer, ev3 ++ [.timingBlendEnd])
          | .RGBA_UBYTE, none | .RGBA_FLOAT, none | .RGB_FLOAT, none => none
          | .NONE, _ =>
            some (destBuffer, ev2 ++ [.raiseWarning .INVALID_OPERATION, .timingBlendEnd])
          | .invalid _, _ =>
            some (destBuffer, ev2 ++ [.raiseError .SANITY_CHECK_FAIL, .timingBlendEnd])
        | .invalid _ =>
          some (destBuffer, ev1 ++ [.raiseError .SANITY_CHECK_FAIL, .timingBlendEnd])

/-- The number of entries of the color array per pixel: the channels of the format. -/
def colorChannels : ColorFormat → Nat
  | .RGBA_UBYTE => 4
  | .RGBA_FLOAT => 4
  | .RGB_FLOAT => 3
  | .NONE => 0
  | .invalid _ => 0

/-- The value the RGBA8 blend loops of `icetComposite` leave in color element `k`:
over when `srcOnTop`, under otherwise; the alpha is element `4*(k/4)+3`. -/
def blendUbyteValue (srcOnTop : Bool) (S D : List Nat) (k : Nat) : Nat :=
  if srcOnTop then
    ((D.getD k 0 * (255 - S.getD (4 * (k / 4) + 3) 0)) / 255 + S.getD k 0) % 256
  else
    ((S.getD k 0 * (255 - D.getD (4 * (k / 4) + 3) 0)) / 255 + D.getD k 0) % 256


/-! ## Concrete data of the end-to-end scenarios -/

/-- Float arithmetic stand-in for the scenarios that never blend floats. -/
def unusedFloatArith : FloatArith := ⟨fun a _ => a, fun a _ => a, fun a _ => a⟩

/-- A state in Z-buffer mode with a transparent black background. -/
def zBufferState : IceTState :=
  { composite_mode := .Z_BUFFER, background_color := [0, 0, 0, 0],
    background_color_word := [0, 0, 0, 0] }

/-- A state in blend mode with a transparent black background. -/
def blendState : IceTState :=
  { composite_mode := .BLEND, background_color := [0, 0, 0, 0],
    background_color_word := [0, 0, 0, 0] }

/-- A flat RGBA8 + D32F buffer image of the given size, colors and depths. -/
def flatImage (width height : Int) (color depth : List Nat) : IceTImageData :=
  { magic_num := ICET_IMAGE_MAGIC_NUM, color_format := .RGBA_UBYTE, depth_format := .FLOAT,
    width := width, height := height, max_num_pixels := width * height,
    actual_buffer_size := icetImageBufferSizeType .RGBA_UBYTE .FLOAT width height,
    num_layers := 1, color := color, depth := depth }

/-- Scenario D, image `A`: (red, 0.2), (green, 0.9). -/
def scenarioD_A : IceTImageData :=
  flatImage 2 1 [255, 0, 0, 255, 0, 255, 0, 255] [0x3E4CCCCD, 0x3F666666]

/-- Scenario D, image `B`: (blue, 0.5), (yellow, 0.3). -/
def scenarioD_B : IceTImageData :=
  flatImage 2 1 [0, 0, 255, 255, 255, 255, 0, 255] [0x3F000000, 0x3E99999A]

/-- A flat 1x1 RGBA8 buffer image without depth. -/
def colorOnlyPixel (color : List Nat) : IceTImageData :=
  { magic_num := ICET_IMAGE_MAGIC_NUM, color_format := .RGBA_UBYTE, depth_format := .NONE,
    width := 1, height := 1, max_num_pixels := 1,
    actual_buffer_size := icetImageBufferSizeType .RGBA_UBYTE .NONE 1 1,
    num_layers := 1, color := color, depth := [] }

/-- Scenario E, the front color (100, 0, 0, 128). -/
def scenarioE_front : IceTImageData := colorOnlyPixel [100, 0, 0, 128]

/-- Scenario E, the back color (0, 0, 200, 255). -/
def scenarioE_back : IceTImageData := colorOnlyPixel [0, 0, 200, 255]

/-! ## Reference definitions of the size calculator and of run sequences -/

/-- Reference color size of the specification: RGBA8 = 4, RGBA32F = 16, RGB32F = 12,
NONE = 0 (the specification names no other format; they count 0 here). -/
def refColorSize : ColorFormat → Int
  | .RGBA_UBYTE => 4
  | .RGBA_FLOAT => 16
  | .RGB_FLOAT => 12
  | _ => 0

/-- Reference depth size of the specification: D32F = 4, NONE = 0. -/
def refDepthSize : DepthFormat → Int
  | .FLOAT => 4
  | _ => 0

/-- The number of pixels halved and rounded up. -/
def halfRoundedUp (pixels : Int) : Int := pixels / 2 + pixels % 2

/-- Reference dense size: header of seven 4-byte integers plus the payload. -/
def refImageBufferSize (color : ColorFormat) (depth : DepthFormat) (w h : Int) : Int :=
  7 * 4 + w * h * (refColorSize color + refDepthSize depth)

/-- Reference sparse size: header, one run length, the dense payload, and the slack
`(run_length_size - pixel_size) * ceil(pixels / 2)` when a pixel is smaller than a run
length. -/
def refSparseImageBufferSize (color : ColorFormat) (depth : DepthFormat) (w h : Int) : Int :=
  let p := refColorSize color + refDepthSize depth
  7 * 4 + 8 + w * h * p + (if p < 8 then (8 - p) * halfRoundedUp (w * h) else 0)

/-- The pixels a sequence of runs `(inactive, active)` covers. -/
def runsPixels (runs : List (Nat × Nat)) : Nat :=
  (runs.map fun r => r.1 + r.2).sum

/-- The active pixels of a sequence of runs. -/
def runsActive (runs : List (Nat × Nat)) : Nat :=
  (runs.map fun r => r.2).sum

/-- The inactive pixels of a sequence of runs. -/
def runsInactive (runs : List (Nat × Nat)) : Nat :=
  (runs.map fun r => r.1).sum

/-- The bytes of a flat sparse image whose payload is the given runs: the header of
seven 4-byte integers, `RUN_LENGTH_SIZE` per run and the pixel size per active pixel. -/
def runSequenceBytes (color : ColorFormat) (depth : DepthFormat) (runs : List (Nat × Nat)) :
    Int :=
  ICET_IMAGE_DATA_START_INDEX * SIZEOF_WORD + RUN_LENGTH_SIZE * runs.length
    + (colorPixelSize color + depthPixelSize depth) * runsActive runs

/-- Only the first run may have `inactive = 0` and only the last may have `active = 0`. -/
def runsAlternate (runs : List (Nat × Nat)) : Prop :=
  (∀ r ∈ runs.tail, 0 < r.1) ∧ (∀ r ∈ runs.dropLast, 0 < r.2)

instance (runs : List (Nat × Nat)) : Decidable (runsAlternate runs) := by
  unfold runsAlternate; infer_instance

/-! ## Sparse images -/

/-- The number of entries of the depth array per pixel. -/
def depthChannels : DepthFormat → Nat
  | .FLOAT => 1
  | _ => 0

/-- The data of one active pixel of a flat sparse image: one color and one depth
value, each absent (empty) when the format has none. -/
structure Fragment where
  color : List Nat
  depth : List Nat
  deriving DecidableEq, Repr

/-- One element of the payload of a sparse image: a run-length header (two counts
for a flat image, three for a layered one) or the data of one active pixel (one
fragment in a flat image; the stored fragment count and that many fragments in a
layered image). -/
inductive SparseCell where
  | runLength (inactive active : Nat)
  | runLengthLayered (inactive active active_fragments : Nat)
  | pixel (fragment : Fragment)
  | layeredPixel (fragments : List Fragment)
  deriving DecidableEq, Repr

/-- The buffer behind a non-null `IceTSparseImage`: the seven header integers and
the payload written so far (what lies beyond `actual_buffer_size` is not modelled). -/
structure IceTSparseImageData where
  magic_num : Nat
  color_format : ColorFormat
  depth_format : DepthFormat
  width : Int
  height : Int
  max_num_pixels : Int
  actual_buffer_size : Int
  payload : List SparseCell
  /-- The value of `opaque_internals`, which `icetSparseImageEqual` compares. -/
  address : Nat := 0
  deriving DecidableEq, Repr

/-- An `IceTSparseImage` handle: `none` is the null image. -/
abbrev IceTSparseImage := Option IceTSparseImageData

/-- The bytes one payload element occupies; a layered pixel is
`sizeof(IceTLayerCount) + pixel_frags*fragment_size` bytes
(`icetSparseLayeredImageScanFragments`). -/
def cellBytes (color_format : ColorFormat) (depth_format : DepthFormat) : SparseCell → Int
  | .runLength _ _ => RUN_LENGTH_SIZE
  | .runLengthLayered _ _ _ => RUN_LENGTH_SIZE_LAYERED
  | .pixel _ => colorPixelSize color_format + depthPixelSize depth_format
  | .layeredPixel fragments =>
    SIZEOF_LAYER_COUNT
      + fragments.length * (colorPixelSize color_format + depthPixelSize depth_format)

/-- The bytes of a payload. -/
def payloadBytes (color_format : ColorFormat) (depth_format : DepthFormat)
    (payload : List SparseCell) : Int :=
  (payload.map (cellBytes color_format depth_format)).sum

/-- `icetSparseImageIsNull`. -/
def icetSparseImageIsNull (image : IceTSparseImage) : Bool := image.isNone

/-- `icetSparseImageIsLayered`, on a non-null handle. -/
def icetSparseImageIsLayered (image : IceTSparseImageData) : Bool :=
  image.magic_num &&& ICET_IMAGE_FLAG_LAYERED != 0

/-- `icetSparseImageGetColorFormat`. -/
def icetSparseImageGetColorFormat : IceTSparseImage → ColorFormat
  | none => .NONE
  | some image => image.color_format

/-- `icetSparseImageGetDepthFormat`. -/
def icetSparseImageGetDepthFormat : IceTSparseImage → DepthFormat
  | none => .NONE
  | some image => image.depth_format

/-- `icetSparseImageGetWidth`. -/
def icetSparseImageGetWidth : IceTSparseImage → Int
  | none => 0
  | some image => image.width

/-- `icetSparseImageGetHeight`. -/
def icetSparseImageGetHeight : IceTSparseImage → Int
  | none => 0
  | some image => image.height

/-- `icetSparseImageGetNumPixels`. -/
def icetSparseImageGetNumPixels : IceTSparseImage → Int
  | none => 0
  | some image => image.width * image.height

/-- `icetSparseImageGetCompressedBufferSize`. -/
def icetSparseImageGetCompressedBufferSize : IceTSparseImage → Int
  | none => 0
  | some image => image.actual_buffer_size

/-- `icetSparseImageEqual`. -/
def icetSparseImageEqual (image1 image2 : IceTSparseImageData) : Bool :=
  image1.address == image2.address

/-- `icetSparseImageSetActualSize(image, data_end)`, the payload being what lies
between the data start and `data_end`: the size is `data_end - buffer_begin`. -/
def icetSparseImageSetActualSize (image : IceTSparseImageData) (payload : List SparseCell) :
    IceTSparseImageData :=
  { image with
    payload := payload
    actual_buffer_size := ICET_IMAGE_DATA_START_INDEX * SIZEOF_WORD
      + payloadBytes image.color_format image.depth_format payload }

/-- The conversion of an `IceTSizeType` to the unsigned `IceTRunLengthType`. -/
def toRunLengthType (x : Int) : Nat := (x % 2 ^ 32).toNat

/-- `icetClearSparseImage`. -/
def icetClearSparseImage : IceTSparseImage → IceTSparseImage
  | none => none
  | some image =>
    if icetSparseImageIsLayered image then
      some (icetSparseImageSetActualSize image
        [.runLengthLayered (toRunLengthType (icetSparseImageGetNumPixels (some image))) 0 0])
    else
      some (icetSparseImageSetActualSize image
        [.runLength (toRunLengthType (icetSparseImageGetNumPixels (some image))) 0])

/-- `icetSparseImageSetDimensions`. -/
def icetSparseImageSetDimensions (image : IceTSparseImage) (width height : Int) :
    IceTSparseImage × List Event :=
  match image with
  | none => (none, [.raiseError .INVALID_VALUE])
  | some data =>
    if width * height > data.max_num_pixels then
      (image, [.raiseError .INVALID_VALUE])
    else
      (icetClearSparseImage (some { data with width := width, height := height }), [])

/-! ## The arrays of a buffer image

The color and the depth array of a buffer image lie in the buffer behind the header,
and the accessors compute from the header where they start: the color array behind the
header (behind the layer sub-header in a layered image), the depth array behind
`width*height` (times `num_layers`) color values.  A write to the magic number, the
color format, the width or the height therefore moves the arrays, while the memory
stays as it is: afterwards the accessors resolve to what the buffer holds at the new
places. -/

/-- The four bytes of a 32-bit word (`IceTFloat`, `IceTLayerCount`) in memory order, on
a little-endian machine. -/
def bytesOfWord (w : Nat) : List Nat :=
  [w % 256, w / 2 ^ 8 % 256, w / 2 ^ 16 % 256, w / 2 ^ 24 % 256]

/-- The 32-bit words stored in a sequence of bytes, on a little-endian machine; bytes
behind the last whole word are left out. -/
def wordsOfBytes : List Nat → List Nat
  | b0 :: b1 :: b2 :: b3 :: rest =>
    (b0 + 2 ^ 8 * b1 + 2 ^ 16 * b2 + 2 ^ 24 * b3) :: wordsOfBytes rest
  | _ => []

/-- The bytes of a color array: its entries are bytes for RGBA8 and words for the float
formats. -/
def colorArrayBytes (color_format : ColorFormat) (color : List Nat) : List Nat :=
  match color_format with
  | .RGBA_UBYTE => color
  | .RGBA_FLOAT | .RGB_FLOAT => color.flatMap bytesOfWord
  | _ => []

/-- The color array read from a sequence of bytes. -/
def colorArrayOfBytes (color_format : ColorFormat) (bytes : List Nat) : List Nat :=
  match color_format with
  | .RGBA_UBYTE => bytes
  | .RGBA_FLOAT | .RGB_FLOAT => wordsOfBytes bytes
  | _ => []

/-- The number of bytes between the start of the color array and the start of the depth
array of a buffer image: `icetImageGetNumPixels(image) * colorPixelSize(color_format)`,
times `num_layers` in a layered image (`icetImageGetDepthConstVoid`). -/
def imageColorBytes (image : IceTImageData) : Nat :=
  ((image.width * image.height).toNat * (colorPixelSize image.color_format).toNat)
    * (if icetImageIsLayered image then image.num_layers else 1)

/-- The value of `sizeof(IceTLayeredImageHeader)`: the structure holds one
`IceTLayerCount`. -/
def SIZEOF_LAYERED_IMAGE_HEADER : Int := SIZEOF_LAYER_COUNT

/-- The memory of a buffer image from `ICET_IMAGE_DATA(image)` on, as far as the arrays
of the model determine it: the layer sub-header of a layered image, the color values
(`imageColorBytes` bytes; a byte the color array does not reach reads as 0) and the
depth values. -/
def imageDataBytes (image : IceTImageData) : List Nat :=
  let color := colorArrayBytes image.color_format image.color
  (if icetImageIsLayered image then bytesOfWord image.num_layers
    else [])
    ++ (color.take (imageColorBytes image)
      ++ List.replicate (imageColorBytes image - color.length) 0)
    ++ image.depth.flatMap bytesOfWord

/-- The arrays the accessors of a buffer image with the header `header` resolve to, for
the memory `bytes` behind the header: the color array starts at the data (behind the
sub-header in a layered image) and the depth array `imageColorBytes` bytes further. -/
def imageArrays (header : IceTImageData) (bytes : List Nat) : List Nat × List Nat :=
  let data :=
    if icetImageIsLayered header then
      bytes.drop SIZEOF_LAYERED_IMAGE_HEADER.toNat
    else bytes
  (colorArrayOfBytes header.color_format data,
    wordsOfBytes (data.drop (imageColorBytes header)))

/-- The image after a write to header fields of `image`: `written` is `image` with the
new header.  The arrays behind the two stored pointers of a pointer image stay; the
arrays of a buffer image stay when they start where they started before and are read
from the memory of the buffer otherwise. -/
def icetImageHeaderWritten (image written : IceTImageData) : IceTImageData :=
  if image.magic_num = ICET_IMAGE_MAGIC_NUM
      ∨ image.magic_num = (ICET_IMAGE_MAGIC_NUM ||| ICET_IMAGE_FLAG_LAYERED) then
    if icetImageIsLayered image
          = icetImageIsLayered written
        ∧ image.color_format = written.color_format
        ∧ imageColorBytes image = imageColorBytes written then
      written
    else
      { written with
        color := (imageArrays written (imageDataBytes image)).1
        depth := (imageArrays written (imageDataBytes image)).2 }
  else written

/-- `icetLayeredImageBufferSizeType`, the products and the sum in 32 bits. -/
def icetLayeredImageBufferSizeType (color_format : ColorFormat) (depth_format : DepthFormat)
    (width height : Int) (num_layers : Int) : Int :=
  let fragment_size := colorPixelSize color_format + depthPixelSize depth_format
  wrapSizeType (ICET_IMAGE_DATA_START_INDEX * SIZEOF_WORD + SIZEOF_LAYERED_IMAGE_HEADER
    + wrapSizeType (wrapSizeType (wrapSizeType (width * height) * num_layers)
        * fragment_size))

/-- `icetImageSetDimensions`.  The product in the capacity test is an `IceTSizeType`
product.  The width and the height stored move the depth array of a buffer image
(`icetImageHeaderWritten`). -/
def icetImageSetDimensions (image : IceTImage) (width height : Int) :
    IceTImage × List Event :=
  match image with
  | none => (none, [.raiseError .INVALID_VALUE])
  | some data =>
    if wrapSizeType (width * height) > data.max_num_pixels then
      (image, [.raiseError .INVALID_VALUE])
    else
      let resized := icetImageHeaderWritten data { data with width := width, height := height }
      if data.magic_num = ICET_IMAGE_MAGIC_NUM then
        (some { resized with
          actual_buffer_size :=
            icetImageBufferSizeType data.color_format data.depth_format width height },
          fragmentSizeDiagnostics data.color_format data.depth_format)
      else if data.magic_num = (ICET_IMAGE_MAGIC_NUM ||| ICET_IMAGE_FLAG_LAYERED) then
        (some { resized with
          actual_buffer_size :=
            icetLayeredImageBufferSizeType data.color_format data.depth_format width height
              data.num_layers },
          fragmentSizeDiagnostics data.color_format data.depth_format)
      else (some resized, [])

/-! ## Sparse codec

The bodies `compress_func_body.h`, `decompress_func_body.h`, `cc_composite_func_body.h`
and `sparse_image_scan_body.h` that `image.c` includes are not part of the sources.
They are modelled from the specification (sections 3, 4.3, 4.4 and 4.6); the functions
of `image.c` that include them are embedded around these models.  The events of the
models are the diagnostics they raise: the timing markers a body may call (`image.c`
defines `TIME_DECOMPRESSION` before it includes the decompression body) are not
recorded, and the statements about these functions speak of the diagnostics only. -/

/-- The elements `base .. base+count-1` of an array. -/
def loadElements (base count : Nat) (buffer : List Nat) : List Nat :=
  (List.range count).map fun c => buffer.getD (base + c) 0

/-- The assignments `buffer[base + c] = values[c]` for every `c`, in order. -/
def storeElements : Nat → List Nat → List Nat → List Nat
  | _, [], buffer => buffer
  | base, v :: values, buffer => storeElements (base + 1) values (buffer.set base v)

/-- The fragment stored at pixel `i` of a dense image. -/
def loadFragment (color_format : ColorFormat) (depth_format : DepthFormat)
    (color depth : List Nat) (i : Nat) : Fragment :=
  { color := loadElements (colorChannels color_format * i) (colorChannels color_format) color
    depth := loadElements (depthChannels depth_format * i) (depthChannels depth_format) depth }

/-- Write a fragment to pixel `i` of a dense image (color array, depth array): as many
elements as the formats have channels. -/
def storeFragment (color_format : ColorFormat) (depth_format : DepthFormat)
    (fragment : Fragment) (i : Nat) (buffers : List Nat × List Nat) : List Nat × List Nat :=
  (storeElements (colorChannels color_format * i)
      (loadElements 0 (colorChannels color_format) fragment.color) buffers.1,
    storeElements (depthChannels depth_format * i)
      (loadElements 0 (depthChannels depth_format) fragment.depth) buffers.2)

/-- Modelled from the spec: the value an inactive pixel decodes to (section 8,
invariant 1: "inactive pixels decode to the background color and depth 1"; section
4.2: the background is the packed word for RGBA8 and the floats for the float
formats). -/
def backgroundFragment (st : IceTState) (color_format : ColorFormat)
    (depth_format : DepthFormat) : Fragment :=
  { color :=
      match color_format with
      | .RGBA_UBYTE => loadElements 0 4 st.background_color_word
      | .RGBA_FLOAT => loadElements 0 4 st.background_color
      | .RGB_FLOAT => loadElements 0 3 st.background_color
      | _ => []
    depth :=
      match depth_format with
      | .FLOAT => [FLOAT_ONE]
      | _ => [] }

/-- Modelled from the spec: the states of the encoder of section 4.3
(`compress_func_body.h` is not part of the sources). -/
inductive RunState where
  | START
  | INACTIVE_RUN
  | ACTIVE_RUN
  deriving DecidableEq, Repr

/-- Modelled from the spec: the output side of the sparse encoder (section 4.3) and of
the scan primitive (section 4.4).  `closed` holds the runs that are finished;
`inactive` and `active` are the counts of the run-length header that is still being
updated in place, `data` the active pixels written after it. -/
structure SparseWriter where
  closed : List SparseCell
  inactive : Nat
  active : Nat
  data : List SparseCell
  state : RunState
  deriving DecidableEq, Repr

/-- Modelled from the spec: the writer before the first pixel (state `START`). -/
def SparseWriter.start : SparseWriter :=
  { closed := [], inactive := 0, active := 0, data := [], state := .START }

/-- Modelled from the spec: the payload a writer has produced, the current run
header included once a run is open. -/
def SparseWriter.cells (w : SparseWriter) : List SparseCell :=
  match w.state with
  | .START => w.closed
  | _ => w.closed ++ .runLength w.inactive w.active :: w.data

/-- Modelled from the spec: an inactive pixel.  From `START` or `ACTIVE_RUN` it opens a
new run `(inactive = 1, active = 0)`; in `INACTIVE_RUN` it increments `inactive` in the
current run header. -/
def SparseWriter.emitInactive (w : SparseWriter) : SparseWriter :=
  match w.state with
  | .INACTIVE_RUN => { w with inactive := w.inactive + 1 }
  | _ => { closed := w.cells, inactive := 1, active := 0, data := [], state := .INACTIVE_RUN }

/-- Modelled from the spec: an active pixel.  It switches to `ACTIVE_RUN`, writes the
fragment and increments `active` in the current run header; from `START` there is no
header yet and the run `(inactive = 0, active = 0)` is opened first (scenario A: an
image of active pixels is the single run `(0, 8)`). -/
def SparseWriter.emitActive (w : SparseWriter) (fragment : Fragment) : SparseWriter :=
  match w.state with
  | .START =>
    { closed := w.cells, inactive := 0, active := 1, data := [.pixel fragment],
      state := .ACTIVE_RUN }
  | _ =>
    { w with active := w.active + 1, data := w.data ++ [.pixel fragment],
             state := .ACTIVE_RUN }

/-- Modelled from the spec: one logical pixel written to a sparse stream; `none` is an
inactive pixel. -/
def SparseWriter.emit (w : SparseWriter) : Option Fragment → SparseWriter
  | none => w.emitInactive
  | some fragment => w.emitActive fragment

/-- Modelled from the spec: the input cursor of the scan primitive (section 4.4). -/
structure SparseCursor where
  in_data : List SparseCell
  inactive_before : Nat
  active_till_next_runl : Nat
  deriving DecidableEq, Repr

/-- Modelled from the spec: the scan of one logical pixel (section 4.4): it consumes
from `inactive_before`, or consumes from `active_till_next_runl` reading one fragment,
or, when both are zero, reads the next run header.  `none`: the stream is malformed. -/
def scanPixel : List SparseCell → Nat → Nat → Option (Option Fragment × SparseCursor)
  | in_data, inactive_before + 1, active =>
    some (none, ⟨in_data, inactive_before, active⟩)
  | .pixel fragment :: in_data, 0, active + 1 =>
    some (some fragment, ⟨in_data, 0, active⟩)
  | .runLength inactive active :: in_data, 0, 0 => scanPixel in_data inactive active
  | _, _, _ => none

/-- Modelled from the spec: the scan of one pixel from a cursor (section 4.4). -/
def SparseCursor.scan (c : SparseCursor) : Option (Option Fragment × SparseCursor) :=
  scanPixel c.in_data c.inactive_before c.active_till_next_runl

/-- Modelled from the spec: the cursor at the start of a payload, no run read yet. -/
def SparseCursor.atStart (payload : List SparseCell) : SparseCursor :=
  ⟨payload, 0, 0⟩

/-- Modelled from the spec: an activity predicate of section 4.3, clause (a): the
pixel has a depth value and it is `< 1.0`. -/
def depthActive (fragment : Fragment) : Bool :=
  match fragment.depth with
  | d :: _ => floatLt d FLOAT_ONE
  | [] => false

/-- Modelled from the spec: the body `compress_func_body.h` for flat images without
padding (section 4.3, Encode): a single forward sweep over `PIXEL_COUNT` pixels
starting at `OFFSET` emits runs through the encoder state machine; the activity
predicate is a parameter (the spec derives it from the composite mode).  The input is
read through the const accessors, so it may be a buffer image or a pointer-backed
image.  Mismatched formats raise `INVALID_VALUE` and leave the output as it is (section
7).  `none`: layered images, which this model does not cover. -/
def compressBody (active : Fragment → Bool) (input_image : IceTImageData)
    (offset pixel_count : Int) (output_sparse_image : IceTSparseImageData) :
    Option (IceTSparseImageData × List Event) :=
  if (input_image.magic_num ≠ ICET_IMAGE_MAGIC_NUM
        ∧ input_image.magic_num ≠ ICET_IMAGE_POINTERS_MAGIC_NUM)
      ∨ output_sparse_image.magic_num ≠ ICET_SPARSE_IMAGE_MAGIC_NUM then none
  else if input_image.color_format ≠ output_sparse_image.color_format
      ∨ input_image.depth_format ≠ output_sparse_image.depth_format then
    some (output_sparse_image, [.raiseError .INVALID_VALUE])
  else
    let w := (List.range pixel_count.toNat).foldl
      (fun (w : SparseWriter) i =>
        let fragment := loadFragment input_image.color_format input_image.depth_format
          input_image.color input_image.depth (offset.toNat + i)
        w.emit (if active fragment then some fragment else none))
      SparseWriter.start
    some (icetSparseImageSetActualSize output_sparse_image w.cells, [])

/-- `icetCompressSubImage`, for non-null handles. -/
def icetCompressSubImage (active : Fragment → Bool) (image : IceTImageData)
    (offset pixels : Int) (compressed_image : IceTSparseImageData) :
    Option (IceTSparseImageData × List Event) :=
  let resized := icetSparseImageSetDimensions (some compressed_image) pixels 1
  match resized.1 with
  | none => none
  | some compressed =>
    (compressBody active image offset pixels compressed).map fun r =>
      (r.1, resized.2 ++ r.2)

/-- `icetCompressImage`, for non-null handles. -/
def icetCompressImage (active : Fragment → Bool) (image : IceTImageData)
    (compressed_image : IceTSparseImageData) : Option (IceTSparseImageData × List Event) :=
  (icetCompressSubImage active image 0 (icetImageGetNumPixels (some image))
      compressed_image).map fun r =>
    ({ r.1 with width := icetImageGetWidth (some image),
                height := icetImageGetHeight (some image) }, r.2)

/-- Modelled from the spec: the loop of `decompress_func_body.h` (section 4.3,
Decode): the runs are walked with the scan cursor; an inactive pixel is cleared to the
background, an active pixel receives its fragment.  `count` pixels are left and
`pixel` is the output cursor. -/
def decompressLoop (st : IceTState) (color_format : ColorFormat) (depth_format : DepthFormat) :
    Nat → Nat → SparseCursor → List Nat × List Nat → Option (List Nat × List Nat)
  | 0, _, _, buffers => some buffers
  | count + 1, pixel, cursor, buffers =>
    match cursor.scan with
    | none => none
    | some (fragment, next) =>
      decompressLoop st color_format depth_format count (pixel + 1) next
        (storeFragment color_format depth_format
          (fragment.getD (backgroundFragment st color_format depth_format)) pixel buffers)

/-- Modelled from the spec: the body `decompress_func_body.h` without `COMPOSITE` and
without `CORRECT_BACKGROUND`, for flat images.  Mismatched formats raise
`INVALID_VALUE` and leave the output as it is.  `none`: a malformed stream, or a
layered or pointer-backed image, which this model does not cover. -/
def decompressBody (st : IceTState) (input_sparse_image : IceTSparseImageData)
    (offset pixel_count : Int) (output_image : IceTImageData) :
    Option (IceTImageData × List Event) :=
  if output_image.magic_num ≠ ICET_IMAGE_MAGIC_NUM
      ∨ input_sparse_image.magic_num ≠ ICET_SPARSE_IMAGE_MAGIC_NUM then none
  else if input_sparse_image.color_format ≠ output_image.color_format
      ∨ input_sparse_image.depth_format ≠ output_image.depth_format then
    some (output_image, [.raiseError .INVALID_VALUE])
  else
    (decompressLoop st output_image.color_format output_image.depth_format pixel_count.toNat
        offset.toNat (SparseCursor.atStart input_sparse_image.payload)
        (output_image.color, output_image.depth)).map fun buffers =>
      ({ output_image with color := buffers.1, depth := buffers.2 }, [])

/-- `icetDecompressSubImage`, for non-null handles. -/
def icetDecompressSubImage (st : IceTState) (compressed_image : IceTSparseImageData)
    (offset : Int) (image : IceTImageData) : Option (IceTImageData × List Event) :=
  decompressBody st compressed_image offset
    (icetSparseImageGetNumPixels (some compressed_image)) image

/-- `icetDecompressImage`, for non-null handles. -/
def icetDecompressImage (st : IceTState) (compressed_image : IceTSparseImageData)
    (image : IceTImageData) : Option (IceTImageData × List Event) :=
  let resized := icetImageSetDimensions (some image)
    (icetSparseImageGetWidth (some compressed_image))
    (icetSparseImageGetHeight (some compressed_image))
  match resized.1 with
  | none => none
  | some image1 =>
    (icetDecompressSubImage st compressed_image 0 image1).map fun r =>
      (r.1, resized.2 ++ r.2)

/-- Modelled from the spec: the fragment the compressed-compressed compositor emits
where both inputs are active (section 4.6): in Z-buffer mode the fragment of lower
depth (a tie keeps the back fragment, as the dense operator keeps the destination); in
blend mode `OVER(front, back)` on the color, the rest of the back fragment being kept
(RGB float has no alpha: the front color is used).  `none`: a combination the spec
does not describe. -/
def compositeFragments (fa : FloatArith) (st : IceTState) (color_format : ColorFormat)
    (depth_format : DepthFormat) (front back : Fragment) : Option Fragment :=
  match st.composite_mode with
  | .Z_BUFFER =>
    match depth_format with
    | .FLOAT =>
      some (if floatLt (front.depth.getD 0 0) (back.depth.getD 0 0) then front else back)
    | _ => none
  | .BLEND =>
    match color_format with
    | .RGBA_UBYTE =>
      some { back with
        color := (ICET_OVER_UBYTE (.src 0) (.dest 0)
          { src := loadElements 0 4 front.color, dest := loadElements 0 4 back.color }).dest }
    | .RGBA_FLOAT =>
      some { back with
        color := (ICET_OVER_FLOAT fa (.src 0) (.dest 0)
          { src := loadElements 0 4 front.color, dest := loadElements 0 4 back.color }).dest }
    | .RGB_FLOAT => some { back with color := front.color }
    | _ => none
  | .invalid _ => none

/-- Modelled from the spec: what the compositor emits at one pixel position (section
4.6): both inactive give an inactive pixel, exactly one active pixel is copied, two
active pixels are composited. -/
def compositePixel (fa : FloatArith) (st : IceTState) (color_format : ColorFormat)
    (depth_format : DepthFormat) : Option Fragment → Option Fragment → Option (Option Fragment)
  | none, none => some none
  | some front, none => some (some front)
  | none, some back => some (some back)
  | some front, some back =>
    (compositeFragments fa st color_format depth_format front back).map some

/-- Modelled from the spec: the lockstep walk of `cc_composite_func_body.h`: both
cursors advance by one logical pixel per step and the result goes to the output
writer. -/
def ccCompositeLoop (fa : FloatArith) (st : IceTState) (color_format : ColorFormat)
    (depth_format : DepthFormat) :
    Nat → SparseCursor → SparseCursor → SparseWriter → Option SparseWriter
  | 0, _, _, w => some w
  | count + 1, front, back, w =>
    match front.scan, back.scan with
    | some (f, front1), some (b, back1) =>
      match compositePixel fa st color_format depth_format f b with
      | some p => ccCompositeLoop fa st color_format depth_format count front1 back1 (w.emit p)
      | none => none
    | _, _ => none

/-- Modelled from the spec: the body `cc_composite_func_body.h` for flat sparse images
(section 4.6, operator 3).  The inputs must agree in dimensions and formats, otherwise
`INVALID_VALUE` is raised and the destination is left as it is; the destination takes
the dimensions of the inputs.  `none`: a malformed stream, layered images, or a
combination of mode and formats the spec does not describe. -/
def ccCompositeBody (fa : FloatArith) (st : IceTState)
    (front_sparse_image back_sparse_image dest_sparse_image : IceTSparseImageData) :
    Option (IceTSparseImageData × List Event) :=
  if front_sparse_image.magic_num ≠ ICET_SPARSE_IMAGE_MAGIC_NUM
      ∨ back_sparse_image.magic_num ≠ ICET_SPARSE_IMAGE_MAGIC_NUM
      ∨ dest_sparse_image.magic_num ≠ ICET_SPARSE_IMAGE_MAGIC_NUM then none
  else if front_sparse_image.width ≠ back_sparse_image.width
      ∨ front_sparse_image.height ≠ back_sparse_image.height
      ∨ front_sparse_image.color_format ≠ back_sparse_image.color_format
      ∨ front_sparse_image.depth_format ≠ back_sparse_image.depth_format
      ∨ front_sparse_image.color_format ≠ dest_sparse_image.color_format
      ∨ front_sparse_image.depth_format ≠ dest_sparse_image.depth_format then
    some (dest_sparse_image, [.raiseError .INVALID_VALUE])
  else
    match icetSparseImageSetDimensions (some dest_sparse_image) front_sparse_image.width
        front_sparse_image.height with
    | (some dest, []) =>
      (ccCompositeLoop fa st front_sparse_image.color_format front_sparse_image.depth_format
          (icetSparseImageGetNumPixels (some front_sparse_image)).toNat
          (SparseCursor.atStart front_sparse_image.payload)
          (SparseCursor.atStart back_sparse_image.payload) SparseWriter.start).map fun w =>
        (icetSparseImageSetActualSize dest w.cells, [])
    | (resized, events) => resized.map fun dest => (dest, events)

/-- `icetCompressedCompressedComposite`, for non-null handles. -/
def icetCompressedCompressedComposite (fa : FloatArith) (st : IceTState)
    (front_buffer back_buffer dest_buffer : IceTSparseImageData) :
    Option (IceTSparseImageData × List Event) :=
  let ev0 : List Event :=
    if icetSparseImageEqual front_buffer back_buffer
        || icetSparseImageEqual front_buffer dest_buffer
        || icetSparseImageEqual back_buffer dest_buffer then
      [.raiseError .SANITY_CHECK_FAIL]
    else []
  (ccCompositeBody fa st front_buffer back_buffer dest_buffer).map fun r =>
    (r.1, ev0 ++ [Event.timingBlendBegin] ++ r.2 ++ [Event.timingBlendEnd])

/-! ## The pixel sequence of a sparse stream -/

/-- The logical pixels a payload holds, `none` for an inactive pixel, when `active`
pixels of the current run are still to come; `none` when the payload is not a
sequence of flat runs each followed by as many pixels as its header announces. -/
def streamPixels : List SparseCell → Nat → Option (List (Option Fragment))
  | [], 0 => some []
  | .runLength inactive active :: rest, 0 =>
    (streamPixels rest active).map fun pixels => List.replicate inactive none ++ pixels
  | .pixel fragment :: rest, active + 1 =>
    (streamPixels rest active).map fun pixels => some fragment :: pixels
  | _, _ => none

/-- The logical pixels ahead of a cursor. -/
def SparseCursor.pixels (c : SparseCursor) : Option (List (Option Fragment)) :=
  (streamPixels c.in_data c.active_till_next_runl).map fun pixels =>
    List.replicate c.inactive_before none ++ pixels

/-- The dense pixels a sequence of logical pixels decodes to, written from pixel
`pixel` on. -/
def storePixels (st : IceTState) (color_format : ColorFormat) (depth_format : DepthFormat) :
    List (Option Fragment) → Nat → List Nat × List Nat → List Nat × List Nat
  | [], _, buffers => buffers
  | p :: pixels, pixel, buffers =>
    storePixels st color_format depth_format pixels (pixel + 1)
      (storeFragment color_format depth_format
        (p.getD (backgroundFragment st color_format depth_format)) pixel buffers)

/-- The writer has written the logical pixels `ps`: the finished runs hold a prefix
of them and the run being updated holds the rest. -/
def SparseWriter.Holds (w : SparseWriter) (ps : List (Option Fragment)) : Prop :=
  match w.state with
  | .START => w.closed = [] ∧ ps = []
  | .INACTIVE_RUN =>
    ∃ finished : List (Option Fragment),
      streamPixels w.closed 0 = some finished ∧ w.active = 0 ∧ w.data = []
      ∧ ps = finished ++ List.replicate w.inactive none
  | .ACTIVE_RUN =>
    ∃ (finished : List (Option Fragment)) (fragments : List Fragment),
      streamPixels w.closed 0 = some finished
      ∧ w.active = fragments.length ∧ w.data = fragments.map SparseCell.pixel
      ∧ ps = finished ++ List.replicate w.inactive none ++ fragments.map some

/-- A fragment cut to the channels of the formats: what `storeFragment` writes. -/
def Fragment.clip (color_format : ColorFormat) (depth_format : DepthFormat)
    (fragment : Fragment) : Fragment :=
  { color := loadElements 0 (colorChannels color_format) fragment.color
    depth := loadElements 0 (depthChannels depth_format) fragment.depth }

/-- The logical pixels of pixels `offset .. offset+count-1` of a dense image under an
activity predicate: the fragment where it holds, `none` elsewhere. -/
def densePixels (active : Fragment → Bool) (image : IceTImageData) (offset count : Nat) :
    List (Option Fragment) :=
  (List.range count).map fun i =>
    let fragment := loadFragment image.color_format image.depth_format image.color
      image.depth (offset + i)
    if active fragment then some fragment else none

/-- A flat RGBA8 + D32F sparse image of the given size holding the given payload. -/
def flatSparseImage (width height : Int) (payload : List SparseCell) : IceTSparseImageData :=
  { magic_num := ICET_SPARSE_IMAGE_MAGIC_NUM, color_format := .RGBA_UBYTE,
    depth_format := .FLOAT, width := width, height := height,
    max_num_pixels := width * height,
    actual_buffer_size := ICET_IMAGE_DATA_START_INDEX * SIZEOF_WORD
      + payloadBytes .RGBA_UBYTE .FLOAT payload,
    payload := payload }

/-- Scenario A: a 4x2 image whose pixels are all (255, 0, 0, 255) at depth 0.5. -/
def scenarioA_image : IceTImageData :=
  flatImage 4 2
    [255, 0, 0, 255, 255, 0, 0, 255, 255, 0, 0, 255, 255, 0, 0, 255,
     255, 0, 0, 255, 255, 0, 0, 255, 255, 0, 0, 255, 255, 0, 0, 255]
    [0x3F000000, 0x3F000000, 0x3F000000, 0x3F000000,
     0x3F000000, 0x3F000000, 0x3F000000, 0x3F000000]

/-- Scenario A: the sparse image compressed into, as `icetSparseImageAssignBuffer`
leaves it. -/
def scenarioA_sparse : IceTSparseImageData := flatSparseImage 4 2 [.runLength 8 0]

/-- Scenario A: the cleared 4x2 buffer decompressed into. -/
def scenarioA_cleared : IceTImageData :=
  flatImage 4 2 (List.replicate 32 0) (List.replicate 8 FLOAT_ONE)

/-- Scenario A: the fragment of every pixel. -/
def scenarioA_fragment : Fragment := { color := [255, 0, 0, 255], depth := [0x3F000000] }

/-- The logical pixels the compositor emits for two pixel sequences of equal length. -/
def compositePixels (fa : FloatArith) (st : IceTState) (color_format : ColorFormat)
    (depth_format : DepthFormat) :
    List (Option Fragment) → List (Option Fragment) → Option (List (Option Fragment))
  | [], [] => some []
  | f :: front, b :: back =>
    match compositePixel fa st color_format depth_format f b,
        compositePixels fa st color_format depth_format front back with
    | some p, some ps => some (p :: ps)
    | _, _ => none
  | _, _ => none

/-- A flat dense buffer image of the given formats that holds `w * h` pixels and can
receive `w x h` pixels: its arrays stay where they are when it takes these
dimensions. -/
def IceTImageData.ReceivesFlat (out : IceTImageData) (color_format : ColorFormat)
    (depth_format : DepthFormat) (w h : Int) : Prop :=
  out.magic_num = ICET_IMAGE_MAGIC_NUM ∧ out.color_format = color_format
    ∧ out.depth_format = depth_format ∧ w * h ≤ out.max_num_pixels
    ∧ colorChannels color_format * (w * h).toNat ≤ out.color.length
    ∧ depthChannels depth_format * (w * h).toNat ≤ out.depth.length
    ∧ 0 ≤ w * h ∧ w * h = out.width * out.height

instance (out : IceTImageData) (color_format : ColorFormat) (depth_format : DepthFormat)
    (w h : Int) : Decidable (out.ReceivesFlat color_format depth_format w h) := by
  unfold IceTImageData.ReceivesFlat; infer_instance

/-- Every active pixel of the sequence has a depth `< 1.0`. -/
def activeDepthsBelowOne (pixels : List (Option Fragment)) : Bool :=
  pixels.all fun p =>
    match p with
    | none => true
    | some fragment => floatLt (fragment.depth.getD 0 0) FLOAT_ONE

/-- Every color channel of every active pixel of the sequence is a byte. -/
def activeColorsAreBytes (pixels : List (Option Fragment)) : Bool :=
  pixels.all fun p =>
    match p with
    | none => true
    | some fragment => (List.range 4).all fun c => decide (fragment.color.getD c 0 < 256)

/-- No active pixel of the sequence has a depth `> 1.0`. -/
def activeDepthsNotAboveOne (pixels : List (Option Fragment)) : Bool :=
  pixels.all fun p =>
    match p with
    | none => true
    | some fragment => !floatLt FLOAT_ONE (fragment.depth.getD 0 0)

/-- The RGBA32F color `ICET_OVER_FLOAT` leaves for the color `front` over the color
`back`. -/
def overFloatColor (fa : FloatArith) (front back : List Nat) : List Nat :=
  (ICET_OVER_FLOAT fa (.src 0) (.dest 0)
    { src := loadElements 0 4 front, dest := loadElements 0 4 back }).dest

/-- The float blend of every active pixel of the sequence over the background color
is the pixel itself. -/
def keptOverBackground (fa : FloatArith) (st : IceTState)
    (pixels : List (Option Fragment)) : Bool :=
  pixels.all fun p =>
    match p with
    | none => true
    | some fragment =>
      overFloatColor fa fragment.color st.background_color
        == loadElements 0 4 fragment.color

/-- The float blend of the background color over every active pixel of the sequence
is the pixel itself. -/
def keptUnderBackground (fa : FloatArith) (st : IceTState)
    (pixels : List (Option Fragment)) : Bool :=
  pixels.all fun p =>
    match p with
    | none => true
    | some fragment =>
      overFloatColor fa st.background_color fragment.color
        == loadElements 0 4 fragment.color

/-- A state in blend mode with an opaque black background. -/
def opaqueBlendState : IceTState :=
  { composite_mode := .BLEND, background_color := [0, 0, 0, FLOAT_ONE],
    background_color_word := [0, 0, 0, 255] }

/-- A flat 1x1 RGBA8 sparse image without depth at the given address. -/
def colorOnlySparse (address : Nat) (payload : List SparseCell) : IceTSparseImageData :=
  { magic_num := ICET_SPARSE_IMAGE_MAGIC_NUM, color_format := .RGBA_UBYTE,
    depth_format := .NONE, width := 1, height := 1, max_num_pixels := 1,
    actual_buffer_size := ICET_IMAGE_DATA_START_INDEX * SIZEOF_WORD
      + payloadBytes .RGBA_UBYTE .NONE payload,
    payload := payload, address := address }

/-- A half transparent fragment without depth. -/
def translucentFragment : Fragment := { color := [10, 20, 30, 128], depth := [] }

/-- A 1x1 sparse image whose pixel is inactive. -/
def inactiveFront : IceTSparseImageData := colorOnlySparse 1 [.runLength 1 0]

/-- A 1x1 sparse image whose pixel is active and half transparent. -/
def translucentBack : IceTSparseImageData :=
  colorOnlySparse 2 [.runLength 0 1, .pixel translucentFragment]

/-- A 1x1 sparse image to composite into. -/
def colorOnlyDest : IceTSparseImageData := colorOnlySparse 3 [.runLength 1 0]

/-- Scenario D as sparse images: the front image, (red, 0.2) and an inactive pixel. -/
def sparseFront : IceTSparseImageData :=
  { flatSparseImage 2 1
      [.runLength 0 1, .pixel { color := [255, 0, 0, 255], depth := [0x3E4CCCCD] },
       .runLength 1 0] with address := 1 }

/-- Scenario D as sparse images: the back image, (blue, 0.5), (yellow, 0.3). -/
def sparseBack : IceTSparseImageData :=
  { flatSparseImage 2 1
      [.runLength 0 2, .pixel { color := [0, 0, 255, 255], depth := [0x3F000000] },
       .pixel { color := [255, 255, 0, 255], depth := [0x3E99999A] }] with address := 2 }

/-- A cleared 2x1 sparse image to composite into. -/
def sparseDest : IceTSparseImageData :=
  { flatSparseImage 2 1 [.runLength 2 0] with address := 3 }

/-- A cleared 2x1 dense image to decompress into. -/
def clearedPair : IceTImageData := flatImage 2 1 (List.replicate 8 0) (List.replicate 2 FLOAT_ONE)

/-- A flat 1x1 RGBA8 + D32F sparse image at the given address. -/
def sparsePixel (address : Nat) (payload : List SparseCell) : IceTSparseImageData :=
  { flatSparseImage 1 1 payload with address := address }

/-- A fragment behind the far plane: blue at depth 2.0. -/
def farFragment : Fragment := { color := [0, 0, 255, 255], depth := [0x40000000] }

/-- A half transparent fragment at depth 0.2. -/
def nearFragment : Fragment := { color := [100, 0, 0, 128], depth := [0x3E4CCCCD] }

/-- An opaque red fragment at depth exactly 1.0. -/
def farPlaneFragment : Fragment := { color := [255, 0, 0, 255], depth := [FLOAT_ONE] }

/-- A flat 1x1 RGB32F sparse image without depth at the given address. -/
def rgbSparse (address : Nat) (payload : List SparseCell) : IceTSparseImageData :=
  { magic_num := ICET_SPARSE_IMAGE_MAGIC_NUM, color_format := .RGB_FLOAT,
    depth_format := .NONE, width := 1, height := 1, max_num_pixels := 1,
    actual_buffer_size := ICET_IMAGE_DATA_START_INDEX * SIZEOF_WORD
      + payloadBytes .RGB_FLOAT .NONE payload,
    payload := payload, address := address }

/-- A flat 1x1 RGB32F buffer image without depth. -/
def rgbPixel (color : List Nat) : IceTImageData :=
  { magic_num := ICET_IMAGE_MAGIC_NUM, color_format := .RGB_FLOAT, depth_format := .NONE,
    width := 1, height := 1, max_num_pixels := 1,
    actual_buffer_size := icetImageBufferSizeType .RGB_FLOAT .NONE 1 1,
    num_layers := 1, color := color, depth := [] }

/-- The RGB32F fragment (1.0, 0.5, 0.0). -/
def orangeFragment : Fragment := { color := [FLOAT_ONE, 0x3F000000, 0], depth := [] }

/-- A flat 2x1 RGBA32F sparse image without depth at the given address. -/
def floatSparse (address : Nat) (payload : List SparseCell) : IceTSparseImageData :=
  { magic_num := ICET_SPARSE_IMAGE_MAGIC_NUM, color_format := .RGBA_FLOAT,
    depth_format := .NONE, width := 2, height := 1, max_num_pixels := 2,
    actual_buffer_size := ICET_IMAGE_DATA_START_INDEX * SIZEOF_WORD
      + payloadBytes .RGBA_FLOAT .NONE payload,
    payload := payload, address := address }

/-- A cleared flat 2x1 RGBA32F buffer image without depth. -/
def floatPair : IceTImageData :=
  { magic_num := ICET_IMAGE_MAGIC_NUM, color_format := .RGBA_FLOAT, depth_format := .NONE,
    width := 2, height := 1, max_num_pixels := 2,
    actual_buffer_size := icetImageBufferSizeType .RGBA_FLOAT .NONE 2 1,
    num_layers := 1, color := List.replicate 8 0, depth := [] }

/-- The opaque RGBA32F fragment (1.0, 0.5, 0.0, 1.0). -/
def opaqueOrange : Fragment :=
  { color := [FLOAT_ONE, 0x3F000000, 0, FLOAT_ONE], depth := [] }

/-- The opaque RGBA32F fragment (0.0, 0.5, 1.0, 1.0). -/
def opaqueAzure : Fragment :=
  { color := [0, 0x3F000000, FLOAT_ONE, FLOAT_ONE], depth := [] }

/-- Single-precision arithmetic on the operands of the float blend scenario, where
it is exact: `0 + y = y`, `x + 0 = x`, `x * 0 = 0 * y = 0`, `1 * y = y`, `x * 1 = x`,
`x - 0 = x` and `x - x = 0` for finite `x`, `y`.  The scenario uses no other operands;
for them the first operand stands in. -/
def exactFloatArith : FloatArith :=
  { add := fun a b => if a = 0 then b else a
    sub := fun a b => if a = b then 0 else a
    mul := fun a b => if a = 0 ∨ b = 0 then 0 else if a = FLOAT_ONE then b else a }


/-! ## Interlacing: partition indices and offsets -/

/-- The loop of the macro `BIT_REVERSE(result, x, max_val_plus_one)`, started with
`placeholder = 0x0001`, `result = 0` and `input = x`: while `placeholder <
max_val_plus_one`, `result <<= 1; result += input & 0x0001; input >>= 1` and
`placeholder <<= 1`.  `fuel` bounds the number of iterations. -/
def BIT_REVERSE_loop (max_val_plus_one : Int) : Nat → Int → Int → Int → Int
  | 0, _, result, _ => result
  | fuel + 1, placeholder, result, input =>
    if placeholder < max_val_plus_one then
      BIT_REVERSE_loop max_val_plus_one fuel (placeholder * 2) (result * 2 + input % 2)
        (input / 2)
    else result

/-- The macro `BIT_REVERSE(result, x, max_val_plus_one)`: the value left in `result`.
The placeholder doubles, so `max_val_plus_one` iterations are never used up. -/
def BIT_REVERSE (x max_val_plus_one : Int) : Int :=
  BIT_REVERSE_loop max_val_plus_one max_val_plus_one.toNat 1 0 x

/-- The interlaced partition index of an original partition index, as both
`icetSparseImageInterlace` and `icetGetInterlaceOffset` compute it: the bit reversal,
replaced by the original index when it is not below `eventual_num_partitions`. -/
def interlacedPartitionIdx (original_partition_idx eventual_num_partitions : Int) : Int :=
  let interlaced_partition_idx := BIT_REVERSE original_partition_idx eventual_num_partitions
  if eventual_num_partitions ≤ interlaced_partition_idx then original_partition_idx
  else interlaced_partition_idx

/-- The size of the partition with interlaced index `interlaced_partition_idx`:
`lower_partition_size`, plus one when the index is below `remaining_pixels`. -/
def interlacePartitionSize (lower_partition_size remaining_pixels
    interlaced_partition_idx : Int) : Int :=
  if interlaced_partition_idx < remaining_pixels then lower_partition_size + 1
  else lower_partition_size

/-- The loop of `icetGetInterlaceOffset`: `count` iterations are left; `none` when the
loop ends without finding the partition. -/
def getInterlaceOffsetLoop (partition_index eventual_num_partitions lower_partition_size
    remaining_pixels : Int) : Nat → Int → Int → Option Int
  | 0, _, _ => none
  | count + 1, original_partition_idx, offset =>
    let interlaced_partition_idx :=
      interlacedPartitionIdx original_partition_idx eventual_num_partitions
    if interlaced_partition_idx = partition_index then some offset
    else
      getInterlaceOffsetLoop partition_index eventual_num_partitions lower_partition_size
        remaining_pixels count (original_partition_idx + 1)
        (offset + interlacePartitionSize lower_partition_size remaining_pixels
          interlaced_partition_idx)

/-- `icetGetInterlaceOffset`: the value returned and the events. -/
def icetGetInterlaceOffset (partition_index eventual_num_partitions
    original_image_size : Int) : Int × List Event :=
  if partition_index < 0 ∨ eventual_num_partitions ≤ partition_index then
    (0, [.raiseError .INVALID_VALUE])
  else
    let lower_partition_size := Int.tdiv original_image_size eventual_num_partitions
    let remaining_pixels := Int.tmod original_image_size eventual_num_partitions
    match getInterlaceOffsetLoop partition_index eventual_num_partitions lower_partition_size
        remaining_pixels eventual_num_partitions.toNat 0 0 with
    | some offset => (offset, [.timingInterlaceBegin, .timingInterlaceEnd])
    | none =>
      (0, [.timingInterlaceBegin, .raiseError .SANITY_CHECK_FAIL, .timingInterlaceEnd])

/-- The partition size of the specification: `n / E + (1 if k < n mod E else 0)`. -/
def specPartitionSize (E n : Int) (k : Int) : Int :=
  n / E + (if k < n % E then 1 else 0)

/-- The offset as the specification words it: the sum of `partition_size(k)` over the
interlaced partition indices `k < j`. -/
def specInterlaceOffset (j : Nat) (E n : Int) : Int :=
  ((List.range j).map fun (k : Nat) => specPartitionSize E n (k : Int)).sum

/-- The offset in the original image of the partition that interlacing moves to
position `j`: the sizes of the partitions that lie before it in the original image,
partition `o` of the original image being the one with interlaced index
`interlacedPartitionIdx o E`. -/
def originalOffset (j : Int) (E n : Int) : Int :=
  ((List.range (interlacedPartitionIdx j E).toNat).map fun (o : Nat) =>
    specPartitionSize E n (interlacedPartitionIdx (o : Int) E)).sum

/-- Bit reversal on natural numbers: the `bits` low bits of `input`, in reverse order,
appended to `result`. -/
def reverseBits : Nat → Nat → Nat → Nat
  | 0, result, _ => result
  | bits + 1, result, input => reverseBits bits (2 * result + input % 2) (input / 2)

/-- The index map of interlacing on natural numbers, for `E` partitions: the reversal
of the `⌈log2 E⌉` low bits, replaced by the identity when it is not below `E`. -/
def interlaceIndex (E o : Nat) : Nat :=
  if E ≤ reverseBits (Nat.clog 2 E) 0 o then o else reverseBits (Nat.clog 2 E) 0 o

/-! ## Packaging for transport -/

/-- The expression `magic_num & ~ICET_IMAGE_FLAG_LAYERED` on the 32-bit `IceTEnum`. -/
def baseMagicNum (magic_num : Nat) : Nat :=
  magic_num &&& (0xFFFFFFFF ^^^ ICET_IMAGE_FLAG_LAYERED)

/-- `icetImagePackageForSend`, for a non-null image: the values stored in `*buffer`
(the buffer of the image) and in `*size`, and the events. -/
def icetImagePackageForSend (image : IceTImageData) : IceTImageData × Int × List Event :=
  let size := image.actual_buffer_size
  let ev1 : List Event := if size < 0 then [.raiseError .SANITY_CHECK_FAIL] else []
  let expected_size :=
    if icetImageIsLayered image then
      icetLayeredImageBufferSizeType image.color_format image.depth_format image.width
        image.height image.num_layers
    else
      icetImageBufferSizeType image.color_format image.depth_format image.width image.height
  let ev2 := fragmentSizeDiagnostics image.color_format image.depth_format
  let ev3 : List Event :=
    if size ≠ expected_size then [.raiseError .SANITY_CHECK_FAIL] else []
  (image, size, ev1 ++ ev2 ++ ev3)

/-- `icetImageUnpackageFromReceive`, for a non-`NULL` buffer: the image returned (`none`
is the null image) and the events.  Where the sizes are compared the formats have been
validated, so the size functions raise nothing. -/
def icetImageUnpackageFromReceive (buffer : IceTImageData) : IceTImage × List Event :=
  let magic_number := buffer.magic_num
  let base_magic_num := baseMagicNum magic_number
  if base_magic_num ≠ ICET_IMAGE_MAGIC_NUM ∧ base_magic_num ≠ ICET_IMAGE_POINTERS_MAGIC_NUM then
    (none, [.raiseError .INVALID_VALUE])
  else
    let color_format := buffer.color_format
    if color_format ≠ .RGBA_UBYTE ∧ color_format ≠ .RGBA_FLOAT ∧ color_format ≠ .RGB_FLOAT
        ∧ color_format ≠ .NONE then
      (none, [.raiseError .INVALID_VALUE])
    else
      let depth_format := buffer.depth_format
      if depth_format ≠ .FLOAT ∧ depth_format ≠ .NONE then
        (none, [.raiseError .INVALID_VALUE])
      else
        let buffer_size := buffer.actual_buffer_size
        let image : IceTImage :=
          some { buffer with max_num_pixels := buffer.width * buffer.height }
        if magic_number = ICET_IMAGE_MAGIC_NUM then
          if icetImageBufferSizeType color_format depth_format buffer.width buffer.height
              ≠ buffer_size then
            (none, [.raiseError .INVALID_VALUE])
          else (image, [])
        else if magic_number = (ICET_IMAGE_MAGIC_NUM ||| ICET_IMAGE_FLAG_LAYERED) then
          if buffer_size
              ≠ icetLayeredImageBufferSizeType color_format depth_format buffer.width
                  buffer.height buffer.num_layers then
            (none, [.raiseError .INVALID_VALUE])
          else (image, [])
        else if magic_number = ICET_IMAGE_POINTERS_MAGIC_NUM
            ∨ magic_number = (ICET_IMAGE_POINTERS_MAGIC_NUM ||| ICET_IMAGE_FLAG_LAYERED) then
          if buffer_size ≠ -1 then (none, [.raiseError .INVALID_VALUE])
          else (image, [])
        else (image, [])

/-- `icetSparseImagePackageForSend`: the values stored in `*buffer` and `*size`, and the
events. -/
def icetSparseImagePackageForSend (image : IceTSparseImage) :
    IceTSparseImage × Int × List Event :=
  match image with
  | none => (none, 0, [.raiseError .INVALID_VALUE])
  | some data => (image, data.actual_buffer_size, [])

/-- `icetSparseImageUnpackageFromReceive`, for a non-`NULL` buffer. -/
def icetSparseImageUnpackageFromReceive (buffer : IceTSparseImageData) :
    IceTSparseImage × List Event :=
  if baseMagicNum buffer.magic_num ≠ ICET_SPARSE_IMAGE_MAGIC_NUM then
    (none, [.raiseError .INVALID_VALUE])
  else
    let color_format := buffer.color_format
    if color_format ≠ .RGBA_UBYTE ∧ color_format ≠ .RGBA_FLOAT ∧ color_format ≠ .RGB_FLOAT
        ∧ color_format ≠ .NONE then
      (none, [.raiseError .INVALID_VALUE])
    else
      let depth_format := buffer.depth_format
      if depth_format ≠ .FLOAT ∧ depth_format ≠ .NONE then
        (none, [.raiseError .INVALID_VALUE])
      else if ¬ icetSparseImageIsLayered buffer
          ∧ icetSparseImageBufferSizeType color_format depth_format buffer.width buffer.height
            < buffer.actual_buffer_size then
        (none, [.raiseError .INVALID_VALUE])
      else
        (some { buffer with max_num_pixels := buffer.width * buffer.height }, [])

/-! ## Creating sparse images -/

/-- `icetSparseImageAssignBuffer(buffer, width, height)`; `buffer` is the address of
the buffer, `none` for `NULL`. -/
def icetSparseImageAssignBuffer (st : IceTState) (buffer : Option Nat) (width height : Int) :
    IceTSparseImage × List Event :=
  match buffer with
  | none => (none, [.raiseError .INVALID_VALUE])
  | some address =>
    let color_invalid := st.color_format ≠ .RGBA_UBYTE ∧ st.color_format ≠ .RGBA_FLOAT
      ∧ st.color_format ≠ .RGB_FLOAT ∧ st.color_format ≠ .NONE
    let depth_invalid := st.depth_format ≠ .FLOAT ∧ st.depth_format ≠ .NONE
    let ev1 : List Event := if color_invalid then [.raiseError .INVALID_ENUM] else []
    let ev2 : List Event := if depth_invalid then [.raiseError .INVALID_ENUM] else []
    (icetClearSparseImage (some
      { magic_num := ICET_SPARSE_IMAGE_MAGIC_NUM
        color_format := if color_invalid then .NONE else st.color_format
        depth_format := if depth_invalid then .NONE else st.depth_format
        width := width
        height := height
        max_num_pixels := width * height
        actual_buffer_size := 0
        payload := []
        address := address }), ev1 ++ ev2)

/-- `icetSparseLayeredImageAssignBuffer(buffer, width, height)`. -/
def icetSparseLayeredImageAssignBuffer (st : IceTState) (buffer : Option Nat)
    (width height : Int) : IceTSparseImage × List Event :=
  match buffer with
  | none => (none, [.raiseError .INVALID_VALUE])
  | some address =>
    let color_invalid := st.color_format ≠ .RGBA_UBYTE ∧ st.color_format ≠ .RGBA_FLOAT
      ∧ st.color_format ≠ .RGB_FLOAT ∧ st.color_format ≠ .NONE
    let ev1 : List Event := if color_invalid then [.raiseError .INVALID_ENUM] else []
    let ev2 : List Event :=
      match st.depth_format with
      | .FLOAT => []
      | .NONE => [.raiseError .INVALID_VALUE]
      | .invalid _ => [.raiseError .INVALID_ENUM]
    (icetClearSparseImage (some
      { magic_num := ICET_SPARSE_IMAGE_MAGIC_NUM ||| ICET_IMAGE_FLAG_LAYERED
        color_format := if color_invalid then .NONE else st.color_format
        depth_format :=
          match st.depth_format with
          | .FLOAT => .FLOAT
          | .NONE => .NONE
          | .invalid _ => .NONE
        width := width
        height := height
        max_num_pixels := width * height
        actual_buffer_size := 0
        payload := []
        address := address }), ev1 ++ ev2)

/-! ## Clearing a dense image -/

/-- A loop `for (i = lo; i < hi; i++)` whose body may have undefined behaviour
(`none`). -/
def forRange {σ : Type} (lo hi : Int) (body : Int → σ → Option σ) (s : σ) : Option σ :=
  (List.range (hi - lo).toNat).foldlM (fun s (k : Nat) => body (lo + (k : Int)) s) s

/-- The assignments `buffer[offset + c] = values[c]`; `none` when an element lies
outside the array, which is undefined behaviour in C. -/
def storeAt (values : List Nat) (offset : Int) (buffer : List Nat) : Option (List Nat) :=
  if 0 ≤ offset ∧ offset + values.length ≤ buffer.length then
    some (storeElements offset.toNat values buffer)
  else none

/-- The loop nest that `icetImageClearAroundRegion` runs on one buffer: the bottom
strip, the left and right strips, the top strip.  The body writes `values` to the
elements of fragment `(y*width + x) * num_layers + layer` (one `IceTUInt`, which is four
bytes, for RGBA8; four or three floats for the float formats; one float for depth). -/
def clearAroundRegionLoops (width height : Int) (num_layers : Nat)
    (region0 region1 region2 region3 : Int) (values : List Nat) (buffer : List Nat) :
    Option (List Nat) :=
  let clearColumns (y lo hi : Int) (buffer : List Nat) : Option (List Nat) :=
    forRange lo hi (fun x buffer =>
      forRange 0 num_layers (fun layer buffer =>
        storeAt values (((y * width + x) * num_layers + layer) * values.length) buffer)
        buffer) buffer
  (forRange 0 region1 (fun y buffer => clearColumns y 0 width buffer) buffer).bind
    fun buffer =>
  (if region0 > 0 ∨ region0 + region2 < width then
      forRange region1 (region1 + region3) (fun y buffer =>
        (clearColumns y 0 region0 buffer).bind fun buffer =>
          clearColumns y (region0 + region2) width buffer) buffer
    else some buffer).bind
    fun buffer =>
  forRange (region1 + region3) height (fun y buffer => clearColumns y 0 width buffer) buffer

/-- The values `icetImageClearAroundRegion` writes to one fragment's color: the
background word for RGBA8, the background floats for the float formats. -/
def clearColorValues (st : IceTState) : ColorFormat → List Nat
  | .RGBA_UBYTE => loadElements 0 4 st.background_color_word
  | .RGBA_FLOAT => loadElements 0 4 st.background_color
  | .RGB_FLOAT => loadElements 0 3 st.background_color
  | _ => []

/-- `icetImageClearAroundRegion(image, region)`, for a non-null image: the image
afterwards and the events; `none` when a write goes through a `NULL` pointer or outside
a buffer. -/
def icetImageClearAroundRegion (st : IceTState) (image : IceTImageData)
    (region0 region1 region2 region3 : Int) : Option (IceTImageData × List Event) :=
  let width := image.width
  let height := image.height
  let num_layers := if icetImageIsLayered image then image.num_layers else 1
  let color_format := image.color_format
  let depth_format := image.depth_format
  let clear (values : List Nat) (pointer : Option (List Nat) × List Event)
      (current : List Nat) : Option (List Nat × List Event) :=
    (clearAroundRegionLoops width height num_layers region0 region1 region2 region3 values
        (pointer.1.getD [])).map fun buffer =>
      (if pointer.1.isSome then buffer else current, pointer.2)
  let color : Option (List Nat × List Event) :=
    match color_format with
    | .RGBA_UBYTE => clear (clearColorValues st color_format) (icetImageGetColorui image)
        image.color
    | .RGBA_FLOAT => clear (clearColorValues st color_format) (icetImageGetColorf image)
        image.color
    | .RGB_FLOAT => clear (clearColorValues st color_format) (icetImageGetColorf image)
        image.color
    | .NONE => some (image.color, [])
    | .invalid _ => some (image.color, [.raiseError .SANITY_CHECK_FAIL])
  color.bind fun color =>
    let depth : Option (List Nat × List Event) :=
      match depth_format with
      | .FLOAT => clear [FLOAT_ONE] (icetImageGetDepthf image) image.depth
      | .NONE => some (image.depth, [])
      | .invalid _ => some (image.depth, [.raiseError .SANITY_CHECK_FAIL])
    depth.map fun depth =>
      ({ image with color := color.1, depth := depth.1 }, color.2 ++ depth.2)

/-- `icetClearImage`. -/
def icetClearImage (st : IceTState) (image : IceTImageData) :
    Option (IceTImageData × List Event) :=
  icetImageClearAroundRegion st image 0 0 0 0

/-- Scenario F: a 4x4 RGBA8 image without depth whose 16 pixels have the colors
`(i, i, i, i)`. -/
def scenarioF_image : IceTImageData :=
  { magic_num := ICET_IMAGE_MAGIC_NUM, color_format := .RGBA_UBYTE, depth_format := .NONE,
    width := 4, height := 4, max_num_pixels := 16,
    actual_buffer_size := icetImageBufferSizeType .RGBA_UBYTE .NONE 4 4,
    num_layers := 1,
    color := (List.range 16).flatMap fun i => [i + 1, i + 1, i + 1, i + 1],
    depth := [] }

/-- Scenario F: the background word `0xFF000000`, stored least significant byte
first. -/
def scenarioF_state : IceTState :=
  { composite_mode := .Z_BUFFER, background_color := [0, 0, 0, FLOAT_ONE],
    background_color_word := [0, 0, 0, 255] }

/-- The run-length headers of a payload, as pairs `(inactive, active)`. -/
def payloadRuns : List SparseCell → List (Nat × Nat)
  | [] => []
  | .runLength inactive active :: rest => (inactive, active) :: payloadRuns rest
  | .runLengthLayered inactive active _ :: rest => (inactive, active) :: payloadRuns rest
  | _ :: rest => payloadRuns rest

/-- A sparse image is cleared: its payload is the single run `(width*height, 0)`, with
`active_fragments = 0` when it is layered, and `actual_buffer_size` is the header
plus that run length (`7*4 + 8` bytes, `7*4 + 12` when layered). -/
def IceTSparseImageData.IsCleared (image : IceTSparseImageData) : Prop :=
  image.payload
      = [if icetSparseImageIsLayered image then
          .runLengthLayered (image.width * image.height).toNat 0 0
        else .runLength (image.width * image.height).toNat 0]
    ∧ image.actual_buffer_size = (if icetSparseImageIsLayered image then 7 * 4 + 12 else 7 * 4 + 8)

instance (image : IceTSparseImageData) : Decidable image.IsCleared := by
  unfold IceTSparseImageData.IsCleared; infer_instance

/-- A flat 8x4 RGBA8 + D32F buffer image whose header is consistent. -/
def packagedImage : IceTImageData :=
  flatImage 8 4 (List.replicate 128 7) (List.replicate 32 FLOAT_ONE)

/-- A layered 2x2 RGBA8 + D32F buffer image with three layers. -/
def packagedLayeredImage : IceTImageData :=
  { magic_num := ICET_IMAGE_MAGIC_NUM ||| ICET_IMAGE_FLAG_LAYERED, color_format := .RGBA_UBYTE,
    depth_format := .FLOAT, width := 2, height := 2, max_num_pixels := 9,
    actual_buffer_size := icetLayeredImageBufferSizeType .RGBA_UBYTE .FLOAT 2 2 3,
    num_layers := 3, color := List.replicate 48 7, depth := List.replicate 12 FLOAT_ONE }

/-- The values `icetImageClearAroundRegion` writes to one fragment's depth. -/
def clearDepthValues : DepthFormat → List Nat
  | .FLOAT => [FLOAT_ONE]
  | _ => []

/-- The fragment `icetImageClearAroundRegion` leaves where it clears: the background
color and the depth 1.0. -/
def clearedFragment (st : IceTState) (color_format : ColorFormat)
    (depth_format : DepthFormat) : Fragment :=
  { color := clearColorValues st color_format, depth := clearDepthValues depth_format }

/-- The fragment indices `(y*width + x) * num_layers + layer` that the loops over
`lo ≤ x < hi` and `layer < num_layers` visit in row `y`, in order. -/
def clearedColumns (width : Int) (num_layers : Nat) (y lo hi : Int) : List Int :=
  (List.range (hi - lo).toNat).flatMap fun (k : Nat) =>
    (List.range num_layers).map fun (layer : Nat) =>
      (y * width + (lo + (k : Int))) * (num_layers : Int) + (layer : Int)

/-- The fragment indices the loop nest of `icetImageClearAroundRegion` visits, in
order: bottom strip, left and right strips, top strip. -/
def clearedFragments (width height : Int) (num_layers : Nat)
    (region0 region1 region2 region3 : Int) : List Int :=
  ((List.range (region1 - 0).toNat).flatMap fun (k : Nat) =>
      clearedColumns width num_layers (0 + (k : Int)) 0 width)
    ++ (if region0 > 0 ∨ region0 + region2 < width then
        (List.range (region1 + region3 - region1).toNat).flatMap fun (k : Nat) =>
          clearedColumns width num_layers (region1 + (k : Int)) 0 region0
            ++ clearedColumns width num_layers (region1 + (k : Int)) (region0 + region2) width
      else [])
    ++ ((List.range (height - (region1 + region3)).toNat).flatMap fun (k : Nat) =>
      clearedColumns width num_layers (region1 + region3 + (k : Int)) 0 width)

/-! ## The scan primitive, copying and interlacing

The body `sparse_image_scan_body.h`, which `icetSparseImageScanPixels` and (with
`SIS_LAYERED`) `icetSparseLayeredImageScanPixels` include, is not part of the sources.
It is modelled from section 4.4 of the specification and from the comment that
documents `icetSparseImageScanPixels` in `image.c`; the functions of `image.c` that
call the scan are embedded around this model.  The model covers flat and layered
streams and the output side; on flat streams its step is the step `scanPixel` of the
decoder above (`scanStep_flat`). -/

/-- The number of fragments stored with an active pixel: the count a layered pixel
starts with (`pixel_frags` in `icetSparseLayeredImageScanFragments`); a flat pixel
stores no count. -/
def SparseCell.fragmentCount : SparseCell → Nat
  | .layeredPixel fragments => fragments.length
  | _ => 0

/-- Modelled from the spec: the input cursor of the scan primitive (section 4.4):
`in_data`, `inactive_before`, `active_till_next_runl` and, for layered images,
`active_frags_till_next_runl`. -/
structure ScanCursor where
  in_data : List SparseCell
  inactive_before : Nat
  active_till_next_runl : Nat
  active_frags_till_next_runl : Nat
  deriving DecidableEq, Repr

/-- Modelled from the spec: the scan of one logical pixel (section 4.4): the routine
"either (i) consumes from `inactive_before`, or (ii) consumes from
`active_till_next_runl`, copying one fragment (or, for layered, the stored count plus
that many fragments), or (iii) when both reach zero, reads the next run header".  The
result is the pixel scanned (`none`: inactive; otherwise its data) and the cursor
behind it; `none` when the stream does not continue with what the cursor announces. -/
def scanStep (layered : Bool) :
    List SparseCell → Nat → Nat → Nat → Option (Option SparseCell × ScanCursor)
  | in_data, inactive_before + 1, active, frags =>
    some (none, ⟨in_data, inactive_before, active, frags⟩)
  | .pixel fragment :: in_data, 0, active + 1, frags =>
    if layered then none else some (some (.pixel fragment), ⟨in_data, 0, active, frags⟩)
  | .layeredPixel fragments :: in_data, 0, active + 1, frags =>
    if layered then
      some (some (.layeredPixel fragments), ⟨in_data, 0, active, frags - fragments.length⟩)
    else none
  | .runLength inactive active :: in_data, 0, 0, _ =>
    if layered then none else scanStep layered in_data inactive active 0
  | .runLengthLayered inactive active frags :: in_data, 0, 0, _ =>
    if layered then scanStep layered in_data inactive active frags else none
  | _, _, _, _ => none

/-- Modelled from the spec: the output side of the scan primitive, `out_data_p` and
`out_run_length_p` (section 4.4 and the comment on `icetSparseImageScanPixels`).
`closed` holds the runs that are finished; `inactive`, `active` and `active_fragments`
are the counts of the run-length header that `out_run_length_p` points to, which is
still updated in place, and `data` holds the active pixels written after it. -/
structure ScanWriter where
  closed : List SparseCell
  inactive : Nat
  active : Nat
  active_fragments : Nat
  data : List SparseCell
  deriving DecidableEq, Repr

/-- The output at the start of a sparse payload: the run length `(0, 0)` (with
`active_fragments = 0` for a layered image), `out_run_length_p` pointing to it.
`icetSparseImageInterlace` sets it up before its second loop; a scan that is given
`out_data_p` and no `out_run_length_p` starts with it ("it is assumed that `out_data_p`
will initially point to a run length"). -/
def ScanWriter.emptyRun : ScanWriter :=
  { closed := [], inactive := 0, active := 0, active_fragments := 0, data := [] }

/-- Modelled from the spec: the run-length header under `out_run_length_p`. -/
def ScanWriter.header (layered : Bool) (w : ScanWriter) : SparseCell :=
  if layered then .runLengthLayered w.inactive w.active w.active_fragments
  else .runLength w.inactive w.active

/-- Modelled from the spec: the payload written so far. -/
def ScanWriter.cells (layered : Bool) (w : ScanWriter) : List SparseCell :=
  w.closed ++ w.header layered :: w.data

/-- Modelled from the spec: one scanned pixel merged into the output (section 4.4):
the pixel extends the run in progress when that run is compatible, otherwise a new run
is opened.  An inactive pixel extends a run that has no active pixel yet; an active
pixel extends the active tail of the run in progress.  (Section 4.4 words the rule for
active pixels the other way round; that reading would leave runs with `active = 0` in
the middle of a stream, against invariant 3 of section 3 and the encoder of section
4.3.  The pixels a stream decodes to and its size bookkeeping do not depend on the
choice.) -/
def ScanWriter.emit (layered : Bool) (w : ScanWriter) : Option SparseCell → ScanWriter
  | none =>
    if w.active = 0 then { w with inactive := w.inactive + 1 }
    else
      { closed := w.cells layered, inactive := 1, active := 0, active_fragments := 0,
        data := [] }
  | some cell =>
    { w with active := w.active + 1,
             active_fragments := w.active_fragments + cell.fragmentCount,
             data := w.data ++ [cell] }

/-- Modelled from the spec: the scan primitive (section 4.4): it advances the cursor by
`pixels` logical pixels and, when an output is supplied, merges the scanned pixels
into it.  `none`: the stream ends, or does not continue as announced, before `pixels`
pixels are scanned. -/
def scanPixels (layered : Bool) :
    Nat → ScanCursor → Option ScanWriter → Option (ScanCursor × Option ScanWriter)
  | 0, cursor, out => some (cursor, out)
  | pixels + 1, cursor, out =>
    match scanStep layered cursor.in_data cursor.inactive_before cursor.active_till_next_runl
        cursor.active_frags_till_next_runl with
    | none => none
    | some (pixel, next) => scanPixels layered pixels next (out.map fun w => w.emit layered pixel)

/-- `icetSparseImageScanPixels`: the cursor is `in_data_p`, `inactive_before_p` and
`active_till_next_runl_p`, the output is `out_data_p` with `out_run_length_p`
(`none`: `out_data_p` is `NULL`); `last_in_run_length_p` is not modelled.  Its body is
the scan model without `SIS_LAYERED`. -/
def icetSparseImageScanPixels (cursor : ScanCursor) (pixels_to_skip : Int)
    (out : Option ScanWriter) : Option (ScanCursor × Option ScanWriter) :=
  scanPixels false pixels_to_skip.toNat cursor out

/-- `icetSparseLayeredImageScanPixels`: the scan model with `SIS_LAYERED`. -/
def icetSparseLayeredImageScanPixels (cursor : ScanCursor) (pixels_to_skip : Int)
    (out : Option ScanWriter) : Option (ScanCursor × Option ScanWriter) :=
  scanPixels true pixels_to_skip.toNat cursor out

/-- `icetSparseImageCopyPixelsInternal`: the cursor behind the copied pixels, the output
image and the events. -/
def icetSparseImageCopyPixelsInternal (cursor : ScanCursor) (pixels_to_copy : Int)
    (out_image : IceTSparseImageData) :
    Option (ScanCursor × IceTSparseImageData × List Event) :=
  let resized := icetSparseImageSetDimensions (some out_image) pixels_to_copy 1
  (icetSparseImageScanPixels cursor pixels_to_copy (some ScanWriter.emptyRun)).map fun r =>
    (r.1,
      icetSparseImageSetActualSize (resized.1.getD out_image)
        ((r.2.getD ScanWriter.emptyRun).cells false),
      resized.2)

/-- `icetSparseLayeredImageCopyPixelsInternal`. -/
def icetSparseLayeredImageCopyPixelsInternal (cursor : ScanCursor) (pixels_to_copy : Int)
    (out_image : IceTSparseImageData) :
    Option (ScanCursor × IceTSparseImageData × List Event) :=
  let resized := icetSparseImageSetDimensions (some out_image) pixels_to_copy 1
  (icetSparseLayeredImageScanPixels cursor pixels_to_copy (some ScanWriter.emptyRun)).map fun r =>
    (r.1,
      icetSparseImageSetActualSize (resized.1.getD out_image)
        ((r.2.getD ScanWriter.emptyRun).cells true),
      resized.2)

/-- `icetSparseImageCopyPixels`, for non-null handles: the output image afterwards and
the events.  The function writes through `out_image` only.  `none`: the input and the
output are the same buffer (the copy would read what it overwrites; the `memcpy` of
the special case has undefined behaviour then), or the scan fails. -/
def icetSparseImageCopyPixels (in_image : IceTSparseImageData) (in_offset num_pixels : Int)
    (out_image : IceTSparseImageData) : Option (IceTSparseImageData × List Event) :=
  if icetSparseImageEqual in_image out_image then none
  else
    let color_format := in_image.color_format
    let depth_format := in_image.depth_format
    let is_layered := icetSparseImageIsLayered in_image
    if color_format ≠ out_image.color_format ∨ depth_format ≠ out_image.depth_format
        ∨ is_layered ≠ icetSparseImageIsLayered out_image then
      some (out_image,
        [.timingCompressBegin, .raiseError .INVALID_VALUE, .timingCompressEnd])
    else if in_offset = 0 ∧ num_pixels = icetSparseImageGetNumPixels (some in_image) then
      let max_pixels := out_image.max_num_pixels
      if max_pixels < num_pixels then
        some (out_image,
          [.timingCompressBegin, .raiseError .INVALID_VALUE, .timingCompressEnd])
      else
        some ({ in_image with max_num_pixels := max_pixels, address := out_image.address },
          [.timingCompressBegin, .timingCompressEnd])
    else
      let start : ScanCursor := ⟨in_image.payload, 0, 0, 0⟩
      let copied :=
        if is_layered then
          (icetSparseLayeredImageScanPixels start in_offset none).bind fun skipped =>
            icetSparseLayeredImageCopyPixelsInternal skipped.1 num_pixels out_image
        else
          (icetSparseImageScanPixels start in_offset none).bind fun skipped =>
            icetSparseImageCopyPixelsInternal skipped.1 num_pixels out_image
      copied.map fun r =>
        (r.2.1,
          [Event.timingCompressBegin] ++ fragmentSizeDiagnostics color_format depth_format
            ++ r.2.2 ++ [Event.timingCompressEnd])

/-- The scan of `pixels` pixels in `icetSparseImageInterlace`, which chooses the flat
or the layered routine. -/
def interlaceScan (is_layered : Bool) (cursor : ScanCursor) (pixels : Int)
    (out : Option ScanWriter) : Option (ScanCursor × Option ScanWriter) :=
  if is_layered then icetSparseLayeredImageScanPixels cursor pixels out
  else icetSparseImageScanPixels cursor pixels out

/-- The first loop of `icetSparseImageInterlace`: for every original partition, in
order, the cursor is stored in the scratch arrays at the interlaced index and then
advances over the partition (the last partition is not scanned).  `count` iterations
are left; `arrays` holds the entries of the scratch arrays, `none` where nothing has
been stored.  `none`: a store outside the arrays, or a failing scan. -/
def interlaceRecordLoop (is_layered : Bool) (eventual_num_partitions lower_partition_size
    remaining_pixels : Int) :
    Nat → Int → ScanCursor → List (Option ScanCursor) → Option (List (Option ScanCursor))
  | 0, _, _, arrays => some arrays
  | count + 1, original_partition_idx, cursor, arrays =>
    let interlaced_partition_idx :=
      interlacedPartitionIdx original_partition_idx eventual_num_partitions
    let pixels_to_skip :=
      interlacePartitionSize lower_partition_size remaining_pixels interlaced_partition_idx
    if 0 ≤ interlaced_partition_idx ∧ interlaced_partition_idx < arrays.length then
      let arrays := arrays.set interlaced_partition_idx.toNat (some cursor)
      if original_partition_idx < eventual_num_partitions - 1 then
        (interlaceScan is_layered cursor pixels_to_skip none).bind fun r =>
          interlaceRecordLoop is_layered eventual_num_partitions lower_partition_size
            remaining_pixels count (original_partition_idx + 1) r.1 arrays
      else
        interlaceRecordLoop is_layered eventual_num_partitions lower_partition_size
          remaining_pixels count (original_partition_idx + 1) cursor arrays
    else none

/-- The second loop of `icetSparseImageInterlace`: for every interlaced partition, in
order, its pixels are scanned from the stored cursor and appended to the output.
`none`: a cursor that was never stored, or a failing scan. -/
def interlaceCopyLoop (is_layered : Bool) (lower_partition_size remaining_pixels : Int)
    (arrays : List (Option ScanCursor)) : Nat → Int → ScanWriter → Option ScanWriter
  | 0, _, out => some out
  | count + 1, interlaced_partition_idx, out =>
    let pixels_left :=
      interlacePartitionSize lower_partition_size remaining_pixels interlaced_partition_idx
    match arrays.getD interlaced_partition_idx.toNat none with
    | none => none
    | some cursor =>
      (interlaceScan is_layered cursor pixels_left (some out)).bind fun r =>
        interlaceCopyLoop is_layered lower_partition_size remaining_pixels arrays count
          (interlaced_partition_idx + 1) (r.2.getD out)

/-- `icetSparseImageInterlace`, for non-null handles: the output image afterwards and
the events (the scratch buffer comes from the state store and is not part of the
result).  `none`: `eventual_num_partitions = 0` (the initialisers divide by it), the
input and the output are the same buffer, or a scan fails. -/
def icetSparseImageInterlace (in_image : IceTSparseImageData) (eventual_num_partitions : Int)
    (out_image : IceTSparseImageData) : Option (IceTSparseImageData × List Event) :=
  if eventual_num_partitions = 0 then none
  else
    let num_pixels := icetSparseImageGetNumPixels (some in_image)
    let color_format := in_image.color_format
    let depth_format := in_image.depth_format
    let is_layered := icetSparseImageIsLayered in_image
    let lower_partition_size := Int.tdiv num_pixels eventual_num_partitions
    let remaining_pixels := Int.tmod num_pixels eventual_num_partitions
    if eventual_num_partitions < 2 then
      icetSparseImageCopyPixels in_image 0 num_pixels out_image
    else if icetSparseImageEqual in_image out_image then none
    else if color_format ≠ out_image.color_format ∨ depth_format ≠ out_image.depth_format
        ∨ is_layered ≠ icetSparseImageIsLayered out_image then
      some (out_image, [.raiseError .INVALID_VALUE])
    else
      (interlaceRecordLoop is_layered eventual_num_partitions lower_partition_size
          remaining_pixels eventual_num_partitions.toNat 0 ⟨in_image.payload, 0, 0, 0⟩
          (List.replicate eventual_num_partitions.toNat none)).bind fun arrays =>
        let resized := icetSparseImageSetDimensions (some out_image) in_image.width
          in_image.height
        (interlaceCopyLoop is_layered lower_partition_size remaining_pixels arrays
            eventual_num_partitions.toNat 0 ScanWriter.emptyRun).map fun out =>
          (icetSparseImageSetActualSize (resized.1.getD out_image) (out.cells is_layered),
            [Event.timingInterlaceBegin] ++ fragmentSizeDiagnostics color_format depth_format
              ++ resized.2 ++ [Event.timingInterlaceEnd])

/-! ## The pixel sequence of a sparse image, flat or layered -/

/-- The logical pixels a payload holds (`none`: an inactive pixel; otherwise the data
of the active pixel), when `active` pixels carrying `frags` fragments of the current
run are still to come.  `none` when the payload is not a sequence of runs of its kind,
each followed by as many active pixels as its header announces, with as many fragments
as it announces (invariant 4 of the data model). -/
def streamCells (layered : Bool) :
    List SparseCell → Nat → Nat → Option (List (Option SparseCell))
  | [], 0, 0 => some []
  | .runLength inactive active :: rest, 0, 0 =>
    if layered then none
    else (streamCells layered rest active 0).map fun pixels =>
      List.replicate inactive none ++ pixels
  | .runLengthLayered inactive active frags :: rest, 0, 0 =>
    if layered then
      (streamCells layered rest active frags).map fun pixels =>
        List.replicate inactive none ++ pixels
    else none
  | .pixel fragment :: rest, active + 1, frags =>
    if layered then none
    else (streamCells layered rest active frags).map fun pixels =>
      some (.pixel fragment) :: pixels
  | .layeredPixel fragments :: rest, active + 1, frags =>
    if layered ∧ fragments.length ≤ frags then
      (streamCells layered rest active (frags - fragments.length)).map fun pixels =>
        some (.layeredPixel fragments) :: pixels
    else none
  | _, _, _ => none

/-- The logical pixels of a sparse image. -/
def IceTSparseImageData.pixels (image : IceTSparseImageData) :
    Option (List (Option SparseCell)) :=
  streamCells (icetSparseImageIsLayered image) image.payload 0 0

/-- The logical pixels ahead of a scan cursor. -/
def ScanCursor.pixels (layered : Bool) (c : ScanCursor) : Option (List (Option SparseCell)) :=
  (streamCells layered c.in_data c.active_till_next_runl c.active_frags_till_next_runl).map
    fun pixels => List.replicate c.inactive_before none ++ pixels

/-- A cell is the data of an active pixel of an image of the given kind. -/
def SparseCell.isPixel (layered : Bool) : SparseCell → Bool
  | .pixel _ => !layered
  | .layeredPixel _ => layered
  | _ => false

/-- The output of a scan holds the logical pixels `ps`: the finished runs hold a prefix
of them and the run in progress the rest. -/
def ScanWriter.Holds (layered : Bool) (w : ScanWriter) (ps : List (Option SparseCell)) : Prop :=
  ∃ finished : List (Option SparseCell),
    streamCells layered w.closed 0 0 = some finished
    ∧ (∀ cell ∈ w.data, cell.isPixel layered = true) ∧ w.active = w.data.length
    ∧ w.active_fragments = (w.data.map SparseCell.fragmentCount).sum
    ∧ ps = finished ++ List.replicate w.inactive none ++ w.data.map some

/-- The size of the interlaced partition `i` of `n` pixels in `E` partitions. -/
def partitionPixels (E n i : Nat) : Nat := n / E + (if i < n % E then 1 else 0)

/-- Where partition `o` of the original order starts in the image: the sizes of the
partitions before it, partition `o'` having the interlaced index `interlaceIndex E o'`. -/
def originalStart (E n o : Nat) : Nat :=
  ((List.range o).map fun o' => partitionPixels E n (interlaceIndex E o')).sum

/-- Where partition `j` of the interlaced order starts in the interlaced image. -/
def interlacedStart (E n j : Nat) : Nat :=
  ((List.range j).map fun k => partitionPixels E n k).sum

/-- The 8-pixel stream of scenarios B and C (depths 1, 1, 0.5, 0.5, 1, 0.5, 1, 1), the
active pixels carrying the colors `(i, i, i, 255)` of their positions 2, 3 and 5. -/
def scenarioC_image : IceTSparseImageData :=
  { flatSparseImage 8 1
      [.runLength 2 2, .pixel { color := [2, 2, 2, 255], depth := [0x3F000000] },
       .pixel { color := [3, 3, 3, 255], depth := [0x3F000000] },
       .runLength 1 1, .pixel { color := [5, 5, 5, 255], depth := [0x3F000000] },
       .runLength 2 0] with address := 1 }

/-- A cleared sparse image for 8 pixels at another address. -/
def scenarioC_out : IceTSparseImageData :=
  { flatSparseImage 8 1 [.runLength 8 0] with address := 2 }

/-- An 8-pixel stream whose pixels are all active, pixel `i` having the color
`(i, i, i, 255)`. -/
def distinctPixels : IceTSparseImageData :=
  { flatSparseImage 8 1
      (.runLength 0 8 :: (List.range 8).map fun i =>
        .pixel { color := [i, i, i, 255], depth := [0x3F000000] }) with address := 1 }

/-- The pixels of partition `k` of the interlaced order, taken from the pixels `ps` of
the original image: as many as the partition holds, from where the partition starts
in the original image. -/
def partitionWindow (E : Nat) (ps : List (Option SparseCell)) (k : Nat) :
    List (Option SparseCell) :=
  (ps.drop (originalStart E ps.length (interlaceIndex E k))).take (partitionPixels E ps.length k)

/-- Modelled from the spec: the source pixel the specification gives for pixel `i` of
the interlaced image: `p = bit_reverse(i mod E) + (i / E) * E`, `bit_reverse` being the
reversal of the `⌈log2 E⌉` low bits with the fallback to the identity
(`interlacedPartitionIdx`). -/
def specInterlaceSource (E i : Int) : Int :=
  interlacedPartitionIdx (i % E) E + i / E * E

/-! ## Creating dense images, adjusting them, setting the formats -/

/-- `icetImageAssignBuffer(buffer, width, height)`; `buffer` is the address of the
buffer, `none` for `NULL`, and `color`, `depth` are what the buffer holds where the two
arrays of the image lie.  A flat image has no layer sub-header; its `num_layers` is
taken as 1. -/
def icetImageAssignBuffer (st : IceTState) (buffer : Option Nat) (width height : Int)
    (color depth : List Nat) : IceTImage × List Event :=
  match buffer with
  | none => (none, [.raiseError .INVALID_VALUE])
  | some address =>
    let color_invalid := st.color_format ≠ .RGBA_UBYTE ∧ st.color_format ≠ .RGBA_FLOAT
      ∧ st.color_format ≠ .RGB_FLOAT ∧ st.color_format ≠ .NONE
    let depth_invalid := st.depth_format ≠ .FLOAT ∧ st.depth_format ≠ .NONE
    let ev1 : List Event := if color_invalid then [.raiseError .INVALID_ENUM] else []
    let ev2 : List Event := if depth_invalid then [.raiseError .INVALID_ENUM] else []
    let color_format := if color_invalid then .NONE else st.color_format
    let depth_format := if depth_invalid then .NONE else st.depth_format
    (some
      { magic_num := ICET_IMAGE_MAGIC_NUM
        color_format := color_format
        depth_format := depth_format
        width := width
        height := height
        max_num_pixels := width * height
        actual_buffer_size := icetImageBufferSizeType color_format depth_format width height
        num_layers := 1
        color := color
        depth := depth
        address := address }, ev1 ++ ev2)

/-- The check of one buffer pointer in `icetImagePointerAssignBuffer`: a buffer must be
given exactly when the format is not NONE. -/
def pointerBufferDiagnostics (format_is_none : Bool) (buffer : Option (List Nat)) :
    List Event :=
  if format_is_none then
    if buffer.isSome then [.raiseError .INVALID_VALUE] else []
  else
    if buffer.isNone then [.raiseError .INVALID_VALUE] else []

/-- `icetImagePointerAssignBuffer(buffer, width, height, color_buffer, depth_buffer)`.
A `NULL` color or depth pointer (`none`) is stored as the empty array.  `none`:
`buffer` is `NULL`, and the header of the null image that `icetImageAssignBuffer`
returns is written. -/
def icetImagePointerAssignBuffer (st : IceTState) (buffer : Option Nat) (width height : Int)
    (color_buffer depth_buffer : Option (List Nat)) : Option (IceTImage × List Event) :=
  let assigned := icetImageAssignBuffer st buffer width height [] []
  match assigned.1 with
  | none => none
  | some image =>
    let ev1 := pointerBufferDiagnostics (image.color_format == .NONE) color_buffer
    let ev2 := pointerBufferDiagnostics (image.depth_format == .NONE) depth_buffer
    some (some
      { image with
        magic_num := ICET_IMAGE_POINTERS_MAGIC_NUM
        actual_buffer_size := -1
        color := color_buffer.getD []
        depth := depth_buffer.getD [] }, assigned.2 ++ ev1 ++ ev2)

/-- `icetLayeredImagePointerAssignBuffer(buffer, width, height, num_layers, color_buffer,
depth_buffer)`.  `none`: `buffer` is `NULL`. -/
def icetLayeredImagePointerAssignBuffer (st : IceTState) (buffer : Option Nat)
    (width height : Int) (num_layers : Nat) (color_buffer depth_buffer : Option (List Nat)) :
    Option (IceTImage × List Event) :=
  let assigned := icetImageAssignBuffer st buffer width height [] []
  match assigned.1 with
  | none => none
  | some image =>
    let ev1 := pointerBufferDiagnostics (image.color_format == .NONE) color_buffer
    let ev2 : List Event :=
      if image.depth_format = .NONE then [.raiseError .INVALID_VALUE] else []
    let ev3 : List Event := if depth_buffer.isNone then [.raiseError .INVALID_VALUE] else []
    some (some
      { image with
        magic_num := ICET_IMAGE_POINTERS_MAGIC_NUM ||| ICET_IMAGE_FLAG_LAYERED
        actual_buffer_size := -1
        num_layers := num_layers
        color := color_buffer.getD []
        depth := depth_buffer.getD [] }, assigned.2 ++ ev1 ++ ev2 ++ ev3)

/-- `icetImageAdjustForOutput`.  Without the LAYERED flag the accessors of a buffer
image start the color array at the data, where a layered image holds its sub-header
(`icetImageHeaderWritten`).  The two pointers of a layered pointer image, which lie
behind its sub-header, are not modelled as moved. -/
def icetImageAdjustForOutput (st : IceTState) (image : IceTImage) : IceTImage × List Event :=
  match image with
  | none => (none, [])
  | some data =>
    let data :=
      icetImageHeaderWritten data { data with magic_num := baseMagicNum data.magic_num }
    if st.composite_one_buffer then
      let color_format := icetImageGetColorFormat (some data)
      if color_format ≠ .NONE then
        let data := { data with depth_format := .NONE }
        icetImageSetDimensions (some data) (icetImageGetWidth (some data))
          (icetImageGetHeight (some data))
      else (some data, [])
    else (some data, [])

/-- `icetImageAdjustForInput`.  The color format stored decides where the depth array
of a buffer image starts and how the color array is read (`icetImageHeaderWritten`). -/
def icetImageAdjustForInput (st : IceTState) (image : IceTImage) : IceTImage × List Event :=
  match image with
  | none => (none, [])
  | some data =>
    let data := icetImageHeaderWritten data
      { data with color_format := st.color_format, depth_format := st.depth_format }
    icetImageSetDimensions (some data) (icetImageGetWidth (some data))
      (icetImageGetHeight (some data))

/-- `icetSetColorFormat`: the state afterwards and the events. -/
def icetSetColorFormat (st : IceTState) (color_format : ColorFormat) :
    IceTState × List Event :=
  if st.is_drawing_frame then (st, [.raiseError .INVALID_OPERATION])
  else if color_format = .RGBA_UBYTE ∨ color_format = .RGBA_FLOAT
      ∨ color_format = .RGB_FLOAT ∨ color_format = .NONE then
    ({ st with color_format := color_format }, [])
  else (st, [.raiseError .INVALID_ENUM])

/-- `icetSetDepthFormat`. -/
def icetSetDepthFormat (st : IceTState) (depth_format : DepthFormat) :
    IceTState × List Event :=
  if st.is_drawing_frame then (st, [.raiseError .INVALID_OPERATION])
  else if depth_format = .FLOAT ∨ depth_format = .NONE then
    ({ st with depth_format := depth_format }, [])
  else (st, [.raiseError .INVALID_ENUM])

/-- A state whose depth format is NONE. -/
def noDepthState : IceTState :=
  { composite_mode := .BLEND, background_color := [0, 0, 0, 0],
    background_color_word := [0, 0, 0, 0], depth_format := .NONE }

/-- A flat pointer image: 1x1, RGBA8 and D32F behind the two stored pointers. -/
def pointerImage : IceTImageData :=
  { magic_num := ICET_IMAGE_POINTERS_MAGIC_NUM, color_format := .RGBA_UBYTE,
    depth_format := .FLOAT, width := 1, height := 1, max_num_pixels := 1,
    actual_buffer_size := -1, num_layers := 1, color := [1, 2, 3, 4],
    depth := [0x3F000000] }

/-- A layered pointer image: 1x1 with two layers. -/
def layeredPointerImage : IceTImageData :=
  { magic_num := ICET_IMAGE_POINTERS_MAGIC_NUM ||| ICET_IMAGE_FLAG_LAYERED,
    color_format := .RGBA_UBYTE, depth_format := .FLOAT, width := 1, height := 1,
    max_num_pixels := 1, actual_buffer_size := -1, num_layers := 2,
    color := [1, 2, 3, 4, 5, 6, 7, 8], depth := [0x3F000000, 0x3F400000] }

/-- A 1x2 RGBA8 + D32F image: two blue pixels at depth 0.9. -/
def tallPair : IceTImageData :=
  flatImage 1 2 [0, 0, 255, 255, 0, 0, 255, 255] [0x3F666666, 0x3F666666]

/-- A 2x1 RGBA8 + D32F image: two red pixels at depth 0.2. -/
def widePair : IceTImageData :=
  flatImage 2 1 [255, 0, 0, 255, 255, 0, 0, 255] [0x3E4CCCCD, 0x3E4CCCCD]

/-- A layered 2x1 buffer image with one layer: two red fragments at depth 0.2. -/
def layeredPair : IceTImageData :=
  { widePair with magic_num := ICET_IMAGE_MAGIC_NUM ||| ICET_IMAGE_FLAG_LAYERED,
                  actual_buffer_size :=
                    icetLayeredImageBufferSizeType .RGBA_UBYTE .FLOAT 2 1 1 }

/-- A 2x1 RGBA8 + D32F image: two blue pixels at depth 0.9. -/
def bluePair : IceTImageData :=
  flatImage 2 1 [0, 0, 255, 255, 0, 0, 255, 255] [0x3F666666, 0x3F666666]

/-- A state in which `ICET_COMPOSITE_ONE_BUFFER` is enabled. -/
def oneBufferState : IceTState :=
  { composite_mode := .BLEND, background_color := [0, 0, 0, 0],
    background_color_word := [0, 0, 0, 0], composite_one_buffer := true }

/-! ## Correcting the background -/

/-- The RGBA8 loop of `icetImageCorrectBackground`: `ICET_UNDER_UBYTE(bc, color)` on every
fragment, `color` advancing by four bytes; `bc` points to the bytes of the true
background color word. -/
def correctBackgroundUbyteLoop (num_fragments : Int) (bc color : List Nat) : List Nat :=
  ((List.range num_fragments.toNat).foldl
    (fun m p => ICET_UNDER_UBYTE (.src 0) (.dest (4 * p)) m)
    { src := bc, dest := color }).dest

/-- The RGBA32F loop of `icetImageCorrectBackground`. -/
def correctBackgroundFloatLoop (fa : FloatArith) (num_fragments : Int)
    (background_color color : List Nat) : List Nat :=
  ((List.range num_fragments.toNat).foldl
    (fun m p => ICET_UNDER_FLOAT fa (.src 0) (.dest (4 * p)) m)
    { src := background_color, dest := color }).dest

/-- `icetImageCorrectBackground`, for a non-null image: the image afterwards and the
events; `none` when the loop writes through a `NULL` pointer. -/
def icetImageCorrectBackground (fa : FloatArith) (st : IceTState) (image : IceTImageData) :
    Option (IceTImageData × List Event) :=
  if ¬ st.need_background_correction then some (image, [])
  else
    let num_fragments :=
      if icetImageIsLayered image then icetImageGetNumPixels (some image) * image.num_layers
      else icetImageGetNumPixels (some image)
    match icetImageGetColorFormat (some image) with
    | .RGBA_UBYTE =>
      let color := icetImageGetColorub image
      (guardPointers num_fragments [color.1]).map fun _ =>
        ({ image with
            color := correctBackgroundUbyteLoop num_fragments st.true_background_color_word
              image.color },
          [Event.timingBlendBegin] ++ color.2 ++ [Event.timingBlendEnd])
    | .RGBA_FLOAT =>
      let color := icetImageGetColorf image
      (guardPointers num_fragments [color.1]).map fun _ =>
        ({ image with
            color := correctBackgroundFloatLoop fa num_fragments st.true_background_color
              image.color },
          [Event.timingBlendBegin] ++ color.2 ++ [Event.timingBlendEnd])
    | .RGB_FLOAT => some (image, [.timingBlendBegin, .timingBlendEnd])
    | _ => some (image, [.timingBlendBegin, .raiseError .SANITY_CHECK_FAIL, .timingBlendEnd])

/-- A state that needs background correction, with the opaque white true background
`(255, 255, 255, 255)`. -/
def whiteBackgroundState : IceTState :=
  { composite_mode := .BLEND, background_color := [0, 0, 0, 0],
    background_color_word := [0, 0, 0, 0], need_background_correction := true,
    true_background_color_word := [255, 255, 255, 255] }

/-- A 2x1 RGBA8 image without depth: the color `(255, 0, 0, 0)`, which is not
premultiplied, and the opaque color `(9, 8, 7, 255)`. -/
def correctionPair : IceTImageData :=
  { magic_num := ICET_IMAGE_MAGIC_NUM, color_format := .RGBA_UBYTE, depth_format := .NONE,
    width := 2, height := 1, max_num_pixels := 2,
    actual_buffer_size := icetImageBufferSizeType .RGBA_UBYTE .NONE 2 1,
    num_layers := 1, color := [255, 0, 0, 0, 9, 8, 7, 255], depth := [] }

/-! ## Copying pixels between dense images -/

/-- The call `memcpy(dest + dest_offset, src + src_offset, count)` on arrays of elements.
`none`: a negative count (which the conversion to `size_t` makes huge), or a range that
leaves its array; both are undefined behaviour. -/
def memcpyElements (dest : List Nat) (dest_offset : Int) (src : List Nat) (src_offset : Int)
    (count : Int) : Option (List Nat) :=
  if 0 ≤ count ∧ 0 ≤ src_offset ∧ src_offset + count ≤ src.length
      ∧ 0 ≤ dest_offset ∧ dest_offset + count ≤ dest.length then
    some (storeElements dest_offset.toNat (loadElements src_offset.toNat count.toNat src) dest)
  else none

/-- The layer count the copy functions use: `num_layers` of a layered image, 1 of a flat
one. -/
def copyLayers (image : IceTImageData) : Nat :=
  if icetImageIsLayered image then image.num_layers else 1

/-- The value `icetImageGetColorConstVoid` stores in `*pixel_size`, in elements of the
color array: `colorPixelSize(color_format)`, times `num_layers` for a layered image. -/
def colorPixelElements (image : IceTImageData) : Int :=
  if icetImageIsLayered image then
    (colorChannels (icetImageGetColorFormat (some image)) : Int) * image.num_layers
  else colorChannels (icetImageGetColorFormat (some image))

/-- The value `icetImageGetDepthConstVoid` stores in `*pixel_size`, in elements of the
depth array: `depthPixelSize(depth_format)`, for flat and for layered images. -/
def depthPixelElements (image : IceTImageData) : Int :=
  depthChannels (icetImageGetDepthFormat (some image))

/-- `icetImageCopyPixels(in_image, in_offset, out_image, out_offset, num_pixels)`, for two
non-null images in different buffers: the output image afterwards and the events.
`none`: a `memcpy` with undefined behaviour. -/
def icetImageCopyPixels (in_image : IceTImageData) (in_offset : Int)
    (out_image : IceTImageData) (out_offset num_pixels : Int) :
    Option (IceTImageData × List Event) :=
  let in_layers := copyLayers in_image
  let out_layers := copyLayers out_image
  let color_format := icetImageGetColorFormat (some in_image)
  let depth_format := icetImageGetDepthFormat (some in_image)
  if color_format ≠ icetImageGetColorFormat (some out_image)
      ∨ depth_format ≠ icetImageGetDepthFormat (some out_image) then
    some (out_image, [.raiseError .INVALID_VALUE])
  else if in_offset < 0 ∨ in_offset + num_pixels > icetImageGetNumPixels (some in_image) then
    some (out_image, [.raiseError .INVALID_VALUE])
  else if out_offset < 0
      ∨ out_offset + num_pixels > icetImageGetNumPixels (some out_image) then
    some (out_image, [.raiseError .INVALID_VALUE])
  else if in_layers ≠ out_layers then
    some (out_image, [.raiseError .INVALID_VALUE])
  else
    let color : Option (List Nat × List Event) :=
      if color_format ≠ .NONE then
        let in_colors := icetImageGetColorConstVoid in_image
        let pixel_size := colorPixelElements in_image
        let out_colors := icetImageGetColorVoid out_image
        match in_colors.1, out_colors.1 with
        | some src, some dest =>
          (memcpyElements dest (pixel_size * out_offset) src (pixel_size * in_offset)
              (pixel_size * num_pixels)).map fun copied =>
            (copied, colorPixelSizeDiagnostics color_format ++ in_colors.2 ++ out_colors.2)
        | _, _ => none
      else some (out_image.color, [])
    color.bind fun color =>
      let depth : Option (List Nat × List Event) :=
        if depth_format ≠ .NONE then
          let in_depths := icetImageGetDepthConstVoid in_image
          let pixel_size := depthPixelElements in_image
          let out_depths := icetImageGetDepthVoid out_image
          match in_depths.1, out_depths.1 with
          | some src, some dest =>
            (memcpyElements dest (pixel_size * out_offset) src (pixel_size * in_offset)
                (pixel_size * num_pixels)).map fun copied =>
              (copied, depthPixelSizeDiagnostics depth_format ++ in_depths.2 ++ out_depths.2)
          | _, _ => none
        else some (out_image.depth, [])
      depth.map fun depth =>
        ({ out_image with color := color.1, depth := depth.1 }, color.2 ++ depth.2)

/-- The row loop of `icetImageCopyRegion`: `rows` times, `count` elements are copied from
`src` to `dest` and both pointers advance by their strides. -/
def copyRegionLoop (src_stride dest_stride count : Int) (src : List Nat) :
    Nat → Int → Int → List Nat → Option (List Nat)
  | 0, _, _, dest => some dest
  | rows + 1, src_offset, dest_offset, dest =>
    (memcpyElements dest dest_offset src src_offset count).bind fun dest =>
      copyRegionLoop src_stride dest_stride count src rows (src_offset + src_stride)
        (dest_offset + dest_stride) dest

/-- The row loop of `icetImageCopyRegion` when `src` and `dest` point into one array:
a row is read as the rows copied before it have left the array.  `none`: a `memcpy`
with undefined behaviour, which includes a row copied onto elements of itself. -/
def copyRegionLoopInPlace (src_stride dest_stride count : Int) :
    Nat → Int → Int → List Nat → Option (List Nat)
  | 0, _, _, array => some array
  | rows + 1, src_offset, dest_offset, array =>
    (if 0 < count ∧ src_offset < dest_offset + count ∧ dest_offset < src_offset + count then
      none
    else memcpyElements array dest_offset array src_offset count).bind fun array =>
      copyRegionLoopInPlace src_stride dest_stride count rows (src_offset + src_stride)
        (dest_offset + dest_stride) array

/-- `icetImageCopyRegion(in_image, in_viewport, out_image, out_viewport)`, for two
non-null images.  The source makes no difference between one buffer and two: when both
handles are the same buffer (the same `address`), the rows are read from the array
they are written to.  `none`: a `memcpy` with undefined behaviour. -/
def icetImageCopyRegion (in_image : IceTImageData)
    (in_viewport0 in_viewport1 in_viewport2 in_viewport3 : Int) (out_image : IceTImageData)
    (out_viewport0 out_viewport1 out_viewport2 out_viewport3 : Int) :
    Option (IceTImageData × List Event) :=
  let color_format := icetImageGetColorFormat (some in_image)
  let depth_format := icetImageGetDepthFormat (some in_image)
  let in_layers := copyLayers in_image
  let out_layers := copyLayers out_image
  if color_format ≠ icetImageGetColorFormat (some out_image)
      ∨ depth_format ≠ icetImageGetDepthFormat (some out_image) then
    some (out_image, [.raiseError .INVALID_VALUE])
  else if in_viewport2 ≠ out_viewport2 ∨ in_viewport3 ≠ out_viewport3 then
    some (out_image, [.raiseError .INVALID_VALUE])
  else if in_layers ≠ out_layers then
    some (out_image, [.raiseError .INVALID_VALUE])
  else
    let rows (pixel_size : Int) (src dest : List Nat) : Option (List Nat) :=
      if in_image.address = out_image.address then
        copyRegionLoopInPlace (icetImageGetWidth (some in_image) * pixel_size)
          (icetImageGetWidth (some out_image) * pixel_size) (in_viewport2 * pixel_size)
          in_viewport3.toNat
          (in_viewport1 * icetImageGetWidth (some in_image) * pixel_size
            + in_viewport0 * pixel_size)
          (out_viewport1 * icetImageGetWidth (some out_image) * pixel_size
            + out_viewport0 * pixel_size) dest
      else
        copyRegionLoop (icetImageGetWidth (some in_image) * pixel_size)
          (icetImageGetWidth (some out_image) * pixel_size) (in_viewport2 * pixel_size) src
          in_viewport3.toNat
          (in_viewport1 * icetImageGetWidth (some in_image) * pixel_size
            + in_viewport0 * pixel_size)
          (out_viewport1 * icetImageGetWidth (some out_image) * pixel_size
            + out_viewport0 * pixel_size) dest
    let color : Option (List Nat × List Event) :=
      if color_format ≠ .NONE then
        let src := icetImageGetColorConstVoid in_image
        let dest := icetImageGetColorVoid out_image
        let pixel_size := colorPixelElements out_image
        match src.1, dest.1 with
        | some src_buffer, some dest_buffer =>
          (rows pixel_size src_buffer dest_buffer).map fun copied =>
            (copied, colorPixelSizeDiagnostics color_format ++ src.2
              ++ colorPixelSizeDiagnostics (icetImageGetColorFormat (some out_image)) ++ dest.2)
        | _, _ => none
      else some (out_image.color, [])
    color.bind fun color =>
      let depth : Option (List Nat × List Event) :=
        if depth_format ≠ .NONE then
          let src := icetImageGetDepthConstVoid in_image
          let dest := icetImageGetDepthVoid out_image
          let pixel_size := depthPixelElements out_image
          match src.1, dest.1 with
          | some src_buffer, some dest_buffer =>
            (rows pixel_size src_buffer dest_buffer).map fun copied =>
              (copied, depthPixelSizeDiagnostics depth_format ++ src.2
                ++ depthPixelSizeDiagnostics (icetImageGetDepthFormat (some out_image))
                ++ dest.2)
          | _, _ => none
        else some (out_image.depth, [])
      depth.map fun depth =>
        ({ out_image with color := color.1, depth := depth.1 }, color.2 ++ depth.2)

/-- A layered 2x1 buffer image with two layers, without color: the depths of its four
fragments are 0.25, 0.375 (pixel 0) and 0.5, 0.75 (pixel 1). -/
def layeredDepths : IceTImageData :=
  { magic_num := ICET_IMAGE_MAGIC_NUM ||| ICET_IMAGE_FLAG_LAYERED, color_format := .NONE,
    depth_format := .FLOAT, width := 2, height := 1, max_num_pixels := 2,
    actual_buffer_size := icetLayeredImageBufferSizeType .NONE .FLOAT 2 1 2,
    num_layers := 2, color := [],
    depth := [0x3E800000, 0x3EC00000, 0x3F000000, 0x3F400000], address := 1 }

/-- A layered 2x1 buffer image with two layers, without color, all depths 1.0. -/
def layeredFar : IceTImageData :=
  { layeredDepths with
    depth := [FLOAT_ONE, FLOAT_ONE, FLOAT_ONE, FLOAT_ONE], address := 2 }

/-- A 3x2 RGBA8 + D32F image whose pixel `i` has the color `(i, i, i, 255)` and the depth
word `i`. -/
def regionSource : IceTImageData :=
  { flatImage 3 2
      [0, 0, 0, 255, 1, 1, 1, 255, 2, 2, 2, 255, 3, 3, 3, 255, 4, 4, 4, 255, 5, 5, 5, 255]
      [0, 1, 2, 3, 4, 5] with address := 1 }

/-- A 2x2 RGBA8 + D32F image of black transparent pixels at depth word 9. -/
def regionTarget : IceTImageData :=
  { flatImage 2 2 (List.replicate 16 0) [9, 9, 9, 9] with address := 2 }

/-! ## Splitting a sparse image, and the allocating variants -/

/-- Modelled from the spec: the run length behind `last_in_run_length_p` (section 4.4:
the "back-pointer to the run header just consumed (so in-place rewriters can
retroactively shrink it)"; the comment on `icetSparseImageScanPixels`: "the location of
the last run length read from the input").  The argument is the scanned part of the
stream, last element first; the first run length found is the last one read, and the
counts still ahead of the cursor are taken off it, in the unsigned 32-bit
`IceTRunLengthType`.  Nothing changes when no run length was read. -/
def shrinkLastRunLength (cursor : ScanCursor) : List SparseCell → List SparseCell
  | [] => []
  | .runLength inactive active :: rest =>
    .runLength (toRunLengthType (inactive - cursor.inactive_before))
      (toRunLengthType (active - cursor.active_till_next_runl)) :: rest
  | .runLengthLayered inactive active active_fragments :: rest =>
    .runLengthLayered (toRunLengthType (inactive - cursor.inactive_before))
      (toRunLengthType (active - cursor.active_till_next_runl))
      (toRunLengthType (active_fragments - cursor.active_frags_till_next_runl)) :: rest
  | cell :: rest => cell :: shrinkLastRunLength cursor rest

/-- The payload an in-place copy leaves in `out_image`, whose data the cursor `start`
points into: everything up to the cursor `stop` reached by the scan, with the last run
length read between the two shrunk. -/
def inPlacePayload (out_image : IceTSparseImageData) (start stop : ScanCursor) :
    List SparseCell :=
  let before := out_image.payload.take (out_image.payload.length - start.in_data.length)
  let scanned := start.in_data.take (start.in_data.length - stop.in_data.length)
  before ++ (shrinkLastRunLength stop scanned.reverse).reverse

/-- `icetSparseImageCopyPixelsInPlaceInternal`: the cursor behind the copied pixels and
the image afterwards.  The width and the height are stored without a check against
`max_num_pixels`. -/
def icetSparseImageCopyPixelsInPlaceInternal (cursor : ScanCursor) (pixels_to_copy : Int)
    (out_image : IceTSparseImageData) : Option (ScanCursor × IceTSparseImageData) :=
  (icetSparseImageScanPixels cursor pixels_to_copy none).map fun r =>
    (r.1,
      icetSparseImageSetActualSize { out_image with width := pixels_to_copy, height := 1 }
        (inPlacePayload out_image cursor r.1))

/-- `icetSparseLayeredImageCopyPixelsInPlaceInternal`. -/
def icetSparseLayeredImageCopyPixelsInPlaceInternal (cursor : ScanCursor)
    (pixels_to_copy : Int) (out_image : IceTSparseImageData) :
    Option (ScanCursor × IceTSparseImageData) :=
  (icetSparseLayeredImageScanPixels cursor pixels_to_copy none).map fun r =>
    (r.1,
      icetSparseImageSetActualSize { out_image with width := pixels_to_copy, height := 1 }
        (inPlacePayload out_image cursor r.1))

/-- The copy of one partition in the loop of `icetSparseImageSplit`: in place when
`out_image` is the buffer of `in_image` (allowed for partition 0 only), into `out_image`
otherwise.  The result is the cursor behind the partition, the output image and the
events. -/
def splitCopyPartition (in_image : IceTSparseImageData) (is_layered : Bool)
    (partition : Nat) (cursor : ScanCursor) (partition_num_pixels : Int)
    (out_image : IceTSparseImageData) :
    Option (ScanCursor × IceTSparseImageData × List Event) :=
  if icetSparseImageEqual in_image out_image then
    if partition = 0 then
      if is_layered then
        (icetSparseLayeredImageCopyPixelsInPlaceInternal cursor partition_num_pixels
          out_image).map fun r => (r.1, r.2, [])
      else
        (icetSparseImageCopyPixelsInPlaceInternal cursor partition_num_pixels
          out_image).map fun r => (r.1, r.2, [])
    else some (cursor, out_image, [.raiseError .INVALID_VALUE])
  else if is_layered then
    icetSparseLayeredImageCopyPixelsInternal cursor partition_num_pixels out_image
  else
    icetSparseImageCopyPixelsInternal cursor partition_num_pixels out_image

/-- The loop of `icetSparseImageSplit` over the output images from `partition` on: the
images afterwards and the events.  A partition whose formats differ from those of the
input ends the loop with `INVALID_VALUE`; that image and the ones behind it stay as they
are. -/
def icetSparseImageSplitLoop (in_image : IceTSparseImageData) (offsets : List Int)
    (num_partitions total_num_pixels in_image_offset : Int) :
    List IceTSparseImageData → Nat → ScanCursor →
      Option (List IceTSparseImageData × List Event)
  | [], _, _ => some ([], [])
  | out_image :: rest, partition, cursor =>
    if in_image.color_format ≠ out_image.color_format
        ∨ in_image.depth_format ≠ out_image.depth_format
        ∨ icetSparseImageIsLayered in_image ≠ icetSparseImageIsLayered out_image then
      some (out_image :: rest, [.raiseError .INVALID_VALUE])
    else
      (splitCopyPartition in_image (icetSparseImageIsLayered in_image) partition cursor
          (splitPartitionNumPixels offsets num_partitions total_num_pixels in_image_offset
            partition) out_image).bind fun r =>
        (icetSparseImageSplitLoop in_image offsets num_partitions total_num_pixels
            in_image_offset rest (partition + 1) r.1).map fun t =>
          (r.2.1 :: t.1, r.2.2 ++ t.2)

/-- `icetSparseImageSplit`, for non-null handles: the images `out_images` afterwards,
the array `offsets` (empty: nothing was stored) and the events.  An output image with
the address of `in_image` is the buffer of `in_image`.  `none`: fewer than
`num_partitions` output images, `eventual_num_partitions = 0` (the partition sizes
divide by it), or a failing scan. -/
def icetSparseImageSplit (in_image : IceTSparseImageData)
    (in_image_offset num_partitions eventual_num_partitions : Int)
    (out_images : List IceTSparseImageData) :
    Option (List IceTSparseImageData × List Int × List Event) :=
  if num_partitions < 2 then
    some (out_images, [],
      [.timingCompressBegin, .raiseError .INVALID_VALUE, .timingCompressEnd])
  else if eventual_num_partitions = 0 ∨ out_images.length < num_partitions.toNat then none
  else
    let total_num_pixels := icetSparseImageGetNumPixels (some in_image)
    let offsets := icetSparseImageSplitChoosePartitions num_partitions
      eventual_num_partitions total_num_pixels in_image_offset
    (icetSparseImageSplitLoop in_image offsets num_partitions total_num_pixels
        in_image_offset (out_images.take num_partitions.toNat) 0
        ⟨in_image.payload, 0, 0, 0⟩).map fun r =>
      (r.1 ++ out_images.drop num_partitions.toNat, offsets,
        [Event.timingCompressBegin]
          ++ fragmentSizeDiagnostics in_image.color_format in_image.depth_format
          ++ r.2 ++ [Event.timingCompressEnd])

/-- The loop of `icetSparseImageSplitAlloc` over the handles from `partition` on, the
next image being created at the address `out_data`.  Every image is created in the
output buffer for its partition, takes the formats of the input, receives the pixels
and then has `max_num_pixels` set to 0 ("the out buffer is only large enough for this
specific image, so trigger an error when attempting to resize it"). -/
def icetSparseImageSplitAllocLoop (st : IceTState) (in_image : IceTSparseImageData)
    (offsets : List Int) (num_partitions total_num_pixels in_image_offset : Int) :
    List IceTSparseImage → Nat → Nat → ScanCursor →
      Option (List IceTSparseImage × List Event)
  | [], _, _, _ => some ([], [])
  | handle :: rest, partition, out_data, cursor =>
    let ev0 : List Event :=
      if icetSparseImageIsNull handle then [] else [.raiseError .INVALID_VALUE]
    let partition_num_pixels :=
      splitPartitionNumPixels offsets num_partitions total_num_pixels in_image_offset
        partition
    let assigned :=
      if icetSparseImageIsLayered in_image then
        icetSparseLayeredImageAssignBuffer st (some out_data) partition_num_pixels 1
      else
        icetSparseImageAssignBuffer st (some out_data) partition_num_pixels 1
    assigned.1.bind fun created =>
      let out_image :=
        { created with color_format := in_image.color_format,
                       depth_format := in_image.depth_format }
      let copied :=
        if icetSparseImageIsLayered in_image then
          icetSparseLayeredImageCopyPixelsInternal cursor partition_num_pixels out_image
        else
          icetSparseImageCopyPixelsInternal cursor partition_num_pixels out_image
      copied.bind fun r =>
        (icetSparseImageSplitAllocLoop st in_image offsets num_partitions total_num_pixels
            in_image_offset rest (partition + 1)
            (out_data + r.2.1.actual_buffer_size.toNat) r.1).map fun t =>
          (some { r.2.1 with max_num_pixels := 0 } :: t.1,
            ev0 ++ assigned.2 ++ r.2.2 ++ t.2)

/-- `icetSparseImageSplitAlloc`, for a non-null `in_image`: the handles `out_images`
afterwards, the array `offsets` and the events.  `out_buffer` is the address of the
buffer that `icetGetStateBuffer` returns for `out_buffer_pname`.  When `out_images[0]`
is the buffer of `in_image`, partition 0 is copied in place; every other partition is
created in the output buffer.  `none`: fewer than `num_partitions` handles,
`eventual_num_partitions = 0`, or a failing scan. -/
def icetSparseImageSplitAlloc (st : IceTState) (in_image : IceTSparseImageData)
    (in_image_offset num_partitions eventual_num_partitions : Int) (out_buffer : Nat)
    (out_images : List IceTSparseImage) :
    Option (List IceTSparseImage × List Int × List Event) :=
  if num_partitions < 2 then
    some (out_images, [],
      [.timingCompressBegin, .raiseError .INVALID_VALUE, .timingCompressEnd])
  else if eventual_num_partitions = 0 ∨ out_images.length < num_partitions.toNat then none
  else
    let total_num_pixels := icetSparseImageGetNumPixels (some in_image)
    let is_layered := icetSparseImageIsLayered in_image
    let offsets := icetSparseImageSplitChoosePartitions num_partitions
      eventual_num_partitions total_num_pixels in_image_offset
    let start : ScanCursor := ⟨in_image.payload, 0, 0, 0⟩
    let first : Option (List IceTSparseImage × ScanCursor) :=
      match out_images.head? with
      | some (some out_image) =>
        if icetSparseImageEqual in_image out_image then
          let partition_num_pixels := offsets.getD 1 0 - offsets.getD 0 0
          if is_layered then
            (icetSparseLayeredImageCopyPixelsInPlaceInternal start partition_num_pixels
              out_image).map fun r => ([some r.2], r.1)
          else
            (icetSparseImageCopyPixelsInPlaceInternal start partition_num_pixels
              out_image).map fun r => ([some r.2], r.1)
        else some ([], start)
      | _ => some ([], start)
    first.bind fun f =>
      (icetSparseImageSplitAllocLoop st in_image offsets num_partitions total_num_pixels
          in_image_offset ((out_images.take num_partitions.toNat).drop f.1.length)
          f.1.length out_buffer f.2).map fun r =>
        (f.1 ++ r.1 ++ out_images.drop num_partitions.toNat, offsets,
          [Event.timingCompressBegin]
            ++ fragmentSizeDiagnostics in_image.color_format in_image.depth_format
            ++ r.2 ++ [Event.timingCompressEnd])

/-- `icetSparseImageInterlaceAlloc`, for a non-null `in_image`: the image returned and
the events.  `out_buffer` is the address of the buffer that `icetGetStateBuffer` returns
for `out_buffer_pname`.  The image is created with the dimensions of the input, takes
its formats, receives the interlaced pixels and then has `max_num_pixels` set to 0 ("to
be safe, trigger an error whenever the image is resized"). -/
def icetSparseImageInterlaceAlloc (st : IceTState) (in_image : IceTSparseImageData)
    (eventual_num_partitions : Int) (out_buffer : Nat) :
    Option (IceTSparseImage × List Event) :=
  let assigned :=
    if icetSparseImageIsLayered in_image then
      icetSparseLayeredImageAssignBuffer st (some out_buffer)
        (icetSparseImageGetWidth (some in_image)) (icetSparseImageGetHeight (some in_image))
    else
      icetSparseImageAssignBuffer st (some out_buffer)
        (icetSparseImageGetWidth (some in_image)) (icetSparseImageGetHeight (some in_image))
  assigned.1.bind fun created =>
    let out_image :=
      { created with color_format := icetSparseImageGetColorFormat (some in_image),
                     depth_format := icetSparseImageGetDepthFormat (some in_image) }
    (icetSparseImageInterlace in_image eventual_num_partitions out_image).map fun r =>
      (some { r.1 with max_num_pixels := 0 }, assigned.2 ++ r.2)

/-- `icetCompressedCompressedCompositeAlloc`, for non-null inputs: the image returned
and the events.  `dest_buffer` is the address of the buffer that `icetGetStateBuffer`
returns for `dest_buffer_pname`.  For flat images the size asked for goes through
`MIN(dest_image_size, icetSparseImageBufferSize(..))`; the macro evaluates the call a
second time when it yields its second argument, and every call computes the fragment
size of the formats of the state twice.  The image is created with the width of the front image and the height of the
back image, receives the composite and then has `max_num_pixels` set to 0 ("resizing it
should trigger an error"). -/
def icetCompressedCompressedCompositeAlloc (fa : FloatArith) (st : IceTState)
    (front_image back_image : IceTSparseImageData) (dest_buffer : Nat) :
    Option (IceTSparseImage × List Event) :=
  let is_layered := icetSparseImageIsLayered front_image
  let dest_image_size := icetSparseImageGetCompressedBufferSize (some front_image)
    + icetSparseImageGetCompressedBufferSize (some back_image)
  let size_events : List Event :=
    fragmentSizeDiagnostics st.color_format st.depth_format
      ++ fragmentSizeDiagnostics st.color_format st.depth_format
  let ev0 : List Event :=
    if is_layered then []
    else if dest_image_size
        < icetSparseImageBufferSizeType st.color_format st.depth_format
            (icetSparseImageGetWidth (some front_image))
            (icetSparseImageGetHeight (some front_image)) then size_events
    else size_events ++ size_events
  let assigned :=
    if is_layered then
      icetSparseLayeredImageAssignBuffer st (some dest_buffer)
        (icetSparseImageGetWidth (some front_image))
        (icetSparseImageGetHeight (some back_image))
    else
      icetSparseImageAssignBuffer st (some dest_buffer)
        (icetSparseImageGetWidth (some front_image))
        (icetSparseImageGetHeight (some back_image))
  assigned.1.bind fun dest_image =>
    (icetCompressedCompressedComposite fa st front_image back_image dest_image).map fun r =>
      (some { r.1 with max_num_pixels := 0 }, ev0 ++ assigned.2 ++ r.2)

/-- The capacity invariant of a dense image: `width*height ≤ max_pixels`. -/
def IceTImageData.WithinMax (image : IceTImageData) : Prop :=
  image.width * image.height ≤ image.max_num_pixels

instance (image : IceTImageData) : Decidable image.WithinMax := by
  unfold IceTImageData.WithinMax
  infer_instance

/-- The capacity invariant of a sparse image: `width*height ≤ max_pixels`. -/
def IceTSparseImageData.WithinMax (image : IceTSparseImageData) : Prop :=
  image.width * image.height ≤ image.max_num_pixels

instance (image : IceTSparseImageData) : Decidable image.WithinMax := by
  unfold IceTSparseImageData.WithinMax
  infer_instance

/-- Whether `icetSparseImageSplitAlloc` copies partition 0 in place: `out_images[0]` is
the buffer of `in_image`. -/
def splitAllocInPlace (in_image : IceTSparseImageData) (out_images : List IceTSparseImage) :
    Bool :=
  match out_images.head? with
  | some (some out_image) => icetSparseImageEqual in_image out_image
  | _ => false

/-! ## The strips of `icetImageClearAroundRegion` -/

/-- The fragment indices the loop "Clear out bottom" of `icetImageClearAroundRegion`
visits, in order: the rows `0 ≤ y < region[1]`, all columns. -/
def clearedBottom (width : Int) (num_layers : Nat) (region1 : Int) : List Int :=
  (List.range (region1 - 0).toNat).flatMap fun (k : Nat) =>
    clearedColumns width num_layers (0 + (k : Int)) 0 width

/-- The fragment indices the loop "Clear out left and right" visits, in order: in the
rows `region[1] ≤ y < region[1] + region[3]`, the columns left of the region and then
the columns right of it; nothing when the region spans the width. -/
def clearedSides (width : Int) (num_layers : Nat) (region0 region1 region2 region3 : Int) :
    List Int :=
  if region0 > 0 ∨ region0 + region2 < width then
    (List.range (region1 + region3 - region1).toNat).flatMap fun (k : Nat) =>
      clearedColumns width num_layers (region1 + (k : Int)) 0 region0
        ++ clearedColumns width num_layers (region1 + (k : Int)) (region0 + region2) width
  else []

/-- The fragment indices the loop "Clear out top" visits, in order: the rows
`region[1] + region[3] ≤ y < height`, all columns. -/
def clearedTop (width height : Int) (num_layers : Nat) (region1 region3 : Int) : List Int :=
  (List.range (height - (region1 + region3)).toNat).flatMap fun (k : Nat) =>
    clearedColumns width num_layers (region1 + region3 + (k : Int)) 0 width
/-! ## Timing hooks -/

/-- Whether an event is a call of a timing hook. -/
def Event.isTiming : Event → Bool
  | .raiseError _ => false
  | .raiseWarning _ => false
  | _ => true

/-- The calls of one pair of hooks are balanced in a sequence of events: the begin hook
is called as often as the end hook, and in every initial part of the sequence the end
hook is called at most as often as the begin hook (no end before its begin). -/
def hooksBalanced (begin_hook end_hook : Event) (events : List Event) : Prop :=
  events.count begin_hook = events.count end_hook
    ∧ ∀ p ∈ events.inits, p.count end_hook ≤ p.count begin_hook

instance (begin_hook end_hook : Event) (events : List Event) :
    Decidable (hooksBalanced begin_hook end_hook events) := by
  unfold hooksBalanced
  infer_instance

/-- The three pairs of timing hooks of the image core (compress, interlace, blend) are
balanced in a sequence of events. -/
def timingBalanced (events : List Event) : Prop :=
  hooksBalanced .timingCompressBegin .timingCompressEnd events
    ∧ hooksBalanced .timingInterlaceBegin .timingInterlaceEnd events
    ∧ hooksBalanced .timingBlendBegin .timingBlendEnd events

instance (events : List Event) : Decidable (timingBalanced events) := by
  unfold timingBalanced
  infer_instance
/-! ## Rendering a tile

`renderTile` reads its inputs from the state store, asks `getRenderBuffer` for the
buffer of the floating viewport and calls the draw callback.  The state store, the
projection matrices and the callback are external collaborators: the state variables
read are the fields of `TileState`, the buffer that `getRenderBuffer` returns and the
draw callback are parameters, and the matrices are not modelled. -/

/-- An `IceTInt[4]` viewport: the elements 0 to 3 are `x`, `y`, `width`, `height`. -/
structure Viewport where
  x : Int
  y : Int
  width : Int
  height : Int
  deriving DecidableEq, Repr

/-- The state variables `renderTile` reads for one tile. -/
structure TileState where
  /-- The state variable `ICET_CONTAINED_VIEWPORT`. -/
  contained_viewport : Viewport
  /-- The four entries of `ICET_TILE_VIEWPORTS` for the tile. -/
  tile_viewport : Viewport
  /-- The entry of `ICET_CONTAINED_TILES_MASK` for the tile. -/
  contained_mask : Bool
  /-- Whether `ICET_FLOATING_VIEWPORT` is enabled. -/
  floating_viewport : Bool
  /-- The state variable `ICET_PHYSICAL_RENDER_WIDTH`. -/
  physical_render_width : Int
  /-- The state variable `ICET_PHYSICAL_RENDER_HEIGHT`. -/
  physical_render_height : Int
  /-- Whether `ICET_RENDER_EMPTY_IMAGES` is enabled. -/
  render_empty_images : Bool
  /-- The state variable `ICET_RENDERED_VIEWPORT`. -/
  rendered_viewport : Viewport
  /-- The time stamp `icetStateGetTime(ICET_RENDERED_VIEWPORT)`. -/
  rendered_viewport_time : Nat
  /-- The time stamp `icetStateGetTime(ICET_IS_DRAWING_FRAME)`. -/
  is_drawing_frame_time : Nat
  deriving DecidableEq, Repr

/-- What a call of `renderTile` leaves behind. -/
structure RenderedTile where
  /-- The output array `screen_viewport`. -/
  screen_viewport : Viewport
  /-- The output array `target_viewport`. -/
  target_viewport : Viewport
  /-- The image returned. -/
  image : IceTImage
  /-- The viewport handed to the draw callback, `none` when the callback is not
  called. -/
  drawn : Option Viewport
  /-- The value stored in `ICET_RENDERED_VIEWPORT`, `none` when nothing is stored. -/
  stored_viewport : Option Viewport
  /-- The diagnostics raised. -/
  events : List Event
  deriving DecidableEq, Repr

/-- The macro `MIN` on `IceTInt` values. -/
def minInt (x y : Int) : Int := MIN (fun a b => decide (a < b)) x y

/-- The end of `renderTile`, from "Make sure that the current render_buffer is sized
appropriately" on: the buffer of the floating viewport replaces a buffer of another
size, and the draw callback fills the buffer for `readback_viewport`.  The hooks
`icetTimingRenderBegin` and `icetTimingRenderEnd` around the callback are not
recorded. -/
def renderTileDraw (s : TileState) (own_buffer : IceTImage)
    (drawfunc : Viewport → IceTImage → IceTImage)
    (screen_viewport target_viewport readback_viewport : Viewport) (render_buffer : IceTImage)
    (stored_viewport : Option Viewport) (events : List Event) : RenderedTile :=
  let render_buffer :=
    if icetImageGetWidth render_buffer ≠ s.physical_render_width
        ∨ icetImageGetHeight render_buffer ≠ s.physical_render_height then own_buffer
    else render_buffer
  { screen_viewport := screen_viewport
    target_viewport := target_viewport
    image := drawfunc readback_viewport render_buffer
    drawn := some readback_viewport
    stored_viewport := stored_viewport
    events := events }

/-- `renderTile(tile, screen_viewport, target_viewport, tile_buffer)`.  `own_buffer` is
the image `getRenderBuffer()` returns and `drawfunc` the draw callback, as a function
of the readback viewport and the buffer. -/
def renderTile (s : TileState) (own_buffer : IceTImage)
    (drawfunc : Viewport → IceTImage → IceTImage) (tile_buffer : IceTImage) : RenderedTile :=
  let contained_viewport := s.contained_viewport
  let tile_viewport := s.tile_viewport
  let physical_width := s.physical_render_width
  let physical_height := s.physical_render_height
  if ¬ s.contained_mask
      ∨ contained_viewport.x + contained_viewport.width < tile_viewport.x
      ∨ contained_viewport.y + contained_viewport.height < tile_viewport.y
      ∨ contained_viewport.x > tile_viewport.x + tile_viewport.width
      ∨ contained_viewport.y > tile_viewport.y + tile_viewport.height then
    -- Case 0: geometry completely outside tile.
    let zero : Viewport := ⟨0, 0, 0, 0⟩
    if ¬ s.render_empty_images then
      { screen_viewport := zero, target_viewport := zero, image := tile_buffer,
        drawn := none, stored_viewport := none, events := [] }
    else renderTileDraw s own_buffer drawfunc zero zero zero tile_buffer none []
  else if contained_viewport.x ≥ tile_viewport.x ∧ contained_viewport.y ≥ tile_viewport.y
      ∧ contained_viewport.width + contained_viewport.x
        ≤ tile_viewport.width + tile_viewport.x
      ∧ contained_viewport.height + contained_viewport.y
        ≤ tile_viewport.height + tile_viewport.y then
    -- Case 1: geometry fits entirely within tile.
    let viewport : Viewport :=
      ⟨contained_viewport.x - tile_viewport.x, contained_viewport.y - tile_viewport.y,
        contained_viewport.width, contained_viewport.height⟩
    renderTileDraw s own_buffer drawfunc viewport viewport viewport tile_buffer
      (some tile_viewport) []
  else if ¬ s.floating_viewport ∨ contained_viewport.width > physical_width
      ∨ contained_viewport.height > physical_height then
    -- Case 2: Can't use floating viewport.
    let horizontal : Int × Int :=
      if contained_viewport.x ≤ tile_viewport.x then
        (0, minInt tile_viewport.width
          (contained_viewport.x + contained_viewport.width - tile_viewport.x))
      else
        (contained_viewport.x - tile_viewport.x,
          minInt contained_viewport.width
            (tile_viewport.x + tile_viewport.width - contained_viewport.x))
    let vertical : Int × Int :=
      if contained_viewport.y ≤ tile_viewport.y then
        (0, minInt tile_viewport.height
          (contained_viewport.y + contained_viewport.height - tile_viewport.y))
      else
        (contained_viewport.y - tile_viewport.y,
          minInt contained_viewport.height
            (tile_viewport.y + tile_viewport.height - contained_viewport.y))
    let viewport : Viewport := ⟨horizontal.1, vertical.1, horizontal.2, vertical.2⟩
    renderTileDraw s own_buffer drawfunc viewport viewport viewport tile_buffer
      (some tile_viewport) []
  else
    -- Case 3: Using floating viewport.
    let rendered_viewport : Viewport :=
      ⟨contained_viewport.x, contained_viewport.y, physical_width, physical_height⟩
    let readback_viewport : Viewport :=
      ⟨0, 0, contained_viewport.width, contained_viewport.height⟩
    -- (screen x, screen width, target x, target width)
    let horizontal : Int × Int × Int × Int :=
      if contained_viewport.x < tile_viewport.x then
        let screen_x := tile_viewport.x - contained_viewport.x
        let screen_width := minInt (contained_viewport.width - screen_x) tile_viewport.width
        (screen_x, screen_width, 0, screen_width)
      else
        let target_x := contained_viewport.x - tile_viewport.x
        let target_width := minInt (tile_viewport.width - target_x) contained_viewport.width
        (0, target_width, target_x, target_width)
    let vertical : Int × Int × Int × Int :=
      if contained_viewport.y < tile_viewport.y then
        let screen_y := tile_viewport.y - contained_viewport.y
        let screen_height :=
          minInt (contained_viewport.height - screen_y) tile_viewport.height
        (screen_y, screen_height, 0, screen_height)
      else
        let target_y := contained_viewport.y - tile_viewport.y
        let target_height :=
          minInt (tile_viewport.height - target_y) contained_viewport.height
        (0, target_height, target_y, target_height)
    let screen_viewport : Viewport :=
      ⟨horizontal.1, vertical.1, horizontal.2.1, vertical.2.1⟩
    let target_viewport : Viewport :=
      ⟨horizontal.2.2.1, vertical.2.2.1, horizontal.2.2.2, vertical.2.2.2⟩
    let render_buffer := own_buffer
    if s.rendered_viewport_time > s.is_drawing_frame_time then
      let old_rendered_viewport := s.rendered_viewport
      let old_rendered_viewport_valid : Bool :=
        old_rendered_viewport.x == rendered_viewport.x
          || old_rendered_viewport.y == rendered_viewport.y
          || old_rendered_viewport.width == rendered_viewport.width
          || old_rendered_viewport.height == rendered_viewport.height
      if ¬ old_rendered_viewport_valid then
        renderTileDraw s own_buffer drawfunc screen_viewport target_viewport
          readback_viewport render_buffer (some rendered_viewport)
          [.raiseError .SANITY_CHECK_FAIL]
      else
        { screen_viewport := screen_viewport, target_viewport := target_viewport,
          image := render_buffer, drawn := none, stored_viewport := none, events := [] }
    else
      renderTileDraw s own_buffer drawfunc screen_viewport target_viewport readback_viewport
        render_buffer (some rendered_viewport) []

/-- Whether `renderTile` takes its case 3, the floating viewport. -/
def usesFloatingViewport (s : TileState) : Bool :=
  decide (¬ (¬ s.contained_mask
      ∨ s.contained_viewport.x + s.contained_viewport.width < s.tile_viewport.x
      ∨ s.contained_viewport.y + s.contained_viewport.height < s.tile_viewport.y
      ∨ s.contained_viewport.x > s.tile_viewport.x + s.tile_viewport.width
      ∨ s.contained_viewport.y > s.tile_viewport.y + s.tile_viewport.height)
    ∧ ¬ (s.contained_viewport.x ≥ s.tile_viewport.x ∧ s.contained_viewport.y ≥ s.tile_viewport.y
      ∧ s.contained_viewport.width + s.contained_viewport.x
        ≤ s.tile_viewport.width + s.tile_viewport.x
      ∧ s.contained_viewport.height + s.contained_viewport.y
        ≤ s.tile_viewport.height + s.tile_viewport.y)
    ∧ ¬ (¬ s.floating_viewport ∨ s.contained_viewport.width > s.physical_render_width
      ∨ s.contained_viewport.height > s.physical_render_height))

/-- Two tiles of 100x100 pixels side by side, rendered at the physical size 100x100,
with geometry in `(50, 10, 50, 50)`: it lies in the left tile `(0, 0, 100, 100)` and
touches the right tile `(100, 0, 100, 100)`.  The state is the one for the right tile
after the left tile has been rendered in this frame (case 1, which stores the viewport
of the left tile in `ICET_RENDERED_VIEWPORT`).  The viewport about to be rendered for
the right tile is `(50, 10, 100, 100)`; the stored one agrees with it in width and
height only. -/
def staleViewportState : TileState :=
  { contained_viewport := ⟨50, 10, 50, 50⟩
    tile_viewport := ⟨100, 0, 100, 100⟩
    contained_mask := true
    floating_viewport := true
    physical_render_width := 100
    physical_render_height := 100
    render_empty_images := false
    rendered_viewport := ⟨0, 0, 100, 100⟩
    rendered_viewport_time := 2
    is_drawing_frame_time := 1 }

/-- A draw callback that returns the buffer it is given. -/
def idleDraw : Viewport → IceTImage → IceTImage := fun _ buffer => buffer

/-- The state for the left tile of `staleViewportState`, before anything is rendered in
the frame. -/
def leftTileState : TileState :=
  { staleViewportState with tile_viewport := ⟨0, 0, 100, 100⟩, rendered_viewport_time := 0 }
/-! ## Decompression with background correction

The body `decompress_func_body.h` is not part of the sources at hand.
`icetDecompressSubImageCorrectBackground` takes the body it includes with
`CORRECT_BACKGROUND` as a parameter; `decompressCorrectingBody` is a model of that body
with which the function is evaluated on an example. -/

/-- `icetDecompressSubImageCorrectBackground`, for non-null handles.
`correcting_body` is the included body with `CORRECT_BACKGROUND` defined, as a function
of the state, `INPUT_SPARSE_IMAGE`, `OFFSET`, `PIXEL_COUNT` and `OUTPUT_IMAGE`.  The
branch for `!need_correction` calls `icetDecompressSubImage` and does not return: the
included body follows it on both paths. -/
def icetDecompressSubImageCorrectBackground
    (correcting_body : IceTState → IceTSparseImageData → Int → Int → IceTImageData →
      Option (IceTImageData × List Event))
    (st : IceTState) (compressed_image : IceTSparseImageData) (offset : Int)
    (image : IceTImageData) : Option (IceTImageData × List Event) :=
  let need_correction := st.need_background_correction
  if ¬ need_correction then
    -- Do a normal decompress.
    (icetDecompressSubImage st compressed_image offset image).bind fun normal =>
      (correcting_body st compressed_image offset
          (icetSparseImageGetNumPixels (some compressed_image)) normal.1).map fun r =>
        (r.1, normal.2 ++ r.2)
  else
    correcting_body st compressed_image offset
      (icetSparseImageGetNumPixels (some compressed_image)) image

/-- `icetDecompressImageCorrectBackground`, for non-null handles. -/
def icetDecompressImageCorrectBackground
    (correcting_body : IceTState → IceTSparseImageData → Int → Int → IceTImageData →
      Option (IceTImageData × List Event))
    (st : IceTState) (compressed_image : IceTSparseImageData) (image : IceTImageData) :
    Option (IceTImageData × List Event) :=
  let resized := icetImageSetDimensions (some image)
    (icetSparseImageGetWidth (some compressed_image))
    (icetSparseImageGetHeight (some compressed_image))
  match resized.1 with
  | none => none
  | some image1 =>
    (icetDecompressSubImageCorrectBackground correcting_body st compressed_image 0
        image1).map fun r =>
      (r.1, resized.2 ++ r.2)

/-- Modelled from the spec: the fragment the decode loop stores for an active pixel
under `CORRECT_BACKGROUND` (section 4.3, Decode): the UNDER operator with the true
background color is applied to an RGBA color; an RGB float color, which has no alpha,
is kept. -/
def correctedFragment (fa : FloatArith) (st : IceTState) (color_format : ColorFormat)
    (fragment : Fragment) : Fragment :=
  match color_format with
  | .RGBA_UBYTE =>
    { fragment with
      color := (ICET_UNDER_UBYTE (.src 0) (.dest 0)
        { src := st.true_background_color_word, dest := fragment.color }).dest }
  | .RGBA_FLOAT =>
    { fragment with
      color := (ICET_UNDER_FLOAT fa (.src 0) (.dest 0)
        { src := st.true_background_color, dest := fragment.color }).dest }
  | _ => fragment

/-- Modelled from the spec: the loop of `decompress_func_body.h` under
`CORRECT_BACKGROUND` (section 4.3, Decode): an inactive pixel is cleared to the true
background, an active pixel receives its fragment blended with the true background. -/
def decompressCorrectingLoop (fa : FloatArith) (st : IceTState) (color_format : ColorFormat)
    (depth_format : DepthFormat) :
    Nat → Nat → SparseCursor → List Nat × List Nat → Option (List Nat × List Nat)
  | 0, _, _, buffers => some buffers
  | count + 1, pixel, cursor, buffers =>
    match cursor.scan with
    | none => none
    | some (fragment, next) =>
      decompressCorrectingLoop fa st color_format depth_format count (pixel + 1) next
        (storeFragment color_format depth_format
          ((fragment.map (correctedFragment fa st color_format)).getD
            (backgroundFragment
              { st with background_color := st.true_background_color,
                        background_color_word := st.true_background_color_word }
              color_format depth_format))
          pixel buffers)

/-- Modelled from the spec: the body `decompress_func_body.h` with `CORRECT_BACKGROUND`,
for flat images.  Mismatched formats raise `INVALID_VALUE` and leave the output as it
is.  `none`: a malformed stream, or a layered or pointer-backed image, which this model
does not cover. -/
def decompressCorrectingBody (fa : FloatArith) (st : IceTState)
    (input_sparse_image : IceTSparseImageData) (offset pixel_count : Int)
    (output_image : IceTImageData) : Option (IceTImageData × List Event) :=
  if output_image.magic_num ≠ ICET_IMAGE_MAGIC_NUM
      ∨ input_sparse_image.magic_num ≠ ICET_SPARSE_IMAGE_MAGIC_NUM then none
  else if input_sparse_image.color_format ≠ output_image.color_format
      ∨ input_sparse_image.depth_format ≠ output_image.depth_format then
    some (output_image, [.raiseError .INVALID_VALUE])
  else
    (decompressCorrectingLoop fa st output_image.color_format output_image.depth_format
        pixel_count.toNat offset.toNat (SparseCursor.atStart input_sparse_image.payload)
        (output_image.color, output_image.depth)).map fun buffers =>
      ({ output_image with color := buffers.1, depth := buffers.2 }, [])

/-- A state in blend mode whose background is the opaque blue `(0, 0, 255, 255)` and
which needs no background correction: the true background is the background. -/
def blueBackgroundState : IceTState :=
  { composite_mode := .BLEND, background_color := [0, 0, FLOAT_ONE, FLOAT_ONE],
    background_color_word := [0, 0, 255, 255], need_background_correction := false,
    true_background_color := [0, 0, FLOAT_ONE, FLOAT_ONE],
    true_background_color_word := [0, 0, 255, 255] }

/-- The header of a flat RGBA32F + D32F buffer image of 20000 x 20000 pixels, as
`icetImageAssignBuffer` writes it; the 8 GB of pixel data are left out. -/
def hugeImage : IceTImageData :=
  { magic_num := ICET_IMAGE_MAGIC_NUM, color_format := .RGBA_FLOAT, depth_format := .FLOAT,
    width := 20000, height := 20000, max_num_pixels := 20000 * 20000,
    actual_buffer_size := icetImageBufferSizeType .RGBA_FLOAT .FLOAT 20000 20000,
    num_layers := 1, color := [], depth := [] }

/-- A 1x3 RGBA8 + D32F image whose pixel `i` has the color `(i, i, i, 255)` and the depth
word `i`. -/
def columnImage : IceTImageData :=
  { flatImage 1 3 [0, 0, 0, 255, 1, 1, 1, 255, 2, 2, 2, 255] [0, 1, 2] with address := 3 }

/-- The logical pixels of `sparseFront`. -/
def sparseFrontPixels : List (Option Fragment) :=
  [some { color := [255, 0, 0, 255], depth := [0x3E4CCCCD] }, none]

/-- The logical pixels of `sparseBack`. -/
def sparseBackPixels : List (Option Fragment) :=
  [some { color := [0, 0, 255, 255], depth := [0x3F000000] },
   some { color := [255, 255, 0, 255], depth := [0x3E99999A] }]

/-- The float blend scenario, front image: orange and an inactive pixel. -/
def floatFront : IceTSparseImageData :=
  floatSparse 1 [.runLength 0 1, .pixel opaqueOrange, .runLength 1 0]

/-- The float blend scenario, back image: an inactive pixel and azure. -/
def floatBack : IceTSparseImageData := floatSparse 2 [.runLength 1 1, .pixel opaqueAzure]

/-- The float blend scenario: the cleared sparse image composited into. -/
def floatDest : IceTSparseImageData := floatSparse 3 [.runLength 2 0]

/-- The logical pixels of `floatFront`. -/
def floatFrontPixels : List (Option Fragment) := [some opaqueOrange, none]

/-- The logical pixels of `floatBack`. -/
def floatBackPixels : List (Option Fragment) := [none, some opaqueAzure]

end IceT

/-! ## Theorems -/

namespace IceT

/-! ### Arrays -/

theorem getD_of_length_le (l : List Nat) (i : Nat) (h : l.length ≤ i) : l.getD i 0 = 0 := by
  simp [List.getD_eq_getElem?_getD, List.getElem?_eq_none h]

theorem getD_set_eq (l : List Nat) (i j a : Nat) :
    (l.set i a).getD j 0 = if i = j ∧ i < l.length then a else l.getD j 0 := by
  by_cases h : i = j
  · subst h
    by_cases h2 : i < l.length
    · simp [List.getD_eq_getElem?_getD, List.getElem?_set, h2]
    · rw [getD_of_length_le _ _ (by simp; omega), getD_of_length_le _ _ (by omega)]
      simp [h2]
  · simp [List.getD_eq_getElem?_getD, List.getElem?_set, h]

theorem foldl_copyElement_length (src : List Nat) (L : List Nat) (dst : List Nat) :
    (L.foldl (copyElement src) dst).length = dst.length := by
  induction L generalizing dst with
  | nil => rfl
  | cons a L ih => simp [List.foldl, ih, copyElement]

theorem foldl_copyElement_getD (src : List Nat) (L : List Nat) (dst : List Nat) (k : Nat) :
    (L.foldl (copyElement src) dst).getD k 0
      = if k ∈ L ∧ k < dst.length then src.getD k 0 else dst.getD k 0 := by
  induction L generalizing dst with
  | nil => simp
  | cons a L ih =>
    simp only [List.foldl_cons, ih, copyElement, List.length_set, getD_set_eq, List.mem_cons]
    by_cases h2 : k < dst.length
    · by_cases h1 : k ∈ L
      · simp [h1, h2]
      · by_cases h3 : a = k
        · subst h3; simp [h1, h2]
        · have : ¬ k = a := fun h => h3 h.symm
          simp [h1, h3, this]
    · have : dst.getD k 0 = 0 := getD_of_length_le _ _ (by omega)
      by_cases h3 : a = k
      · subst h3; simp [h2]
      · simp [h2, h3]

/-! ### The Z-buffer loop -/

theorem mem_zBufferColorElements (cf : ColorFormat) (i j c : Nat) (hc : c < colorChannels cf) :
    colorChannels cf * j + c ∈ zBufferColorElements cf i ↔ j = i := by
  cases cf <;> simp [colorChannels, zBufferColorElements] at hc ⊢ <;> omega

theorem zBufferLoop_spec (cf : ColorFormat) (sD sC D0 C0 : List Nat) (n : Nat) :
    let r := (List.range n).foldl (zBufferStep cf sD sC) (D0, C0)
    r.1.length = D0.length ∧ r.2.length = C0.length ∧
    (∀ j, r.1.getD j 0
        = if j < n ∧ j < D0.length ∧ floatLt (sD.getD j 0) (D0.getD j 0) = true
          then sD.getD j 0 else D0.getD j 0) ∧
    (∀ j c, c < colorChannels cf → r.2.getD (colorChannels cf * j + c) 0
        = if j < n ∧ colorChannels cf * j + c < C0.length
              ∧ floatLt (sD.getD j 0) (D0.getD j 0) = true
          then sC.getD (colorChannels cf * j + c) 0
          else C0.getD (colorChannels cf * j + c) 0) := by
  induction n with
  | zero => simp
  | succ n ih =>
    simp only [List.range_succ, List.foldl_append, List.foldl_cons, List.foldl_nil]
    obtain ⟨h1, h2, h3, h4⟩ := ih
    generalize (List.range n).foldl (zBufferStep cf sD sC) (D0, C0) = r at h1 h2 h3 h4
    have hn : r.1.getD n 0 = D0.getD n 0 := by rw [h3]; simp
    unfold zBufferStep
    rw [hn]
    by_cases hlt : floatLt (sD.getD n 0) (D0.getD n 0) = true
    · rw [if_pos hlt]
      refine ⟨by simp [-List.getD_eq_getElem?_getD, h1], by simp [-List.getD_eq_getElem?_getD, foldl_copyElement_length, h2], ?_, ?_⟩
      · intro j
        rw [getD_set_eq, h3 j, h1]
        by_cases hj : n = j
        · subst hj
          by_cases hl : n < D0.length <;> simp [-List.getD_eq_getElem?_getD, hlt, hl]
        · have : j < n + 1 ↔ j < n := by omega
          simp [-List.getD_eq_getElem?_getD, hj, this]
      · intro j c hc
        have hmem := mem_zBufferColorElements cf n j c hc
        rw [foldl_copyElement_getD, h4 j c hc, h2]
        by_cases hj : j = n
        · subst hj
          have hm : colorChannels cf * j + c ∈ zBufferColorElements cf j := hmem.2 rfl
          simp [-List.getD_eq_getElem?_getD, hlt, hm]
        · have : j < n + 1 ↔ j < n := by omega
          have hm : ¬ colorChannels cf * j + c ∈ zBufferColorElements cf n :=
            fun h => hj (hmem.1 h)
          simp [-List.getD_eq_getElem?_getD, hm, this]
    · rw [if_neg hlt]
      refine ⟨h1, h2, ?_, ?_⟩
      · intro j
        rw [h3 j]
        by_cases hj : j = n
        · subst hj; simp [-List.getD_eq_getElem?_getD, hlt]
        · have : j < n + 1 ↔ j < n := by omega
          simp [-List.getD_eq_getElem?_getD, this]
      · intro j c hc
        rw [h4 j c hc]
        by_cases hj : j = n
        · subst hj; simp [-List.getD_eq_getElem?_getD, hlt]
        · have : j < n + 1 ↔ j < n := by omega
          simp [-List.getD_eq_getElem?_getD, this]

theorem icetComposite_zbuffer_eq (fa : FloatArith) (st : IceTState)
    (dest src : IceTImageData) (srcOnTop : Bool)
    (hmode : st.composite_mode = .Z_BUFFER)
    (hdm : dest.magic_num = ICET_IMAGE_MAGIC_NUM ∨ dest.magic_num = ICET_IMAGE_POINTERS_MAGIC_NUM)
    (hsm : src.magic_num = ICET_IMAGE_MAGIC_NUM ∨ src.magic_num = ICET_IMAGE_POINTERS_MAGIC_NUM)
    (hpix : dest.width * dest.height = src.width * src.height)
    (hcf : dest.color_format = src.color_format)
    (hvalid : dest.color_format ∈ [ColorFormat.RGBA_UBYTE, .RGBA_FLOAT, .RGB_FLOAT, .NONE])
    (hdd : dest.depth_format = .FLOAT) (hsd : src.depth_format = .FLOAT) :
    ∃ ev, icetComposite fa st (some dest) (some src) srcOnTop
      = some (some { dest with
          depth := (zBufferLoop dest.color_format (dest.width * dest.height) src.depth src.color
            (dest.depth, dest.color)).1,
          color := (zBufferLoop dest.color_format (dest.width * dest.height) src.depth src.color
            (dest.depth, dest.color)).2 }, ev) := by
  have hd : isImageMagic dest.magic_num = true := by
    rcases hdm with h | h <;> rw [h] <;> decide
  have hs : isImageMagic src.magic_num = true := by
    rcases hsm with h | h <;> rw [h] <;> decide
  have hcs := hcf.symm
  cases hc : dest.color_format with
  | invalid raw => simp [hc] at hvalid
  | _ =>
    rw [hc] at hcs
    simp [icetComposite, icetImageGetNumPixels, icetImageGetColorFormat, icetImageGetDepthFormat,
      hpix, hc, hcs, hdd, hsd, hmode, icetImageGetDepthcf, icetImageGetDepthf,
      icetImageGetDepthVoid, icetImageGetDepthConstVoid, hd, hs, icetImageGetColorui,
      icetImageGetColorub, icetImageGetColorf, icetImageGetColorVoid,
      icetImageGetColorConstVoid, guardPointers]
    try (intro _; split_ifs <;> simp)

/-- Claim C1. In Z-buffer mode, for two non-layered dense images with the same number
of pixels, the same (valid) color format and depth format D32F, `icetComposite`
returns a destination in which, at every pixel `i`, color and depth are those of the
source when `src.depth[i] < dest.depth[i]` and are unchanged otherwise (a tie keeps
the destination); the resulting depth is `MIN(src.depth[i], dest.depth[i])`, the
header is unchanged and the result is the same for both values of `srcOnTop`. -/
theorem icetComposite_zbuffer_pixelwise (fa : FloatArith) (st : IceTState)
    (dest src : IceTImageData) (srcOnTop : Bool)
    (hmode : st.composite_mode = .Z_BUFFER)
    (hdm : dest.magic_num = ICET_IMAGE_MAGIC_NUM ∨ dest.magic_num = ICET_IMAGE_POINTERS_MAGIC_NUM)
    (hsm : src.magic_num = ICET_IMAGE_MAGIC_NUM ∨ src.magic_num = ICET_IMAGE_POINTERS_MAGIC_NUM)
    (hpix : dest.width * dest.height = src.width * src.height)
    (hcf : dest.color_format = src.color_format)
    (hvalid : dest.color_format ∈ [ColorFormat.RGBA_UBYTE, .RGBA_FLOAT, .RGB_FLOAT, .NONE])
    (hdd : dest.depth_format = .FLOAT) (hsd : src.depth_format = .FLOAT)
    (hdlen : (dest.width * dest.height).toNat ≤ dest.depth.length)
    (hclen : colorChannels dest.color_format * (dest.width * dest.height).toNat
      ≤ dest.color.length) :
    ∃ r ev, icetComposite fa st (some dest) (some src) srcOnTop = some (some r, ev)
      ∧ icetComposite fa st (some dest) (some src) (!srcOnTop) = some (some r, ev)
      ∧ r.magic_num = dest.magic_num ∧ r.color_format = dest.color_format
      ∧ r.depth_format = dest.depth_format ∧ r.width = dest.width ∧ r.height = dest.height
      ∧ ∀ i : Nat, (i : Int) < dest.width * dest.height →
          r.depth.getD i 0 = MIN floatLt (src.depth.getD i 0) (dest.depth.getD i 0)
          ∧ (floatLt (src.depth.getD i 0) (dest.depth.getD i 0) = true →
              r.depth.getD i 0 = src.depth.getD i 0
              ∧ ∀ c, c < colorChannels dest.color_format →
                  r.color.getD (colorChannels dest.color_format * i + c) 0
                    = src.color.getD (colorChannels dest.color_format * i + c) 0)
          ∧ (floatLt (src.depth.getD i 0) (dest.depth.getD i 0) = false →
              r.depth.getD i 0 = dest.depth.getD i 0
              ∧ ∀ c, c < colorChannels dest.color_format →
                  r.color.getD (colorChannels dest.color_format * i + c) 0
                    = dest.color.getD (colorChannels dest.color_format * i + c) 0) := by
  obtain ⟨ev, he⟩ := icetComposite_zbuffer_eq fa st dest src srcOnTop hmode hdm hsm hpix hcf
    hvalid hdd hsd
  obtain ⟨ev2, he2⟩ := icetComposite_zbuffer_eq fa st dest src (!srcOnTop) hmode hdm hsm hpix hcf
    hvalid hdd hsd
  have hev : ev2 = ev := by
    have h1 : icetComposite fa st (some dest) (some src) (!srcOnTop)
        = icetComposite fa st (some dest) (some src) srcOnTop := by
      cases srcOnTop <;> simp [icetComposite, hmode]
    rw [he, he2] at h1
    simpa using h1
  subst hev
  refine ⟨_, _, he, he2, rfl, rfl, rfl, rfl, rfl, ?_⟩
  obtain ⟨-, -, h3, h4⟩ := zBufferLoop_spec dest.color_format src.depth src.color dest.depth
    dest.color (dest.width * dest.height).toNat
  intro i hi
  have hin : i < (dest.width * dest.height).toNat := by omega
  have hil : i < dest.depth.length := by omega
  have h3i := h3 i
  simp only [hin, hil, true_and] at h3i
  have hcl : ∀ c, c < colorChannels dest.color_format →
      colorChannels dest.color_format * i + c < dest.color.length := by
    intro c hc
    have : colorChannels dest.color_format * (i + 1)
        ≤ colorChannels dest.color_format * (dest.width * dest.height).toNat :=
      Nat.mul_le_mul_left _ hin
    rw [Nat.mul_succ] at this
    omega
  refine ⟨?_, ?_, ?_⟩
  · show (zBufferLoop _ _ _ _ _).1.getD i 0 = _
    unfold zBufferLoop MIN
    rw [h3i]
  · intro hlt
    refine ⟨?_, ?_⟩
    · show (zBufferLoop _ _ _ _ _).1.getD i 0 = _
      unfold zBufferLoop
      rw [h3i, if_pos hlt]
    · intro c hc
      show (zBufferLoop _ _ _ _ _).2.getD _ 0 = _
      unfold zBufferLoop
      rw [h4 i c hc, if_pos ⟨hin, hcl c hc, hlt⟩]
  · intro hlt
    have hlt2 : ¬ floatLt (src.depth.getD i 0) (dest.depth.getD i 0) = true := by rw [hlt]; decide
    refine ⟨?_, ?_⟩
    · show (zBufferLoop _ _ _ _ _).1.getD i 0 = _
      unfold zBufferLoop
      rw [h3i, if_neg hlt2]
    · intro c hc
      show (zBufferLoop _ _ _ _ _).2.getD _ 0 = _
      unfold zBufferLoop
      rw [h4 i c hc, if_neg (fun h => hlt2 h.2.2)]

/-- Scenario D: compositing `B` into `A` in Z-buffer mode gives (red, 0.2),
(yellow, 0.3), and the pixelwise description holds there. -/
theorem icetComposite_zbuffer_pixelwise_witness :
    icetComposite unusedFloatArith zBufferState (some scenarioD_A) (some scenarioD_B) true
      = some (some (flatImage 2 1 [255, 0, 0, 255, 255, 255, 0, 255] [0x3E4CCCCD, 0x3E99999A]),
          [.timingBlendBegin, .timingBlendEnd])
    ∧ ∃ r ev, icetComposite unusedFloatArith zBufferState (some scenarioD_A) (some scenarioD_B)
          true = some (some r, ev)
      ∧ icetComposite unusedFloatArith zBufferState (some scenarioD_A) (some scenarioD_B)
          (!true) = some (some r, ev)
      ∧ r.magic_num = scenarioD_A.magic_num ∧ r.color_format = scenarioD_A.color_format
      ∧ r.depth_format = scenarioD_A.depth_format ∧ r.width = scenarioD_A.width
      ∧ r.height = scenarioD_A.height
      ∧ ∀ i : Nat, (i : Int) < scenarioD_A.width * scenarioD_A.height →
          r.depth.getD i 0
            = MIN floatLt (scenarioD_B.depth.getD i 0) (scenarioD_A.depth.getD i 0)
          ∧ (floatLt (scenarioD_B.depth.getD i 0) (scenarioD_A.depth.getD i 0) = true →
              r.depth.getD i 0 = scenarioD_B.depth.getD i 0
              ∧ ∀ c, c < colorChannels scenarioD_A.color_format →
                  r.color.getD (colorChannels scenarioD_A.color_format * i + c) 0
                    = scenarioD_B.color.getD (colorChannels scenarioD_A.color_format * i + c) 0)
          ∧ (floatLt (scenarioD_B.depth.getD i 0) (scenarioD_A.depth.getD i 0) = false →
              r.depth.getD i 0 = scenarioD_A.depth.getD i 0
              ∧ ∀ c, c < colorChannels scenarioD_A.color_format →
                  r.color.getD (colorChannels scenarioD_A.color_format * i + c) 0
                    = scenarioD_A.color.getD
                        (colorChannels scenarioD_A.color_format * i + c) 0) :=
  ⟨by decide,
    icetComposite_zbuffer_pixelwise unusedFloatArith zBufferState scenarioD_A scenarioD_B true
      (by decide) (by decide) (by decide) (by decide) (by decide) (by decide) (by decide)
      (by decide) (by decide) (by decide)⟩

/-! ### RGBA8 blending -/

/-- The value `ICET_BLEND_UBYTE` stores in one channel. -/
theorem ICET_OVER_UBYTE_getD (m : BlendMem) (so d : Nat) (k : Nat) :
    (ICET_OVER_UBYTE (.src so) (.dest d) m).dest.getD k 0
      = if d ≤ k ∧ k < d + 4 ∧ k < m.dest.length then
          ((m.dest.getD k 0 * (255 - m.src.getD (so + 3) 0)) / 255
            + m.src.getD (so + (k - d)) 0) % 256
        else m.dest.getD k 0 := by
  simp only [ICET_OVER_UBYTE, ICET_BLEND_UBYTE, BlendMem.read, BlendMem.write, getD_set_eq,
    List.length_set]
  by_cases h0 : d + 0 = k
  · subst h0; simp [-List.getD_eq_getElem?_getD]
  · by_cases h1 : d + 1 = k
    · subst h1; simp [-List.getD_eq_getElem?_getD]
    · by_cases h2 : d + 2 = k
      · subst h2; simp [-List.getD_eq_getElem?_getD]
      · by_cases h3 : d + 3 = k
        · subst h3; simp [-List.getD_eq_getElem?_getD]
        · have : ¬ (d ≤ k ∧ k < d + 4 ∧ k < m.dest.length) := by omega
          have h0' : ¬ d = k := by omega
          simp [-List.getD_eq_getElem?_getD, h0', h1, h2, h3, this]

theorem ICET_OVER_UBYTE_src (m : BlendMem) (so d : Nat) :
    (ICET_OVER_UBYTE (.src so) (.dest d) m).src = m.src := by
  simp [ICET_OVER_UBYTE, ICET_BLEND_UBYTE, BlendMem.write]

theorem ICET_OVER_UBYTE_length (m : BlendMem) (so d : Nat) :
    (ICET_OVER_UBYTE (.src so) (.dest d) m).dest.length = m.dest.length := by
  simp [ICET_OVER_UBYTE, ICET_BLEND_UBYTE, BlendMem.write]

theorem ICET_UNDER_UBYTE_getD (m : BlendMem) (so d : Nat) (k : Nat) :
    (ICET_UNDER_UBYTE (.src so) (.dest d) m).dest.getD k 0
      = if d ≤ k ∧ k < d + 4 ∧ k < m.dest.length then
          ((m.src.getD (so + (k - d)) 0 * (255 - m.dest.getD (d + 3) 0)) / 255
            + m.dest.getD k 0) % 256
        else m.dest.getD k 0 := by
  simp only [ICET_UNDER_UBYTE, ICET_BLEND_UBYTE, BlendMem.read, BlendMem.write, getD_set_eq,
    List.length_set]
  by_cases h0 : d + 0 = k
  · subst h0; simp [-List.getD_eq_getElem?_getD]
  · by_cases h1 : d + 1 = k
    · subst h1; simp [-List.getD_eq_getElem?_getD]
    · by_cases h2 : d + 2 = k
      · subst h2; simp [-List.getD_eq_getElem?_getD]
      · by_cases h3 : d + 3 = k
        · subst h3; simp [-List.getD_eq_getElem?_getD]
        · have : ¬ (d ≤ k ∧ k < d + 4 ∧ k < m.dest.length) := by omega
          have h0' : ¬ d = k := by omega
          simp [-List.getD_eq_getElem?_getD, h0', h1, h2, h3, this]

theorem ICET_UNDER_UBYTE_src (m : BlendMem) (so d : Nat) :
    (ICET_UNDER_UBYTE (.src so) (.dest d) m).src = m.src := by
  simp [ICET_UNDER_UBYTE, ICET_BLEND_UBYTE, BlendMem.write]

theorem ICET_UNDER_UBYTE_length (m : BlendMem) (so d : Nat) :
    (ICET_UNDER_UBYTE (.src so) (.dest d) m).dest.length = m.dest.length := by
  simp [ICET_UNDER_UBYTE, ICET_BLEND_UBYTE, BlendMem.write]

theorem blendUbyteLoop_spec (srcOnTop : Bool) (S D0 : List Nat) (n : Nat) :
    let m := (List.range n).foldl
      (fun m i =>
        if srcOnTop then ICET_OVER_UBYTE (.src (i * 4)) (.dest (i * 4)) m
        else ICET_UNDER_UBYTE (.src (i * 4)) (.dest (i * 4)) m)
      ({ src := S, dest := D0 } : BlendMem)
    m.src = S ∧ m.dest.length = D0.length ∧
    ∀ k, m.dest.getD k 0
      = if k < 4 * n ∧ k < D0.length then blendUbyteValue srcOnTop S D0 k else D0.getD k 0 := by
  induction n with
  | zero => simp
  | succ n ih =>
    simp only [List.range_succ, List.foldl_append, List.foldl_cons, List.foldl_nil]
    obtain ⟨h1, h2, h3⟩ := ih
    generalize (List.range n).foldl _ ({ src := S, dest := D0 } : BlendMem) = m at h1 h2 h3
    cases srcOnTop with
    | true =>
      simp only [if_true]
      refine ⟨by rw [ICET_OVER_UBYTE_src, h1], by rw [ICET_OVER_UBYTE_length, h2], ?_⟩
      intro k
      rw [ICET_OVER_UBYTE_getD, h2, h1, h3 k]
      by_cases hk : n * 4 ≤ k ∧ k < n * 4 + 4 ∧ k < D0.length
      · have hq : k / 4 = n := by omega
        have hk2 : k < 4 * (n + 1) ∧ k < D0.length := by omega
        have hk3 : ¬ (k < 4 * n ∧ k < D0.length) := by omega
        have e1 : n * 4 + 3 = 4 * (k / 4) + 3 := by omega
        have e2 : n * 4 + (k - n * 4) = k := by omega
        rw [if_pos hk, if_pos hk2, if_neg hk3, e1, e2]
        simp [blendUbyteValue]
      · rw [if_neg hk]
        by_cases hk3 : k < 4 * n ∧ k < D0.length
        · have hk2 : k < 4 * (n + 1) ∧ k < D0.length := by omega
          rw [if_pos hk3, if_pos hk2]
        · have hk2 : ¬ (k < 4 * (n + 1) ∧ k < D0.length) := by omega
          rw [if_neg hk3, if_neg hk2]
    | false =>
      simp only [Bool.false_eq_true, if_false]
      refine ⟨by rw [ICET_UNDER_UBYTE_src, h1], by rw [ICET_UNDER_UBYTE_length, h2], ?_⟩
      intro k
      rw [ICET_UNDER_UBYTE_getD, h2, h1, h3 k, h3 (n * 4 + 3)]
      have hk0 : ¬ (n * 4 + 3 < 4 * n ∧ n * 4 + 3 < D0.length) := by omega
      rw [if_neg hk0]
      by_cases hk : n * 4 ≤ k ∧ k < n * 4 + 4 ∧ k < D0.length
      · have hq : k / 4 = n := by omega
        have hk2 : k < 4 * (n + 1) ∧ k < D0.length := by omega
        have hk3 : ¬ (k < 4 * n ∧ k < D0.length) := by omega
        have e1 : n * 4 + 3 = 4 * (k / 4) + 3 := by omega
        have e2 : n * 4 + (k - n * 4) = k := by omega
        rw [if_pos hk, if_pos hk2, if_neg hk3, e1, e2]
        simp [blendUbyteValue]
      · rw [if_neg hk]
        by_cases hk3 : k < 4 * n ∧ k < D0.length
        · have hk2 : k < 4 * (n + 1) ∧ k < D0.length := by omega
          rw [if_pos hk3, if_pos hk2]
        · have hk2 : ¬ (k < 4 * (n + 1) ∧ k < D0.length) := by omega
          rw [if_neg hk3, if_neg hk2]

/-- Claim C2. `ICET_OVER_UBYTE(src, dest)` sets channel `c` of `dest` to
`(dest[c] * (255 - src[3])) / 255 + src[c]` and `ICET_UNDER_UBYTE(src, dest)` sets it
to `(src[c] * (255 - dest[3])) / 255 + dest[c]`, with the alpha read before any write
and the sum reduced modulo 256; in blend mode `icetComposite` on RGBA8 images applies
the first to every pixel when `srcOnTop` holds and the second otherwise, leaving the
depth array as it is. -/
theorem icetComposite_blend_ubyte (fa : FloatArith) (st : IceTState)
    (dest src : IceTImageData) (srcOnTop : Bool)
    (hmode : st.composite_mode = .BLEND)
    (hdm : dest.magic_num = ICET_IMAGE_MAGIC_NUM ∨ dest.magic_num = ICET_IMAGE_POINTERS_MAGIC_NUM)
    (hsm : src.magic_num = ICET_IMAGE_MAGIC_NUM ∨ src.magic_num = ICET_IMAGE_POINTERS_MAGIC_NUM)
    (hpix : dest.width * dest.height = src.width * src.height)
    (hdc : dest.color_format = .RGBA_UBYTE) (hsc : src.color_format = .RGBA_UBYTE)
    (hdf : dest.depth_format = src.depth_format)
    (hclen : 4 * (dest.width * dest.height).toNat ≤ dest.color.length) :
    (∀ (m : BlendMem) (so d c : Nat), c < 4 → d + 4 ≤ m.dest.length →
        (ICET_OVER_UBYTE (.src so) (.dest d) m).dest.getD (d + c) 0
          = ((m.dest.getD (d + c) 0 * (255 - m.src.getD (so + 3) 0)) / 255
              + m.src.getD (so + c) 0) % 256
        ∧ (ICET_UNDER_UBYTE (.src so) (.dest d) m).dest.getD (d + c) 0
          = ((m.src.getD (so + c) 0 * (255 - m.dest.getD (d + 3) 0)) / 255
              + m.dest.getD (d + c) 0) % 256)
    ∧ ∃ r ev, icetComposite fa st (some dest) (some src) srcOnTop = some (some r, ev)
      ∧ r.depth = dest.depth
      ∧ ∀ i : Nat, (i : Int) < dest.width * dest.height → ∀ c, c < 4 →
          r.color.getD (4 * i + c) 0
            = if srcOnTop = true then
                ((dest.color.getD (4 * i + c) 0 * (255 - src.color.getD (4 * i + 3) 0)) / 255
                  + src.color.getD (4 * i + c) 0) % 256
              else
                ((src.color.getD (4 * i + c) 0 * (255 - dest.color.getD (4 * i + 3) 0)) / 255
                  + dest.color.getD (4 * i + c) 0) % 256 := by
  refine ⟨?_, ?_⟩
  · intro m so d c hc hlen
    rw [ICET_OVER_UBYTE_getD, ICET_UNDER_UBYTE_getD]
    have h : d ≤ d + c ∧ d + c < d + 4 ∧ d + c < m.dest.length := by omega
    have e : d + c - d = c := by omega
    rw [if_pos h, if_pos h, e]
    exact ⟨rfl, rfl⟩
  · have hd : isImageMagic dest.magic_num = true := by
      rcases hdm with h | h <;> rw [h] <;> decide
    have hs : isImageMagic src.magic_num = true := by
      rcases hsm with h | h <;> rw [h] <;> decide
    have hsf := hdf.symm
    have hex : ∃ ev, icetComposite fa st (some dest) (some src) srcOnTop
        = some (some { dest with
            color := blendUbyteLoop srcOnTop (dest.width * dest.height) src.color dest.color },
          ev) := by
      simp [icetComposite, icetImageGetNumPixels, icetImageGetColorFormat,
        icetImageGetDepthFormat, hpix, hdc, hsc, hsf, hmode, icetImageGetColorcub,
        icetImageGetColorub, icetImageGetColorVoid, icetImageGetColorConstVoid, hd, hs,
        guardPointers]
      try (intro _; split_ifs <;> simp)
    obtain ⟨ev, he⟩ := hex
    refine ⟨_, ev, he, rfl, ?_⟩
    intro i hi c hc
    obtain ⟨-, -, h3⟩ := blendUbyteLoop_spec srcOnTop src.color dest.color
      (dest.width * dest.height).toNat
    show (blendUbyteLoop _ _ _ _).getD _ 0 = _
    unfold blendUbyteLoop
    rw [h3 (4 * i + c)]
    have hin : 4 * i + c < 4 * (dest.width * dest.height).toNat
        ∧ 4 * i + c < dest.color.length := by omega
    have hq : (4 * i + c) / 4 = i := by omega
    rw [if_pos hin]
    unfold blendUbyteValue
    rw [hq]

/-- The blend description of `icetComposite` at the two colors of scenario E, the
front image composited over the back image. -/
theorem icetComposite_blend_ubyte_witness :
    (∀ (m : BlendMem) (so d c : Nat), c < 4 → d + 4 ≤ m.dest.length →
        (ICET_OVER_UBYTE (.src so) (.dest d) m).dest.getD (d + c) 0
          = ((m.dest.getD (d + c) 0 * (255 - m.src.getD (so + 3) 0)) / 255
              + m.src.getD (so + c) 0) % 256
        ∧ (ICET_UNDER_UBYTE (.src so) (.dest d) m).dest.getD (d + c) 0
          = ((m.src.getD (so + c) 0 * (255 - m.dest.getD (d + 3) 0)) / 255
              + m.dest.getD (d + c) 0) % 256)
    ∧ ∃ r ev, icetComposite unusedFloatArith blendState (some scenarioE_back)
          (some scenarioE_front) true = some (some r, ev)
      ∧ r.depth = scenarioE_back.depth
      ∧ ∀ i : Nat, (i : Int) < scenarioE_back.width * scenarioE_back.height → ∀ c, c < 4 →
          r.color.getD (4 * i + c) 0
            = if true = true then
                ((scenarioE_back.color.getD (4 * i + c) 0
                    * (255 - scenarioE_front.color.getD (4 * i + 3) 0)) / 255
                  + scenarioE_front.color.getD (4 * i + c) 0) % 256
              else
                ((scenarioE_front.color.getD (4 * i + c) 0
                    * (255 - scenarioE_back.color.getD (4 * i + 3) 0)) / 255
                  + scenarioE_back.color.getD (4 * i + c) 0) % 256 :=
  icetComposite_blend_ubyte unusedFloatArith blendState scenarioE_back scenarioE_front true
    (by decide) (by decide) (by decide) (by decide) (by decide) (by decide) (by decide)
    (by decide)

/-- Claim C3, as stated, is refuted. Alpha OVER of front = (100, 0, 0, 128) on back =
(0, 0, 200, 255) with `ICET_OVER_UBYTE` does not yield (100, 0, 99, 254): the alpha
channel is `(255 * 127) / 255 + 128 = 255`. -/
theorem scenarioE_over_color_not_254 :
    (ICET_OVER_UBYTE (.src 0) (.dest 0)
        { src := [100, 0, 0, 128], dest := [0, 0, 200, 255] }).dest ≠ [100, 0, 99, 254] := by
  decide

/-- Claim C3, amended. Alpha OVER of front = (100, 0, 0, 128) on back = (0, 0, 200, 255)
with `ICET_OVER_UBYTE`, that is `ICET_BLEND_UBYTE(front, back, back)`, yields
(100, 0, 99, 255); `icetComposite` in blend mode with the front image on top gives the
same color. -/
theorem scenarioE_over_color :
    (ICET_OVER_UBYTE (.src 0) (.dest 0)
        { src := [100, 0, 0, 128], dest := [0, 0, 200, 255] }).dest = [100, 0, 99, 255]
    ∧ (ICET_BLEND_UBYTE (.src 0) (.dest 0) (.dest 0)
        { src := [100, 0, 0, 128], dest := [0, 0, 200, 255] }).dest = [100, 0, 99, 255]
    ∧ icetComposite unusedFloatArith blendState (some scenarioE_back) (some scenarioE_front) true
      = some (some (colorOnlyPixel [100, 0, 99, 255]), [.timingBlendBegin, .timingBlendEnd]) :=
  ⟨by decide, by decide, by decide⟩

/-! ### 32-bit results -/

theorem wrapSizeType_of_fits (x : Int) (h0 : -2 ^ 31 ≤ x) (h1 : x < 2 ^ 31) :
    wrapSizeType x = x := by
  unfold wrapSizeType
  norm_num at h0 h1 ⊢
  omega

theorem wrapSizeType_range (x : Int) : -2 ^ 31 ≤ wrapSizeType x ∧ wrapSizeType x < 2 ^ 31 := by
  unfold wrapSizeType
  norm_num
  omega

theorem wrapSizeType_le (x : Int) (h0 : -2 ^ 31 ≤ x) : wrapSizeType x ≤ x := by
  unfold wrapSizeType
  norm_num at h0 ⊢
  omega

theorem wrapSizeType_eq_sub (x : Int) :
    wrapSizeType x = x - 2 ^ 32 * ((x + 2 ^ 31) / 2 ^ 32) := by
  unfold wrapSizeType
  norm_num
  omega

theorem wrapSizeType_add_mul (x k : Int) : wrapSizeType (x + 2 ^ 32 * k) = wrapSizeType x := by
  unfold wrapSizeType
  rw [show x + 2 ^ 32 * k + 2 ^ 31 = x + 2 ^ 31 + 2 ^ 32 * k by ring,
    Int.add_mul_emod_self_left]

theorem wrapSizeType_wrap_add (a b : Int) :
    wrapSizeType (a + wrapSizeType b) = wrapSizeType (a + b) := by
  rw [wrapSizeType_eq_sub b,
    show a + (b - 2 ^ 32 * ((b + 2 ^ 31) / 2 ^ 32))
      = a + b + 2 ^ 32 * (-((b + 2 ^ 31) / 2 ^ 32)) by ring,
    wrapSizeType_add_mul]

theorem wrapSizeType_wrap_mul (a b : Int) :
    wrapSizeType (wrapSizeType a * b) = wrapSizeType (a * b) := by
  rw [wrapSizeType_eq_sub a,
    show (a - 2 ^ 32 * ((a + 2 ^ 31) / 2 ^ 32)) * b
      = a * b + 2 ^ 32 * (-((a + 2 ^ 31) / 2 ^ 32) * b) by ring,
    wrapSizeType_add_mul]

theorem icetImageBufferSizeType_eq_wrap (color : ColorFormat) (depth : DepthFormat)
    (w h : Int) :
    icetImageBufferSizeType color depth w h
      = wrapSizeType (ICET_IMAGE_DATA_START_INDEX * SIZEOF_WORD
          + w * h * (colorPixelSize color + depthPixelSize depth)) := by
  unfold icetImageBufferSizeType
  simp only [wrapSizeType_wrap_add, wrapSizeType_wrap_mul]

theorem icetLayeredImageBufferSizeType_eq_wrap (color : ColorFormat) (depth : DepthFormat)
    (w h L : Int) :
    icetLayeredImageBufferSizeType color depth w h L
      = wrapSizeType (ICET_IMAGE_DATA_START_INDEX * SIZEOF_WORD + SIZEOF_LAYERED_IMAGE_HEADER
          + w * h * L * (colorPixelSize color + depthPixelSize depth)) := by
  unfold icetLayeredImageBufferSizeType
  simp only [wrapSizeType_wrap_add, wrapSizeType_wrap_mul]

/-! ### Writes to the header -/

theorem icetImageHeaderWritten_header (image written : IceTImageData) :
    (icetImageHeaderWritten image written).magic_num = written.magic_num
    ∧ (icetImageHeaderWritten image written).color_format = written.color_format
    ∧ (icetImageHeaderWritten image written).depth_format = written.depth_format
    ∧ (icetImageHeaderWritten image written).width = written.width
    ∧ (icetImageHeaderWritten image written).height = written.height
    ∧ (icetImageHeaderWritten image written).max_num_pixels = written.max_num_pixels
    ∧ (icetImageHeaderWritten image written).actual_buffer_size = written.actual_buffer_size
    ∧ (icetImageHeaderWritten image written).num_layers = written.num_layers
    ∧ (icetImageHeaderWritten image written).address = written.address := by
  unfold icetImageHeaderWritten
  split_ifs <;> exact ⟨rfl, rfl, rfl, rfl, rfl, rfl, rfl, rfl, rfl⟩

theorem icetImageHeaderWritten_same (image written : IceTImageData)
    (h : (image.magic_num ≠ ICET_IMAGE_MAGIC_NUM
        ∧ image.magic_num ≠ (ICET_IMAGE_MAGIC_NUM ||| ICET_IMAGE_FLAG_LAYERED))
      ∨ (icetImageIsLayered image = icetImageIsLayered written
        ∧ image.color_format = written.color_format
        ∧ imageColorBytes image = imageColorBytes written)) :
    icetImageHeaderWritten image written = written := by
  unfold icetImageHeaderWritten
  rcases h with ⟨h1, h2⟩ | h
  · rw [if_neg (by tauto)]
  · split_ifs <;> rfl

theorem icetImageHeaderWritten_self (image : IceTImageData) :
    icetImageHeaderWritten image image = image :=
  icetImageHeaderWritten_same image image (Or.inr ⟨rfl, rfl, rfl⟩)

theorem icetImageSetDimensions_rejects (image : IceTImageData) (w h : Int)
    (h1 : wrapSizeType (w * h) > image.max_num_pixels) :
    icetImageSetDimensions (some image) w h = (some image, [.raiseError .INVALID_VALUE]) := by
  unfold icetImageSetDimensions
  simp only [h1, if_true]

theorem icetImageSetDimensions_accepts (image : IceTImageData) (w h : Int)
    (h1 : wrapSizeType (w * h) ≤ image.max_num_pixels) :
    ∃ r ev, icetImageSetDimensions (some image) w h = (some r, ev)
      ∧ r.width = w ∧ r.height = h
      ∧ r.magic_num = image.magic_num ∧ r.color_format = image.color_format
      ∧ r.depth_format = image.depth_format ∧ r.max_num_pixels = image.max_num_pixels
      ∧ r.num_layers = image.num_layers ∧ r.address = image.address
      ∧ r.color = (icetImageHeaderWritten image { image with width := w, height := h }).color
      ∧ r.depth = (icetImageHeaderWritten image { image with width := w, height := h }).depth
      ∧ r.actual_buffer_size
        = (if image.magic_num = ICET_IMAGE_MAGIC_NUM then
            icetImageBufferSizeType image.color_format image.depth_format w h
          else if image.magic_num = (ICET_IMAGE_MAGIC_NUM ||| ICET_IMAGE_FLAG_LAYERED) then
            icetLayeredImageBufferSizeType image.color_format image.depth_format w h
              image.num_layers
          else image.actual_buffer_size)
      ∧ ev = (if image.magic_num = ICET_IMAGE_MAGIC_NUM
            ∨ image.magic_num = (ICET_IMAGE_MAGIC_NUM ||| ICET_IMAGE_FLAG_LAYERED) then
          fragmentSizeDiagnostics image.color_format image.depth_format else []) := by
  obtain ⟨e1, e2, e3, e4, e5, e6, e7, e8, e9⟩ :=
    icetImageHeaderWritten_header image { image with width := w, height := h }
  have hng : ¬ wrapSizeType (w * h) > image.max_num_pixels := by omega
  unfold icetImageSetDimensions
  simp only [hng, if_false]
  split_ifs <;>
    first
    | exact ⟨_, _, rfl, e4, e5, e1, e2, e3, e6, e8, e9, rfl, rfl, rfl, rfl⟩
    | exact ⟨_, _, rfl, e4, e5, e1, e2, e3, e6, e8, e9, rfl, rfl, e7, rfl⟩
    | (exfalso; tauto)

theorem imageColorBytes_resized (image : IceTImageData) (w h : Int)
    (hsame : w * h = image.width * image.height) :
    imageColorBytes ({ image with width := w, height := h } : IceTImageData)
      = imageColorBytes image := by
  unfold imageColorBytes icetImageIsLayered
  simp only [hsame]

theorem icetImageSetDimensions_flat (image : IceTImageData) (w h : Int)
    (hm : image.magic_num = ICET_IMAGE_MAGIC_NUM) (hn : 0 ≤ w * h)
    (hfit : w * h ≤ image.max_num_pixels) (hsame : w * h = image.width * image.height) :
    icetImageSetDimensions (some image) w h
      = (some { image with
          width := w
          height := h
          actual_buffer_size :=
            icetImageBufferSizeType image.color_format image.depth_format w h },
        fragmentSizeDiagnostics image.color_format image.depth_format) := by
  have hle := wrapSizeType_le (w * h) (by norm_num; omega)
  have hs := icetImageHeaderWritten_same image { image with width := w, height := h }
    (Or.inr ⟨rfl, rfl, (imageColorBytes_resized image w h hsame).symm⟩)
  unfold icetImageSetDimensions
  simp only []
  rw [if_neg (by omega), if_pos hm, hs]

/-! ### Size calculator -/

theorem tdiv_two_eq_halfRoundedUp (n : Int) (hn : 0 ≤ n) :
    Int.tdiv (n + 1) 2 = halfRoundedUp n := by
  rw [Int.tdiv_eq_ediv (by omega) (by omega)]
  unfold halfRoundedUp
  omega

theorem pixelSize_eq_reference (color : ColorFormat) (depth : DepthFormat) :
    colorPixelSize color = refColorSize color ∧ depthPixelSize depth = refDepthSize depth := by
  constructor
  · cases color <;> simp [colorPixelSize, refColorSize, SIZEOF_WORD]
  · cases depth <;> simp [depthPixelSize, refDepthSize, SIZEOF_WORD]

theorem refPixelSize_cases (color : ColorFormat) (depth : DepthFormat) :
    refColorSize color + refDepthSize depth ∈ ([0, 4, 8, 12, 16, 20] : List Int) := by
  cases color <;> cases depth <;> simp [refColorSize, refDepthSize]

theorem icetSparseImageBufferSizeType_of_fits (color : ColorFormat) (depth : DepthFormat)
    (w h : Int) (hn : 0 ≤ w * h)
    (hfit : refSparseImageBufferSize color depth w h < 2 ^ 31) :
    icetSparseImageBufferSizeType color depth w h
      = refSparseImageBufferSize color depth w h := by
  obtain ⟨hc, hd⟩ := pixelSize_eq_reference color depth
  have hp := refPixelSize_cases color depth
  unfold icetSparseImageBufferSizeType
  rw [icetImageBufferSizeType_eq_wrap]
  unfold refSparseImageBufferSize at hfit ⊢
  simp only [hc, hd, ICET_IMAGE_DATA_START_INDEX, SIZEOF_WORD, RUN_LENGTH_SIZE]
  generalize refColorSize color + refDepthSize depth = p at hp hfit ⊢
  generalize w * h = n at hn hfit ⊢
  have hhalf : halfRoundedUp n = (n + 1) / 2 := by unfold halfRoundedUp; omega
  rw [hhalf] at hfit ⊢
  simp only [List.mem_cons, List.mem_singleton, List.not_mem_nil, or_false] at hp
  norm_num at hfit ⊢
  have hw : ∀ x : Int, wrapSizeType x = (x + 2147483648) % 4294967296 - 2147483648 := by
    intro x; unfold wrapSizeType; norm_num
  have e1 : wrapSizeType n = n := by
    apply wrapSizeType_of_fits _ (by omega)
    rcases hp with rfl | rfl | rfl | rfl | rfl | rfl <;> norm_num at hfit ⊢ <;> omega
  have e2 : wrapSizeType (n + 1) = n + 1 := by
    apply wrapSizeType_of_fits _ (by omega)
    rcases hp with rfl | rfl | rfl | rfl | rfl | rfl <;> norm_num at hfit ⊢ <;> omega
  rw [e1, e2, Int.tdiv_eq_ediv (by omega) (by omega)]
  rcases hp with rfl | rfl | rfl | rfl | rfl | rfl <;> norm_num at hfit ⊢ <;>
    simp only [hw] <;> omega

theorem icetImageBufferSizeType_of_fits (color : ColorFormat) (depth : DepthFormat)
    (w h : Int) (hn : 0 ≤ w * h) (hfit : refImageBufferSize color depth w h < 2 ^ 31) :
    icetImageBufferSizeType color depth w h = refImageBufferSize color depth w h := by
  obtain ⟨hc, hd⟩ := pixelSize_eq_reference color depth
  have hp := refPixelSize_cases color depth
  rw [icetImageBufferSizeType_eq_wrap]
  unfold refImageBufferSize at hfit ⊢
  simp only [hc, hd, ICET_IMAGE_DATA_START_INDEX, SIZEOF_WORD]
  apply wrapSizeType_of_fits
  · have := Int.mul_nonneg hn (show 0 ≤ refColorSize color + refDepthSize depth by
      simp only [List.mem_cons, List.mem_singleton, List.not_mem_nil, or_false] at hp
      omega)
    norm_num
    omega
  · norm_num at hfit ⊢
    exact hfit

/-- Claim C7, as stated, is refuted.  For RGBA32F + D32F at 20000 x 20000 the reference
definitions give 8000000028 and 8000000036 bytes, which do not fit the 32-bit
`IceTSizeType`: `icetImageBufferSizeType` returns -589934564 and
`icetSparseImageBufferSizeType` returns -589934556. -/
theorem bufferSizeType_wraps :
    icetImageBufferSizeType .RGBA_FLOAT .FLOAT 20000 20000 = -589934564
    ∧ refImageBufferSize .RGBA_FLOAT .FLOAT 20000 20000 = 8000000028
    ∧ icetSparseImageBufferSizeType .RGBA_FLOAT .FLOAT 20000 20000 = -589934556
    ∧ refSparseImageBufferSize .RGBA_FLOAT .FLOAT 20000 20000 = 8000000036 := by
  decide

/-- Claim C7, amended.  With `p` the sum of the reference color and depth sizes, for all
formats and all `w, h ≥ 0`: `icetImageBufferSizeType` is `7*4 + w*h*p` reduced into the
32-bit range of `IceTSizeType`, hence equal to `7*4 + w*h*p` when that value is below
`2^31`; and `icetSparseImageBufferSizeType` equals
`7*4 + 8 + w*h*p + (if p < 8 then (8-p)*ceil(w*h/2))` when that value is below `2^31`. -/
theorem bufferSizeType_eq_reference (color : ColorFormat) (depth : DepthFormat) (w h : Int)
    (hw : 0 ≤ w) (hh : 0 ≤ h) :
    icetImageBufferSizeType color depth w h
        = wrapSizeType (refImageBufferSize color depth w h)
    ∧ (refImageBufferSize color depth w h < 2 ^ 31 →
        icetImageBufferSizeType color depth w h = refImageBufferSize color depth w h)
    ∧ (refSparseImageBufferSize color depth w h < 2 ^ 31 →
        icetSparseImageBufferSizeType color depth w h
          = refSparseImageBufferSize color depth w h) := by
  have hn : 0 ≤ w * h := Int.mul_nonneg hw hh
  obtain ⟨hc, hd⟩ := pixelSize_eq_reference color depth
  refine ⟨?_, icetImageBufferSizeType_of_fits color depth w h hn,
    icetSparseImageBufferSizeType_of_fits color depth w h hn⟩
  rw [icetImageBufferSizeType_eq_wrap]
  simp only [refImageBufferSize, hc, hd, ICET_IMAGE_DATA_START_INDEX, SIZEOF_WORD]

/-- The reference equality at a 3x3 RGBA8 image without depth, where the slack term
is present: both sides are 28 + 8 + 36 + 4*5 = 92. -/
theorem bufferSizeType_eq_reference_witness :
    ((0 : Int) ≤ 3 ∧ (0 : Int) ≤ 3)
    ∧ refImageBufferSize .RGBA_UBYTE .NONE 3 3 < 2 ^ 31
    ∧ refSparseImageBufferSize .RGBA_UBYTE .NONE 3 3 < 2 ^ 31
    ∧ icetSparseImageBufferSizeType .RGBA_UBYTE .NONE 3 3 = 92
    ∧ icetImageBufferSizeType .RGBA_UBYTE .NONE 3 3 = refImageBufferSize .RGBA_UBYTE .NONE 3 3
    ∧ icetSparseImageBufferSizeType .RGBA_UBYTE .NONE 3 3
        = refSparseImageBufferSize .RGBA_UBYTE .NONE 3 3 :=
  ⟨⟨by decide, by decide⟩, by decide, by decide, by decide,
    (bufferSizeType_eq_reference .RGBA_UBYTE .NONE 3 3 (by decide) (by decide)).2.1
      (by decide),
    (bufferSizeType_eq_reference .RGBA_UBYTE .NONE 3 3 (by decide) (by decide)).2.2
      (by decide)⟩

/-! ### Run sequences -/

theorem length_le_sum_of_pos (f : Nat × Nat → Nat) (l : List (Nat × Nat))
    (h : ∀ r ∈ l, 0 < f r) : l.length ≤ (l.map f).sum := by
  induction l with
  | nil => simp
  | cons a l ih =>
    have ha := h a (List.mem_cons_self a l)
    have := ih (fun r hr => h r (List.mem_cons_of_mem a hr))
    simp only [List.length_cons, List.map_cons, List.sum_cons]
    omega

theorem sum_tail_le (f : Nat × Nat → Nat) (l : List (Nat × Nat)) :
    (l.tail.map f).sum ≤ (l.map f).sum := by
  cases l with
  | nil => simp
  | cons a l => simp

theorem sum_dropLast_le (f : Nat × Nat → Nat) (l : List (Nat × Nat)) :
    (l.dropLast.map f).sum ≤ (l.map f).sum := by
  induction l with
  | nil => simp
  | cons a l ih =>
    cases l with
    | nil => simp
    | cons b l =>
      simp only [List.dropLast_cons₂, List.map_cons, List.sum_cons] at ih ⊢
      omega

theorem runs_length_le (runs : List (Nat × Nat)) (h : runsAlternate runs) :
    runs.length ≤ runsInactive runs + 1 ∧ runs.length ≤ runsActive runs + 1 := by
  obtain ⟨h1, h2⟩ := h
  have a1 := length_le_sum_of_pos (fun r => r.1) runs.tail h1
  have a2 := length_le_sum_of_pos (fun r => r.2) runs.dropLast h2
  have b1 := sum_tail_le (fun r => r.1) runs
  have b2 := sum_dropLast_le (fun r => r.2) runs
  simp only [List.length_tail, List.length_dropLast] at a1 a2
  unfold runsInactive runsActive
  omega

theorem runsPixels_eq (runs : List (Nat × Nat)) :
    runsPixels runs = runsInactive runs + runsActive runs := by
  unfold runsPixels runsInactive runsActive
  induction runs with
  | nil => simp
  | cons a l ih => simp only [List.map_cons, List.sum_cons, ih]; omega

/-- Claim C6, as stated, is refuted.  For RGBA8 without depth at 46341 x 46341 the
products leave the 32-bit `IceTSizeType` and `icetSparseImageBufferSizeType` returns
27836, while the stream of a fully active image (one run of 2147488281 active pixels)
has 8589953160 bytes. -/
theorem sparseImageBufferSize_wraps :
    icetSparseImageBufferSizeType .RGBA_UBYTE .NONE 46341 46341 = 27836
    ∧ (runsPixels [(0, 2147488281)] : Int) = 46341 * 46341
    ∧ runsAlternate [(0, 2147488281)]
    ∧ runSequenceBytes .RGBA_UBYTE .NONE [(0, 2147488281)] = 8589953160
    ∧ ¬ (runSequenceBytes .RGBA_UBYTE .NONE [(0, 2147488281)]
          ≤ icetSparseImageBufferSizeType .RGBA_UBYTE .NONE 46341 46341) := by
  decide

/-- Claim C6, amended.  For all formats and all `width, height ≥ 0` for which the size
`7*4 + 8 + width*height*p + (if p < 8 then (8-p)*ceil(width*height/2))` is below `2^31`
(`p` the pixel size), `icetSparseImageBufferSizeType` is at least the size of every flat
sparse stream of a `width x height` image: of every run sequence covering exactly
`width*height` pixels in which only the first run may have `inactive = 0` and only the
last `active = 0`, the size being `7*4` header bytes, 8 bytes per run and `pixel_size`
bytes per active pixel. -/
theorem sparseImageBufferSize_bounds_runs (color : ColorFormat) (depth : DepthFormat)
    (width height : Int) (hw : 0 ≤ width) (hh : 0 ≤ height)
    (hfit : refSparseImageBufferSize color depth width height < 2 ^ 31)
    (runs : List (Nat × Nat))
    (hcover : (runsPixels runs : Int) = width * height) (halt : runsAlternate runs) :
    runSequenceBytes color depth runs
      ≤ icetSparseImageBufferSizeType color depth width height := by
  obtain ⟨hI, hA⟩ := runs_length_le runs halt
  have hP := runsPixels_eq runs
  have hn : 0 ≤ width * height := Int.mul_nonneg hw hh
  obtain ⟨hc, hd⟩ := pixelSize_eq_reference color depth
  rw [icetSparseImageBufferSizeType_of_fits color depth width height hn hfit]
  unfold runSequenceBytes refSparseImageBufferSize halfRoundedUp
  rw [← hcover, hP, hc, hd]
  generalize runsInactive runs = I at *
  generalize runsActive runs = A at *
  generalize runs.length = r at *
  cases color <;> cases depth <;>
    simp only [refColorSize, refDepthSize, SIZEOF_WORD, RUN_LENGTH_SIZE,
      ICET_IMAGE_DATA_START_INDEX] <;>
    norm_num <;> omega

/-- The bound of C6 at a 2x2 RGBA8 image without depth and the runs (0,1), (1,1),
(1,0): both sides are 60 bytes, so the bound is attained. -/
theorem sparseImageBufferSize_bounds_runs_witness :
    ((0 : Int) ≤ 2 ∧ (0 : Int) ≤ 2
      ∧ refSparseImageBufferSize .RGBA_UBYTE .NONE 2 2 < 2 ^ 31
      ∧ (runsPixels [(0, 1), (1, 1), (1, 0)] : Int) = 2 * 2
      ∧ runsAlternate [(0, 1), (1, 1), (1, 0)])
    ∧ runSequenceBytes .RGBA_UBYTE .NONE [(0, 1), (1, 1), (1, 0)] = 60
    ∧ icetSparseImageBufferSizeType .RGBA_UBYTE .NONE 2 2 = 60
    ∧ runSequenceBytes .RGBA_UBYTE .NONE [(0, 1), (1, 1), (1, 0)]
      ≤ icetSparseImageBufferSizeType .RGBA_UBYTE .NONE 2 2 :=
  ⟨⟨by decide, by decide, by decide, by decide, by decide⟩, by decide, by decide,
    sparseImageBufferSize_bounds_runs .RGBA_UBYTE .NONE 2 2 (by decide) (by decide)
      (by decide) [(0, 1), (1, 1), (1, 0)] (by decide) (by decide)⟩

/-! ### Choosing partitions -/

theorem choosePartitionsLoop_eq (sub lower : Int) (hsub : 0 ≤ sub) (k : Nat) (off rem : Int)
    (hrem : 0 ≤ rem) :
    choosePartitionsLoop sub lower k off rem
      = (List.range k).map fun j : Nat => off + j * lower + min (j * sub) rem := by
  induction k generalizing off rem with
  | zero => simp [choosePartitionsLoop]
  | succ k ih =>
    rw [choosePartitionsLoop, List.range_succ_eq_map, List.map_cons, List.map_map]
    have key : ∀ (off2 rem2 : Int), 0 ≤ rem2 →
        (∀ t : Int, 0 ≤ t → ∀ u : Int,
          off2 + u + min t rem2 = off + (u + lower) + min (t + sub) rem) →
        choosePartitionsLoop sub lower k off2 rem2
          = List.map ((fun j : Nat => off + j * lower + min (j * sub) rem) ∘ Nat.succ)
              (List.range k) := by
      intro off2 rem2 h2 hall
      rw [ih off2 rem2 h2]
      apply List.map_congr_left
      intro j _
      have ht : (0 : Int) ≤ j * sub := Int.mul_nonneg (Int.ofNat_nonneg j) hsub
      have := hall (j * sub) ht (j * lower)
      simp only [Function.comp, Nat.succ_eq_add_one, Nat.cast_add, Nat.cast_one]
      rw [this]
      ring_nf
    split_ifs with h
    · congr 1
      · simp; omega
      · apply key _ _ (by omega)
        intro t ht u; omega
    · congr 1
      · simp; omega
      · apply key _ _ (by omega)
        intro t ht u; omega

theorem choosePartitions_eq (K E n f : Int) (hK : 0 ≤ K) (hE : 0 ≤ E) (hn : 0 ≤ n) :
    icetSparseImageSplitChoosePartitions K E n f
      = (List.range K.toNat).map fun j : Nat =>
          f + j * (n / E * (E / K)) + min (j * (E / K)) (n % E) := by
  unfold icetSparseImageSplitChoosePartitions
  rw [Int.tdiv_eq_ediv hn hE, Int.tmod_eq_emod hn hE, Int.tdiv_eq_ediv hE hK]
  have hr : 0 ≤ n % E := by
    rcases eq_or_lt_of_le hE with h | h
    · rw [← h]; simpa using hn
    · exact Int.emod_nonneg n (by omega)
  exact choosePartitionsLoop_eq _ _ (Int.ediv_nonneg hE hK) _ _ _ hr

theorem choosePartitions_getD (K E n f : Int) (hK : 0 ≤ K) (hE : 0 ≤ E) (hn : 0 ≤ n) (j : Nat)
    (hj : (j : Int) < K) :
    (icetSparseImageSplitChoosePartitions K E n f).getD j 0
      = f + j * (n / E * (E / K)) + min (j * (E / K)) (n % E) := by
  rw [choosePartitions_eq K E n f hK hE hn, List.getD_eq_getElem?_getD, List.getElem?_map,
    List.getElem?_range (by omega)]
  rfl

theorem split_arith (K E n : Int) (hK : 1 ≤ K) (hE : 0 < E) (hdiv : K ∣ E) (hn : 0 ≤ n) :
    K * (E / K) = E ∧ 0 < E / K ∧ 0 ≤ n / E ∧ 0 ≤ n % E ∧ n % E < E
      ∧ E * (n / E) + n % E = n := by
  have h1 : K * (E / K) = E := Int.mul_ediv_cancel' hdiv
  have h2 : 0 < E / K := by
    by_contra hcon
    have h0 : 0 ≤ E / K := Int.ediv_nonneg (by omega) (by omega)
    have : E / K = 0 := by omega
    rw [this] at h1
    simp at h1
    omega
  exact ⟨h1, h2, Int.ediv_nonneg hn (by omega), Int.emod_nonneg n (by omega),
    Int.emod_lt_of_pos n hE, Int.ediv_add_emod n E⟩

/-- Claim C9. For `K` dividing `E` and a source of `n` pixels, partition `j < K` of
`icetSparseImageSplit` covers `(n / E) * (E / K) + min(E / K, max(0, n mod E - j * (E / K)))`
pixels. -/
theorem splitPartitionNumPixels_eq (K E n f : Int) (hK : 1 ≤ K) (hE : 0 < E) (hdiv : K ∣ E)
    (hn : 0 ≤ n) (j : Nat) (hj : (j : Int) < K) :
    splitPartitionNumPixels (icetSparseImageSplitChoosePartitions K E n f) K n f j
      = (n / E) * (E / K) + min (E / K) (max 0 (n % E - j * (E / K))) := by
  obtain ⟨h1, h2, h3, h4, h5, h6⟩ := split_arith K E n hK hE hdiv hn
  unfold splitPartitionNumPixels
  have hj0 := choosePartitions_getD K E n f (by omega) (by omega) hn j hj
  have ht : (0 : Int) ≤ j * (E / K) := Int.mul_nonneg (Int.ofNat_nonneg j) (by omega)
  split_ifs with hlast
  · have hj1 := choosePartitions_getD K E n f (by omega) (by omega) hn (j + 1)
      (by push_cast; omega)
    rw [hj0, hj1]
    have e1 : ((j + 1 : Nat) : Int) * (n / E * (E / K))
        = j * (n / E * (E / K)) + n / E * (E / K) := by push_cast; ring
    have e2 : ((j + 1 : Nat) : Int) * (E / K) = j * (E / K) + E / K := by push_cast; ring
    rw [e1, e2]
    generalize (j : Int) * (E / K) = t at *
    generalize (j : Int) * (n / E * (E / K)) = M at *
    generalize n / E * (E / K) = L at *
    omega
  · rw [hj0]
    have hjK : (j : Int) = K - 1 := by omega
    have e1 : (j : Int) * (E / K) + E / K = E := by rw [hjK]; linear_combination h1
    have e2 : E * (n / E) = j * (n / E * (E / K)) + n / E * (E / K) := by
      linear_combination (-(n / E)) * e1
    generalize (j : Int) * (E / K) = t at *
    generalize (j : Int) * (n / E * (E / K)) = M at *
    generalize n / E * (E / K) = L at *
    generalize E * (n / E) = Q at *
    omega

/-- The partition size formula at `n = 10`, `K = 2`, `E = 4`: partition 0 covers
`2*2 + min(2, 2) = 6` pixels. -/
theorem splitPartitionNumPixels_eq_witness :
    ((1 : Int) ≤ 2 ∧ (0 : Int) < 4 ∧ (2 : Int) ∣ 4 ∧ (0 : Int) ≤ 10 ∧ ((0 : Nat) : Int) < 2)
    ∧ splitPartitionNumPixels (icetSparseImageSplitChoosePartitions 2 4 10 0) 2 10 0 0 = 6
    ∧ splitPartitionNumPixels (icetSparseImageSplitChoosePartitions 2 4 10 0) 2 10 0 0
      = (10 / 4) * (4 / 2) + min (4 / 2) (max 0 (10 % 4 - (0 : Nat) * (4 / 2))) :=
  ⟨⟨by decide, by decide, by decide, by decide, by decide⟩, by decide,
    splitPartitionNumPixels_eq 2 4 10 0 (by decide) (by decide) (by decide) (by decide) 0
      (by decide)⟩

theorem splitPartitionNumPixels_consecutive (K E n f : Int) (hK : 1 ≤ K) (hE : 0 < E)
    (hdiv : K ∣ E) (hn : 0 ≤ n) (j : Nat) (hj : (j : Int) < K) :
    let offsets := icetSparseImageSplitChoosePartitions K E n f
    0 ≤ splitPartitionNumPixels offsets K n f j
    ∧ ((j : Int) + 1 < K →
        offsets.getD j 0 + splitPartitionNumPixels offsets K n f j = offsets.getD (j + 1) 0)
    ∧ ((j : Int) + 1 = K →
        offsets.getD j 0 + splitPartitionNumPixels offsets K n f j = f + n) := by
  obtain ⟨h1, h2, h3, h4, h5, h6⟩ := split_arith K E n hK hE hdiv hn
  have hc := splitPartitionNumPixels_eq K E n f hK hE hdiv hn j hj
  have hL : 0 ≤ n / E * (E / K) := Int.mul_nonneg h3 (by omega)
  refine ⟨by rw [hc]; omega, ?_, ?_⟩
  · intro hlt
    unfold splitPartitionNumPixels
    rw [if_pos (by omega)]
    omega
  · intro hlt
    unfold splitPartitionNumPixels
    rw [if_neg (by omega)]
    omega

theorem splitPartitionNumPixels_sum_prefix (K E n f : Int) (hK : 1 ≤ K) (hE : 0 < E)
    (hdiv : K ∣ E) (hn : 0 ≤ n) (m : Nat) (hm : (m : Int) < K) :
    ((List.range m).map
        (splitPartitionNumPixels (icetSparseImageSplitChoosePartitions K E n f) K n f)).sum
      = (icetSparseImageSplitChoosePartitions K E n f).getD m 0 - f := by
  induction m with
  | zero =>
    rw [choosePartitions_getD K E n f (by omega) (by omega) hn 0 hm]
    obtain ⟨-, -, -, h4, -, -⟩ := split_arith K E n hK hE hdiv hn
    simp
    omega
  | succ m ih =>
    have hm2 : (m : Int) < K := by push_cast at hm; omega
    obtain ⟨-, hc, -⟩ := splitPartitionNumPixels_consecutive K E n f hK hE hdiv hn m hm2
    have hc := hc (by push_cast at hm; omega)
    rw [List.range_succ, List.map_append, List.sum_append, ih hm2]
    simp only [List.map_cons, List.map_nil, List.sum_cons, List.sum_nil]
    omega

/-- Claim C8. For `K ≥ 2` dividing `E` and a source of `n ≥ 0` pixels, the offsets
written by `icetSparseImageSplit` start at `in_image_offset` and are non-decreasing,
and the `K` partition pixel counts it uses are non-negative and sum to `n`: each
partition ends where the next begins and the last ends at `in_image_offset + n`. -/
theorem icetSparseImageSplit_partitions_cover (K E n f : Int) (hK : 2 ≤ K) (hE : 0 < E)
    (hdiv : K ∣ E) (hn : 0 ≤ n) :
    (icetSparseImageSplitChoosePartitions K E n f).length = K.toNat
    ∧ (icetSparseImageSplitChoosePartitions K E n f).getD 0 0 = f
    ∧ (∀ j : Nat, (j : Int) + 1 < K →
        (icetSparseImageSplitChoosePartitions K E n f).getD j 0
          ≤ (icetSparseImageSplitChoosePartitions K E n f).getD (j + 1) 0)
    ∧ (∀ j : Nat, (j : Int) < K →
        0 ≤ splitPartitionNumPixels (icetSparseImageSplitChoosePartitions K E n f) K n f j)
    ∧ ((List.range K.toNat).map
        (splitPartitionNumPixels (icetSparseImageSplitChoosePartitions K E n f) K n f)).sum = n
    ∧ (∀ j : Nat, (j : Int) + 1 < K →
        (icetSparseImageSplitChoosePartitions K E n f).getD j 0
            + splitPartitionNumPixels (icetSparseImageSplitChoosePartitions K E n f) K n f j
          = (icetSparseImageSplitChoosePartitions K E n f).getD (j + 1) 0)
    ∧ (∀ j : Nat, (j : Int) + 1 = K →
        (icetSparseImageSplitChoosePartitions K E n f).getD j 0
            + splitPartitionNumPixels (icetSparseImageSplitChoosePartitions K E n f) K n f j
          = f + n) := by
  have hK1 : 1 ≤ K := by omega
  have hcons := splitPartitionNumPixels_consecutive K E n f hK1 hE hdiv hn
  refine ⟨?_, ?_, ?_, ?_, ?_, ?_, ?_⟩
  · rw [choosePartitions_eq K E n f (by omega) (by omega) hn]
    simp
  · rw [choosePartitions_getD K E n f (by omega) (by omega) hn 0 (by simp; omega)]
    obtain ⟨-, -, -, h4, -, -⟩ := split_arith K E n hK1 hE hdiv hn
    simp
    omega
  · intro j hj
    obtain ⟨a, b, -⟩ := hcons j (by omega)
    have := b hj
    omega
  · intro j hj
    exact (hcons j hj).1
  · obtain ⟨m, hm⟩ : ∃ m : Nat, K.toNat = m + 1 := ⟨K.toNat - 1, by omega⟩
    have hmK : (m : Int) + 1 = K := by omega
    obtain ⟨-, -, c⟩ := hcons m (by omega)
    have hp := splitPartitionNumPixels_sum_prefix K E n f hK1 hE hdiv hn m (by omega)
    rw [hm, List.range_succ, List.map_append, List.sum_append, hp]
    simp only [List.map_cons, List.map_nil, List.sum_cons, List.sum_nil]
    have := c hmK
    omega
  · intro j hj
    exact (hcons j (by omega)).2.1 hj
  · intro j hj
    exact (hcons j (by omega)).2.2 hj

/-- Scenario B: `n = 8`, `K = 2`, `E = 4` gives the offsets 0 and 4 and two
partitions of 4 pixels, `[0,4)` and `[4,8)`. -/
theorem icetSparseImageSplit_partitions_cover_witness :
    ((2 : Int) ≤ 2 ∧ (0 : Int) < 4 ∧ (2 : Int) ∣ 4 ∧ (0 : Int) ≤ 8)
    ∧ icetSparseImageSplitChoosePartitions 2 4 8 0 = [0, 4]
    ∧ (List.range 2).map
        (splitPartitionNumPixels (icetSparseImageSplitChoosePartitions 2 4 8 0) 2 8 0) = [4, 4]
    ∧ ((icetSparseImageSplitChoosePartitions 2 4 8 0).length = (2 : Int).toNat
      ∧ (icetSparseImageSplitChoosePartitions 2 4 8 0).getD 0 0 = 0
      ∧ (∀ j : Nat, (j : Int) + 1 < 2 →
          (icetSparseImageSplitChoosePartitions 2 4 8 0).getD j 0
            ≤ (icetSparseImageSplitChoosePartitions 2 4 8 0).getD (j + 1) 0)
      ∧ (∀ j : Nat, (j : Int) < 2 →
          0 ≤ splitPartitionNumPixels (icetSparseImageSplitChoosePartitions 2 4 8 0) 2 8 0 j)
      ∧ ((List.range (2 : Int).toNat).map
          (splitPartitionNumPixels (icetSparseImageSplitChoosePartitions 2 4 8 0) 2 8 0)).sum = 8
      ∧ (∀ j : Nat, (j : Int) + 1 < 2 →
          (icetSparseImageSplitChoosePartitions 2 4 8 0).getD j 0
              + splitPartitionNumPixels (icetSparseImageSplitChoosePartitions 2 4 8 0) 2 8 0 j
            = (icetSparseImageSplitChoosePartitions 2 4 8 0).getD (j + 1) 0)
      ∧ (∀ j : Nat, (j : Int) + 1 = 2 →
          (icetSparseImageSplitChoosePartitions 2 4 8 0).getD j 0
              + splitPartitionNumPixels (icetSparseImageSplitChoosePartitions 2 4 8 0) 2 8 0 j
            = 0 + 8)) :=
  ⟨⟨by decide, by decide, by decide, by decide⟩, by decide, by decide,
    icetSparseImageSplit_partitions_cover 2 4 8 0 (by decide) (by decide) (by decide)
      (by decide)⟩

/-! ### Hierarchical splitting -/

theorem flatMap_range_map {β : Type} (g : Nat → Nat → β) (a b : Nat) :
    (List.range a).flatMap (fun i => (List.range b).map (g i))
      = (List.range (a * b)).map fun J => g (J / b) (J % b) := by
  induction a with
  | zero => simp
  | succ a ih =>
    rw [List.range_succ, List.flatMap_append, ih, Nat.succ_mul, List.range_add, List.map_append,
      List.map_map]
    congr 1
    simp only [List.flatMap_cons, List.flatMap_nil, List.append_nil]
    apply List.map_congr_left
    intro x hx
    have hxb : x < b := List.mem_range.mp hx
    have hb : 0 < b := by omega
    simp only [Function.comp]
    have e1 : (a * b + x) / b = a := by
      rw [Nat.add_comm, Nat.add_mul_div_right _ _ hb, Nat.div_eq_of_lt hxb]; simp
    have e2 : (a * b + x) % b = x := by
      rw [Nat.add_comm, Nat.add_mul_mod_self_right, Nat.mod_eq_of_lt hxb]
    rw [e1, e2]

theorem hierarchical_pointwise (K1 K2 E n f : Int) (hK1 : 1 ≤ K1) (hK2 : 1 ≤ K2) (hE : 0 < E)
    (hdiv : K1 * K2 ∣ E) (hn : 0 ≤ n) (i j : Nat) (hi : (i : Int) < K1) (hj : (j : Int) < K2) :
    f + ((K2.toNat * i + j : Nat) : Int) * (n / E * (E / (K1 * K2)))
        + min (((K2.toNat * i + j : Nat) : Int) * (E / (K1 * K2))) (n % E)
      = (icetSparseImageSplitChoosePartitions K1 E n f).getD i 0
        + j * (splitPartitionNumPixels (icetSparseImageSplitChoosePartitions K1 E n f) K1 n f i
            / (E / K1) * (E / K1 / K2))
        + min (j * (E / K1 / K2))
            (splitPartitionNumPixels (icetSparseImageSplitChoosePartitions K1 E n f) K1 n f i
              % (E / K1)) := by
  have hd1 : K1 ∣ E := Dvd.dvd.trans (Dvd.intro _ rfl) hdiv
  have hK : 1 ≤ K1 * K2 := by nlinarith
  obtain ⟨a1, a2, a3, a4, a5, a6⟩ := split_arith (K1 * K2) E n hK hE hdiv hn
  obtain ⟨b1, b2, -, -, -, -⟩ := split_arith K1 E n hK1 hE hd1 hn
  have hE' : K2 * (E / (K1 * K2)) = E / K1 := by
    have : K1 * (K2 * (E / (K1 * K2))) = K1 * (E / K1) := by rw [b1, ← mul_assoc, a1]
    exact Int.eq_of_mul_eq_mul_left (by omega) this
  have hss : E / K1 / K2 = E / (K1 * K2) := by
    rw [← hE', Int.mul_ediv_cancel_left _ (by omega)]
  rw [choosePartitions_getD K1 E n f (by omega) (by omega) hn i hi,
    splitPartitionNumPixels_eq K1 E n f hK1 hE hd1 hn i hi, hss]
  have hcast : ((K2.toNat * i + j : Nat) : Int) = K2 * i + j := by
    push_cast
    rw [Int.toNat_of_nonneg (by omega)]
  rw [hcast]
  -- name the quantities
  obtain ⟨s, hs⟩ : ∃ s, s = E / (K1 * K2) := ⟨_, rfl⟩
  obtain ⟨E', hE'd⟩ : ∃ E', E' = E / K1 := ⟨_, rfl⟩
  obtain ⟨q, hq⟩ : ∃ q, q = n / E := ⟨_, rfl⟩
  obtain ⟨r, hr⟩ : ∃ r, r = n % E := ⟨_, rfl⟩
  rw [← hs, ← hE'd, ← hq, ← hr]
  rw [← hs, ← hE'd] at hE'
  rw [← hs] at a2
  rw [← hE'd] at b2
  rw [← hr] at a4 a5
  obtain ⟨A, hA⟩ : ∃ A, A = (i : Int) * E' := ⟨_, rfl⟩
  obtain ⟨B, hB⟩ : ∃ B, B = (j : Int) * s := ⟨_, rfl⟩
  have hA0 : 0 ≤ A := by rw [hA]; exact Int.mul_nonneg (Int.ofNat_nonneg i) (by omega)
  have hB0 : 0 ≤ B := by rw [hB]; exact Int.mul_nonneg (Int.ofNat_nonneg j) (by omega)
  have hBs : B + s ≤ E' := by
    rw [hB, ← hE']
    have : ((j : Int) + 1) * s ≤ K2 * s := Int.mul_le_mul_of_nonneg_right (by omega) (by omega)
    linarith
  have e1 : (K2 * (i : Int) + j) * (q * s) = q * A + q * B := by
    rw [hA, hB, ← hE']; ring
  have e2 : (K2 * (i : Int) + j) * s = A + B := by
    rw [hA, hB, ← hE']; ring
  have e3 : (i : Int) * (q * E') = q * A := by rw [hA]; ring
  rw [e1, e2, e3, ← hA, ← hB]
  by_cases hx : E' ≤ r - A
  · have hsi : q * E' + min E' (max 0 (r - A)) = E' * (q + 1) := by
      have : min E' (max 0 (r - A)) = E' := by omega
      rw [this]; ring
    have hdm : (E' * (q + 1)) / E' = q + 1 ∧ (E' * (q + 1)) % E' = 0 :=
      (Int.ediv_emod_unique b2).2 ⟨by ring, le_refl _, b2⟩
    rw [hsi, hdm.1, hdm.2]
    have e4 : (j : Int) * ((q + 1) * s) = q * B + B := by rw [hB]; ring
    rw [e4]
    generalize q * A = qA
    generalize q * B = qB
    omega
  · have hdm : (q * E' + min E' (max 0 (r - A))) / E' = q
        ∧ (q * E' + min E' (max 0 (r - A))) % E' = min E' (max 0 (r - A)) :=
      (Int.ediv_emod_unique b2).2 ⟨by ring, by omega, by omega⟩
    rw [hdm.1, hdm.2]
    have e4 : (j : Int) * (q * s) = q * B := by rw [hB]; ring
    rw [e4]
    generalize q * A = qA
    generalize q * B = qB
    omega

/-- Claim C10. Hierarchical split: for `K1, K2 ≥ 1` with `K1*K2` dividing `E`, every
size `n ≥ 0` and every first offset `f`, the `K1*K2` offsets chosen by
`icetSparseImageSplitChoosePartitions(K1*K2, E, n, f)` are those obtained by choosing
`K1` partitions with `(K1, E, n, f)` and then, for each resulting partition `i` with
offset `o_i` and size `s_i`, choosing `K2` partitions with `(K2, E/K1, s_i, o_i)`. -/
theorem choosePartitions_hierarchical (K1 K2 E n f : Int) (hK1 : 1 ≤ K1) (hK2 : 1 ≤ K2)
    (hE : 0 < E) (hdiv : K1 * K2 ∣ E) (hn : 0 ≤ n) :
    icetSparseImageSplitChoosePartitions (K1 * K2) E n f
      = (List.range K1.toNat).flatMap fun i =>
          icetSparseImageSplitChoosePartitions K2 (Int.tdiv E K1)
            (splitPartitionNumPixels (icetSparseImageSplitChoosePartitions K1 E n f) K1 n f i)
            ((icetSparseImageSplitChoosePartitions K1 E n f).getD i 0) := by
  have hd1 : K1 ∣ E := Dvd.dvd.trans (Dvd.intro _ rfl) hdiv
  have hK : 1 ≤ K1 * K2 := by nlinarith
  have hE1 : 0 ≤ E / K1 := Int.ediv_nonneg (by omega) (by omega)
  have hinner : ∀ i ∈ List.range K1.toNat,
      icetSparseImageSplitChoosePartitions K2 (Int.tdiv E K1)
          (splitPartitionNumPixels (icetSparseImageSplitChoosePartitions K1 E n f) K1 n f i)
          ((icetSparseImageSplitChoosePartitions K1 E n f).getD i 0)
        = (List.range K2.toNat).map fun j : Nat =>
            f + ((K2.toNat * i + j : Nat) : Int) * (n / E * (E / (K1 * K2)))
              + min (((K2.toNat * i + j : Nat) : Int) * (E / (K1 * K2))) (n % E) := by
    intro i hi
    have hiK : (i : Int) < K1 := by have := List.mem_range.mp hi; omega
    have hs0 := (splitPartitionNumPixels_consecutive K1 E n f hK1 hE hd1 hn i hiK).1
    rw [Int.tdiv_eq_ediv (by omega) (by omega),
      choosePartitions_eq K2 (E / K1) _ _ (by omega) hE1 hs0]
    apply List.map_congr_left
    intro j hj
    have hjK : (j : Int) < K2 := by have := List.mem_range.mp hj; omega
    exact (hierarchical_pointwise K1 K2 E n f hK1 hK2 hE hdiv hn i j hiK hjK).symm
  rw [List.flatMap_def, List.map_congr_left hinner, ← List.flatMap_def,
    flatMap_range_map (fun i j : Nat =>
      f + ((K2.toNat * i + j : Nat) : Int) * (n / E * (E / (K1 * K2)))
        + min (((K2.toNat * i + j : Nat) : Int) * (E / (K1 * K2))) (n % E)),
    choosePartitions_eq (K1 * K2) E n f (by omega) (by omega) hn]
  have hnat : (K1 * K2).toNat = K1.toNat * K2.toNat := by
    have h1 : ((K1.toNat * K2.toNat : Nat) : Int) = K1 * K2 := by
      push_cast
      rw [Int.toNat_of_nonneg (by omega), Int.toNat_of_nonneg (by omega)]
    omega
  rw [hnat]
  apply List.map_congr_left
  intro J _
  have hK2n : 0 < K2.toNat := by omega
  have hJ : K2.toNat * (J / K2.toNat) + J % K2.toNat = J := Nat.div_add_mod J K2.toNat
  simp only [hJ]

/-- The hierarchical split at `n = 10`, `E = 4`, `K1 = K2 = 2`: the offsets are
0, 3, 6, 8 both ways. -/
theorem choosePartitions_hierarchical_witness :
    ((1 : Int) ≤ 2 ∧ (0 : Int) < 4 ∧ (2 : Int) * 2 ∣ 4 ∧ (0 : Int) ≤ 10)
    ∧ icetSparseImageSplitChoosePartitions (2 * 2) 4 10 0 = [0, 3, 6, 8]
    ∧ icetSparseImageSplitChoosePartitions (2 * 2) 4 10 0
      = (List.range (2 : Int).toNat).flatMap fun i =>
          icetSparseImageSplitChoosePartitions 2 (Int.tdiv 4 2)
            (splitPartitionNumPixels (icetSparseImageSplitChoosePartitions 2 4 10 0) 2 10 0 i)
            ((icetSparseImageSplitChoosePartitions 2 4 10 0).getD i 0) :=
  ⟨⟨by decide, by decide, by decide, by decide⟩, by decide,
    choosePartitions_hierarchical 2 2 4 10 0 (by decide) (by decide) (by decide) (by decide)
      (by decide)⟩

/-! ### Sparse streams: scanning -/

theorem scanPixel_inactive (in_data : List SparseCell) (i a : Nat) :
    scanPixel in_data (i + 1) a = some (none, ⟨in_data, i, a⟩) := by
  cases in_data with
  | nil => rfl
  | cons c rest => cases c <;> rfl

theorem scan_of_pixels_inactive (in_data : List SparseCell) (i a : Nat) (p : Option Fragment)
    (ps : List (Option Fragment))
    (h : (SparseCursor.mk in_data (i + 1) a).pixels = some (p :: ps)) :
    ∃ c, scanPixel in_data (i + 1) a = some (p, c) ∧ c.pixels = some ps := by
  simp only [SparseCursor.pixels, Option.map_eq_some', List.replicate_succ,
    List.cons_append, List.cons.injEq] at h
  obtain ⟨x, hx, h1, h2⟩ := h
  subst h1
  refine ⟨_, scanPixel_inactive _ _ _, ?_⟩
  simp only [SparseCursor.pixels, Option.map_eq_some']
  exact ⟨x, hx, h2⟩

theorem scan_of_pixels (in_data : List SparseCell) (i a : Nat) (p : Option Fragment)
    (ps : List (Option Fragment))
    (h : (SparseCursor.mk in_data i a).pixels = some (p :: ps)) :
    ∃ c, scanPixel in_data i a = some (p, c) ∧ c.pixels = some ps := by
  induction in_data generalizing i a with
  | nil =>
    cases i with
    | zero => cases a <;> simp [SparseCursor.pixels, streamPixels] at h
    | succ i => exact scan_of_pixels_inactive _ _ _ _ _ h
  | cons c rest ih =>
    cases i with
    | succ i => exact scan_of_pixels_inactive _ _ _ _ _ h
    | zero =>
      cases c with
      | runLength i' a' =>
        cases a with
        | zero =>
          have : (SparseCursor.mk rest i' a').pixels = some (p :: ps) := by
            simpa [SparseCursor.pixels, streamPixels] using h
          obtain ⟨c, hc, hp⟩ := ih i' a' this
          exact ⟨c, by simpa [scanPixel] using hc, hp⟩
        | succ a => simp [SparseCursor.pixels, streamPixels] at h
      | runLengthLayered _ _ _ =>
        cases a <;> simp [SparseCursor.pixels, streamPixels] at h
      | layeredPixel _ =>
        cases a <;> simp [SparseCursor.pixels, streamPixels] at h
      | pixel f =>
        cases a with
        | zero => simp [SparseCursor.pixels, streamPixels] at h
        | succ a =>
          simp only [SparseCursor.pixels, streamPixels, Option.map_map, Option.map_eq_some',
            Function.comp, List.replicate_zero, List.nil_append, List.cons.injEq] at h
          obtain ⟨x, hx, h1, h2⟩ := h
          subst h1
          refine ⟨⟨rest, 0, a⟩, by simp [scanPixel], ?_⟩
          simp [SparseCursor.pixels, hx, h2]

/-! ### Sparse streams: writing -/

theorem streamPixels_append (xs ys : List SparseCell) (a : Nat) (p : List (Option Fragment))
    (h : streamPixels xs a = some p) :
    streamPixels (xs ++ ys) a = (streamPixels ys 0).map fun q => p ++ q := by
  induction xs generalizing a p with
  | nil =>
    cases a with
    | zero =>
      simp only [streamPixels, Option.some.injEq] at h
      subst h
      simp
    | succ a => simp [streamPixels] at h
  | cons c xs ih =>
    cases c with
    | runLength i a' =>
      cases a with
      | zero =>
        simp only [streamPixels, Option.map_eq_some'] at h
        obtain ⟨q, hq, hp⟩ := h
        subst hp
        rw [List.cons_append, streamPixels, ih a' q hq]
        cases streamPixels ys 0 <;> simp [List.append_assoc]
      | succ a => simp [streamPixels] at h
    | runLengthLayered _ _ _ => cases a <;> simp [streamPixels] at h
    | layeredPixel _ => cases a <;> simp [streamPixels] at h
    | pixel f =>
      cases a with
      | zero => simp [streamPixels] at h
      | succ a =>
        simp only [streamPixels, Option.map_eq_some'] at h
        obtain ⟨q, hq, hp⟩ := h
        subst hp
        rw [List.cons_append, streamPixels, ih a q hq]
        cases streamPixels ys 0 <;> simp

theorem streamPixels_fragments (fragments : List Fragment) :
    streamPixels (fragments.map SparseCell.pixel) fragments.length
      = some (fragments.map some) := by
  induction fragments with
  | nil => rfl
  | cons f fs ih => simp [streamPixels, ih]

theorem streamPixels_run (i : Nat) (fragments : List Fragment) :
    streamPixels (.runLength i fragments.length :: fragments.map SparseCell.pixel) 0
      = some (List.replicate i none ++ fragments.map some) := by
  simp [streamPixels, streamPixels_fragments]

theorem SparseWriter.Holds.cells {w : SparseWriter} {ps : List (Option Fragment)}
    (h : w.Holds ps) : streamPixels w.cells 0 = some ps := by
  unfold SparseWriter.Holds at h
  unfold SparseWriter.cells
  cases hs : w.state with
  | START =>
    rw [hs] at h
    obtain ⟨h1, h2⟩ := h
    simp [h1, h2, streamPixels]
  | INACTIVE_RUN =>
    rw [hs] at h
    obtain ⟨finished, h1, h2, h3, h4⟩ := h
    simp only []
    rw [streamPixels_append _ _ _ _ h1, h2, h3, h4]
    have := streamPixels_run w.inactive []
    simp only [List.length_nil, List.map_nil, List.append_nil] at this
    rw [this]
    rfl
  | ACTIVE_RUN =>
    rw [hs] at h
    obtain ⟨finished, fs, h1, h2, h3, h4⟩ := h
    simp only []
    rw [streamPixels_append _ _ _ _ h1, h2, h3, h4, streamPixels_run]
    simp [List.append_assoc]

theorem SparseWriter.Holds.emit {w : SparseWriter} {ps : List (Option Fragment)}
    (h : w.Holds ps) (p : Option Fragment) : (w.emit p).Holds (ps ++ [p]) := by
  have hc := h.cells
  unfold SparseWriter.Holds at h
  cases p with
  | none =>
    cases hs : w.state with
    | START =>
      rw [hs] at h
      obtain ⟨h1, h2⟩ := h
      simp [SparseWriter.emit, SparseWriter.emitInactive, SparseWriter.Holds, hs,
        SparseWriter.cells, h1, h2, streamPixels]
    | INACTIVE_RUN =>
      rw [hs] at h
      obtain ⟨finished, h1, h2, h3, h4⟩ := h
      simp only [SparseWriter.emit, SparseWriter.emitInactive, SparseWriter.Holds, hs]
      exact ⟨finished, h1, h2, h3, by rw [h4, List.replicate_succ', List.append_assoc]⟩
    | ACTIVE_RUN =>
      simp only [SparseWriter.emit, SparseWriter.emitInactive, SparseWriter.Holds, hs]
      exact ⟨ps, hc, by simp⟩
  | some f =>
    cases hs : w.state with
    | START =>
      rw [hs] at h
      obtain ⟨h1, h2⟩ := h
      simp only [SparseWriter.emit, SparseWriter.emitActive, SparseWriter.Holds, hs]
      exact ⟨[], [f], by simp [SparseWriter.cells, hs, h1, streamPixels], rfl, rfl,
        by simp [h2]⟩
    | INACTIVE_RUN =>
      rw [hs] at h
      obtain ⟨finished, h1, h2, h3, h4⟩ := h
      simp only [SparseWriter.emit, SparseWriter.emitActive, SparseWriter.Holds, hs]
      exact ⟨finished, [f], h1, by simp [h2], by simp [h3], by simp [h4]⟩
    | ACTIVE_RUN =>
      rw [hs] at h
      obtain ⟨finished, fs, h1, h2, h3, h4⟩ := h
      simp only [SparseWriter.emit, SparseWriter.emitActive, SparseWriter.Holds, hs]
      exact ⟨finished, fs ++ [f], h1, by simp [h2], by simp [h3], by simp [h4]⟩

theorem SparseWriter.Holds.foldl (l : List (Option Fragment)) {w : SparseWriter}
    {ps : List (Option Fragment)} (h : w.Holds ps) :
    (l.foldl SparseWriter.emit w).Holds (ps ++ l) := by
  induction l generalizing w ps with
  | nil => simpa using h
  | cons p l ih =>
    have := ih (h.emit p)
    simpa [List.append_assoc] using this

theorem SparseWriter.start_holds : SparseWriter.start.Holds [] := by
  simp [SparseWriter.Holds, SparseWriter.start]

/-! ### Dense pixels: loading and storing -/

theorem loadElements_length (base count : Nat) (buffer : List Nat) :
    (loadElements base count buffer).length = count := by
  simp [loadElements]

theorem loadElements_getD (base count : Nat) (buffer : List Nat) (c : Nat) :
    (loadElements base count buffer).getD c 0
      = if c < count then buffer.getD (base + c) 0 else 0 := by
  unfold loadElements
  by_cases h : c < count
  · rw [if_pos h, List.getD_eq_getElem?_getD, List.getElem?_map, List.getElem?_range h]
    rfl
  · rw [if_neg h]
    exact getD_of_length_le _ _ (by simp; omega)

theorem loadElements_idem (base count : Nat) (buffer : List Nat) :
    loadElements 0 count (loadElements base count buffer) = loadElements base count buffer := by
  unfold loadElements
  apply List.ext_getElem (by simp)
  intro i h1 h2
  simp only [List.length_map, List.length_range] at h1
  simp only [List.getElem_map, List.getElem_range, Nat.zero_add]
  have := loadElements_getD base count buffer i
  unfold loadElements at this
  rw [this, if_pos h1]

theorem storeElements_length (base : Nat) (values buffer : List Nat) :
    (storeElements base values buffer).length = buffer.length := by
  induction values generalizing base buffer with
  | nil => rfl
  | cons v vs ih => simp [storeElements, ih]

theorem storeElements_getD (base : Nat) (values buffer : List Nat) (k : Nat) :
    (storeElements base values buffer).getD k 0
      = if base ≤ k ∧ k < base + values.length ∧ k < buffer.length
        then values.getD (k - base) 0 else buffer.getD k 0 := by
  induction values generalizing base buffer with
  | nil =>
    have : ¬ (base ≤ k ∧ k < base + ([] : List Nat).length ∧ k < buffer.length) := by
      simp; omega
    rw [if_neg this]; rfl
  | cons v vs ih =>
    rw [storeElements, ih, getD_set_eq, List.length_set, List.length_cons]
    by_cases hk : base = k
    · subst hk
      by_cases hl : base < buffer.length
      · have h1 : ¬ (base + 1 ≤ base ∧ base < base + 1 + vs.length ∧ base < buffer.length) := by
          omega
        have h2 : base ≤ base ∧ base < base + (vs.length + 1) ∧ base < buffer.length := by
          omega
        rw [if_neg h1, if_pos ⟨rfl, hl⟩, if_pos h2]
        simp
      · have h1 : ¬ (base + 1 ≤ base ∧ base < base + 1 + vs.length ∧ base < buffer.length) := by
          omega
        have h2 : ¬ (base ≤ base ∧ base < base + (vs.length + 1) ∧ base < buffer.length) := by
          omega
        have h3 : ¬ (base = base ∧ base < buffer.length) := by omega
        rw [if_neg h1, if_neg h3, if_neg h2]
    · have h3 : ¬ (base = k ∧ base < buffer.length) := by omega
      rw [if_neg h3]
      by_cases h1 : base + 1 ≤ k ∧ k < base + 1 + vs.length ∧ k < buffer.length
      · have h2 : base ≤ k ∧ k < base + (vs.length + 1) ∧ k < buffer.length := by omega
        rw [if_pos h1, if_pos h2]
        have : k - base = (k - (base + 1)) + 1 := by omega
        rw [this]
        rfl
      · have h2 : ¬ (base ≤ k ∧ k < base + (vs.length + 1) ∧ k < buffer.length) := by omega
        rw [if_neg h1, if_neg h2]

theorem load_store_same (n k : Nat) (values buffer : List Nat)
    (hcap : n * k + n ≤ buffer.length) :
    loadElements (n * k) n (storeElements (n * k) (loadElements 0 n values) buffer)
      = loadElements 0 n values := by
  unfold loadElements
  apply List.map_congr_left
  intro c hc
  have hc' : c < n := List.mem_range.mp hc
  have h := storeElements_getD (n * k) (loadElements 0 n values) buffer (n * k + c)
  rw [loadElements_length] at h
  have hcond : n * k ≤ n * k + c ∧ n * k + c < n * k + n ∧ n * k + c < buffer.length := by
    omega
  rw [if_pos hcond, loadElements_getD, if_pos (by omega)] at h
  unfold loadElements at h
  rw [h]
  congr 1
  omega

theorem load_store_other (n j k : Nat) (values buffer : List Nat) (hjk : j ≠ k) :
    loadElements (n * j) n (storeElements (n * k) (loadElements 0 n values) buffer)
      = loadElements (n * j) n buffer := by
  unfold loadElements
  apply List.map_congr_left
  intro c hc
  have hc' : c < n := List.mem_range.mp hc
  have h := storeElements_getD (n * k) (loadElements 0 n values) buffer (n * j + c)
  rw [loadElements_length] at h
  have hcond : ¬ (n * k ≤ n * j + c ∧ n * j + c < n * k + n ∧ n * j + c < buffer.length) := by
    rcases Nat.lt_or_gt_of_ne hjk with hlt | hgt
    · have : n * (j + 1) ≤ n * k := Nat.mul_le_mul_left n hlt
      rw [Nat.mul_succ] at this
      omega
    · have : n * (k + 1) ≤ n * j := Nat.mul_le_mul_left n hgt
      rw [Nat.mul_succ] at this
      omega
  rw [if_neg hcond] at h
  exact h

theorem loadFragment_storeFragment_same (cf : ColorFormat) (df : DepthFormat) (f : Fragment)
    (k : Nat) (buffers : List Nat × List Nat)
    (hc : colorChannels cf * k + colorChannels cf ≤ buffers.1.length)
    (hd : depthChannels df * k + depthChannels df ≤ buffers.2.length) :
    loadFragment cf df (storeFragment cf df f k buffers).1 (storeFragment cf df f k buffers).2 k
      = f.clip cf df := by
  simp only [loadFragment, storeFragment, Fragment.clip, load_store_same _ _ _ _ hc,
    load_store_same _ _ _ _ hd]

theorem loadFragment_storeFragment_other (cf : ColorFormat) (df : DepthFormat) (f : Fragment)
    (j k : Nat) (buffers : List Nat × List Nat) (hjk : j ≠ k) :
    loadFragment cf df (storeFragment cf df f k buffers).1 (storeFragment cf df f k buffers).2 j
      = loadFragment cf df buffers.1 buffers.2 j := by
  simp only [loadFragment, storeFragment, load_store_other _ _ _ _ _ hjk]

theorem storeFragment_length (cf : ColorFormat) (df : DepthFormat) (f : Fragment)
    (k : Nat) (buffers : List Nat × List Nat) :
    (storeFragment cf df f k buffers).1.length = buffers.1.length
      ∧ (storeFragment cf df f k buffers).2.length = buffers.2.length := by
  simp [storeFragment, storeElements_length]

theorem storePixels_length (st : IceTState) (cf : ColorFormat) (df : DepthFormat)
    (ps : List (Option Fragment)) (k : Nat) (buffers : List Nat × List Nat) :
    (storePixels st cf df ps k buffers).1.length = buffers.1.length
      ∧ (storePixels st cf df ps k buffers).2.length = buffers.2.length := by
  induction ps generalizing k buffers with
  | nil => exact ⟨rfl, rfl⟩
  | cons p ps ih =>
    rw [storePixels]
    obtain ⟨h1, h2⟩ := ih (k + 1) (storeFragment cf df
      (p.getD (backgroundFragment st cf df)) k buffers)
    obtain ⟨h3, h4⟩ := storeFragment_length cf df (p.getD (backgroundFragment st cf df)) k buffers
    exact ⟨h1.trans h3, h2.trans h4⟩

theorem storePixels_before (st : IceTState) (cf : ColorFormat) (df : DepthFormat)
    (ps : List (Option Fragment)) (k : Nat) (buffers : List Nat × List Nat) (j : Nat)
    (hj : j < k) :
    loadFragment cf df (storePixels st cf df ps k buffers).1
        (storePixels st cf df ps k buffers).2 j
      = loadFragment cf df buffers.1 buffers.2 j := by
  induction ps generalizing k buffers with
  | nil => rfl
  | cons p ps ih =>
    rw [storePixels, ih (k + 1) _ (by omega),
      loadFragment_storeFragment_other cf df _ j k buffers (by omega)]

theorem storePixels_at (st : IceTState) (cf : ColorFormat) (df : DepthFormat)
    (ps : List (Option Fragment)) (k : Nat) (buffers : List Nat × List Nat)
    (hc : colorChannels cf * (k + ps.length) ≤ buffers.1.length)
    (hd : depthChannels df * (k + ps.length) ≤ buffers.2.length)
    (i : Nat) (hi : i < ps.length) :
    loadFragment cf df (storePixels st cf df ps k buffers).1
        (storePixels st cf df ps k buffers).2 (k + i)
      = ((ps.getD i none).getD (backgroundFragment st cf df)).clip cf df := by
  induction ps generalizing k buffers i with
  | nil => simp at hi
  | cons p ps ih =>
    rw [storePixels]
    obtain ⟨h3, h4⟩ := storeFragment_length cf df (p.getD (backgroundFragment st cf df)) k buffers
    simp only [List.length_cons] at hc hd hi
    cases i with
    | zero =>
      have hcap1 : colorChannels cf * k + colorChannels cf ≤ buffers.1.length := by
        have : colorChannels cf * (k + 1) ≤ colorChannels cf * (k + (ps.length + 1)) :=
          Nat.mul_le_mul_left _ (by omega)
        rw [Nat.mul_succ] at this
        omega
      have hcap2 : depthChannels df * k + depthChannels df ≤ buffers.2.length := by
        have : depthChannels df * (k + 1) ≤ depthChannels df * (k + (ps.length + 1)) :=
          Nat.mul_le_mul_left _ (by omega)
        rw [Nat.mul_succ] at this
        omega
      change loadFragment cf df _ _ k = _
      rw [storePixels_before st cf df ps (k + 1) _ k (by omega),
        loadFragment_storeFragment_same cf df _ k buffers hcap1 hcap2]
      rfl
    | succ i =>
      have e : k + (i + 1) = (k + 1) + i := by omega
      have e2 : k + 1 + ps.length = k + (ps.length + 1) := by omega
      rw [e, ih (k + 1) _ (by rw [h3, e2]; exact hc) (by rw [h4, e2]; exact hd) i (by omega)]
      rfl

theorem decompressLoop_eq (st : IceTState) (cf : ColorFormat) (df : DepthFormat)
    (ps rest : List (Option Fragment)) (k : Nat) (c : SparseCursor)
    (buffers : List Nat × List Nat) (h : c.pixels = some (ps ++ rest)) :
    decompressLoop st cf df ps.length k c buffers = some (storePixels st cf df ps k buffers) := by
  induction ps generalizing k c buffers with
  | nil => rfl
  | cons p ps ih =>
    obtain ⟨c', hc', hp'⟩ := scan_of_pixels c.in_data c.inactive_before c.active_till_next_runl
      p (ps ++ rest) h
    simp only [List.length_cons, decompressLoop, SparseCursor.scan, hc', storePixels]
    exact ih (k + 1) c' _ hp'

/-! ### Compress and decompress -/

theorem icetCompressImage_eq (active : Fragment → Bool) (img : IceTImageData)
    (sp : IceTSparseImageData)
    (himg : img.magic_num = ICET_IMAGE_MAGIC_NUM
      ∨ img.magic_num = ICET_IMAGE_POINTERS_MAGIC_NUM)
    (hsp : sp.magic_num = ICET_SPARSE_IMAGE_MAGIC_NUM)
    (hspc : sp.color_format = img.color_format) (hspd : sp.depth_format = img.depth_format)
    (hcap : img.width * img.height ≤ sp.max_num_pixels) :
    ∃ c, icetCompressImage active img sp = some (c, [])
      ∧ c.magic_num = ICET_SPARSE_IMAGE_MAGIC_NUM
      ∧ c.color_format = img.color_format ∧ c.depth_format = img.depth_format
      ∧ c.width = img.width ∧ c.height = img.height
      ∧ c.max_num_pixels = sp.max_num_pixels
      ∧ c.actual_buffer_size = ICET_IMAGE_DATA_START_INDEX * SIZEOF_WORD
          + payloadBytes img.color_format img.depth_format c.payload
      ∧ streamPixels c.payload 0
          = some (densePixels active img 0 (img.width * img.height).toNat) := by
  have hnl : (ICET_SPARSE_IMAGE_MAGIC_NUM &&& ICET_IMAGE_FLAG_LAYERED != 0) = false := by
    decide
  have hcap' : ¬ (img.width * img.height * 1 > sp.max_num_pixels) := by
    rw [Int.mul_one]; omega
  have hmag : ¬ (img.magic_num ≠ ICET_IMAGE_MAGIC_NUM
      ∧ img.magic_num ≠ ICET_IMAGE_POINTERS_MAGIC_NUM) := by tauto
  have hw := (SparseWriter.Holds.foldl
    (densePixels active img 0 (img.width * img.height).toNat) SparseWriter.start_holds).cells
  rw [List.nil_append] at hw
  unfold densePixels at hw
  rw [List.foldl_map] at hw
  obtain ⟨cells, hcells⟩ : ∃ cells, cells = ((List.range (img.width * img.height).toNat).foldl
      (fun (w : SparseWriter) i =>
        w.emit
          (let fragment := loadFragment img.color_format img.depth_format img.color
            img.depth (0 + i)
          if active fragment = true then some fragment else none))
      SparseWriter.start).cells := ⟨_, rfl⟩
  rw [← hcells] at hw
  refine ⟨{
      magic_num := sp.magic_num
      color_format := sp.color_format
      depth_format := sp.depth_format
      width := img.width
      height := img.height
      max_num_pixels := sp.max_num_pixels
      actual_buffer_size := ICET_IMAGE_DATA_START_INDEX * SIZEOF_WORD
        + payloadBytes sp.color_format sp.depth_format cells
      payload := cells
      address := sp.address }, ?_, hsp, hspc, hspd, rfl, rfl, rfl, ?_, ?_⟩
  · simp only [icetCompressImage, icetCompressSubImage, icetSparseImageSetDimensions,
      icetImageGetNumPixels, hcap', if_false, icetClearSparseImage, icetSparseImageIsLayered,
      hnl, icetSparseImageSetActualSize, compressBody, hmag, hsp, hspc, hspd, Option.map_some',
      ne_eq, not_true_eq_false, or_self, Bool.false_eq_true, List.nil_append,
      icetImageGetWidth, icetImageGetHeight, Int.toNat_zero, ← hcells]
  · simp only [hspc, hspd]
  · exact hw

theorem fragmentSizeDiagnostics_valid (cf : ColorFormat) (df : DepthFormat)
    (hc : cf ∈ [ColorFormat.RGBA_UBYTE, .RGBA_FLOAT, .RGB_FLOAT, .NONE])
    (hd : df ∈ [DepthFormat.FLOAT, .NONE]) : fragmentSizeDiagnostics cf df = [] := by
  cases cf <;> cases df <;> simp at hc hd <;> rfl

theorem icetDecompressImage_resized (st : IceTState) (c : IceTSparseImageData)
    (out resized : IceTImageData) (ps : List (Option Fragment))
    (hc : c.magic_num = ICET_SPARSE_IMAGE_MAGIC_NUM)
    (hout : out.magic_num = ICET_IMAGE_MAGIC_NUM)
    (hcf : c.color_format = out.color_format) (hdf : c.depth_format = out.depth_format)
    (hn : 0 ≤ c.width * c.height)
    (hcap : c.width * c.height ≤ out.max_num_pixels)
    (hres : (icetImageSetDimensions (some out) c.width c.height).1 = some resized)
    (hps : streamPixels c.payload 0 = some ps)
    (hlen : ps.length = (c.width * c.height).toNat) :
    icetDecompressImage st c out
        = some ({ resized with
            color := (storePixels st out.color_format out.depth_format ps 0
              (resized.color, resized.depth)).1
            depth := (storePixels st out.color_format out.depth_format ps 0
              (resized.color, resized.depth)).2 },
          fragmentSizeDiagnostics out.color_format out.depth_format)
    ∧ resized.width = c.width ∧ resized.height = c.height
    ∧ resized.color_format = out.color_format ∧ resized.depth_format = out.depth_format := by
  have hle := wrapSizeType_le (c.width * c.height) (by norm_num; omega)
  obtain ⟨r, ev, hr, h1, h2, h3, h4, h5, -, -, -, -, -, -, hev⟩ :=
    icetImageSetDimensions_accepts out c.width c.height (by omega)
  rw [hr] at hres
  simp only [Option.some.injEq] at hres
  subst hres
  rw [if_pos (Or.inl hout)] at hev
  have hcur : (SparseCursor.atStart c.payload).pixels = some (ps ++ []) := by
    simp [SparseCursor.pixels, SparseCursor.atStart, hps]
  have hloop := decompressLoop_eq st r.color_format r.depth_format ps [] 0 _
    (r.color, r.depth) hcur
  rw [hlen] at hloop
  refine ⟨?_, h1, h2, h4, h5⟩
  unfold icetDecompressImage
  simp only [icetSparseImageGetWidth, icetSparseImageGetHeight, hr, icetDecompressSubImage,
    decompressBody, hc, h3, hout, hcf, hdf, h4, h5, icetSparseImageGetNumPixels, ne_eq,
    not_true_eq_false, or_self, if_false, Int.toNat_zero, Option.map_some', hev]
  rw [h4, h5] at hloop
  simp only [hloop, Option.map_some', List.append_nil]

theorem icetDecompressImage_eq (st : IceTState) (c : IceTSparseImageData)
    (out : IceTImageData) (ps : List (Option Fragment))
    (hc : c.magic_num = ICET_SPARSE_IMAGE_MAGIC_NUM)
    (hout : out.magic_num = ICET_IMAGE_MAGIC_NUM)
    (hcf : c.color_format = out.color_format) (hdf : c.depth_format = out.depth_format)
    (hn : 0 ≤ c.width * c.height)
    (hsame : c.width * c.height = out.width * out.height)
    (hcap : c.width * c.height ≤ out.max_num_pixels)
    (hps : streamPixels c.payload 0 = some ps)
    (hlen : ps.length = (c.width * c.height).toNat) :
    icetDecompressImage st c out
      = some ({ out with
          width := c.width
          height := c.height
          actual_buffer_size :=
            icetImageBufferSizeType out.color_format out.depth_format c.width c.height
          color := (storePixels st out.color_format out.depth_format ps 0
            (out.color, out.depth)).1
          depth := (storePixels st out.color_format out.depth_format ps 0
            (out.color, out.depth)).2 },
        fragmentSizeDiagnostics out.color_format out.depth_format) := by
  have hset := icetImageSetDimensions_flat out c.width c.height hout hn hcap hsame
  have := (icetDecompressImage_resized st c out _ ps hc hout hcf hdf hn hcap
    (by rw [hset]) hps hlen).1
  rw [this]

theorem densePixels_length (active : Fragment → Bool) (image : IceTImageData)
    (offset count : Nat) : (densePixels active image offset count).length = count := by
  simp [densePixels]

theorem densePixels_getD (active : Fragment → Bool) (image : IceTImageData)
    (offset count i : Nat) (hi : i < count) :
    (densePixels active image offset count).getD i none
      = if active (loadFragment image.color_format image.depth_format image.color
            image.depth (offset + i))
        then some (loadFragment image.color_format image.depth_format image.color
            image.depth (offset + i))
        else none := by
  unfold densePixels
  rw [List.getD_eq_getElem?_getD, List.getElem?_map, List.getElem?_range hi]
  rfl

theorem loadFragment_clip (cf : ColorFormat) (df : DepthFormat) (color depth : List Nat)
    (i : Nat) : (loadFragment cf df color depth i).clip cf df = loadFragment cf df color depth i := by
  simp only [Fragment.clip, loadFragment, loadElements_idem]

theorem backgroundFragment_clip (st : IceTState) (cf : ColorFormat) (df : DepthFormat) :
    (backgroundFragment st cf df).clip cf df = backgroundFragment st cf df := by
  have h1 : ∀ x : Nat, loadElements 0 1 [x] = [x] := fun _ => rfl
  have h0 : ∀ l : List Nat, loadElements 0 0 l = [] := fun _ => rfl
  cases cf <;> cases df <;>
    simp only [Fragment.clip, backgroundFragment, colorChannels, depthChannels,
      loadElements_idem, h1, h0]

/-- Claim C4. Encode/decode round trip: for a non-layered dense image `img`, backed by
a buffer or by pointers, a flat sparse image and a flat output image of the same formats
and with enough capacity, where `resized` is the output image as
`icetImageSetDimensions` leaves it for the dimensions of `img`,
`icetDecompressImage(icetCompressImage(img))` has the width and height of `img`, has
the color and depth of `img` at every pixel whose activity predicate held, and the
background color and depth 1.0 at every other pixel; neither call raises a diagnostic.
The activity predicate is arbitrary; the formats are any of the formats of the data
model. -/
theorem compress_decompress_roundtrip (st : IceTState) (active : Fragment → Bool)
    (img out resized : IceTImageData) (sp : IceTSparseImageData)
    (himg : img.magic_num = ICET_IMAGE_MAGIC_NUM
      ∨ img.magic_num = ICET_IMAGE_POINTERS_MAGIC_NUM)
    (hout : out.magic_num = ICET_IMAGE_MAGIC_NUM)
    (hsp : sp.magic_num = ICET_SPARSE_IMAGE_MAGIC_NUM)
    (hspc : sp.color_format = img.color_format) (hspd : sp.depth_format = img.depth_format)
    (houtc : out.color_format = img.color_format) (houtd : out.depth_format = img.depth_format)
    (hn : 0 ≤ img.width * img.height)
    (hcap1 : img.width * img.height ≤ sp.max_num_pixels)
    (hcap2 : img.width * img.height ≤ out.max_num_pixels)
    (hres : (icetImageSetDimensions (some out) img.width img.height).1 = some resized)
    (hbufc : colorChannels img.color_format * (img.width * img.height).toNat
      ≤ resized.color.length)
    (hbufd : depthChannels img.depth_format * (img.width * img.height).toNat
      ≤ resized.depth.length)
    (hvc : img.color_format ∈ [ColorFormat.RGBA_UBYTE, .RGBA_FLOAT, .RGB_FLOAT, .NONE])
    (hvd : img.depth_format ∈ [DepthFormat.FLOAT, .NONE]) :
    ∃ c r ev1 ev2, icetCompressImage active img sp = some (c, ev1)
      ∧ icetDecompressImage st c out = some (r, ev2)
      ∧ (∀ kind, Event.raiseError kind ∉ ev1 ++ ev2 ∧ Event.raiseWarning kind ∉ ev1 ++ ev2)
      ∧ r.width = img.width ∧ r.height = img.height
      ∧ r.color_format = img.color_format ∧ r.depth_format = img.depth_format
      ∧ ∀ i : Nat, (i : Int) < img.width * img.height →
          loadFragment img.color_format img.depth_format r.color r.depth i
            = if active (loadFragment img.color_format img.depth_format img.color img.depth i)
              then loadFragment img.color_format img.depth_format img.color img.depth i
              else backgroundFragment st img.color_format img.depth_format := by
  obtain ⟨c, hc, hcm, hcc, hcd, hcw, hch, -, -, hps⟩ :=
    icetCompressImage_eq active img sp himg hsp hspc hspd hcap1
  have hlen : (densePixels active img 0 (img.width * img.height).toNat).length
      = (c.width * c.height).toNat := by rw [densePixels_length, hcw, hch]
  obtain ⟨hd, hrw, hrh, hrc, hrd⟩ := icetDecompressImage_resized st c out resized _ hcm hout
    (hcc.trans houtc.symm) (hcd.trans houtd.symm) (by rw [hcw, hch]; exact hn)
    (by rw [hcw, hch]; exact hcap2) (by rw [hcw, hch]; exact hres) hps hlen
  rw [fragmentSizeDiagnostics_valid _ _ (houtc ▸ hvc) (houtd ▸ hvd)] at hd
  refine ⟨c, _, [], [], hc, hd, fun kind => by simp, hrw.trans hcw, hrh.trans hch,
    hrc.trans houtc, hrd.trans houtd, ?_⟩
  intro i hi
  have hin : i < (img.width * img.height).toNat := by omega
  have hat := storePixels_at st out.color_format out.depth_format
    (densePixels active img 0 (img.width * img.height).toNat) 0 (resized.color, resized.depth)
    (by rw [densePixels_length, houtc, Nat.zero_add]; exact hbufc)
    (by rw [densePixels_length, houtd, Nat.zero_add]; exact hbufd)
    i (by rw [densePixels_length]; exact hin)
  rw [Nat.zero_add, densePixels_getD active img 0 _ i hin, Nat.zero_add, houtc, houtd] at hat
  show loadFragment img.color_format img.depth_format
      (storePixels st out.color_format out.depth_format _ 0 (resized.color, resized.depth)).1
      (storePixels st out.color_format out.depth_format _ 0 (resized.color, resized.depth)).2 i
        = _
  rw [houtc, houtd, hat]
  split_ifs
  · exact loadFragment_clip _ _ _ _ _
  · exact backgroundFragment_clip _ _ _

/-- Scenario A: the 4x2 image of opaque red pixels at depth 0.5 compresses to the
single run (inactive = 0, active = 8) followed by 8 fragments, with 100 bytes, and
decompresses into a cleared buffer to the identical image; the same holds when the
image is backed by pointers to the same arrays; the round trip statement holds
there. -/
theorem compress_decompress_roundtrip_witness :
    (icetCompressImage depthActive scenarioA_image scenarioA_sparse).map Prod.fst
      = some (flatSparseImage 4 2
          (.runLength 0 8 :: List.replicate 8 (.pixel scenarioA_fragment)))
    ∧ (icetCompressImage depthActive
          { scenarioA_image with magic_num := ICET_IMAGE_POINTERS_MAGIC_NUM }
          scenarioA_sparse).map Prod.fst
      = some (flatSparseImage 4 2
          (.runLength 0 8 :: List.replicate 8 (.pixel scenarioA_fragment)))
    ∧ (flatSparseImage 4 2
          (.runLength 0 8 :: List.replicate 8 (.pixel scenarioA_fragment))).actual_buffer_size
        = 100
    ∧ (icetDecompressImage zBufferState
          (flatSparseImage 4 2 (.runLength 0 8 :: List.replicate 8 (.pixel scenarioA_fragment)))
          scenarioA_cleared).map Prod.fst
        = some scenarioA_image
    ∧ ∃ c r ev1 ev2, icetCompressImage depthActive scenarioA_image scenarioA_sparse
          = some (c, ev1)
      ∧ icetDecompressImage zBufferState c scenarioA_cleared = some (r, ev2)
      ∧ (∀ kind, Event.raiseError kind ∉ ev1 ++ ev2 ∧ Event.raiseWarning kind ∉ ev1 ++ ev2)
      ∧ r.width = scenarioA_image.width ∧ r.height = scenarioA_image.height
      ∧ r.color_format = scenarioA_image.color_format
      ∧ r.depth_format = scenarioA_image.depth_format
      ∧ ∀ i : Nat, (i : Int) < scenarioA_image.width * scenarioA_image.height →
          loadFragment scenarioA_image.color_format scenarioA_image.depth_format
              r.color r.depth i
            = if depthActive (loadFragment scenarioA_image.color_format
                  scenarioA_image.depth_format scenarioA_image.color scenarioA_image.depth i)
              then loadFragment scenarioA_image.color_format scenarioA_image.depth_format
                  scenarioA_image.color scenarioA_image.depth i
              else backgroundFragment zBufferState scenarioA_image.color_format
                  scenarioA_image.depth_format :=
  ⟨by decide, by decide, by decide, by decide,
    compress_decompress_roundtrip zBufferState depthActive scenarioA_image scenarioA_cleared
      scenarioA_cleared scenarioA_sparse (by decide) (by decide) (by decide) (by decide)
      (by decide) (by decide) (by decide) (by decide) (by decide) (by decide) (by decide)
      (by decide) (by decide) (by decide) (by decide)⟩

/-! ### Dense compositing, pixel by pixel -/

theorem zBufferLoop_loadFragment (cf : ColorFormat) (sD sC D0 C0 : List Nat) (pixels : Int)
    (i : Nat) (hi : i < pixels.toNat) (hD : pixels.toNat ≤ D0.length)
    (hC : colorChannels cf * pixels.toNat ≤ C0.length) :
    loadFragment cf .FLOAT (zBufferLoop cf pixels sD sC (D0, C0)).2
        (zBufferLoop cf pixels sD sC (D0, C0)).1 i
      = if floatLt (sD.getD i 0) (D0.getD i 0) = true then loadFragment cf .FLOAT sC sD i
        else loadFragment cf .FLOAT C0 D0 i := by
  obtain ⟨-, -, h3, h4⟩ := zBufferLoop_spec cf sD sC D0 C0 pixels.toNat
  have hcl : ∀ c, c < colorChannels cf → colorChannels cf * i + c < C0.length := by
    intro c hc
    have : colorChannels cf * (i + 1) ≤ colorChannels cf * pixels.toNat :=
      Nat.mul_le_mul_left _ hi
    rw [Nat.mul_succ] at this
    omega
  have hcolor : loadElements (colorChannels cf * i) (colorChannels cf)
        (zBufferLoop cf pixels sD sC (D0, C0)).2
      = if floatLt (sD.getD i 0) (D0.getD i 0) = true
        then loadElements (colorChannels cf * i) (colorChannels cf) sC
        else loadElements (colorChannels cf * i) (colorChannels cf) C0 := by
    unfold loadElements zBufferLoop
    split_ifs with hlt
    · apply List.map_congr_left
      intro c hc
      have hc' := List.mem_range.mp hc
      rw [h4 i c hc', if_pos ⟨hi, hcl c hc', hlt⟩]
    · apply List.map_congr_left
      intro c hc
      have hc' := List.mem_range.mp hc
      rw [h4 i c hc', if_neg (fun h => hlt h.2.2)]
  have hdepth : loadElements (depthChannels .FLOAT * i) (depthChannels .FLOAT)
        (zBufferLoop cf pixels sD sC (D0, C0)).1
      = if floatLt (sD.getD i 0) (D0.getD i 0) = true
        then loadElements (depthChannels .FLOAT * i) (depthChannels .FLOAT) sD
        else loadElements (depthChannels .FLOAT * i) (depthChannels .FLOAT) D0 := by
    have e : ∀ l : List Nat, loadElements (depthChannels .FLOAT * i) (depthChannels .FLOAT) l
        = [l.getD i 0] := by
      intro l
      simp [loadElements, depthChannels, List.range_succ]
    rw [e, e, e]
    unfold zBufferLoop
    rw [h3 i]
    split_ifs with h1 h2 h2
    · rfl
    · exact absurd h1.2.2 h2
    · exact absurd ⟨hi, by omega, h2⟩ h1
    · rfl
  unfold loadFragment
  rw [hcolor, hdepth]
  split_ifs <;> rfl

theorem loadFragment_depth_getD (cf : ColorFormat) (color depth : List Nat) (i : Nat) :
    (loadFragment cf .FLOAT color depth i).depth.getD 0 0 = depth.getD i 0 := by
  simp [loadFragment, loadElements, depthChannels, List.range_succ]

theorem ext_getD (l1 l2 : List Nat) (hl : l1.length = l2.length)
    (h : ∀ k, k < l1.length → l1.getD k 0 = l2.getD k 0) : l1 = l2 := by
  apply List.ext_getElem hl
  intro k h1 h2
  have := h k h1
  rwa [List.getD_eq_getElem _ _ h1, List.getD_eq_getElem _ _ h2] at this

theorem blendUbyteLoop_loadElements (S D0 : List Nat) (pixels : Int) (i : Nat)
    (hi : i < pixels.toNat) (hC : 4 * pixels.toNat ≤ D0.length) :
    loadElements (4 * i) 4 (blendUbyteLoop true pixels S D0)
      = (ICET_OVER_UBYTE (.src 0) (.dest 0)
          { src := loadElements (4 * i) 4 S, dest := loadElements (4 * i) 4 D0 }).dest := by
  obtain ⟨-, -, h3⟩ := blendUbyteLoop_spec true S D0 pixels.toNat
  apply ext_getD
  · rw [loadElements_length, ICET_OVER_UBYTE_length, loadElements_length]
  · intro c hc
    rw [loadElements_length] at hc
    rw [loadElements_getD, if_pos hc, ICET_OVER_UBYTE_getD]
    simp only [loadElements_length, loadElements_getD]
    unfold blendUbyteLoop
    rw [h3 (4 * i + c)]
    have hin : 4 * i + c < 4 * pixels.toNat ∧ 4 * i + c < D0.length := by omega
    have hq : (4 * i + c) / 4 = i := by omega
    rw [if_pos hin, if_pos (by omega), if_pos hc, if_pos (by omega), if_pos (by omega)]
    simp only [blendUbyteValue, if_true, hq, Nat.sub_zero, Nat.zero_add]

theorem ICET_OVER_FLOAT_getD (fa : FloatArith) (m : BlendMem) (so d : Nat) (k : Nat) :
    (ICET_OVER_FLOAT fa (.src so) (.dest d) m).dest.getD k 0
      = if d ≤ k ∧ k < d + 4 ∧ k < m.dest.length then
          fa.add (fa.mul (m.dest.getD k 0) (fa.sub FLOAT_ONE (m.src.getD (so + 3) 0)))
            (m.src.getD (so + (k - d)) 0)
        else m.dest.getD k 0 := by
  simp only [ICET_OVER_FLOAT, ICET_BLEND_FLOAT, BlendMem.read, BlendMem.write, getD_set_eq,
    List.length_set]
  by_cases h0 : d + 0 = k
  · subst h0; simp [-List.getD_eq_getElem?_getD]
  · by_cases h1 : d + 1 = k
    · subst h1; simp [-List.getD_eq_getElem?_getD]
    · by_cases h2 : d + 2 = k
      · subst h2; simp [-List.getD_eq_getElem?_getD]
      · by_cases h3 : d + 3 = k
        · subst h3; simp [-List.getD_eq_getElem?_getD]
        · have : ¬ (d ≤ k ∧ k < d + 4 ∧ k < m.dest.length) := by omega
          have h0' : ¬ d = k := by omega
          simp [-List.getD_eq_getElem?_getD, h0', h1, h2, h3, this]

theorem ICET_OVER_FLOAT_src (fa : FloatArith) (m : BlendMem) (so d : Nat) :
    (ICET_OVER_FLOAT fa (.src so) (.dest d) m).src = m.src := by
  simp [ICET_OVER_FLOAT, ICET_BLEND_FLOAT, BlendMem.write]

theorem ICET_OVER_FLOAT_length (fa : FloatArith) (m : BlendMem) (so d : Nat) :
    (ICET_OVER_FLOAT fa (.src so) (.dest d) m).dest.length = m.dest.length := by
  simp [ICET_OVER_FLOAT, ICET_BLEND_FLOAT, BlendMem.write]

theorem blendFloatLoop_spec (fa : FloatArith) (S D0 : List Nat) (n : Nat) :
    let m := (List.range n).foldl
      (fun m i => ICET_OVER_FLOAT fa (.src (i * 4)) (.dest (i * 4)) m)
      ({ src := S, dest := D0 } : BlendMem)
    m.src = S ∧ m.dest.length = D0.length ∧
    ∀ k, m.dest.getD k 0
      = if k < 4 * n ∧ k < D0.length then
          fa.add (fa.mul (D0.getD k 0) (fa.sub FLOAT_ONE (S.getD (4 * (k / 4) + 3) 0)))
            (S.getD k 0)
        else D0.getD k 0 := by
  induction n with
  | zero => simp
  | succ n ih =>
    simp only [List.range_succ, List.foldl_append, List.foldl_cons, List.foldl_nil]
    obtain ⟨h1, h2, h3⟩ := ih
    generalize (List.range n).foldl _ ({ src := S, dest := D0 } : BlendMem) = m at h1 h2 h3
    refine ⟨by rw [ICET_OVER_FLOAT_src, h1], by rw [ICET_OVER_FLOAT_length, h2], ?_⟩
    intro k
    rw [ICET_OVER_FLOAT_getD, h2, h1, h3 k]
    by_cases hk : n * 4 ≤ k ∧ k < n * 4 + 4 ∧ k < D0.length
    · have hq : k / 4 = n := by omega
      have hk2 : k < 4 * (n + 1) ∧ k < D0.length := by omega
      have hk3 : ¬ (k < 4 * n ∧ k < D0.length) := by omega
      have e1 : n * 4 + 3 = 4 * (k / 4) + 3 := by omega
      have e2 : n * 4 + (k - n * 4) = k := by omega
      rw [if_pos hk, if_pos hk2, if_neg hk3, e1, e2]
    · rw [if_neg hk]
      by_cases hk3 : k < 4 * n ∧ k < D0.length
      · have hk2 : k < 4 * (n + 1) ∧ k < D0.length := by omega
        rw [if_pos hk3, if_pos hk2]
      · have hk2 : ¬ (k < 4 * (n + 1) ∧ k < D0.length) := by omega
        rw [if_neg hk3, if_neg hk2]

theorem blendFloatLoop_loadElements (fa : FloatArith) (S D0 : List Nat) (pixels : Int)
    (i : Nat) (hi : i < pixels.toNat) (hC : 4 * pixels.toNat ≤ D0.length) :
    loadElements (4 * i) 4 (blendFloatLoop fa true pixels S D0)
      = (ICET_OVER_FLOAT fa (.src 0) (.dest 0)
          { src := loadElements (4 * i) 4 S, dest := loadElements (4 * i) 4 D0 }).dest := by
  obtain ⟨-, -, h3⟩ := blendFloatLoop_spec fa S D0 pixels.toNat
  apply ext_getD
  · rw [loadElements_length, ICET_OVER_FLOAT_length, loadElements_length]
  · intro c hc
    rw [loadElements_length] at hc
    rw [loadElements_getD, if_pos hc, ICET_OVER_FLOAT_getD]
    simp only [loadElements_length, loadElements_getD]
    unfold blendFloatLoop
    simp only [if_true]
    rw [h3 (4 * i + c)]
    have hin : 4 * i + c < 4 * pixels.toNat ∧ 4 * i + c < D0.length := by omega
    have hq : (4 * i + c) / 4 = i := by omega
    rw [if_pos hin, if_pos (by omega), if_pos hc, if_pos (by omega), if_pos (by omega)]
    simp only [hq, Nat.sub_zero, Nat.zero_add]

theorem icetComposite_blend_ubyte_events (fa : FloatArith) (st : IceTState)
    (dest src : IceTImageData)
    (hmode : st.composite_mode = .BLEND)
    (hdm : dest.magic_num = ICET_IMAGE_MAGIC_NUM) (hsm : src.magic_num = ICET_IMAGE_MAGIC_NUM)
    (hpix : dest.width * dest.height = src.width * src.height)
    (hcf : dest.color_format = src.color_format) (hdf : dest.depth_format = src.depth_format)
    (hc : dest.color_format = .RGBA_UBYTE)
    (hd : dest.depth_format = .FLOAT ∨ dest.depth_format = .NONE) :
    ∃ ev, icetComposite fa st (some dest) (some src) true
        = some (some { dest with
            color := blendUbyteLoop true (dest.width * dest.height) src.color dest.color },
          ev)
      ∧ ∀ kind, Event.raiseError kind ∉ ev := by
  have hdi : isImageMagic dest.magic_num = true := by rw [hdm]; decide
  have hsi : isImageMagic src.magic_num = true := by rw [hsm]; decide
  have hl : icetImageIsLayered src = false := by
    simp only [icetImageIsLayered, hsm]; decide
  have hp1 : ¬ (dest.magic_num = ICET_IMAGE_POINTERS_MAGIC_NUM) := by rw [hdm]; decide
  have hp2 : ¬ (src.magic_num = ICET_IMAGE_POINTERS_MAGIC_NUM) := by rw [hsm]; decide
  have hsc := hcf.symm
  have hsd := hdf.symm
  rw [hc] at hsc
  rcases hd with hd | hd <;> rw [hd] at hsd
  · refine ⟨[.timingBlendBegin, .raiseWarning .INVALID_VALUE, .timingBlendEnd], ?_, by simp⟩
    simp [icetComposite, icetImageGetNumPixels, icetImageGetColorFormat,
      icetImageGetDepthFormat, hpix, hc, hsc, hd, hsd, hmode, icetImageGetColorcub,
      icetImageGetColorub, icetImageGetColorVoid, icetImageGetColorConstVoid, hdi, hsi, hl, hp1,
      hp2, guardPointers]
  · refine ⟨[.timingBlendBegin, .timingBlendEnd], ?_, by simp⟩
    simp [icetComposite, icetImageGetNumPixels, icetImageGetColorFormat,
      icetImageGetDepthFormat, hpix, hc, hsc, hd, hsd, hmode, icetImageGetColorcub,
      icetImageGetColorub, icetImageGetColorVoid, icetImageGetColorConstVoid, hdi, hsi, hl, hp1,
      hp2, guardPointers]

theorem icetComposite_blend_float_events (fa : FloatArith) (st : IceTState)
    (dest src : IceTImageData)
    (hmode : st.composite_mode = .BLEND)
    (hdm : dest.magic_num = ICET_IMAGE_MAGIC_NUM) (hsm : src.magic_num = ICET_IMAGE_MAGIC_NUM)
    (hpix : dest.width * dest.height = src.width * src.height)
    (hcf : dest.color_format = src.color_format) (hdf : dest.depth_format = src.depth_format)
    (hc : dest.color_format = .RGBA_FLOAT)
    (hd : dest.depth_format = .FLOAT ∨ dest.depth_format = .NONE) :
    ∃ ev, icetComposite fa st (some dest) (some src) true
        = some (some { dest with
            color := blendFloatLoop fa true (dest.width * dest.height) src.color dest.color },
          ev)
      ∧ ∀ kind, Event.raiseError kind ∉ ev := by
  have hdi : isImageMagic dest.magic_num = true := by rw [hdm]; decide
  have hsi : isImageMagic src.magic_num = true := by rw [hsm]; decide
  have hl : icetImageIsLayered src = false := by
    simp only [icetImageIsLayered, hsm]; decide
  have hp1 : ¬ (dest.magic_num = ICET_IMAGE_POINTERS_MAGIC_NUM) := by rw [hdm]; decide
  have hp2 : ¬ (src.magic_num = ICET_IMAGE_POINTERS_MAGIC_NUM) := by rw [hsm]; decide
  have hsc := hcf.symm
  have hsd := hdf.symm
  rw [hc] at hsc
  rcases hd with hd | hd <;> rw [hd] at hsd
  · refine ⟨[.timingBlendBegin, .raiseWarning .INVALID_VALUE, .timingBlendEnd], ?_, by simp⟩
    simp [icetComposite, icetImageGetNumPixels, icetImageGetColorFormat,
      icetImageGetDepthFormat, hpix, hc, hsc, hd, hsd, hmode, icetImageGetColorcf,
      icetImageGetColorf, icetImageGetColorVoid, icetImageGetColorConstVoid, hdi, hsi, hl, hp1,
      hp2, guardPointers]
  · refine ⟨[.timingBlendBegin, .timingBlendEnd], ?_, by simp⟩
    simp [icetComposite, icetImageGetNumPixels, icetImageGetColorFormat,
      icetImageGetDepthFormat, hpix, hc, hsc, hd, hsd, hmode, icetImageGetColorcf,
      icetImageGetColorf, icetImageGetColorVoid, icetImageGetColorConstVoid, hdi, hsi, hl, hp1,
      hp2, guardPointers]

theorem icetComposite_zbuffer_eq_events (fa : FloatArith) (st : IceTState)
    (dest src : IceTImageData) (srcOnTop : Bool)
    (hmode : st.composite_mode = .Z_BUFFER)
    (hdm : dest.magic_num = ICET_IMAGE_MAGIC_NUM) (hsm : src.magic_num = ICET_IMAGE_MAGIC_NUM)
    (hpix : dest.width * dest.height = src.width * src.height)
    (hcf : dest.color_format = src.color_format)
    (hvalid : dest.color_format ∈ [ColorFormat.RGBA_UBYTE, .RGBA_FLOAT, .RGB_FLOAT, .NONE])
    (hdd : dest.depth_format = .FLOAT) (hsd : src.depth_format = .FLOAT) :
    icetComposite fa st (some dest) (some src) srcOnTop
      = some (some { dest with
          depth := (zBufferLoop dest.color_format (dest.width * dest.height) src.depth src.color
            (dest.depth, dest.color)).1,
          color := (zBufferLoop dest.color_format (dest.width * dest.height) src.depth src.color
            (dest.depth, dest.color)).2 }, [.timingBlendBegin, .timingBlendEnd]) := by
  have hd : isImageMagic dest.magic_num = true := by rw [hdm]; decide
  have hs : isImageMagic src.magic_num = true := by rw [hsm]; decide
  have hl : icetImageIsLayered src = false := by
    simp only [icetImageIsLayered, hsm]; decide
  have hp1 : ¬ (dest.magic_num = ICET_IMAGE_POINTERS_MAGIC_NUM) := by rw [hdm]; decide
  have hp2 : ¬ (src.magic_num = ICET_IMAGE_POINTERS_MAGIC_NUM) := by rw [hsm]; decide
  have hcs := hcf.symm
  cases hc : dest.color_format with
  | invalid raw => simp [hc] at hvalid
  | _ =>
    rw [hc] at hcs
    simp [icetComposite, icetImageGetNumPixels, icetImageGetColorFormat, icetImageGetDepthFormat,
      hpix, hc, hcs, hdd, hsd, hmode, icetImageGetDepthcf, icetImageGetDepthf,
      icetImageGetDepthVoid, icetImageGetDepthConstVoid, hd, hs, hl, hp1, hp2,
      icetImageGetColorui, icetImageGetColorub, icetImageGetColorf, icetImageGetColorVoid,
      icetImageGetColorConstVoid, guardPointers]

/-! ### Compressed-compressed compositing -/

theorem compositePixels_length (fa : FloatArith) (st : IceTState) (cf : ColorFormat)
    (df : DepthFormat) (A B P : List (Option Fragment))
    (h : compositePixels fa st cf df A B = some P) :
    A.length = P.length ∧ B.length = P.length := by
  induction A generalizing B P with
  | nil =>
    cases B with
    | nil => simp [compositePixels] at h; subst h; simp
    | cons b B => simp [compositePixels] at h
  | cons a A ih =>
    cases B with
    | nil => simp [compositePixels] at h
    | cons b B =>
      simp only [compositePixels] at h
      cases h1 : compositePixel fa st cf df a b with
      | none => simp [h1] at h
      | some p =>
        cases h2 : compositePixels fa st cf df A B with
        | none => simp [h1, h2] at h
        | some ps =>
          simp only [h1, h2, Option.some.injEq] at h
          subst h
          obtain ⟨e1, e2⟩ := ih B ps h2
          simp [e1, e2]

theorem compositePixels_getD (fa : FloatArith) (st : IceTState) (cf : ColorFormat)
    (df : DepthFormat) (A B P : List (Option Fragment))
    (h : compositePixels fa st cf df A B = some P) (i : Nat) (hi : i < P.length) :
    compositePixel fa st cf df (A.getD i none) (B.getD i none) = some (P.getD i none) := by
  induction A generalizing B P i with
  | nil =>
    cases B with
    | nil => simp [compositePixels] at h; subst h; simp at hi
    | cons b B => simp [compositePixels] at h
  | cons a A ih =>
    cases B with
    | nil => simp [compositePixels] at h
    | cons b B =>
      simp only [compositePixels] at h
      cases h1 : compositePixel fa st cf df a b with
      | none => simp [h1] at h
      | some p =>
        cases h2 : compositePixels fa st cf df A B with
        | none => simp [h1, h2] at h
        | some ps =>
          simp only [h1, h2, Option.some.injEq] at h
          subst h
          cases i with
          | zero => simpa using h1
          | succ i =>
            have := ih B ps h2 i (by simpa using hi)
            simpa using this

theorem ccCompositeLoop_holds (fa : FloatArith) (st : IceTState) (cf : ColorFormat)
    (df : DepthFormat) (A B P restA restB Q : List (Option Fragment))
    (front back : SparseCursor) (w : SparseWriter)
    (hA : front.pixels = some (A ++ restA)) (hB : back.pixels = some (B ++ restB))
    (hP : compositePixels fa st cf df A B = some P) (hw : w.Holds Q) :
    ∃ w', ccCompositeLoop fa st cf df A.length front back w = some w' ∧ w'.Holds (Q ++ P) := by
  induction A generalizing B P Q front back w with
  | nil =>
    cases B with
    | nil =>
      simp [compositePixels] at hP
      subst hP
      exact ⟨w, rfl, by simpa using hw⟩
    | cons b B => simp [compositePixels] at hP
  | cons a A ih =>
    cases B with
    | nil => simp [compositePixels] at hP
    | cons b B =>
      simp only [compositePixels] at hP
      cases h1 : compositePixel fa st cf df a b with
      | none => simp [h1] at hP
      | some p =>
        cases h2 : compositePixels fa st cf df A B with
        | none => simp [h1, h2] at hP
        | some ps =>
          simp only [h1, h2, Option.some.injEq] at hP
          subst hP
          obtain ⟨f1, hf1, hf2⟩ := scan_of_pixels front.in_data front.inactive_before
            front.active_till_next_runl a (A ++ restA) hA
          obtain ⟨b1, hb1, hb2⟩ := scan_of_pixels back.in_data back.inactive_before
            back.active_till_next_runl b (B ++ restB) hB
          obtain ⟨w', hw1, hw2⟩ := ih B ps (Q ++ [p]) f1 b1 (w.emit p) hf2 hb2 h2 (hw.emit p)
          refine ⟨w', ?_, by simpa [List.append_assoc] using hw2⟩
          simp only [List.length_cons, ccCompositeLoop, SparseCursor.scan, hf1, hb1, h1]
          exact hw1

theorem compositePixels_exists (fa : FloatArith) (st : IceTState) (cf : ColorFormat)
    (df : DepthFormat) (A B : List (Option Fragment)) (hlen : A.length = B.length)
    (hsupp : ∀ f b, ∃ r, compositeFragments fa st cf df f b = some r) :
    ∃ P, compositePixels fa st cf df A B = some P := by
  induction A generalizing B with
  | nil =>
    cases B with
    | nil => exact ⟨[], rfl⟩
    | cons b B => simp at hlen
  | cons a A ih =>
    cases B with
    | nil => simp at hlen
    | cons b B =>
      obtain ⟨ps, hps⟩ := ih B (by simpa using hlen)
      have hp : ∃ p, compositePixel fa st cf df a b = some p := by
        cases a with
        | none => cases b <;> simp [compositePixel]
        | some f =>
          cases b with
          | none => simp [compositePixel]
          | some g =>
            obtain ⟨r, hr⟩ := hsupp f g
            exact ⟨some r, by simp [compositePixel, hr]⟩
      obtain ⟨p, hp⟩ := hp
      exact ⟨p :: ps, by simp [compositePixels, hp, hps]⟩

theorem icetCompressedCompressedComposite_eq (fa : FloatArith) (st : IceTState)
    (A B dest : IceTSparseImageData) (psA psB P : List (Option Fragment))
    (hAm : A.magic_num = ICET_SPARSE_IMAGE_MAGIC_NUM)
    (hBm : B.magic_num = ICET_SPARSE_IMAGE_MAGIC_NUM)
    (hDm : dest.magic_num = ICET_SPARSE_IMAGE_MAGIC_NUM)
    (hw : A.width = B.width) (hh : A.height = B.height)
    (hcf : A.color_format = B.color_format) (hdf : A.depth_format = B.depth_format)
    (hdc : A.color_format = dest.color_format) (hdd : A.depth_format = dest.depth_format)
    (hcap : A.width * A.height ≤ dest.max_num_pixels)
    (hdist : A.address ≠ B.address ∧ A.address ≠ dest.address ∧ B.address ≠ dest.address)
    (hA : streamPixels A.payload 0 = some psA) (hB : streamPixels B.payload 0 = some psB)
    (hlenA : psA.length = (A.width * A.height).toNat)
    (hP : compositePixels fa st A.color_format A.depth_format psA psB = some P) :
    ∃ d, icetCompressedCompressedComposite fa st A B dest
        = some (d, [.timingBlendBegin, .timingBlendEnd])
      ∧ d.magic_num = ICET_SPARSE_IMAGE_MAGIC_NUM
      ∧ d.color_format = A.color_format ∧ d.depth_format = A.depth_format
      ∧ d.width = A.width ∧ d.height = A.height
      ∧ streamPixels d.payload 0 = some P := by
  have hnl : (ICET_SPARSE_IMAGE_MAGIC_NUM &&& ICET_IMAGE_FLAG_LAYERED != 0) = false := by
    decide
  have hcap' : ¬ (A.width * A.height > dest.max_num_pixels) := by omega
  have hcA : (SparseCursor.atStart A.payload).pixels = some (psA ++ []) := by
    simp [SparseCursor.pixels, SparseCursor.atStart, hA]
  have hcB : (SparseCursor.atStart B.payload).pixels = some (psB ++ []) := by
    simp [SparseCursor.pixels, SparseCursor.atStart, hB]
  obtain ⟨w', hw1, hw2⟩ := ccCompositeLoop_holds fa st A.color_format A.depth_format psA psB P
    [] [] [] _ _ SparseWriter.start hcA hcB hP SparseWriter.start_holds
  rw [hlenA] at hw1
  have hcells := hw2.cells
  rw [List.nil_append] at hcells
  obtain ⟨h1, h2, h3⟩ := hdist
  refine ⟨{
      magic_num := dest.magic_num
      color_format := dest.color_format
      depth_format := dest.depth_format
      width := A.width
      height := A.height
      max_num_pixels := dest.max_num_pixels
      actual_buffer_size := ICET_IMAGE_DATA_START_INDEX * SIZEOF_WORD
        + payloadBytes dest.color_format dest.depth_format w'.cells
      payload := w'.cells
      address := dest.address }, ?_, hDm, hdc.symm, hdd.symm, rfl, rfl, hcells⟩
  simp only [icetCompressedCompressedComposite, icetSparseImageEqual, beq_iff_eq, h1, h2, h3,
    Bool.or_self, Bool.false_eq_true, if_false, ccCompositeBody, hAm, hBm, hDm, ← hw, ← hh,
    ← hcf, ← hdf, ← hdc, ← hdd, ne_eq, not_true_eq_false, or_self, icetSparseImageSetDimensions,
    hcap', icetClearSparseImage, icetSparseImageIsLayered, hnl, icetSparseImageSetActualSize,
    icetSparseImageGetNumPixels, hw1, Option.map_some', List.nil_append, List.append_nil,
    List.singleton_append, decide_False]
  have hne : (A.address == B.address || A.address == dest.address
      || B.address == dest.address) = false := by
    simp [h1, h2, h3]
  simp only [hne, Bool.false_eq_true, if_false, List.nil_append, List.singleton_append]

theorem floatLt_asymm (a b : Nat) (h : floatLt a b = true) : floatLt b a = false := by
  simp only [floatLt, Bool.and_eq_true, Bool.not_eq_true', decide_eq_true_eq] at h
  obtain ⟨⟨h1, h2⟩, h3⟩ := h
  simp only [floatLt, h1, h2, Bool.not_false, Bool.true_and, decide_eq_false_iff_not]
  omega

theorem clip_depth_getD (cf : ColorFormat) (f : Fragment) :
    (f.clip cf .FLOAT).depth.getD 0 0 = f.depth.getD 0 0 := by
  simp [Fragment.clip, loadElements, depthChannels, List.range_succ]

theorem backgroundFragment_depth (st : IceTState) (cf : ColorFormat) :
    (backgroundFragment st cf .FLOAT).depth.getD 0 0 = FLOAT_ONE := rfl

theorem ICET_OVER_UBYTE_zero_back (front : List Nat) (hlen : front.length = 4)
    (hbytes : ∀ c, c < 4 → front.getD c 0 < 256) :
    (ICET_OVER_UBYTE (.src 0) (.dest 0) { src := front, dest := [0, 0, 0, 0] }).dest
      = front := by
  apply ext_getD
  · rw [ICET_OVER_UBYTE_length, hlen]; rfl
  · intro k hk
    rw [ICET_OVER_UBYTE_length] at hk
    have hk4 : k < 4 := hk
    rw [ICET_OVER_UBYTE_getD, if_pos ⟨Nat.zero_le _, by omega, hk⟩]
    have hz : ([0, 0, 0, 0] : List Nat).getD k 0 = 0 := by
      interval_cases k <;> rfl
    simp only [hz, Nat.zero_mul, Nat.zero_div, Nat.zero_add, Nat.sub_zero]
    exact Nat.mod_eq_of_lt (hbytes k hk4)

theorem ICET_OVER_UBYTE_zero_front (back : List Nat) (hlen : back.length = 4)
    (hbytes : ∀ c, c < 4 → back.getD c 0 < 256) :
    (ICET_OVER_UBYTE (.src 0) (.dest 0) { src := [0, 0, 0, 0], dest := back }).dest
      = back := by
  apply ext_getD
  · rw [ICET_OVER_UBYTE_length]
  · intro k hk
    rw [ICET_OVER_UBYTE_length] at hk
    have hk4 : k < 4 := by simpa [hlen] using hk
    rw [ICET_OVER_UBYTE_getD, if_pos ⟨Nat.zero_le _, by omega, hk⟩]
    have hz : ([0, 0, 0, 0] : List Nat).getD (0 + (k - 0)) 0 = 0 := by
      interval_cases k <;> rfl
    have h3 : ([0, 0, 0, 0] : List Nat).getD (0 + 3) 0 = 0 := rfl
    rw [hz, h3, Nat.sub_zero, Nat.add_zero, Nat.mul_div_cancel _ (by norm_num)]
    exact Nat.mod_eq_of_lt (hbytes k hk4)

theorem loadElements_self (n : Nat) (l : List Nat) (h : l.length = n) :
    loadElements 0 n l = l := by
  apply ext_getD
  · rw [loadElements_length, h]
  · intro k hk
    rw [loadElements_length] at hk
    rw [loadElements_getD, if_pos hk, Nat.zero_add]

theorem compositePixel_zbuffer (fa : FloatArith) (st : IceTState) (cf : ColorFormat)
    (a b p : Option Fragment) (hmode : st.composite_mode = .Z_BUFFER)
    (hp : compositePixel fa st cf .FLOAT a b = some p)
    (ha : ∀ f, a = some f → floatLt (f.depth.getD 0 0) FLOAT_ONE = true)
    (hb : ∀ f, b = some f → floatLt FLOAT_ONE (f.depth.getD 0 0) = false) :
    (p.getD (backgroundFragment st cf .FLOAT)).clip cf .FLOAT
      = if floatLt
            (((a.getD (backgroundFragment st cf .FLOAT)).clip cf .FLOAT).depth.getD 0 0)
            (((b.getD (backgroundFragment st cf .FLOAT)).clip cf .FLOAT).depth.getD 0 0) = true
        then (a.getD (backgroundFragment st cf .FLOAT)).clip cf .FLOAT
        else (b.getD (backgroundFragment st cf .FLOAT)).clip cf .FLOAT := by
  simp only [clip_depth_getD]
  cases a with
  | none =>
    cases b with
    | none =>
      simp only [compositePixel, Option.some.injEq] at hp
      subst hp
      simp only [Option.getD_none, backgroundFragment_depth]
      have : floatLt FLOAT_ONE FLOAT_ONE = false := by decide
      simp [this]
    | some g =>
      simp only [compositePixel, Option.some.injEq] at hp
      subst hp
      simp only [Option.getD_none, Option.getD_some, backgroundFragment_depth]
      have := hb g rfl
      rw [if_neg (by rw [this]; decide)]
  | some f =>
    cases b with
    | none =>
      simp only [compositePixel, Option.some.injEq] at hp
      subst hp
      simp only [Option.getD_none, Option.getD_some, backgroundFragment_depth]
      rw [if_pos (ha f rfl)]
    | some g =>
      simp only [compositePixel, compositeFragments, hmode, Option.map_some',
        Option.some.injEq] at hp
      subst hp
      simp only [Option.getD_some]
      split_ifs <;> rfl

theorem compositePixel_blend_ubyte (fa : FloatArith) (st : IceTState) (df : DepthFormat)
    (a b p : Option Fragment)
    (hmode : st.composite_mode = .BLEND)
    (hp : compositePixel fa st .RGBA_UBYTE df a b = some p)
    (hbg : loadElements 0 4 st.background_color_word = [0, 0, 0, 0])
    (ha : ∀ f, a = some f → ∀ c, c < 4 → f.color.getD c 0 < 256)
    (hb : ∀ f, b = some f → ∀ c, c < 4 → f.color.getD c 0 < 256) :
    ((p.getD (backgroundFragment st .RGBA_UBYTE df)).clip .RGBA_UBYTE df).color
        = (ICET_OVER_UBYTE (.src 0) (.dest 0)
            { src := ((a.getD (backgroundFragment st .RGBA_UBYTE df)).clip
                .RGBA_UBYTE df).color,
              dest := ((b.getD (backgroundFragment st .RGBA_UBYTE df)).clip
                .RGBA_UBYTE df).color }).dest
      ∧ (a = none ∨ b ≠ none →
          ((p.getD (backgroundFragment st .RGBA_UBYTE df)).clip .RGBA_UBYTE df).depth
            = ((b.getD (backgroundFragment st .RGBA_UBYTE df)).clip .RGBA_UBYTE df).depth) := by
  have hbgc : ((backgroundFragment st .RGBA_UBYTE df).clip .RGBA_UBYTE df).color
      = [0, 0, 0, 0] := by
    simp only [Fragment.clip, backgroundFragment, colorChannels, hbg]
    rfl
  have hclipc : ∀ f : Fragment, (f.clip .RGBA_UBYTE df).color = loadElements 0 4 f.color :=
    fun _ => rfl
  have hbytes : ∀ f : Fragment, (∀ c, c < 4 → f.color.getD c 0 < 256) →
      ∀ c, c < 4 → (loadElements 0 4 f.color).getD c 0 < 256 := by
    intro f hf c hc
    rw [loadElements_getD, if_pos hc, Nat.zero_add]
    exact hf c hc
  cases a with
  | none =>
    cases b with
    | none =>
      simp only [compositePixel, Option.some.injEq] at hp
      subst hp
      simp only [Option.getD_none, hbgc]
      constructor <;> first | rfl | trivial
    | some g =>
      simp only [compositePixel, Option.some.injEq] at hp
      subst hp
      simp only [Option.getD_none, Option.getD_some, hbgc, hclipc]
      rw [ICET_OVER_UBYTE_zero_front _ (loadElements_length _ _ _) (hbytes g (hb g rfl))]
      constructor <;> first | rfl | trivial | (intro _; trivial)
  | some f =>
    cases b with
    | none =>
      simp only [compositePixel, Option.some.injEq] at hp
      subst hp
      simp only [Option.getD_none, Option.getD_some, hbgc, hclipc]
      rw [ICET_OVER_UBYTE_zero_back _ (loadElements_length _ _ _) (hbytes f (ha f rfl))]
      constructor <;> first | rfl | trivial | (intro h; simp at h)
    | some g =>
      simp only [compositePixel, compositeFragments, hmode, Option.map_some',
        Option.some.injEq] at hp
      subst hp
      simp only [Option.getD_some, hclipc]
      refine ⟨?_, fun _ => rfl⟩
      rw [loadElements_self 4 _ (by rw [ICET_OVER_UBYTE_length, loadElements_length])]

theorem compositePixel_blend_float (fa : FloatArith) (st : IceTState) (df : DepthFormat)
    (a b p : Option Fragment)
    (hmode : st.composite_mode = .BLEND)
    (hp : compositePixel fa st .RGBA_FLOAT df a b = some p)
    (hbg : overFloatColor fa st.background_color st.background_color
      = loadElements 0 4 st.background_color)
    (ha : ∀ f, a = some f →
      overFloatColor fa f.color st.background_color = loadElements 0 4 f.color)
    (hb : ∀ f, b = some f →
      overFloatColor fa st.background_color f.color = loadElements 0 4 f.color) :
    ((p.getD (backgroundFragment st .RGBA_FLOAT df)).clip .RGBA_FLOAT df).color
        = (ICET_OVER_FLOAT fa (.src 0) (.dest 0)
            { src := ((a.getD (backgroundFragment st .RGBA_FLOAT df)).clip
                .RGBA_FLOAT df).color,
              dest := ((b.getD (backgroundFragment st .RGBA_FLOAT df)).clip
                .RGBA_FLOAT df).color }).dest
      ∧ (a = none ∨ b ≠ none →
          ((p.getD (backgroundFragment st .RGBA_FLOAT df)).clip .RGBA_FLOAT df).depth
            = ((b.getD (backgroundFragment st .RGBA_FLOAT df)).clip .RGBA_FLOAT df).depth) := by
  have hbgc : ((backgroundFragment st .RGBA_FLOAT df).clip .RGBA_FLOAT df).color
      = loadElements 0 4 st.background_color := by
    simp only [Fragment.clip, backgroundFragment, colorChannels, loadElements_idem]
  have hclipc : ∀ f : Fragment, (f.clip .RGBA_FLOAT df).color = loadElements 0 4 f.color :=
    fun _ => rfl
  have hover : ∀ x y : List Nat,
      (ICET_OVER_FLOAT fa (.src 0) (.dest 0)
        { src := loadElements 0 4 x, dest := loadElements 0 4 y }).dest
        = overFloatColor fa x y := fun _ _ => rfl
  cases a with
  | none =>
    cases b with
    | none =>
      simp only [compositePixel, Option.some.injEq] at hp
      subst hp
      simp only [Option.getD_none, hbgc, hover, hbg]
      constructor <;> first | rfl | trivial
    | some g =>
      simp only [compositePixel, Option.some.injEq] at hp
      subst hp
      simp only [Option.getD_none, Option.getD_some, hbgc, hclipc, hover, hb g rfl]
      constructor <;> first | rfl | trivial | (intro _; trivial)
  | some f =>
    cases b with
    | none =>
      simp only [compositePixel, Option.some.injEq] at hp
      subst hp
      simp only [Option.getD_none, Option.getD_some, hbgc, hclipc, hover, ha f rfl]
      constructor <;> first | rfl | trivial | (intro h; simp at h)
    | some g =>
      simp only [compositePixel, compositeFragments, hmode, Option.map_some',
        Option.some.injEq] at hp
      subst hp
      simp only [Option.getD_some, hclipc]
      refine ⟨?_, fun _ => rfl⟩
      rw [loadElements_self 4 _ (by rw [ICET_OVER_FLOAT_length, loadElements_length])]

theorem list_all_getD (q : Option Fragment → Bool) (ps : List (Option Fragment))
    (h : ps.all q = true) (i : Nat) (f : Fragment) (hf : ps.getD i none = some f) :
    q (some f) = true := by
  have hi : i < ps.length := by
    by_contra hcon
    rw [List.getD_eq_getElem?_getD, List.getElem?_eq_none (by omega)] at hf
    simp at hf
  rw [List.getD_eq_getElem _ _ hi] at hf
  have hmem : some f ∈ ps := hf ▸ List.getElem_mem hi
  exact List.all_eq_true.mp h _ hmem

theorem activeDepthsNotAboveOne_getD (ps : List (Option Fragment))
    (h : activeDepthsNotAboveOne ps = true) (i : Nat) (f : Fragment)
    (hf : ps.getD i none = some f) : floatLt FLOAT_ONE (f.depth.getD 0 0) = false := by
  have := list_all_getD _ ps h i f hf
  simpa using this

theorem keptOverBackground_getD (fa : FloatArith) (st : IceTState)
    (ps : List (Option Fragment)) (h : keptOverBackground fa st ps = true) (i : Nat)
    (f : Fragment) (hf : ps.getD i none = some f) :
    overFloatColor fa f.color st.background_color = loadElements 0 4 f.color := by
  have := list_all_getD _ ps h i f hf
  simpa using this

theorem keptUnderBackground_getD (fa : FloatArith) (st : IceTState)
    (ps : List (Option Fragment)) (h : keptUnderBackground fa st ps = true) (i : Nat)
    (f : Fragment) (hf : ps.getD i none = some f) :
    overFloatColor fa st.background_color f.color = loadElements 0 4 f.color := by
  have := list_all_getD _ ps h i f hf
  simpa using this

theorem activeDepthsBelowOne_getD (ps : List (Option Fragment))
    (h : activeDepthsBelowOne ps = true) (i : Nat) (f : Fragment)
    (hf : ps.getD i none = some f) : floatLt (f.depth.getD 0 0) FLOAT_ONE = true := by
  have hi : i < ps.length := by
    by_contra hcon
    rw [List.getD_eq_getElem?_getD, List.getElem?_eq_none (by omega)] at hf
    simp at hf
  rw [List.getD_eq_getElem _ _ hi] at hf
  have hmem : some f ∈ ps := hf ▸ List.getElem_mem hi
  have := List.all_eq_true.mp h _ hmem
  simpa using this

theorem activeColorsAreBytes_getD (ps : List (Option Fragment))
    (h : activeColorsAreBytes ps = true) (i : Nat) (f : Fragment)
    (hf : ps.getD i none = some f) : ∀ c, c < 4 → f.color.getD c 0 < 256 := by
  have hi : i < ps.length := by
    by_contra hcon
    rw [List.getD_eq_getElem?_getD, List.getElem?_eq_none (by omega)] at hf
    simp at hf
  rw [List.getD_eq_getElem _ _ hi] at hf
  have hmem : some f ∈ ps := hf ▸ List.getElem_mem hi
  have := List.all_eq_true.mp h _ hmem
  intro c hc
  have h2 := List.all_eq_true.mp this c (List.mem_range.mpr hc)
  simpa [-List.getD_eq_getElem?_getD] using h2

/-- Claim C5, amended. For flat sparse images `A` (front) and `B` (back) of the same
dimensions and formats whose runs cover their pixels, and a distinct destination,
`icetCompressedCompressedComposite` emits an inactive pixel where both are inactive and
copies the fragment where exactly one is active; decompressing its result gives, pixel
by pixel, the image that `icetComposite` with `A` on top gives from the decompressed `A`
and `B`: in Z-buffer mode (depth D32F) when every active fragment of `A` has a depth
`< 1.0` and no active fragment of `B` a depth `> 1.0`; in blend mode for RGBA8, with or
without depth, when the background word is transparent black and the color channels are
bytes; in blend mode for RGBA32F, with or without depth, when the float blend leaves
the fragments as they are over and under the background color.  In blend mode the
colors agree at every pixel, and the whole fragment wherever the images have no depth,
`A` is inactive or `B` is active.  No call raises an error. -/
theorem cc_composite_agrees_with_dense (fa : FloatArith) (st : IceTState)
    (A B dest : IceTSparseImageData) (outA outB outC : IceTImageData)
    (psA psB : List (Option Fragment))
    (hAm : A.magic_num = ICET_SPARSE_IMAGE_MAGIC_NUM)
    (hBm : B.magic_num = ICET_SPARSE_IMAGE_MAGIC_NUM)
    (hDm : dest.magic_num = ICET_SPARSE_IMAGE_MAGIC_NUM)
    (hw : A.width = B.width) (hh : A.height = B.height)
    (hcf : A.color_format = B.color_format) (hdf : A.depth_format = B.depth_format)
    (hdc : A.color_format = dest.color_format) (hdd : A.depth_format = dest.depth_format)
    (hcap : A.width * A.height ≤ dest.max_num_pixels)
    (hdist : A.address ≠ B.address ∧ A.address ≠ dest.address ∧ B.address ≠ dest.address)
    (hA : streamPixels A.payload 0 = some psA) (hB : streamPixels B.payload 0 = some psB)
    (hlenA : psA.length = (A.width * A.height).toNat)
    (hlenB : psB.length = (A.width * A.height).toNat)
    (hOA : outA.ReceivesFlat A.color_format A.depth_format A.width A.height)
    (hOB : outB.ReceivesFlat A.color_format A.depth_format A.width A.height)
    (hOC : outC.ReceivesFlat A.color_format A.depth_format A.width A.height)
    (hmode :
      (st.composite_mode = .Z_BUFFER ∧ A.depth_format = .FLOAT
        ∧ A.color_format ∈ [ColorFormat.RGBA_UBYTE, .RGBA_FLOAT, .RGB_FLOAT, .NONE]
        ∧ activeDepthsBelowOne psA = true ∧ activeDepthsNotAboveOne psB = true)
      ∨ (st.composite_mode = .BLEND ∧ A.color_format = .RGBA_UBYTE
        ∧ A.depth_format ∈ [DepthFormat.FLOAT, .NONE]
        ∧ loadElements 0 4 st.background_color_word = [0, 0, 0, 0]
        ∧ activeColorsAreBytes psA = true ∧ activeColorsAreBytes psB = true)
      ∨ (st.composite_mode = .BLEND ∧ A.color_format = .RGBA_FLOAT
        ∧ A.depth_format ∈ [DepthFormat.FLOAT, .NONE]
        ∧ overFloatColor fa st.background_color st.background_color
            = loadElements 0 4 st.background_color
        ∧ keptOverBackground fa st psA = true ∧ keptUnderBackground fa st psB = true)) :
    ∃ (d : IceTSparseImageData) (r1 rA rB r2 : IceTImageData) (P : List (Option Fragment))
        (ev1 ev2 ev3 ev4 ev5 : List Event),
      icetCompressedCompressedComposite fa st A B dest = some (d, ev1)
      ∧ d.width = A.width ∧ d.height = A.height
      ∧ streamPixels d.payload 0 = some P
      ∧ (∀ i : Nat, (i : Int) < A.width * A.height →
          (psB.getD i none = none → P.getD i none = psA.getD i none)
          ∧ (psA.getD i none = none → P.getD i none = psB.getD i none))
      ∧ icetDecompressImage st d outC = some (r1, ev2)
      ∧ icetDecompressImage st A outA = some (rA, ev3)
      ∧ icetDecompressImage st B outB = some (rB, ev4)
      ∧ icetComposite fa st (some rB) (some rA) true = some (some r2, ev5)
      ∧ (∀ kind, Event.raiseError kind ∉ ev1 ++ ev2 ++ ev3 ++ ev4 ++ ev5)
      ∧ r1.width = r2.width ∧ r1.height = r2.height
      ∧ ∀ i : Nat, (i : Int) < A.width * A.height →
          (loadFragment A.color_format A.depth_format r1.color r1.depth i).color
              = (loadFragment A.color_format A.depth_format r2.color r2.depth i).color
          ∧ (st.composite_mode = .Z_BUFFER ∨ A.depth_format = .NONE
                ∨ psA.getD i none = none ∨ psB.getD i none ≠ none →
              loadFragment A.color_format A.depth_format r1.color r1.depth i
                = loadFragment A.color_format A.depth_format r2.color r2.depth i) := by
  obtain ⟨hOA1, hOA2, hOA3, hOA4, hOA5, hOA6, hn, hOA8⟩ := hOA
  obtain ⟨hOB1, hOB2, hOB3, hOB4, hOB5, hOB6, -, hOB8⟩ := hOB
  obtain ⟨hOC1, hOC2, hOC3, hOC4, hOC5, hOC6, -, hOC8⟩ := hOC
  have hfr : ∀ x y : Fragment, x.color = y.color → x.depth = y.depth → x = y := by
    intro x y h1 h2
    cases x; cases y
    simp only at h1 h2
    rw [h1, h2]
  -- the composited pixel sequence exists
  have hsupp : ∀ f b, ∃ r, compositeFragments fa st A.color_format A.depth_format f b
      = some r := by
    intro f b
    rcases hmode with ⟨hm, hd, -, -, -⟩ | ⟨hm, hc, -, -, -, -⟩ | ⟨hm, hc, -, -, -, -⟩
    · simp only [compositeFragments, hm, hd]
      exact ⟨_, rfl⟩
    · simp only [compositeFragments, hm, hc]
      exact ⟨_, rfl⟩
    · simp only [compositeFragments, hm, hc]
      exact ⟨_, rfl⟩
  obtain ⟨P, hP⟩ := compositePixels_exists fa st A.color_format A.depth_format psA psB
    (hlenA.trans hlenB.symm) hsupp
  obtain ⟨hPA, -⟩ := compositePixels_length fa st _ _ psA psB P hP
  have hlenP : P.length = (A.width * A.height).toNat := hPA.symm.trans hlenA
  obtain ⟨d, hd, hdm, hdcf, hddf, hdw, hdh, hdP⟩ :=
    icetCompressedCompressedComposite_eq fa st A B dest psA psB P hAm hBm hDm hw hh hcf hdf
      hdc hdd hcap hdist hA hB hlenA hP
  have hr1 := icetDecompressImage_eq st d outC P hdm hOC1 (hdcf.trans hOC2.symm)
    (hddf.trans hOC3.symm) (by rw [hdw, hdh]; exact hn) (by rw [hdw, hdh]; exact hOC8)
    (by rw [hdw, hdh]; exact hOC4) hdP (by rw [hdw, hdh]; exact hlenP)
  have hrA := icetDecompressImage_eq st A outA psA hAm hOA1 hOA2.symm hOA3.symm hn hOA8 hOA4
    hA hlenA
  have hrB := icetDecompressImage_eq st B outB psB hBm hOB1 (hcf.symm.trans hOB2.symm)
    (hdf.symm.trans hOB3.symm) (by rw [← hw, ← hh]; exact hn)
    (by rw [← hw, ← hh]; exact hOB8) (by rw [← hw, ← hh]; exact hOB4) hB
    (by rw [← hw, ← hh]; exact hlenB)
  -- name the decompressed buffers
  obtain ⟨SC, hSC⟩ : ∃ S, S = storePixels st outC.color_format outC.depth_format P 0
    (outC.color, outC.depth) := ⟨_, rfl⟩
  obtain ⟨SA, hSA⟩ : ∃ S, S = storePixels st outA.color_format outA.depth_format psA 0
    (outA.color, outA.depth) := ⟨_, rfl⟩
  obtain ⟨SB, hSB⟩ : ∃ S, S = storePixels st outB.color_format outB.depth_format psB 0
    (outB.color, outB.depth) := ⟨_, rfl⟩
  have hpixC : ∀ i, i < (A.width * A.height).toNat →
      loadFragment A.color_format A.depth_format SC.1 SC.2 i
        = ((P.getD i none).getD (backgroundFragment st A.color_format A.depth_format)).clip
            A.color_format A.depth_format := by
    intro i hi
    have := storePixels_at st A.color_format A.depth_format P 0 (outC.color, outC.depth)
      (by rw [hlenP, Nat.zero_add]; exact hOC5) (by rw [hlenP, Nat.zero_add]; exact hOC6)
      i (by rw [hlenP]; exact hi)
    rw [Nat.zero_add] at this
    rw [hSC, hOC2, hOC3]; exact this
  have hpixA : ∀ i, i < (A.width * A.height).toNat →
      loadFragment A.color_format A.depth_format SA.1 SA.2 i
        = ((psA.getD i none).getD (backgroundFragment st A.color_format A.depth_format)).clip
            A.color_format A.depth_format := by
    intro i hi
    have := storePixels_at st A.color_format A.depth_format psA 0 (outA.color, outA.depth)
      (by rw [hlenA, Nat.zero_add]; exact hOA5) (by rw [hlenA, Nat.zero_add]; exact hOA6)
      i (by rw [hlenA]; exact hi)
    rw [Nat.zero_add] at this
    rw [hSA, hOA2, hOA3]; exact this
  have hpixB : ∀ i, i < (A.width * A.height).toNat →
      loadFragment A.color_format A.depth_format SB.1 SB.2 i
        = ((psB.getD i none).getD (backgroundFragment st A.color_format A.depth_format)).clip
            A.color_format A.depth_format := by
    intro i hi
    have := storePixels_at st A.color_format A.depth_format psB 0 (outB.color, outB.depth)
      (by rw [hlenB, Nat.zero_add]; exact hOB5) (by rw [hlenB, Nat.zero_add]; exact hOB6)
      i (by rw [hlenB]; exact hi)
    rw [Nat.zero_add] at this
    rw [hSB, hOB2, hOB3]; exact this
  have hlB : SB.1.length = outB.color.length ∧ SB.2.length = outB.depth.length := by
    rw [hSB]; exact storePixels_length st _ _ psB 0 (outB.color, outB.depth)
  obtain ⟨hlBc, hlBd⟩ := hlB
  have hvd : A.depth_format = .FLOAT ∨ A.depth_format = .NONE := by
    rcases hmode with ⟨-, hfmt, -, -, -⟩ | ⟨-, -, hfmtd, -, -, -⟩ | ⟨-, -, hfmtd, -, -, -⟩
    · exact Or.inl hfmt
    · simpa using hfmtd
    · simpa using hfmtd
  have hdiag : fragmentSizeDiagnostics A.color_format A.depth_format = [] := by
    have hd' : A.depth_format ∈ [DepthFormat.FLOAT, .NONE] := by simpa using hvd
    rcases hmode with ⟨-, -, hvalid, -, -⟩ | ⟨-, hfmtc, -, -, -, -⟩ | ⟨-, hfmtc, -, -, -, -⟩
    · exact fragmentSizeDiagnostics_valid _ _ hvalid hd'
    · exact fragmentSizeDiagnostics_valid _ _ (by rw [hfmtc]; decide) hd'
    · exact fragmentSizeDiagnostics_valid _ _ (by rw [hfmtc]; decide) hd'
  rw [← hSC, hOC2, hOC3, hdiag, ← hOC2, ← hOC3] at hr1
  rw [← hSA, hOA2, hOA3, hdiag, ← hOA2, ← hOA3] at hrA
  rw [← hSB, hOB2, hOB3, hdiag, ← hOB2, ← hOB3] at hrB
  have hcopy : ∀ i : Nat, (i : Int) < A.width * A.height →
      (psB.getD i none = none → P.getD i none = psA.getD i none)
      ∧ (psA.getD i none = none → P.getD i none = psB.getD i none) := by
    intro i hi
    have hcp := compositePixels_getD fa st _ _ psA psB P hP i (by rw [hlenP]; omega)
    refine ⟨fun hb => ?_, fun ha => ?_⟩
    · rw [hb] at hcp
      cases hpa : psA.getD i none <;> rw [hpa] at hcp <;>
        simp only [compositePixel, Option.some.injEq] at hcp <;> exact hcp.symm
    · rw [ha] at hcp
      cases hpb : psB.getD i none <;> rw [hpb] at hcp <;>
        simp only [compositePixel, Option.some.injEq] at hcp <;> exact hcp.symm
  have hdepthNone : A.depth_format = .NONE → ∀ (c1 d1 c2 d2 : List Nat) (i : Nat),
      (loadFragment A.color_format A.depth_format c1 d1 i).depth
        = (loadFragment A.color_format A.depth_format c2 d2 i).depth := by
    intro h c1 d1 c2 d2 i
    rw [h]
    rfl
  rcases hmode with ⟨hm, hfmt, hvalid, hdA, hdB⟩ | ⟨hm, hfmtc, -, hbg, hbA, hbB⟩
      | ⟨hm, hfmtc, -, hbg, hkA, hkB⟩
  · -- Z-buffer mode
    have hcomp := icetComposite_zbuffer_eq_events fa st
      { outB with
        width := B.width
        height := B.height
        actual_buffer_size :=
          icetImageBufferSizeType outB.color_format outB.depth_format B.width B.height
        color := SB.1
        depth := SB.2 }
      { outA with
        width := A.width
        height := A.height
        actual_buffer_size :=
          icetImageBufferSizeType outA.color_format outA.depth_format A.width A.height
        color := SA.1
        depth := SA.2 }
      true hm hOB1 hOA1 (by simp only [hw, hh]) (hOB2.trans hOA2.symm)
      (by simp only [hOB2]; exact hvalid) (hOB3.trans hfmt) (hOA3.trans hfmt)
    refine ⟨d, _, _, _, _, P, _, _, _, _, _, hd, hdw, hdh, hdP, hcopy, hr1, hrA, hrB, hcomp,
      fun kind => by simp, ?_, ?_, ?_⟩
    · exact hdw.trans hw
    · exact hdh.trans hh
    · intro i hi
      have hin : i < (A.width * A.height).toNat := by omega
      have hz := zBufferLoop_loadFragment outB.color_format SA.2 SA.1 SB.2 SB.1
        (B.width * B.height) i (by rw [← hw, ← hh]; exact hin)
        (by rw [hlBd, ← hw, ← hh]; have := hOB6; rw [hfmt] at this
            simpa [depthChannels] using this)
        (by rw [hlBc, ← hw, ← hh, hOB2]; exact hOB5)
      have hcp := compositePixels_getD fa st _ _ psA psB P hP i (by rw [hlenP]; exact hin)
      have hpz := compositePixel_zbuffer fa st A.color_format (psA.getD i none)
        (psB.getD i none) (P.getD i none) hm (by rw [← hfmt]; exact hcp)
        (fun f hf => activeDepthsBelowOne_getD psA hdA i f hf)
        (fun f hf => activeDepthsNotAboveOne_getD psB hdB i f hf)
      have eA := hpixA i hin
      have eB := hpixB i hin
      have eC := hpixC i hin
      have hfull : loadFragment A.color_format A.depth_format SC.1 SC.2 i
          = loadFragment A.color_format A.depth_format
              (zBufferLoop outB.color_format (B.width * B.height) SA.2 SA.1 (SB.2, SB.1)).2
              (zBufferLoop outB.color_format (B.width * B.height) SA.2 SA.1 (SB.2, SB.1)).1
              i := by
        rw [hfmt] at eA eB eC ⊢
        rw [hOB2] at hz ⊢
        have hdA' : SA.2.getD i 0
            = (loadFragment A.color_format .FLOAT SA.1 SA.2 i).depth.getD 0 0 :=
          (loadFragment_depth_getD _ _ _ _).symm
        have hdB' : SB.2.getD i 0
            = (loadFragment A.color_format .FLOAT SB.1 SB.2 i).depth.getD 0 0 :=
          (loadFragment_depth_getD _ _ _ _).symm
        rw [eC, hz, hdA', hdB', eA, eB]
        exact hpz
      exact ⟨congrArg Fragment.color hfull, fun _ => hfull⟩
  · -- blend mode, RGBA8
    obtain ⟨ev5, hcomp, hev5⟩ := icetComposite_blend_ubyte_events fa st
      { outB with
        width := B.width
        height := B.height
        actual_buffer_size :=
          icetImageBufferSizeType outB.color_format outB.depth_format B.width B.height
        color := SB.1
        depth := SB.2 }
      { outA with
        width := A.width
        height := A.height
        actual_buffer_size :=
          icetImageBufferSizeType outA.color_format outA.depth_format A.width A.height
        color := SA.1
        depth := SA.2 }
      hm hOB1 hOA1 (by simp only [hw, hh]) (hOB2.trans hOA2.symm) (hOB3.trans hOA3.symm)
      (hOB2.trans hfmtc) (by simp only [hOB3]; exact hvd)
    refine ⟨d, _, _, _, _, P, _, _, _, _, ev5, hd, hdw, hdh, hdP, hcopy, hr1, hrA, hrB, hcomp,
      fun kind => by simpa using hev5 kind, ?_, ?_, ?_⟩
    · exact hdw.trans hw
    · exact hdh.trans hh
    · intro i hi
      have hin : i < (A.width * A.height).toNat := by omega
      have hcapB : 4 * (B.width * B.height).toNat ≤ SB.1.length := by
        rw [hlBc, ← hw, ← hh]
        have := hOB5
        rw [hfmtc] at this
        exact this
      have hb := blendUbyteLoop_loadElements SA.1 SB.1 (B.width * B.height) i
        (by rw [← hw, ← hh]; exact hin) hcapB
      have hcp := compositePixels_getD fa st _ _ psA psB P hP i (by rw [hlenP]; exact hin)
      rw [hfmtc] at hcp
      obtain ⟨hpc, hpd⟩ := compositePixel_blend_ubyte fa st A.depth_format (psA.getD i none)
        (psB.getD i none) (P.getD i none) hm hcp hbg
        (fun f hf => activeColorsAreBytes_getD psA hbA i f hf)
        (fun f hf => activeColorsAreBytes_getD psB hbB i f hf)
      have eA := hpixA i hin
      have eB := hpixB i hin
      have eC := hpixC i hin
      rw [hfmtc] at eA eB eC
      have hcol : (loadFragment A.color_format A.depth_format SC.1 SC.2 i).color
          = (loadFragment A.color_format A.depth_format
              (blendUbyteLoop true (B.width * B.height) SA.1 SB.1) SB.2 i).color := by
        rw [hfmtc, eC, hpc, ← eA, ← eB]
        simp only [loadFragment, colorChannels, hb]
      refine ⟨hcol, fun hcond => hfr _ _ hcol ?_⟩
      rcases hcond with hz | hnone | hcond
      · rw [hm] at hz; cases hz
      · exact hdepthNone hnone _ _ _ _ _
      · have hdep := hpd hcond
        rw [← eC, ← eB, ← hfmtc] at hdep
        exact hdep
  · -- blend mode, RGBA32F
    obtain ⟨ev5, hcomp, hev5⟩ := icetComposite_blend_float_events fa st
      { outB with
        width := B.width
        height := B.height
        actual_buffer_size :=
          icetImageBufferSizeType outB.color_format outB.depth_format B.width B.height
        color := SB.1
        depth := SB.2 }
      { outA with
        width := A.width
        height := A.height
        actual_buffer_size :=
          icetImageBufferSizeType outA.color_format outA.depth_format A.width A.height
        color := SA.1
        depth := SA.2 }
      hm hOB1 hOA1 (by simp only [hw, hh]) (hOB2.trans hOA2.symm) (hOB3.trans hOA3.symm)
      (hOB2.trans hfmtc) (by simp only [hOB3]; exact hvd)
    refine ⟨d, _, _, _, _, P, _, _, _, _, ev5, hd, hdw, hdh, hdP, hcopy, hr1, hrA, hrB, hcomp,
      fun kind => by simpa using hev5 kind, ?_, ?_, ?_⟩
    · exact hdw.trans hw
    · exact hdh.trans hh
    · intro i hi
      have hin : i < (A.width * A.height).toNat := by omega
      have hcapB : 4 * (B.width * B.height).toNat ≤ SB.1.length := by
        rw [hlBc, ← hw, ← hh]
        have := hOB5
        rw [hfmtc] at this
        exact this
      have hb := blendFloatLoop_loadElements fa SA.1 SB.1 (B.width * B.height) i
        (by rw [← hw, ← hh]; exact hin) hcapB
      have hcp := compositePixels_getD fa st _ _ psA psB P hP i (by rw [hlenP]; exact hin)
      rw [hfmtc] at hcp
      obtain ⟨hpc, hpd⟩ := compositePixel_blend_float fa st A.depth_format (psA.getD i none)
        (psB.getD i none) (P.getD i none) hm hcp hbg
        (fun f hf => keptOverBackground_getD fa st psA hkA i f hf)
        (fun f hf => keptUnderBackground_getD fa st psB hkB i f hf)
      have eA := hpixA i hin
      have eB := hpixB i hin
      have eC := hpixC i hin
      rw [hfmtc] at eA eB eC
      have hcol : (loadFragment A.color_format A.depth_format SC.1 SC.2 i).color
          = (loadFragment A.color_format A.depth_format
              (blendFloatLoop fa true (B.width * B.height) SA.1 SB.1) SB.2 i).color := by
        rw [hfmtc, eC, hpc, ← eA, ← eB]
        simp only [loadFragment, colorChannels, hb]
      refine ⟨hcol, fun hcond => hfr _ _ hcol ?_⟩
      rcases hcond with hz | hnone | hcond
      · rw [hm] at hz; cases hz
      · exact hdepthNone hnone _ _ _ _ _
      · have hdep := hpd hcond
        rw [← eC, ← eB, ← hfmtc] at hdep
        exact hdep
/-- Claim C5, as stated, is refuted at six inputs; each rests on the two rules of the
claim and of the decode (a lone active fragment is copied, an inactive pixel decodes to
the background) and on `icetComposite`.
(1) Blend mode with an opaque black background, the front image inactive and the back
image holding the half transparent color (10, 20, 30, 128): the compressed-compressed
composite copies the back fragment and decompresses to (10, 20, 30, 128), while the
decompressed front image is the background (0, 0, 0, 255) and the dense operator with
it on top gives (0, 0, 0, 255).
(2) Z-buffer mode, the front image inactive and the back image active at depth 2.0:
the composite decompresses to the back fragment, the dense operator prefers the
decompressed front pixel at depth 1.0.
(3) Z-buffer mode, the front image active at depth exactly 1.0 and the back image
inactive: the composite decompresses to the front fragment, the dense operator keeps
the decompressed back pixel, whose depth 1.0 is not greater.
(4) Blend mode on RGBA8 + D32F images with a transparent background, the front image
active at depth 0.2 and the back image inactive: the composite decompresses to depth
0.2, the dense operator leaves the depth 1.0 of the back image.
(5) Blend mode on RGB32F images, the front image inactive and the back image active:
the composite decompresses to the back fragment, the dense operator overwrites it with
the decompressed front pixel, the background.
(6) Z-buffer mode on images without depth, the front image active and the back image
inactive: the composite decompresses to the front fragment, the dense operator raises
`INVALID_OPERATION` and leaves the decompressed back image as it is. -/
theorem cc_composite_differs_from_dense :
    ((icetCompressedCompressedComposite unusedFloatArith opaqueBlendState inactiveFront
          translucentBack colorOnlyDest).map Prod.fst
        = some (colorOnlySparse 3 [.runLength 0 1, .pixel translucentFragment])
      ∧ (icetDecompressImage opaqueBlendState
          (colorOnlySparse 3 [.runLength 0 1, .pixel translucentFragment])
          (colorOnlyPixel [0, 0, 0, 0])).map Prod.fst
        = some (colorOnlyPixel [10, 20, 30, 128])
      ∧ (icetDecompressImage opaqueBlendState inactiveFront
          (colorOnlyPixel [0, 0, 0, 0])).map Prod.fst
        = some (colorOnlyPixel [0, 0, 0, 255])
      ∧ (icetDecompressImage opaqueBlendState translucentBack
          (colorOnlyPixel [0, 0, 0, 0])).map Prod.fst
        = some (colorOnlyPixel [10, 20, 30, 128])
      ∧ icetComposite unusedFloatArith opaqueBlendState
          (some (colorOnlyPixel [10, 20, 30, 128])) (some (colorOnlyPixel [0, 0, 0, 255])) true
        = some (some (colorOnlyPixel [0, 0, 0, 255]), [.timingBlendBegin, .timingBlendEnd])
      ∧ (colorOnlyPixel [10, 20, 30, 128]).color ≠ (colorOnlyPixel [0, 0, 0, 255]).color)
    ∧ ((icetCompressedCompressedComposite unusedFloatArith zBufferState
          (sparsePixel 1 [.runLength 1 0]) (sparsePixel 2 [.runLength 0 1, .pixel farFragment])
          (sparsePixel 3 [.runLength 1 0])).map Prod.fst
        = some (sparsePixel 3 [.runLength 0 1, .pixel farFragment])
      ∧ (icetDecompressImage zBufferState (sparsePixel 3 [.runLength 0 1, .pixel farFragment])
          (flatImage 1 1 [0, 0, 0, 0] [FLOAT_ONE])).map Prod.fst
        = some (flatImage 1 1 [0, 0, 255, 255] [0x40000000])
      ∧ (icetDecompressImage zBufferState (sparsePixel 1 [.runLength 1 0])
          (flatImage 1 1 [0, 0, 0, 0] [FLOAT_ONE])).map Prod.fst
        = some (flatImage 1 1 [0, 0, 0, 0] [FLOAT_ONE])
      ∧ (icetDecompressImage zBufferState (sparsePixel 2 [.runLength 0 1, .pixel farFragment])
          (flatImage 1 1 [0, 0, 0, 0] [FLOAT_ONE])).map Prod.fst
        = some (flatImage 1 1 [0, 0, 255, 255] [0x40000000])
      ∧ icetComposite unusedFloatArith zBufferState
          (some (flatImage 1 1 [0, 0, 255, 255] [0x40000000]))
          (some (flatImage 1 1 [0, 0, 0, 0] [FLOAT_ONE])) true
        = some (some (flatImage 1 1 [0, 0, 0, 0] [FLOAT_ONE]),
            [.timingBlendBegin, .timingBlendEnd])
      ∧ (flatImage 1 1 [0, 0, 255, 255] [0x40000000]).color
        ≠ (flatImage 1 1 [0, 0, 0, 0] [FLOAT_ONE]).color)
    ∧ ((icetCompressedCompressedComposite unusedFloatArith zBufferState
          (sparsePixel 1 [.runLength 0 1, .pixel farPlaneFragment])
          (sparsePixel 2 [.runLength 1 0]) (sparsePixel 3 [.runLength 1 0])).map Prod.fst
        = some (sparsePixel 3 [.runLength 0 1, .pixel farPlaneFragment])
      ∧ (icetDecompressImage zBufferState
          (sparsePixel 3 [.runLength 0 1, .pixel farPlaneFragment])
          (flatImage 1 1 [0, 0, 0, 0] [FLOAT_ONE])).map Prod.fst
        = some (flatImage 1 1 [255, 0, 0, 255] [FLOAT_ONE])
      ∧ (icetDecompressImage zBufferState
          (sparsePixel 1 [.runLength 0 1, .pixel farPlaneFragment])
          (flatImage 1 1 [0, 0, 0, 0] [FLOAT_ONE])).map Prod.fst
        = some (flatImage 1 1 [255, 0, 0, 255] [FLOAT_ONE])
      ∧ (icetDecompressImage zBufferState (sparsePixel 2 [.runLength 1 0])
          (flatImage 1 1 [0, 0, 0, 0] [FLOAT_ONE])).map Prod.fst
        = some (flatImage 1 1 [0, 0, 0, 0] [FLOAT_ONE])
      ∧ icetComposite unusedFloatArith zBufferState
          (some (flatImage 1 1 [0, 0, 0, 0] [FLOAT_ONE]))
          (some (flatImage 1 1 [255, 0, 0, 255] [FLOAT_ONE])) true
        = some (some (flatImage 1 1 [0, 0, 0, 0] [FLOAT_ONE]),
            [.timingBlendBegin, .timingBlendEnd])
      ∧ (flatImage 1 1 [255, 0, 0, 255] [FLOAT_ONE]).color
        ≠ (flatImage 1 1 [0, 0, 0, 0] [FLOAT_ONE]).color)
    ∧ ((icetCompressedCompressedComposite unusedFloatArith blendState
          (sparsePixel 1 [.runLength 0 1, .pixel nearFragment]) (sparsePixel 2 [.runLength 1 0])
          (sparsePixel 3 [.runLength 1 0])).map Prod.fst
        = some (sparsePixel 3 [.runLength 0 1, .pixel nearFragment])
      ∧ (icetDecompressImage blendState (sparsePixel 3 [.runLength 0 1, .pixel nearFragment])
          (flatImage 1 1 [0, 0, 0, 0] [FLOAT_ONE])).map Prod.fst
        = some (flatImage 1 1 [100, 0, 0, 128] [0x3E4CCCCD])
      ∧ (icetDecompressImage blendState (sparsePixel 1 [.runLength 0 1, .pixel nearFragment])
          (flatImage 1 1 [0, 0, 0, 0] [FLOAT_ONE])).map Prod.fst
        = some (flatImage 1 1 [100, 0, 0, 128] [0x3E4CCCCD])
      ∧ (icetDecompressImage blendState (sparsePixel 2 [.runLength 1 0])
          (flatImage 1 1 [0, 0, 0, 0] [FLOAT_ONE])).map Prod.fst
        = some (flatImage 1 1 [0, 0, 0, 0] [FLOAT_ONE])
      ∧ icetComposite unusedFloatArith blendState
          (some (flatImage 1 1 [0, 0, 0, 0] [FLOAT_ONE]))
          (some (flatImage 1 1 [100, 0, 0, 128] [0x3E4CCCCD])) true
        = some (some (flatImage 1 1 [100, 0, 0, 128] [FLOAT_ONE]),
            [.timingBlendBegin, .raiseWarning .INVALID_VALUE, .timingBlendEnd])
      ∧ (flatImage 1 1 [100, 0, 0, 128] [0x3E4CCCCD]).depth
        ≠ (flatImage 1 1 [100, 0, 0, 128] [FLOAT_ONE]).depth)
    ∧ ((icetCompressedCompressedComposite unusedFloatArith blendState
          (rgbSparse 1 [.runLength 1 0]) (rgbSparse 2 [.runLength 0 1, .pixel orangeFragment])
          (rgbSparse 3 [.runLength 1 0])).map Prod.fst
        = some (rgbSparse 3 [.runLength 0 1, .pixel orangeFragment])
      ∧ (icetDecompressImage blendState (rgbSparse 3 [.runLength 0 1, .pixel orangeFragment])
          (rgbPixel [0, 0, 0])).map Prod.fst
        = some (rgbPixel [FLOAT_ONE, 0x3F000000, 0])
      ∧ (icetDecompressImage blendState (rgbSparse 1 [.runLength 1 0])
          (rgbPixel [0, 0, 0])).map Prod.fst
        = some (rgbPixel [0, 0, 0])
      ∧ (icetDecompressImage blendState (rgbSparse 2 [.runLength 0 1, .pixel orangeFragment])
          (rgbPixel [0, 0, 0])).map Prod.fst
        = some (rgbPixel [FLOAT_ONE, 0x3F000000, 0])
      ∧ icetComposite unusedFloatArith blendState
          (some (rgbPixel [FLOAT_ONE, 0x3F000000, 0])) (some (rgbPixel [0, 0, 0])) true
        = some (some (rgbPixel [0, 0, 0]),
            [.timingBlendBegin, .raiseWarning .INVALID_VALUE, .timingBlendEnd])
      ∧ (rgbPixel [FLOAT_ONE, 0x3F000000, 0]).color ≠ (rgbPixel [0, 0, 0]).color)
    ∧ ((icetCompressedCompressedComposite unusedFloatArith zBufferState
          (colorOnlySparse 1 [.runLength 0 1, .pixel translucentFragment])
          (colorOnlySparse 2 [.runLength 1 0]) colorOnlyDest).map Prod.fst
        = some (colorOnlySparse 3 [.runLength 0 1, .pixel translucentFragment])
      ∧ (icetDecompressImage zBufferState
          (colorOnlySparse 3 [.runLength 0 1, .pixel translucentFragment])
          (colorOnlyPixel [0, 0, 0, 0])).map Prod.fst
        = some (colorOnlyPixel [10, 20, 30, 128])
      ∧ (icetDecompressImage zBufferState
          (colorOnlySparse 1 [.runLength 0 1, .pixel translucentFragment])
          (colorOnlyPixel [0, 0, 0, 0])).map Prod.fst
        = some (colorOnlyPixel [10, 20, 30, 128])
      ∧ (icetDecompressImage zBufferState (colorOnlySparse 2 [.runLength 1 0])
          (colorOnlyPixel [0, 0, 0, 0])).map Prod.fst
        = some (colorOnlyPixel [0, 0, 0, 0])
      ∧ icetComposite unusedFloatArith zBufferState
          (some (colorOnlyPixel [0, 0, 0, 0])) (some (colorOnlyPixel [10, 20, 30, 128])) true
        = some (some (colorOnlyPixel [0, 0, 0, 0]),
            [.timingBlendBegin, .raiseError .INVALID_OPERATION, .timingBlendEnd])
      ∧ (colorOnlyPixel [10, 20, 30, 128]).color ≠ (colorOnlyPixel [0, 0, 0, 0]).color) :=
  ⟨⟨by decide, by decide, by decide, by decide, by decide, by decide⟩,
    ⟨by decide, by decide, by decide, by decide, by decide, by decide⟩,
    ⟨by decide, by decide, by decide, by decide, by decide, by decide⟩,
    ⟨by decide, by decide, by decide, by decide, by decide, by decide⟩,
    ⟨by decide, by decide, by decide, by decide, by decide, by decide⟩,
    ⟨by decide, by decide, by decide, by decide, by decide, by decide⟩⟩

/-- Scenario D on sparse images, front (red, 0.2), inactive; back (blue, 0.5),
(yellow, 0.3): in Z-buffer mode and in blend mode.  The RGBA32F images front (orange,
inactive) and back (inactive, azure) in blend mode.  The hypotheses of the amended C5
hold at the three inputs and its conclusion follows. -/
theorem cc_composite_agrees_with_dense_witness :
    (∃ (d : IceTSparseImageData) (r1 rA rB r2 : IceTImageData) (P : List (Option Fragment))
        (ev1 ev2 ev3 ev4 ev5 : List Event),
      icetCompressedCompressedComposite unusedFloatArith zBufferState sparseFront sparseBack
          sparseDest = some (d, ev1)
      ∧ d.width = sparseFront.width ∧ d.height = sparseFront.height
      ∧ streamPixels d.payload 0 = some P
      ∧ (∀ i : Nat, (i : Int) < sparseFront.width * sparseFront.height →
          (sparseBackPixels.getD i none = none →
            P.getD i none = sparseFrontPixels.getD i none)
          ∧ (sparseFrontPixels.getD i none = none →
            P.getD i none = sparseBackPixels.getD i none))
      ∧ icetDecompressImage zBufferState d clearedPair = some (r1, ev2)
      ∧ icetDecompressImage zBufferState sparseFront clearedPair = some (rA, ev3)
      ∧ icetDecompressImage zBufferState sparseBack clearedPair = some (rB, ev4)
      ∧ icetComposite unusedFloatArith zBufferState (some rB) (some rA) true = some (some r2, ev5)
      ∧ (∀ kind, Event.raiseError kind ∉ ev1 ++ ev2 ++ ev3 ++ ev4 ++ ev5)
      ∧ r1.width = r2.width ∧ r1.height = r2.height
      ∧ ∀ i : Nat, (i : Int) < sparseFront.width * sparseFront.height →
          (loadFragment sparseFront.color_format sparseFront.depth_format r1.color r1.depth i).color
              = (loadFragment sparseFront.color_format sparseFront.depth_format r2.color
                  r2.depth i).color
          ∧ (zBufferState.composite_mode = .Z_BUFFER ∨ sparseFront.depth_format = .NONE
                ∨ sparseFrontPixels.getD i none = none
                ∨ sparseBackPixels.getD i none ≠ none →
              loadFragment sparseFront.color_format sparseFront.depth_format r1.color r1.depth i
                = loadFragment sparseFront.color_format sparseFront.depth_format r2.color
                    r2.depth i))
    ∧ (∃ (d : IceTSparseImageData) (r1 rA rB r2 : IceTImageData) (P : List (Option Fragment))
        (ev1 ev2 ev3 ev4 ev5 : List Event),
      icetCompressedCompressedComposite unusedFloatArith blendState sparseFront sparseBack
          sparseDest = some (d, ev1)
      ∧ d.width = sparseFront.width ∧ d.height = sparseFront.height
      ∧ streamPixels d.payload 0 = some P
      ∧ (∀ i : Nat, (i : Int) < sparseFront.width * sparseFront.height →
          (sparseBackPixels.getD i none = none →
            P.getD i none = sparseFrontPixels.getD i none)
          ∧ (sparseFrontPixels.getD i none = none →
            P.getD i none = sparseBackPixels.getD i none))
      ∧ icetDecompressImage blendState d clearedPair = some (r1, ev2)
      ∧ icetDecompressImage blendState sparseFront clearedPair = some (rA, ev3)
      ∧ icetDecompressImage blendState sparseBack clearedPair = some (rB, ev4)
      ∧ icetComposite unusedFloatArith blendState (some rB) (some rA) true = some (some r2, ev5)
      ∧ (∀ kind, Event.raiseError kind ∉ ev1 ++ ev2 ++ ev3 ++ ev4 ++ ev5)
      ∧ r1.width = r2.width ∧ r1.height = r2.height
      ∧ ∀ i : Nat, (i : Int) < sparseFront.width * sparseFront.height →
          (loadFragment sparseFront.color_format sparseFront.depth_format r1.color r1.depth i).color
              = (loadFragment sparseFront.color_format sparseFront.depth_format r2.color
                  r2.depth i).color
          ∧ (blendState.composite_mode = .Z_BUFFER ∨ sparseFront.depth_format = .NONE
                ∨ sparseFrontPixels.getD i none = none
                ∨ sparseBackPixels.getD i none ≠ none →
              loadFragment sparseFront.color_format sparseFront.depth_format r1.color r1.depth i
                = loadFragment sparseFront.color_format sparseFront.depth_format r2.color
                    r2.depth i))
    ∧ (∃ (d : IceTSparseImageData) (r1 rA rB r2 : IceTImageData) (P : List (Option Fragment))
        (ev1 ev2 ev3 ev4 ev5 : List Event),
      icetCompressedCompressedComposite exactFloatArith blendState floatFront floatBack
          floatDest = some (d, ev1)
      ∧ d.width = floatFront.width ∧ d.height = floatFront.height
      ∧ streamPixels d.payload 0 = some P
      ∧ (∀ i : Nat, (i : Int) < floatFront.width * floatFront.height →
          (floatBackPixels.getD i none = none →
            P.getD i none = floatFrontPixels.getD i none)
          ∧ (floatFrontPixels.getD i none = none →
            P.getD i none = floatBackPixels.getD i none))
      ∧ icetDecompressImage blendState d floatPair = some (r1, ev2)
      ∧ icetDecompressImage blendState floatFront floatPair = some (rA, ev3)
      ∧ icetDecompressImage blendState floatBack floatPair = some (rB, ev4)
      ∧ icetComposite exactFloatArith blendState (some rB) (some rA) true = some (some r2, ev5)
      ∧ (∀ kind, Event.raiseError kind ∉ ev1 ++ ev2 ++ ev3 ++ ev4 ++ ev5)
      ∧ r1.width = r2.width ∧ r1.height = r2.height
      ∧ ∀ i : Nat, (i : Int) < floatFront.width * floatFront.height →
          (loadFragment floatFront.color_format floatFront.depth_format r1.color r1.depth i).color
              = (loadFragment floatFront.color_format floatFront.depth_format r2.color
                  r2.depth i).color
          ∧ (blendState.composite_mode = .Z_BUFFER ∨ floatFront.depth_format = .NONE
                ∨ floatFrontPixels.getD i none = none
                ∨ floatBackPixels.getD i none ≠ none →
              loadFragment floatFront.color_format floatFront.depth_format r1.color r1.depth i
                = loadFragment floatFront.color_format floatFront.depth_format r2.color
                    r2.depth i)) :=
  ⟨cc_composite_agrees_with_dense unusedFloatArith zBufferState sparseFront sparseBack sparseDest
      clearedPair clearedPair clearedPair
      sparseFrontPixels
      sparseBackPixels
      (by decide) (by decide) (by decide) (by decide) (by decide) (by decide) (by decide)
      (by decide) (by decide) (by decide) (by decide) (by decide) (by decide) (by decide)
      (by decide) (by decide) (by decide) (by decide)
      (Or.inl ⟨by decide, by decide, by decide, by decide, by decide⟩),
    cc_composite_agrees_with_dense unusedFloatArith blendState sparseFront sparseBack sparseDest
      clearedPair clearedPair clearedPair
      sparseFrontPixels
      sparseBackPixels
      (by decide) (by decide) (by decide) (by decide) (by decide) (by decide) (by decide)
      (by decide) (by decide) (by decide) (by decide) (by decide) (by decide) (by decide)
      (by decide) (by decide) (by decide) (by decide)
      (Or.inr (Or.inl ⟨by decide, by decide, by decide, by decide, by decide, by decide⟩)),
    cc_composite_agrees_with_dense exactFloatArith blendState floatFront floatBack floatDest
      floatPair floatPair floatPair
      floatFrontPixels
      floatBackPixels
      (by decide) (by decide) (by decide) (by decide) (by decide) (by decide) (by decide)
      (by decide) (by decide) (by decide) (by decide) (by decide) (by decide) (by decide)
      (by decide) (by decide) (by decide) (by decide)
      (Or.inr (Or.inr ⟨by decide, by decide, by decide, by decide, by decide, by decide⟩))⟩

/-! ### Bit reversal -/

theorem reverseBits_result (b r x : Nat) :
    reverseBits b r x = r * 2 ^ b + reverseBits b 0 x := by
  induction b generalizing r x with
  | zero => simp [reverseBits]
  | succ b ih =>
    rw [reverseBits, ih, reverseBits, ih (2 * 0 + x % 2)]
    ring

theorem reverseBits_succ (b x : Nat) :
    reverseBits (b + 1) 0 x = (x % 2) * 2 ^ b + reverseBits b 0 (x / 2) := by
  rw [reverseBits, reverseBits_result]
  simp

theorem reverseBits_lt (b x : Nat) : reverseBits b 0 x < 2 ^ b := by
  induction b generalizing x with
  | zero => simp [reverseBits]
  | succ b ih =>
    rw [reverseBits_succ]
    have h1 := ih (x / 2)
    have h2 : x % 2 < 2 := Nat.mod_lt _ (by decide)
    have h3 : x % 2 * 2 ^ b ≤ 1 * 2 ^ b := Nat.mul_le_mul_right _ (by omega)
    rw [pow_succ]
    omega

theorem reverseBits_succ_low (b x : Nat) :
    reverseBits (b + 1) 0 x = 2 * reverseBits b 0 x + (x / 2 ^ b) % 2 := by
  induction b generalizing x with
  | zero => simp [reverseBits]
  | succ b ih =>
    rw [reverseBits_succ, ih (x / 2), reverseBits_succ b x, Nat.div_div_eq_div_mul,
      ← pow_succ']
    ring

theorem reverseBits_involutive (b x : Nat) :
    reverseBits b 0 (reverseBits b 0 x) = x % 2 ^ b := by
  induction b generalizing x with
  | zero => simp [reverseBits, Nat.mod_one]
  | succ b ih =>
    rw [reverseBits_succ]
    have h2 : (x / 2 ^ b) % 2 < 2 := Nat.mod_lt _ (by decide)
    have e1 : reverseBits (b + 1) 0 x % 2 = (x / 2 ^ b) % 2 := by
      rw [reverseBits_succ_low]; omega
    have e2 : reverseBits (b + 1) 0 x / 2 = reverseBits b 0 x := by
      rw [reverseBits_succ_low]; omega
    rw [e1, e2, ih, Nat.mod_pow_succ]
    ring

theorem interlaceIndex_lt (E o : Nat) (ho : o < E) : interlaceIndex E o < E := by
  unfold interlaceIndex
  split_ifs with h
  · exact ho
  · omega

theorem interlaceIndex_involutive (E o : Nat) (ho : o < E) :
    interlaceIndex E (interlaceIndex E o) = o := by
  have hpow : E ≤ 2 ^ Nat.clog 2 E := Nat.le_pow_clog (by decide) E
  have hinv : reverseBits (Nat.clog 2 E) 0 (reverseBits (Nat.clog 2 E) 0 o) = o := by
    rw [reverseBits_involutive, Nat.mod_eq_of_lt (by omega)]
  unfold interlaceIndex
  by_cases h : E ≤ reverseBits (Nat.clog 2 E) 0 o
  · simp only [h, if_true]
  · simp only [h, if_false, hinv]
    simp only [show ¬ E ≤ o by omega, if_false]

theorem BIT_REVERSE_loop_eq (E : Nat) (fuel k r x : Nat)
    (hk : k ≤ Nat.clog 2 E) (hfuel : Nat.clog 2 E ≤ fuel + k) :
    BIT_REVERSE_loop (E : Int) fuel ((2 ^ k : Nat) : Int) (r : Int) (x : Int)
      = ((reverseBits (Nat.clog 2 E - k) r x : Nat) : Int) := by
  induction fuel generalizing k r x with
  | zero =>
    have : Nat.clog 2 E - k = 0 := by omega
    rw [this]; rfl
  | succ fuel ih =>
    rw [BIT_REVERSE_loop]
    by_cases hlt : k < Nat.clog 2 E
    · have hpl : ((2 ^ k : Nat) : Int) < (E : Int) := by
        have : 2 ^ k < E := (Nat.pow_lt_iff_lt_clog (by decide)).mpr hlt
        exact_mod_cast this
      rw [if_pos hpl]
      have e : Nat.clog 2 E - k = (Nat.clog 2 E - (k + 1)) + 1 := by omega
      rw [e, reverseBits]
      have := ih (k + 1) (2 * r + x % 2) (x / 2) (by omega) (by omega)
      rw [← this]
      congr 1
      · push_cast; ring
    · have hke : Nat.clog 2 E - k = 0 := by omega
      have hpl : ¬ ((2 ^ k : Nat) : Int) < (E : Int) := by
        have : E ≤ 2 ^ k := (Nat.le_pow_iff_clog_le (by decide)).mpr (by omega)
        have : (E : Int) ≤ ((2 ^ k : Nat) : Int) := by exact_mod_cast this
        omega
      rw [if_neg hpl, hke]; rfl

theorem BIT_REVERSE_eq (E x : Nat) :
    BIT_REVERSE (x : Int) (E : Int) = ((reverseBits (Nat.clog 2 E) 0 x : Nat) : Int) := by
  unfold BIT_REVERSE
  have hle : Nat.clog 2 E ≤ E := by
    rcases Nat.eq_zero_or_pos E with h | h
    · subst h; simp
    · exact (Nat.le_pow_iff_clog_le (by decide)).mp (Nat.lt_two_pow E).le
  have := BIT_REVERSE_loop_eq E E 0 0 x (by omega) (by omega)
  simpa using this

theorem interlacedPartitionIdx_eq (E o : Nat) :
    interlacedPartitionIdx (o : Int) (E : Int) = ((interlaceIndex E o : Nat) : Int) := by
  unfold interlacedPartitionIdx interlaceIndex
  simp only [BIT_REVERSE_eq]
  by_cases h : E ≤ reverseBits (Nat.clog 2 E) 0 o
  · rw [if_pos (by exact_mod_cast h), if_pos h]
  · rw [if_neg (by intro h2; exact h (by exact_mod_cast h2)), if_neg h]

/-! ### The offset lookup -/

theorem range_succ_map_sum (f : Nat → Int) (n : Nat) :
    ((List.range (n + 1)).map f).sum = f 0 + ((List.range n).map fun i => f (i + 1)).sum := by
  rw [List.range_succ_eq_map, List.map_cons, List.sum_cons, List.map_map]
  rfl

theorem getInterlaceOffsetLoop_eq (j E : Nat) (lower rem : Int) (hj : j < E)
    (count o : Nat) (offset : Int)
    (ho : o ≤ interlaceIndex E j) (hcount : interlaceIndex E j < o + count) :
    getInterlaceOffsetLoop (j : Int) (E : Int) lower rem count (o : Int) offset
      = some (offset + ((List.range (interlaceIndex E j - o)).map fun i =>
          interlacePartitionSize lower rem ((interlaceIndex E (o + i) : Nat) : Int)).sum) := by
  have ht : interlaceIndex E j < E := interlaceIndex_lt E j hj
  induction count generalizing o offset with
  | zero => omega
  | succ count ih =>
    rw [getInterlaceOffsetLoop]
    simp only [interlacedPartitionIdx_eq]
    by_cases hm : interlaceIndex E o = j
    · have hot : o = interlaceIndex E j := by
        rw [← hm, interlaceIndex_involutive E o (by omega)]
      rw [if_pos (by exact_mod_cast hm)]
      have : interlaceIndex E j - o = 0 := by omega
      rw [this]
      simp
    · have hne : o ≠ interlaceIndex E j := by
        intro h
        apply hm
        rw [h, interlaceIndex_involutive E j hj]
      rw [if_neg (by intro h; exact hm (by exact_mod_cast h))]
      have := ih (o + 1) (offset + interlacePartitionSize lower rem
        ((interlaceIndex E o : Nat) : Int)) (by omega) (by omega)
      rw [show ((o : Int) + 1) = ((o + 1 : Nat) : Int) by push_cast; rfl, this]
      have e : interlaceIndex E j - o = (interlaceIndex E j - (o + 1)) + 1 := by omega
      rw [e, range_succ_map_sum]
      simp only [Nat.add_zero, Int.add_assoc]
      congr 3
      simp only [Nat.add_assoc, Nat.add_comm 1]

theorem interlacePartitionSize_eq (E n : Int) (hE : 0 < E) (hn : 0 ≤ n) (k : Int) :
    interlacePartitionSize (Int.tdiv n E) (Int.tmod n E) k = specPartitionSize E n k := by
  unfold interlacePartitionSize specPartitionSize
  rw [Int.tdiv_eq_ediv hn hE.le, Int.tmod_eq_emod hn hE.le]
  split_ifs <;> simp

theorem icetGetInterlaceOffset_eq (j E n : Int) (hn : 0 ≤ n) (hj0 : 0 ≤ j) (hj : j < E) :
    icetGetInterlaceOffset j E n
      = (originalOffset j E n, [.timingInterlaceBegin, .timingInterlaceEnd]) := by
  obtain ⟨j', rfl⟩ := Int.eq_ofNat_of_zero_le hj0
  obtain ⟨E', rfl⟩ := Int.eq_ofNat_of_zero_le (show 0 ≤ E by omega)
  have hj' : j' < E' := by exact_mod_cast hj
  have hloop := getInterlaceOffsetLoop_eq j' E' (Int.tdiv n E') (Int.tmod n E') hj' E' 0 0
    (Nat.zero_le _) (by have := interlaceIndex_lt E' j' hj'; omega)
  unfold icetGetInterlaceOffset
  rw [if_neg (by omega)]
  simp only [Int.toNat_ofNat]
  rw [Nat.cast_zero] at hloop
  rw [hloop]
  simp only [originalOffset, interlacedPartitionIdx_eq, Int.toNat_ofNat, Nat.sub_zero,
    Nat.zero_add, Nat.cast_zero, Int.zero_add,
    interlacePartitionSize_eq (E' : Int) n (by omega) hn]

/-- Claim C13, as stated, is refuted. For `E = 4` and `n = 8` every partition has two
pixels, so the sum of `partition_size(k)` over `k < j` is `0, 2, 4, 6` for
`j = 0, 1, 2, 3`; `icetGetInterlaceOffset` returns `0, 4, 2, 6`: 4 (not 2) for `j = 1`
and 2 (not 4) for `j = 2`. -/
theorem icetGetInterlaceOffset_not_prefix_sum :
    (icetGetInterlaceOffset 1 4 8).1 = 4 ∧ specInterlaceOffset 1 4 8 = 2
    ∧ (icetGetInterlaceOffset 2 4 8).1 = 2 ∧ specInterlaceOffset 2 4 8 = 4
    ∧ (List.range 4).map (fun (j : Nat) => (icetGetInterlaceOffset (j : Int) 4 8).1)
        = [0, 4, 2, 6]
    ∧ (List.range 4).map (fun (j : Nat) => specInterlaceOffset j 4 8) = [0, 2, 4, 6] := by
  decide

/-- Claim C13, amended. For every `n ≥ 0` and `0 ≤ j < E`, `icetGetInterlaceOffset(j, E,
n)` finds the partition, brackets its work with the interlace timing hooks and returns
the offset, in the original image, of the partition that interlacing moves to position
`j`: the sum of `partition_size(m(o))` over the original partition indices `o < m(j)`,
where `m` is the index map of interlacing (bit reversal, or the identity when the
reversal is not below `E`) and `partition_size(k) = n / E + (1 if k < n mod E else 0)`.
For `j = 0` this is 0, as the claim says. -/
theorem icetGetInterlaceOffset_original_offset (j E n : Int) (hn : 0 ≤ n) (hj0 : 0 ≤ j)
    (hj : j < E) :
    icetGetInterlaceOffset j E n
        = (((List.range (interlacedPartitionIdx j E).toNat).map fun (o : Nat) =>
              specPartitionSize E n (interlacedPartitionIdx (o : Int) E)).sum,
            [.timingInterlaceBegin, .timingInterlaceEnd])
      ∧ (icetGetInterlaceOffset 0 E n).1 = 0 := by
  refine ⟨icetGetInterlaceOffset_eq j E n hn hj0 hj, ?_⟩
  rw [icetGetInterlaceOffset_eq 0 E n hn (le_refl 0) (by omega)]
  have h0 : interlacedPartitionIdx 0 E = 0 := by
    obtain ⟨E', rfl⟩ := Int.eq_ofNat_of_zero_le (show 0 ≤ E by omega)
    have := interlacedPartitionIdx_eq E' 0
    rw [Nat.cast_zero] at this
    rw [this]
    have hz : ∀ b, reverseBits b 0 0 = 0 := by
      intro b
      induction b with
      | zero => rfl
      | succ b ih => rw [reverseBits_succ, ih]; simp
    simp [interlaceIndex, hz]
  simp [originalOffset, h0]

/-- For `E = 4` and `n = 8` the offsets of the interlaced partitions 0, 1, 2, 3 are
0, 4, 2, 6. -/
theorem icetGetInterlaceOffset_original_offset_witness :
    (icetGetInterlaceOffset 1 4 8
        = (((List.range (interlacedPartitionIdx 1 4).toNat).map fun (o : Nat) =>
              specPartitionSize 4 8 (interlacedPartitionIdx (o : Int) 4)).sum,
            [.timingInterlaceBegin, .timingInterlaceEnd])
      ∧ (icetGetInterlaceOffset 0 4 8).1 = 0)
    ∧ icetGetInterlaceOffset 1 4 8 = (4, [.timingInterlaceBegin, .timingInterlaceEnd]) :=
  ⟨icetGetInterlaceOffset_original_offset 1 4 8 (by decide) (by decide) (by decide),
    by decide⟩

/-! ### Packaging for transport -/

theorem baseMagicNum_eq (m : Nat) (hm : m < 2 ^ 32) : baseMagicNum m = 2 * (m / 2) := by
  have h1 : baseMagicNum m / 2 = m / 2 := by
    unfold baseMagicNum
    rw [Nat.and_div_two]
    have : (0xFFFFFFFF ^^^ ICET_IMAGE_FLAG_LAYERED) / 2 = 2 ^ 31 - 1 := by decide
    rw [this, Nat.and_pow_two_sub_one_eq_mod]
    exact Nat.mod_eq_of_lt (by omega)
  have h2 : baseMagicNum m % 2 = 0 := by
    unfold baseMagicNum
    have h := @Nat.and_mod_two_eq_one m (0xFFFFFFFF ^^^ ICET_IMAGE_FLAG_LAYERED)
    have hc : (0xFFFFFFFF ^^^ ICET_IMAGE_FLAG_LAYERED) % 2 = 0 := by decide
    rcases Nat.mod_two_eq_zero_or_one (m &&& (0xFFFFFFFF ^^^ ICET_IMAGE_FLAG_LAYERED))
      with h0 | h1'
    · exact h0
    · have := h.mp h1'
      omega
  omega

theorem baseMagicNum_eq_iff (m c : Nat) (hm : m < 2 ^ 32) (hc : c % 2 = 0) :
    baseMagicNum m = c ↔ m = c ∨ m = c + 1 := by
  rw [baseMagicNum_eq m hm]
  omega

theorem isLayered_iff (m : Nat) : (m &&& ICET_IMAGE_FLAG_LAYERED != 0) = true ↔ m % 2 = 1 := by
  have h := @Nat.and_mod_two_eq_one m 1
  have hlt : m &&& 1 ≤ 1 := Nat.and_le_right
  simp only [ICET_IMAGE_FLAG_LAYERED, bne_iff_ne, ne_eq]
  constructor
  · intro hne
    have : (m &&& 1) % 2 = 1 := by omega
    exact (h.mp this).1
  · intro hm
    have := h.mpr ⟨hm, rfl⟩
    omega


theorem fragmentSize_nonneg (cf : ColorFormat) (df : DepthFormat) :
    0 ≤ colorPixelSize cf + depthPixelSize df := by
  cases cf <;> cases df <;> simp [colorPixelSize, depthPixelSize, SIZEOF_WORD]

theorem colorFormat_valid_iff (cf : ColorFormat) :
    cf ∈ [ColorFormat.RGBA_UBYTE, .RGBA_FLOAT, .RGB_FLOAT, .NONE]
      ↔ ¬ (cf ≠ .RGBA_UBYTE ∧ cf ≠ .RGBA_FLOAT ∧ cf ≠ .RGB_FLOAT ∧ cf ≠ .NONE) := by
  simp only [List.mem_cons, List.mem_singleton, List.not_mem_nil, or_false]
  tauto

theorem depthFormat_valid_iff (df : DepthFormat) :
    df ∈ [DepthFormat.FLOAT, .NONE] ↔ ¬ (df ≠ .FLOAT ∧ df ≠ .NONE) := by
  simp only [List.mem_cons, List.mem_singleton, List.not_mem_nil, or_false]
  tauto

theorem icetImageUnpackageFromReceive_eq (buffer : IceTImageData) :
    icetImageUnpackageFromReceive buffer
      = if (baseMagicNum buffer.magic_num ≠ ICET_IMAGE_MAGIC_NUM
            ∧ baseMagicNum buffer.magic_num ≠ ICET_IMAGE_POINTERS_MAGIC_NUM)
          ∨ (buffer.color_format ≠ .RGBA_UBYTE ∧ buffer.color_format ≠ .RGBA_FLOAT
            ∧ buffer.color_format ≠ .RGB_FLOAT ∧ buffer.color_format ≠ .NONE)
          ∨ (buffer.depth_format ≠ .FLOAT ∧ buffer.depth_format ≠ .NONE)
          ∨ (buffer.magic_num = ICET_IMAGE_MAGIC_NUM
            ∧ icetImageBufferSizeType buffer.color_format buffer.depth_format buffer.width
                buffer.height ≠ buffer.actual_buffer_size)
          ∨ (buffer.magic_num = (ICET_IMAGE_MAGIC_NUM ||| ICET_IMAGE_FLAG_LAYERED)
            ∧ buffer.actual_buffer_size
              ≠ icetLayeredImageBufferSizeType buffer.color_format buffer.depth_format
                  buffer.width buffer.height buffer.num_layers)
          ∨ ((buffer.magic_num = ICET_IMAGE_POINTERS_MAGIC_NUM
              ∨ buffer.magic_num = (ICET_IMAGE_POINTERS_MAGIC_NUM ||| ICET_IMAGE_FLAG_LAYERED))
            ∧ buffer.actual_buffer_size ≠ -1)
        then (none, [.raiseError .INVALID_VALUE])
        else (some { buffer with max_num_pixels := buffer.width * buffer.height }, []) := by
  have hne1 : ICET_IMAGE_MAGIC_NUM ≠ (ICET_IMAGE_MAGIC_NUM ||| ICET_IMAGE_FLAG_LAYERED) := by
    decide
  have hne2 : ICET_IMAGE_MAGIC_NUM ≠ ICET_IMAGE_POINTERS_MAGIC_NUM := by decide
  have hne3 : ICET_IMAGE_MAGIC_NUM
      ≠ (ICET_IMAGE_POINTERS_MAGIC_NUM ||| ICET_IMAGE_FLAG_LAYERED) := by decide
  have hne4 : (ICET_IMAGE_MAGIC_NUM ||| ICET_IMAGE_FLAG_LAYERED)
      ≠ ICET_IMAGE_POINTERS_MAGIC_NUM := by decide
  have hne5 : (ICET_IMAGE_MAGIC_NUM ||| ICET_IMAGE_FLAG_LAYERED)
      ≠ (ICET_IMAGE_POINTERS_MAGIC_NUM ||| ICET_IMAGE_FLAG_LAYERED) := by decide
  unfold icetImageUnpackageFromReceive
  simp only []
  by_cases h1 : baseMagicNum buffer.magic_num ≠ ICET_IMAGE_MAGIC_NUM
      ∧ baseMagicNum buffer.magic_num ≠ ICET_IMAGE_POINTERS_MAGIC_NUM
  · rw [if_pos h1, if_pos (Or.inl h1)]
  rw [if_neg h1]
  by_cases h2 : buffer.color_format ≠ .RGBA_UBYTE ∧ buffer.color_format ≠ .RGBA_FLOAT
      ∧ buffer.color_format ≠ .RGB_FLOAT ∧ buffer.color_format ≠ .NONE
  · rw [if_pos h2, if_pos (Or.inr (Or.inl h2))]
  rw [if_neg h2]
  by_cases h3 : buffer.depth_format ≠ .FLOAT ∧ buffer.depth_format ≠ .NONE
  · rw [if_pos h3, if_pos (Or.inr (Or.inr (Or.inl h3)))]
  rw [if_neg h3]
  by_cases m1 : buffer.magic_num = ICET_IMAGE_MAGIC_NUM
  · rw [if_pos m1]
    by_cases s1 : icetImageBufferSizeType buffer.color_format buffer.depth_format buffer.width
        buffer.height ≠ buffer.actual_buffer_size
    · rw [if_pos s1, if_pos (Or.inr (Or.inr (Or.inr (Or.inl ⟨m1, s1⟩))))]
    · rw [if_neg s1, if_neg]
      rintro (h | h | h | ⟨-, h⟩ | ⟨hm, -⟩ | ⟨hm | hm, -⟩)
      · exact h1 h
      · exact h2 h
      · exact h3 h
      · exact s1 h
      · exact hne1 (m1.symm.trans hm)
      · exact hne2 (m1.symm.trans hm)
      · exact hne3 (m1.symm.trans hm)
  rw [if_neg m1]
  by_cases m2 : buffer.magic_num = (ICET_IMAGE_MAGIC_NUM ||| ICET_IMAGE_FLAG_LAYERED)
  · rw [if_pos m2]
    by_cases s2 : buffer.actual_buffer_size
        ≠ icetLayeredImageBufferSizeType buffer.color_format buffer.depth_format
            buffer.width buffer.height buffer.num_layers
    · rw [if_pos s2, if_pos (Or.inr (Or.inr (Or.inr (Or.inr (Or.inl ⟨m2, s2⟩)))))]
    · rw [if_neg s2, if_neg]
      rintro (h | h | h | ⟨hm, -⟩ | ⟨-, h⟩ | ⟨hm | hm, -⟩)
      · exact h1 h
      · exact h2 h
      · exact h3 h
      · exact m1 hm
      · exact s2 h
      · exact hne4 (m2.symm.trans hm)
      · exact hne5 (m2.symm.trans hm)
  rw [if_neg m2]
  by_cases m3 : buffer.magic_num = ICET_IMAGE_POINTERS_MAGIC_NUM
      ∨ buffer.magic_num = (ICET_IMAGE_POINTERS_MAGIC_NUM ||| ICET_IMAGE_FLAG_LAYERED)
  · rw [if_pos m3]
    by_cases s3 : buffer.actual_buffer_size ≠ -1
    · rw [if_pos s3,
        if_pos (Or.inr (Or.inr (Or.inr (Or.inr (Or.inr ⟨m3, s3⟩)))))]
    · rw [if_neg s3, if_neg]
      rintro (h | h | h | ⟨hm, -⟩ | ⟨hm, -⟩ | ⟨-, h⟩)
      · exact h1 h
      · exact h2 h
      · exact h3 h
      · exact m1 hm
      · exact m2 hm
      · exact s3 h
  · rw [if_neg m3, if_neg]
    rintro (h | h | h | ⟨hm, -⟩ | ⟨hm, -⟩ | ⟨hm, -⟩)
    · exact h1 h
    · exact h2 h
    · exact h3 h
    · exact m1 hm
    · exact m2 hm
    · exact m3 hm

theorem unpackage_condition_iff (buffer : IceTImageData) (hmagic : buffer.magic_num < 2 ^ 32) :
    ((baseMagicNum buffer.magic_num ≠ ICET_IMAGE_MAGIC_NUM
          ∧ baseMagicNum buffer.magic_num ≠ ICET_IMAGE_POINTERS_MAGIC_NUM)
        ∨ buffer.color_format ∉ [ColorFormat.RGBA_UBYTE, .RGBA_FLOAT, .RGB_FLOAT, .NONE]
        ∨ buffer.depth_format ∉ [DepthFormat.FLOAT, .NONE]
        ∨ (baseMagicNum buffer.magic_num = ICET_IMAGE_MAGIC_NUM
            ∧ buffer.actual_buffer_size
              ≠ (if icetImageIsLayered buffer then
                  icetLayeredImageBufferSizeType buffer.color_format buffer.depth_format
                    buffer.width buffer.height buffer.num_layers
                else
                  icetImageBufferSizeType buffer.color_format buffer.depth_format
                    buffer.width buffer.height))
        ∨ (baseMagicNum buffer.magic_num = ICET_IMAGE_POINTERS_MAGIC_NUM
            ∧ buffer.actual_buffer_size ≠ -1))
    ↔ ((baseMagicNum buffer.magic_num ≠ ICET_IMAGE_MAGIC_NUM
            ∧ baseMagicNum buffer.magic_num ≠ ICET_IMAGE_POINTERS_MAGIC_NUM)
          ∨ (buffer.color_format ≠ .RGBA_UBYTE ∧ buffer.color_format ≠ .RGBA_FLOAT
            ∧ buffer.color_format ≠ .RGB_FLOAT ∧ buffer.color_format ≠ .NONE)
          ∨ (buffer.depth_format ≠ .FLOAT ∧ buffer.depth_format ≠ .NONE)
          ∨ (buffer.magic_num = ICET_IMAGE_MAGIC_NUM
            ∧ icetImageBufferSizeType buffer.color_format buffer.depth_format buffer.width
                buffer.height ≠ buffer.actual_buffer_size)
          ∨ (buffer.magic_num = (ICET_IMAGE_MAGIC_NUM ||| ICET_IMAGE_FLAG_LAYERED)
            ∧ buffer.actual_buffer_size
              ≠ icetLayeredImageBufferSizeType buffer.color_format buffer.depth_format
                  buffer.width buffer.height buffer.num_layers)
          ∨ ((buffer.magic_num = ICET_IMAGE_POINTERS_MAGIC_NUM
              ∨ buffer.magic_num = (ICET_IMAGE_POINTERS_MAGIC_NUM ||| ICET_IMAGE_FLAG_LAYERED))
            ∧ buffer.actual_buffer_size ≠ -1)) := by
  have hM := baseMagicNum_eq_iff buffer.magic_num ICET_IMAGE_MAGIC_NUM hmagic (by decide)
  have hP := baseMagicNum_eq_iff buffer.magic_num ICET_IMAGE_POINTERS_MAGIC_NUM hmagic
    (by decide)
  have hL := isLayered_iff buffer.magic_num
  have hcv := colorFormat_valid_iff buffer.color_format
  have hdv := depthFormat_valid_iff buffer.depth_format
  have c1 : (ICET_IMAGE_MAGIC_NUM ||| ICET_IMAGE_FLAG_LAYERED) = ICET_IMAGE_MAGIC_NUM + 1 := by
    decide
  have c2 : (ICET_IMAGE_POINTERS_MAGIC_NUM ||| ICET_IMAGE_FLAG_LAYERED)
      = ICET_IMAGE_POINTERS_MAGIC_NUM + 1 := by decide
  have c3 : ICET_IMAGE_MAGIC_NUM = 5066752 := rfl
  have c4 : ICET_IMAGE_POINTERS_MAGIC_NUM = 5067008 := rfl
  unfold icetImageIsLayered
  rw [hcv, hdv, not_not, not_not, c1, c2]
  generalize icetImageBufferSizeType buffer.color_format buffer.depth_format buffer.width
      buffer.height = s1
  generalize icetLayeredImageBufferSizeType buffer.color_format buffer.depth_format
      buffer.width buffer.height buffer.num_layers = s2
  generalize buffer.actual_buffer_size = sz
  generalize hm : buffer.magic_num = m at *
  generalize hb : baseMagicNum m = b at *
  rw [c3] at hM ⊢
  rw [c4] at hP ⊢
  by_cases hl : (m &&& ICET_IMAGE_FLAG_LAYERED != 0) = true
  · have hodd := hL.mp hl
    rw [if_pos hl]
    constructor
    · rintro (h | h | h | h | h)
      · exact Or.inl h
      · exact Or.inr (Or.inl h)
      · exact Or.inr (Or.inr (Or.inl h))
      · refine Or.inr (Or.inr (Or.inr (Or.inr (Or.inl ⟨?_, h.2⟩))))
        omega
      · refine Or.inr (Or.inr (Or.inr (Or.inr (Or.inr ⟨?_, h.2⟩))))
        omega
    · rintro (h | h | h | h | h | h)
      · exact Or.inl h
      · exact Or.inr (Or.inl h)
      · exact Or.inr (Or.inr (Or.inl h))
      · omega
      · exact Or.inr (Or.inr (Or.inr (Or.inl ⟨by omega, h.2⟩)))
      · exact Or.inr (Or.inr (Or.inr (Or.inr ⟨by omega, h.2⟩)))
  · have heven : m % 2 ≠ 1 := fun h => hl (hL.mpr h)
    rw [if_neg hl]
    constructor
    · rintro (h | h | h | h | h)
      · exact Or.inl h
      · exact Or.inr (Or.inl h)
      · exact Or.inr (Or.inr (Or.inl h))
      · refine Or.inr (Or.inr (Or.inr (Or.inl ⟨?_, fun e => h.2 e.symm⟩)))
        omega
      · refine Or.inr (Or.inr (Or.inr (Or.inr (Or.inr ⟨?_, h.2⟩))))
        omega
    · rintro (h | h | h | h | h | h)
      · exact Or.inl h
      · exact Or.inr (Or.inl h)
      · exact Or.inr (Or.inr (Or.inl h))
      · exact Or.inr (Or.inr (Or.inr (Or.inl ⟨by omega, fun e => h.2 e.symm⟩)))
      · omega
      · exact Or.inr (Or.inr (Or.inr (Or.inr ⟨by omega, h.2⟩)))

/-- Claim C19, as stated, is refuted.  The 4x2 image `scenarioA_image` holds at most 8
pixels; `icetImageSetDimensions` accepts the dimensions 65536 x 65536, whose product in
the 32-bit `IceTSizeType` is 0: it raises nothing and stores width 65536, height 65536
and `actual_buffer_size` 28. -/
theorem icetImageSetDimensions_accepts_wrapped :
    scenarioA_image.max_num_pixels = 8
    ∧ (65536 : Int) * 65536 > scenarioA_image.max_num_pixels
    ∧ (icetImageSetDimensions (some scenarioA_image) 65536 65536).1.map
        (fun r => (r.width, r.height, r.max_num_pixels, r.actual_buffer_size))
      = some (65536, 65536, 8, 28)
    ∧ (icetImageSetDimensions (some scenarioA_image) 65536 65536).2 = [] := by
  decide

/-- Claim C19, amended.  `icetImageSetDimensions(image, w, h)` on a non-null dense image
with `w, h ≥ 0` and `w*h < 2^31`: if `w*h > max_num_pixels` it raises `INVALID_VALUE` and
leaves the image as it is; otherwise it sets `width = w` and `height = h`, leaves magic
number, formats, `max_num_pixels` and the layer count unchanged, and sets
`actual_buffer_size` to the value of `icetImageBufferSizeType` for a flat buffer image,
which is `7*4 + w*h*(color size + depth size)` when that is below `2^31`, and to the
value of `icetLayeredImageBufferSizeType` with the stored `num_layers` for a layered
buffer image, which is `7*4 + 4 + w*h*num_layers*(color size + depth size)` when that is
below `2^31`; for every other magic number, in particular for a pointer-backed image,
`actual_buffer_size` keeps its value (-1 stays -1).  The arrays of a pointer-backed
image stay as they are, and so do the arrays of a buffer image when the number of pixels
stays the same.  With formats of the data model no diagnostic is raised. -/
theorem icetImageSetDimensions_spec (image : IceTImageData) (w h : Int)
    (hw : 0 ≤ w) (hh : 0 ≤ h) (hfit : w * h < 2 ^ 31) :
    (w * h > image.max_num_pixels →
      icetImageSetDimensions (some image) w h = (some image, [.raiseError .INVALID_VALUE]))
    ∧ (w * h ≤ image.max_num_pixels →
      ∃ r, (icetImageSetDimensions (some image) w h).1 = some r
        ∧ r.width = w ∧ r.height = h
        ∧ r.magic_num = image.magic_num ∧ r.color_format = image.color_format
        ∧ r.depth_format = image.depth_format ∧ r.max_num_pixels = image.max_num_pixels
        ∧ r.num_layers = image.num_layers
        ∧ (image.magic_num = ICET_IMAGE_MAGIC_NUM →
            r.actual_buffer_size
              = icetImageBufferSizeType image.color_format image.depth_format w h
            ∧ (7 * 4 + w * h * (colorPixelSize image.color_format
                  + depthPixelSize image.depth_format) < 2 ^ 31 →
                r.actual_buffer_size
                  = 7 * 4 + w * h * (colorPixelSize image.color_format
                      + depthPixelSize image.depth_format)))
        ∧ (image.magic_num = (ICET_IMAGE_MAGIC_NUM ||| ICET_IMAGE_FLAG_LAYERED) →
            r.actual_buffer_size
              = icetLayeredImageBufferSizeType image.color_format image.depth_format w h
                  image.num_layers
            ∧ (7 * 4 + 4 + w * h * image.num_layers * (colorPixelSize image.color_format
                  + depthPixelSize image.depth_format) < 2 ^ 31 →
                r.actual_buffer_size
                  = 7 * 4 + 4 + w * h * image.num_layers
                      * (colorPixelSize image.color_format
                        + depthPixelSize image.depth_format)))
        ∧ (image.magic_num ≠ ICET_IMAGE_MAGIC_NUM →
            image.magic_num ≠ (ICET_IMAGE_MAGIC_NUM ||| ICET_IMAGE_FLAG_LAYERED) →
            r.actual_buffer_size = image.actual_buffer_size
            ∧ r.color = image.color ∧ r.depth = image.depth)
        ∧ (w * h = image.width * image.height →
            r.color = image.color ∧ r.depth = image.depth)
        ∧ (image.color_format ∈ [ColorFormat.RGBA_UBYTE, .RGBA_FLOAT, .RGB_FLOAT, .NONE] →
            image.depth_format ∈ [DepthFormat.FLOAT, .NONE] →
            (icetImageSetDimensions (some image) w h).2 = [])) := by
  have hn : 0 ≤ w * h := Int.mul_nonneg hw hh
  have hwrap : wrapSizeType (w * h) = w * h :=
    wrapSizeType_of_fits _ (by norm_num; omega) hfit
  have hfs := fragmentSize_nonneg image.color_format image.depth_format
  refine ⟨fun hgt => icetImageSetDimensions_rejects image w h (by rw [hwrap]; exact hgt),
    fun hle => ?_⟩
  obtain ⟨r, ev, hr, h1, h2, h3, h4, h5, h6, h7, -, h9, h10, h11, h12⟩ :=
    icetImageSetDimensions_accepts image w h (by rw [hwrap]; exact hle)
  refine ⟨r, by rw [hr], h1, h2, h3, h4, h5, h6, h7, ?_, ?_, ?_, ?_, ?_⟩
  · intro m1
    rw [if_pos m1] at h11
    refine ⟨h11, fun hsz => ?_⟩
    rw [h11, icetImageBufferSizeType_eq_wrap]
    simp only [ICET_IMAGE_DATA_START_INDEX, SIZEOF_WORD]
    have := Int.mul_nonneg hn hfs
    exact wrapSizeType_of_fits _ (by norm_num; omega) (by norm_num at hsz ⊢; omega)
  · intro m2
    have m1 : ¬ image.magic_num = ICET_IMAGE_MAGIC_NUM := by rw [m2]; decide
    rw [if_neg m1, if_pos m2] at h11
    refine ⟨h11, fun hsz => ?_⟩
    rw [h11, icetLayeredImageBufferSizeType_eq_wrap]
    simp only [ICET_IMAGE_DATA_START_INDEX, SIZEOF_WORD, SIZEOF_LAYERED_IMAGE_HEADER,
      SIZEOF_LAYER_COUNT]
    have := Int.mul_nonneg (Int.mul_nonneg hn (Int.ofNat_nonneg image.num_layers)) hfs
    exact wrapSizeType_of_fits _ (by norm_num; omega) (by norm_num at hsz ⊢; omega)
  · intro m1 m2
    rw [if_neg m1, if_neg m2] at h11
    have hs := icetImageHeaderWritten_same image { image with width := w, height := h }
      (Or.inl ⟨m1, m2⟩)
    rw [hs] at h9 h10
    exact ⟨h11, h9, h10⟩
  · intro hsame
    have hs := icetImageHeaderWritten_same image { image with width := w, height := h }
      (Or.inr ⟨rfl, rfl, (imageColorBytes_resized image w h hsame).symm⟩)
    rw [hs] at h9 h10
    exact ⟨h9, h10⟩
  · intro hvc hvd
    rw [hr]
    simp only [h12, fragmentSizeDiagnostics_valid _ _ hvc hvd, ite_self]

/-- A 4x2 image with capacity 8: resizing to 3x3 is refused; resizing to 2x3 gives 76
bytes. -/
theorem icetImageSetDimensions_spec_witness :
    ((0 : Int) ≤ 3 ∧ (3 : Int) * 3 < 2 ^ 31 ∧ (0 : Int) ≤ 2 ∧ (2 : Int) * 3 < 2 ^ 31)
    ∧ icetImageSetDimensions (some scenarioA_image) 3 3
      = (some scenarioA_image, [.raiseError .INVALID_VALUE])
    ∧ (∃ r, (icetImageSetDimensions (some scenarioA_image) 2 3).1 = some r
        ∧ r.width = 2 ∧ r.height = 3 ∧ r.actual_buffer_size = 76)
    ∧ (icetImageSetDimensions (some scenarioA_image) 2 3).2 = [] := by
  obtain ⟨r, hr, h1, h2, -, -, -, -, -, h3, -, -, -, h4⟩ :=
    (icetImageSetDimensions_spec scenarioA_image 2 3 (by decide) (by decide) (by decide)).2
      (by decide)
  exact ⟨⟨by decide, by decide, by decide, by decide⟩,
    (icetImageSetDimensions_spec scenarioA_image 3 3 (by decide) (by decide) (by decide)).1
      (by decide),
    ⟨r, hr, h1, h2, (h3 rfl).2 (by decide)⟩, h4 (by decide) (by decide)⟩

/-! ### Cleared sparse images -/

theorem toRunLengthType_eq (x : Int) (h0 : 0 ≤ x) (h1 : x < 2 ^ 32) :
    toRunLengthType x = x.toNat := by
  unfold toRunLengthType
  rw [Int.emod_eq_of_lt h0 h1]

theorem icetClearSparseImage_isCleared (image : IceTSparseImageData)
    (h0 : 0 ≤ image.width * image.height) (h1 : image.width * image.height < 2 ^ 32) :
    ∃ r, icetClearSparseImage (some image) = some r ∧ r.IsCleared
      ∧ r.magic_num = image.magic_num ∧ r.color_format = image.color_format
      ∧ r.depth_format = image.depth_format ∧ r.width = image.width
      ∧ r.height = image.height ∧ r.max_num_pixels = image.max_num_pixels
      ∧ r.address = image.address := by
  unfold icetClearSparseImage
  simp only []
  by_cases hl : icetSparseImageIsLayered image = true
  · rw [if_pos hl]
    refine ⟨_, rfl, ?_, rfl, rfl, rfl, rfl, rfl, rfl, rfl⟩
    have hl' : icetSparseImageIsLayered (icetSparseImageSetActualSize image
        [.runLengthLayered
          (toRunLengthType (icetSparseImageGetNumPixels (some image))) 0 0]) = true := hl
    unfold IceTSparseImageData.IsCleared
    rw [hl']
    simp only [icetSparseImageSetActualSize, icetSparseImageGetNumPixels, if_true,
      toRunLengthType_eq _ h0 h1, payloadBytes, cellBytes, List.map_cons, List.map_nil,
      List.sum_cons, List.sum_nil, RUN_LENGTH_SIZE_LAYERED, SIZEOF_WORD,
      ICET_IMAGE_DATA_START_INDEX, true_and]
    norm_num
  · rw [if_neg hl]
    refine ⟨_, rfl, ?_, rfl, rfl, rfl, rfl, rfl, rfl, rfl⟩
    have hl' : ¬ icetSparseImageIsLayered (icetSparseImageSetActualSize image
        [.runLength (toRunLengthType (icetSparseImageGetNumPixels (some image))) 0]) = true := hl
    unfold IceTSparseImageData.IsCleared
    rw [if_neg hl', if_neg hl']
    simp only [icetSparseImageSetActualSize, icetSparseImageGetNumPixels,
      toRunLengthType_eq _ h0 h1, payloadBytes, cellBytes, List.map_cons, List.map_nil,
      List.sum_cons, List.sum_nil, RUN_LENGTH_SIZE, SIZEOF_WORD,
      ICET_IMAGE_DATA_START_INDEX, true_and]
    norm_num

/-- Claim C20. After `icetClearSparseImage` on a non-null sparse image, and likewise
after `icetSparseImageAssignBuffer`, `icetSparseLayeredImageAssignBuffer` and a
successful `icetSparseImageSetDimensions`, the image is cleared: its payload is the
single run `(inactive = width*height, active = 0)`, with `active_fragments = 0` for a
layered image, and `actual_buffer_size` is `7*4 + 8` for a flat and `7*4 + 12` for a
layered image.  For a cleared image the runs sum to `width*height` pixels and to
`actual_buffer_size` minus the header size, and no run but the last has `active = 0`.
The pixel counts are those of a 32-bit run length: `0 ≤ width*height < 2^32`. -/
theorem cleared_sparse_image_single_run (st : IceTState) (image : IceTSparseImageData)
    (address : Nat) (w h : Int)
    (himg0 : 0 ≤ image.width * image.height) (himg32 : image.width * image.height < 2 ^ 32)
    (hwh0 : 0 ≤ w * h) (hwh32 : w * h < 2 ^ 32) :
    (∃ r, icetClearSparseImage (some image) = some r ∧ r.IsCleared
        ∧ r.width = image.width ∧ r.height = image.height ∧ r.magic_num = image.magic_num)
    ∧ (∃ r ev, icetSparseImageAssignBuffer st (some address) w h = (some r, ev) ∧ r.IsCleared
        ∧ r.width = w ∧ r.height = h ∧ icetSparseImageIsLayered r = false)
    ∧ (∃ r ev, icetSparseLayeredImageAssignBuffer st (some address) w h = (some r, ev)
        ∧ r.IsCleared ∧ r.width = w ∧ r.height = h ∧ icetSparseImageIsLayered r = true)
    ∧ (w * h ≤ image.max_num_pixels →
        ∃ r, icetSparseImageSetDimensions (some image) w h = (some r, []) ∧ r.IsCleared
          ∧ r.width = w ∧ r.height = h ∧ r.magic_num = image.magic_num)
    ∧ ∀ r : IceTSparseImageData, r.IsCleared → 0 ≤ r.width * r.height →
        (runsPixels (payloadRuns r.payload) : Int) = r.width * r.height
        ∧ payloadBytes r.color_format r.depth_format r.payload = r.actual_buffer_size - 7 * 4
        ∧ runsAlternate (payloadRuns r.payload)
        ∧ ∀ run ∈ (payloadRuns r.payload).dropLast, run.2 ≠ 0 := by
  refine ⟨?_, ?_, ?_, ?_, ?_⟩
  · obtain ⟨r, hr, hc, hm, -, -, hw, hh, -, -⟩ := icetClearSparseImage_isCleared image himg0 himg32
    exact ⟨r, hr, hc, hw, hh, hm⟩
  · unfold icetSparseImageAssignBuffer
    simp only []
    obtain ⟨r, hr, hc, hm, -, -, hw, hh, -, -⟩ := icetClearSparseImage_isCleared
      { magic_num := ICET_SPARSE_IMAGE_MAGIC_NUM
        color_format :=
          if st.color_format ≠ .RGBA_UBYTE ∧ st.color_format ≠ .RGBA_FLOAT
            ∧ st.color_format ≠ .RGB_FLOAT ∧ st.color_format ≠ .NONE then .NONE
          else st.color_format
        depth_format :=
          if st.depth_format ≠ .FLOAT ∧ st.depth_format ≠ .NONE then .NONE
          else st.depth_format
        width := w
        height := h
        max_num_pixels := w * h
        actual_buffer_size := 0
        payload := []
        address := address } hwh0 hwh32
    refine ⟨r, _, by rw [hr], hc, hw, hh, ?_⟩
    unfold icetSparseImageIsLayered
    rw [hm]
    simp only []
    decide
  · unfold icetSparseLayeredImageAssignBuffer
    simp only []
    obtain ⟨r, hr, hc, hm, -, -, hw, hh, -, -⟩ := icetClearSparseImage_isCleared
      { magic_num := ICET_SPARSE_IMAGE_MAGIC_NUM ||| ICET_IMAGE_FLAG_LAYERED
        color_format :=
          if st.color_format ≠ .RGBA_UBYTE ∧ st.color_format ≠ .RGBA_FLOAT
            ∧ st.color_format ≠ .RGB_FLOAT ∧ st.color_format ≠ .NONE then .NONE
          else st.color_format
        depth_format :=
          match st.depth_format with
          | .FLOAT => .FLOAT
          | .NONE => .NONE
          | .invalid _ => .NONE
        width := w
        height := h
        max_num_pixels := w * h
        actual_buffer_size := 0
        payload := []
        address := address } hwh0 hwh32
    refine ⟨r, _, by rw [hr], hc, hw, hh, ?_⟩
    unfold icetSparseImageIsLayered
    rw [hm]
    simp only []
    decide
  · intro hle
    unfold icetSparseImageSetDimensions
    simp only []
    rw [if_neg (by omega)]
    obtain ⟨r, hr, hc, hm, -, -, hw, hh, -, -⟩ := icetClearSparseImage_isCleared
      { image with width := w, height := h } hwh0 hwh32
    exact ⟨r, by rw [hr], hc, hw, hh, hm⟩
  · intro r hc h0
    obtain ⟨hp, hs⟩ := hc
    by_cases hl : icetSparseImageIsLayered r = true
    · rw [if_pos hl] at hp hs
      rw [hp, hs]
      refine ⟨?_, ?_, ?_, ?_⟩
      · simp only [payloadRuns, runsPixels, List.map_cons, List.map_nil, List.sum_cons,
          List.sum_nil, Nat.add_zero, Int.toNat_of_nonneg h0]
      · simp only [payloadBytes, cellBytes, List.map_cons, List.map_nil, List.sum_cons,
          List.sum_nil, RUN_LENGTH_SIZE_LAYERED, SIZEOF_WORD]
        norm_num
      · simp [payloadRuns, runsAlternate]
      · simp [payloadRuns]
    · rw [if_neg hl] at hp hs
      rw [hp, hs]
      refine ⟨?_, ?_, ?_, ?_⟩
      · simp only [payloadRuns, runsPixels, List.map_cons, List.map_nil, List.sum_cons,
          List.sum_nil, Nat.add_zero, Int.toNat_of_nonneg h0]
      · simp only [payloadBytes, cellBytes, List.map_cons, List.map_nil, List.sum_cons,
          List.sum_nil, RUN_LENGTH_SIZE, SIZEOF_WORD]
        norm_num
      · simp [payloadRuns, runsAlternate]
      · simp [payloadRuns]

/-- A 3x2 image: clearing, both constructors and a resize to 2x2 leave the single run
of 6 (or 4) inactive pixels, with 36 bytes (flat) or 40 bytes (layered). -/
theorem cleared_sparse_image_single_run_witness :
    ((∃ r, icetClearSparseImage (some (flatSparseImage 3 2 [])) = some r ∧ r.IsCleared
        ∧ r.width = (flatSparseImage 3 2 []).width ∧ r.height = (flatSparseImage 3 2 []).height
        ∧ r.magic_num = (flatSparseImage 3 2 []).magic_num)
    ∧ (∃ r ev, icetSparseImageAssignBuffer zBufferState (some 5) 2 2 = (some r, ev)
        ∧ r.IsCleared ∧ r.width = 2 ∧ r.height = 2 ∧ icetSparseImageIsLayered r = false)
    ∧ (∃ r ev, icetSparseLayeredImageAssignBuffer zBufferState (some 5) 2 2 = (some r, ev)
        ∧ r.IsCleared ∧ r.width = 2 ∧ r.height = 2 ∧ icetSparseImageIsLayered r = true)
    ∧ (2 * 2 ≤ (flatSparseImage 3 2 []).max_num_pixels →
        ∃ r, icetSparseImageSetDimensions (some (flatSparseImage 3 2 [])) 2 2 = (some r, [])
          ∧ r.IsCleared ∧ r.width = 2 ∧ r.height = 2
          ∧ r.magic_num = (flatSparseImage 3 2 []).magic_num)
    ∧ ∀ r : IceTSparseImageData, r.IsCleared → 0 ≤ r.width * r.height →
        (runsPixels (payloadRuns r.payload) : Int) = r.width * r.height
        ∧ payloadBytes r.color_format r.depth_format r.payload = r.actual_buffer_size - 7 * 4
        ∧ runsAlternate (payloadRuns r.payload)
        ∧ ∀ run ∈ (payloadRuns r.payload).dropLast, run.2 ≠ 0)
    ∧ (icetClearSparseImage (some (flatSparseImage 3 2 []))).map
        (fun r => (r.payload, r.actual_buffer_size)) = some ([.runLength 6 0], 36)
    ∧ (icetSparseLayeredImageAssignBuffer zBufferState (some 5) 3 2).1.map
        (fun r => (r.payload, r.actual_buffer_size)) = some ([.runLengthLayered 6 0 0], 40) :=
  ⟨cleared_sparse_image_single_run zBufferState (flatSparseImage 3 2 []) 5 2 2 (by decide)
      (by decide) (by decide) (by decide), by decide, by decide⟩

/-! ### Clearing around a region -/

theorem foldlM_flatMap_option {α β σ : Type} (l : List α) (f : α → List β)
    (g : σ → β → Option σ) (s : σ) :
    (l.flatMap f).foldlM g s = l.foldlM (fun s a => (f a).foldlM g s) s := by
  induction l generalizing s with
  | nil => rfl
  | cons a l ih =>
    rw [List.flatMap_cons, List.foldlM_append, List.foldlM_cons]
    cases h : (f a).foldlM g s with
    | none => rfl
    | some s' => exact ih s'

theorem foldlM_map_option {α β σ : Type} (l : List α) (f : α → β)
    (g : σ → β → Option σ) (s : σ) :
    (l.map f).foldlM g s = l.foldlM (fun s a => g s (f a)) s := by
  induction l generalizing s with
  | nil => rfl
  | cons a l ih =>
    rw [List.map_cons, List.foldlM_cons, List.foldlM_cons]
    cases h : g s (f a) with
    | none => rfl
    | some s' => exact ih s'

theorem clearColumns_eq (width : Int) (num_layers : Nat) (values : List Nat) (y lo hi : Int)
    (buffer : List Nat) :
    forRange lo hi (fun x buffer =>
        forRange 0 num_layers (fun layer buffer =>
          storeAt values (((y * width + x) * num_layers + layer) * values.length) buffer)
          buffer) buffer
      = (clearedColumns width num_layers y lo hi).foldlM
          (fun buffer idx => storeAt values (idx * values.length) buffer) buffer := by
  unfold clearedColumns forRange
  rw [foldlM_flatMap_option]
  congr 1
  funext b k
  rw [foldlM_map_option]
  simp only [Int.sub_zero, Int.toNat_ofNat, Int.zero_add]

theorem clearAroundRegionLoops_eq (width height : Int) (num_layers : Nat)
    (region0 region1 region2 region3 : Int) (values : List Nat) (buffer : List Nat) :
    clearAroundRegionLoops width height num_layers region0 region1 region2 region3 values buffer
      = (clearedFragments width height num_layers region0 region1 region2 region3).foldlM
          (fun buffer idx => storeAt values (idx * values.length) buffer) buffer := by
  unfold clearAroundRegionLoops clearedFragments
  simp only [clearColumns_eq]
  rw [List.foldlM_append, List.foldlM_append]
  simp only [forRange, foldlM_flatMap_option]
  cases (List.range (region1 - 0).toNat).foldlM
      (fun s (k : Nat) =>
        (clearedColumns width num_layers (0 + (k : Int)) 0 width).foldlM
          (fun buffer idx => storeAt values (idx * values.length) buffer) s) buffer with
  | none => rfl
  | some b =>
    by_cases hc : region0 > 0 ∨ region0 + region2 < width
    · simp only [hc, if_true, foldlM_flatMap_option, List.foldlM_append]
      rfl
    · simp only [hc, if_false, List.foldlM_nil]
      rfl

theorem storeAt_nat (values : List Nat) (i : Nat) (buffer : List Nat)
    (h : i * values.length + values.length ≤ buffer.length) :
    storeAt values ((i : Int) * values.length) buffer
      = some (storeElements (i * values.length) values buffer) := by
  unfold storeAt
  have e : ((i : Int) * (values.length : Int)) = ((i * values.length : Nat) : Int) := by
    push_cast; rfl
  rw [e, if_pos ⟨Int.ofNat_nonneg _, by exact_mod_cast h⟩, Int.toNat_ofNat]

theorem loadElements_self' (l : List Nat) : loadElements 0 l.length l = l := by
  unfold loadElements
  apply List.ext_getElem (by simp)
  intro i h1 h2
  simp only [List.getElem_map, List.getElem_range, Nat.zero_add]
  exact (List.getD_eq_getElem _ _ h2)

theorem foldlM_storeAt (values : List Nat) (idxs : List Int) (N : Nat) (buffer : List Nat)
    (hcap : N * values.length ≤ buffer.length)
    (hidx : ∀ idx ∈ idxs, 0 ≤ idx ∧ idx < N) :
    ∃ b, idxs.foldlM (fun buffer idx => storeAt values (idx * values.length) buffer) buffer
        = some b
      ∧ b.length = buffer.length
      ∧ ∀ j : Nat, loadElements (values.length * j) values.length b
          = if (j : Int) ∈ idxs then values
            else loadElements (values.length * j) values.length buffer := by
  induction idxs generalizing buffer with
  | nil => exact ⟨buffer, rfl, rfl, fun j => by simp⟩
  | cons idx rest ih =>
    obtain ⟨h0, hN⟩ := hidx idx (List.mem_cons_self _ _)
    obtain ⟨i, rfl⟩ := Int.eq_ofNat_of_zero_le h0
    have hiN : i < N := by exact_mod_cast hN
    have hle : i * values.length + values.length ≤ buffer.length := by
      have : (i + 1) * values.length ≤ N * values.length := Nat.mul_le_mul_right _ hiN
      rw [Nat.add_mul, Nat.one_mul] at this
      omega
    obtain ⟨b, hb, hlen, hget⟩ := ih (storeElements (i * values.length) values buffer)
      (by rw [storeElements_length]; exact hcap)
      (fun idx h => hidx idx (List.mem_cons_of_mem _ h))
    refine ⟨b, ?_, by rw [hlen, storeElements_length], fun j => ?_⟩
    · rw [List.foldlM_cons, storeAt_nat values i buffer hle]
      exact hb
    · rw [hget j]
      by_cases hj : (j : Int) ∈ rest
      · rw [if_pos hj, if_pos (List.mem_cons_of_mem _ hj)]
      · rw [if_neg hj]
        by_cases hji : j = i
        · subst hji
          rw [if_pos (List.mem_cons_self _ _)]
          have := load_store_same values.length j values buffer (by rw [Nat.mul_comm]; exact hle)
          rw [loadElements_self'] at this
          rw [Nat.mul_comm j]
          exact this
        · have hne : ¬ (j : Int) ∈ (i : Int) :: rest := by
            intro h
            rcases List.mem_cons.mp h with h | h
            · exact hji (by exact_mod_cast h)
            · exact hj h
          rw [if_neg hne]
          have := load_store_other values.length j i values buffer hji
          rw [loadElements_self'] at this
          rw [Nat.mul_comm i]
          exact this

theorem fragmentIndex_inj (w : Int) (L : Nat) (px py px' py' : Int) (l l' : Nat)
    (h1 : 0 ≤ px) (h2 : px < w) (h3 : 0 ≤ px') (h4 : px' < w) (h5 : l < L) (h6 : l' < L)
    (h : (py * w + px) * (L : Int) + (l : Int) = (py' * w + px') * (L : Int) + (l' : Int)) :
    px = px' ∧ py = py' ∧ l = l' := by
  have hL : (L : Int) ≠ 0 := by omega
  have hw : w ≠ 0 := by omega
  have e1 : ∀ (a : Int) (k : Nat), k < L → ((a * (L : Int) + (k : Int)) / (L : Int) = a
      ∧ (a * (L : Int) + (k : Int)) % (L : Int) = k) := by
    intro a k hk
    constructor
    · rw [Int.add_comm, Int.add_mul_ediv_right _ _ hL, Int.ediv_eq_zero_of_lt (by omega) (by omega)]
      simp
    · rw [Int.add_comm, Int.add_mul_emod_self, Int.emod_eq_of_lt (by omega) (by omega)]
  have e2 : ∀ (a x : Int), 0 ≤ x → x < w → ((a * w + x) / w = a ∧ (a * w + x) % w = x) := by
    intro a x hx0 hxw
    constructor
    · rw [Int.add_comm, Int.add_mul_ediv_right _ _ hw, Int.ediv_eq_zero_of_lt hx0 hxw]
      simp
    · rw [Int.add_comm, Int.add_mul_emod_self, Int.emod_eq_of_lt hx0 hxw]
  have ha : py * w + px = py' * w + px' := by
    have := congrArg (fun z => z / (L : Int)) h
    simpa [(e1 _ l h5).1, (e1 _ l' h6).1] using this
  have hl : (l : Int) = l' := by
    have := congrArg (fun z => z % (L : Int)) h
    simpa [(e1 _ l h5).2, (e1 _ l' h6).2] using this
  have hy : py = py' := by
    have := congrArg (fun z => z / w) ha
    simpa [(e2 _ px h1 h2).1, (e2 _ px' h3 h4).1] using this
  have hx : px = px' := by
    have := congrArg (fun z => z % w) ha
    simpa [(e2 _ px h1 h2).2, (e2 _ px' h3 h4).2] using this
  exact ⟨hx, hy, by exact_mod_cast hl⟩

theorem fragmentIndex_bound (w h : Int) (L : Nat) (px py : Int) (l : Nat)
    (h1 : 0 ≤ px) (h2 : px < w) (h3 : 0 ≤ py) (h4 : py < h) (h5 : l < L) :
    0 ≤ (py * w + px) * (L : Int) + (l : Int)
      ∧ (py * w + px) * (L : Int) + (l : Int) < w * h * (L : Int) := by
  have hw : 0 ≤ w := by omega
  have a0 : 0 ≤ py * w := Int.mul_nonneg h3 hw
  have a1 : py * w ≤ (h - 1) * w := Int.mul_le_mul_of_nonneg_right (by omega) hw
  have a2 : (h - 1) * w = w * h - w := by ring
  have b0 : 0 ≤ (py * w + px) * (L : Int) := Int.mul_nonneg (by omega) (by omega)
  have b1 : (py * w + px) * (L : Int) ≤ (w * h - 1) * (L : Int) :=
    Int.mul_le_mul_of_nonneg_right (by omega) (by omega)
  have b2 : (w * h - 1) * (L : Int) = w * h * (L : Int) - (L : Int) := by ring
  constructor
  · omega
  · omega

theorem mem_clearedColumns (width : Int) (num_layers : Nat) (y lo hi idx : Int) :
    idx ∈ clearedColumns width num_layers y lo hi
      ↔ ∃ (x : Int) (layer : Nat), lo ≤ x ∧ x < hi ∧ layer < num_layers
          ∧ idx = (y * width + x) * (num_layers : Int) + (layer : Int) := by
  unfold clearedColumns
  simp only [List.mem_flatMap, List.mem_range, List.mem_map]
  constructor
  · rintro ⟨k, hk, layer, hl, rfl⟩
    exact ⟨lo + k, layer, by omega, by omega, hl, rfl⟩
  · rintro ⟨x, layer, h1, h2, hl, rfl⟩
    refine ⟨(x - lo).toNat, by omega, layer, hl, ?_⟩
    rw [Int.toNat_of_nonneg (by omega)]
    congr 3
    omega

theorem mem_clearedFragments (width height : Int) (num_layers : Nat)
    (region0 region1 region2 region3 idx : Int)
    (h0 : 0 ≤ region0) (h1 : 0 ≤ region1) (h2 : 0 ≤ region2) (h3 : 0 ≤ region3)
    (hw : region0 + region2 ≤ width) (hh : region1 + region3 ≤ height) :
    idx ∈ clearedFragments width height num_layers region0 region1 region2 region3
      ↔ ∃ (x y : Int) (layer : Nat), 0 ≤ x ∧ x < width ∧ 0 ≤ y ∧ y < height
          ∧ layer < num_layers
          ∧ ¬ (region0 ≤ x ∧ x < region0 + region2 ∧ region1 ≤ y ∧ y < region1 + region3)
          ∧ idx = (y * width + x) * (num_layers : Int) + (layer : Int) := by
  unfold clearedFragments
  simp only [List.mem_append, List.mem_flatMap, List.mem_range, mem_clearedColumns]
  constructor
  · rintro ((⟨k, hk, x, layer, hx1, hx2, hl, rfl⟩ | hmid) | ⟨k, hk, x, layer, hx1, hx2, hl, rfl⟩)
    · exact ⟨x, 0 + k, layer, by omega, by omega, by omega, by omega, hl, by omega, rfl⟩
    · split_ifs at hmid with hc
      · simp only [List.mem_flatMap, List.mem_range, List.mem_append, mem_clearedColumns]
          at hmid
        obtain ⟨k, hk, ⟨x, layer, hx1, hx2, hl, rfl⟩ | ⟨x, layer, hx1, hx2, hl, rfl⟩⟩ := hmid
        · exact ⟨x, region1 + k, layer, by omega, by omega, by omega, by omega, hl, by omega,
            rfl⟩
        · exact ⟨x, region1 + k, layer, by omega, by omega, by omega, by omega, hl, by omega,
            rfl⟩
      · simp at hmid
    · exact ⟨x, region1 + region3 + k, layer, by omega, by omega, by omega, by omega, hl,
        by omega, rfl⟩
  · rintro ⟨x, y, layer, hx0, hxw, hy0, hyh, hl, hout, rfl⟩
    by_cases hb : y < region1
    · refine Or.inl (Or.inl ⟨y.toNat, by omega, x, layer, by omega, by omega, hl, ?_⟩)
      rw [Int.toNat_of_nonneg hy0, Int.zero_add]
    by_cases ht : region1 + region3 ≤ y
    · refine Or.inr ⟨(y - (region1 + region3)).toNat, by omega, x, layer, by omega, by omega,
        hl, ?_⟩
      rw [Int.toNat_of_nonneg (by omega)]
      have e : region1 + region3 + (y - (region1 + region3)) = y := by omega
      rw [e]
    · refine Or.inl (Or.inr ?_)
      have hc : region0 > 0 ∨ region0 + region2 < width := by omega
      rw [if_pos hc]
      simp only [List.mem_flatMap, List.mem_range, List.mem_append, mem_clearedColumns]
      refine ⟨(y - region1).toNat, by omega, ?_⟩
      rw [Int.toNat_of_nonneg (by omega)]
      have e : region1 + (y - region1) = y := by omega
      rw [e]
      by_cases hx : x < region0
      · exact Or.inl ⟨x, layer, hx0, hx, hl, rfl⟩
      · exact Or.inr ⟨x, layer, by omega, hxw, hl, rfl⟩

theorem clearAroundRegionLoops_spec (width height : Int) (num_layers : Nat)
    (region0 region1 region2 region3 : Int) (values buffer : List Nat)
    (h0 : 0 ≤ region0) (h1 : 0 ≤ region1) (h2 : 0 ≤ region2) (h3 : 0 ≤ region3)
    (hw : region0 + region2 ≤ width) (hh : region1 + region3 ≤ height)
    (hcap : values.length * (width * height * (num_layers : Int)).toNat ≤ buffer.length) :
    ∃ b, clearAroundRegionLoops width height num_layers region0 region1 region2 region3
          values buffer = some b
      ∧ b.length = buffer.length
      ∧ ∀ (x y : Int) (layer : Nat), 0 ≤ x → x < width → 0 ≤ y → y < height →
          layer < num_layers →
          loadElements
              (values.length * ((y * width + x) * (num_layers : Int) + (layer : Int)).toNat)
              values.length b
            = if region0 ≤ x ∧ x < region0 + region2 ∧ region1 ≤ y ∧ y < region1 + region3 then
                loadElements
                  (values.length
                    * ((y * width + x) * (num_layers : Int) + (layer : Int)).toNat)
                  values.length buffer
              else values := by
  rw [clearAroundRegionLoops_eq]
  have hmem := fun idx => mem_clearedFragments width height num_layers region0 region1 region2
    region3 idx h0 h1 h2 h3 hw hh
  obtain ⟨b, hb, hlen, hget⟩ := foldlM_storeAt values
    (clearedFragments width height num_layers region0 region1 region2 region3)
    (width * height * (num_layers : Int)).toNat buffer (by rw [Nat.mul_comm]; exact hcap)
    (by
      intro idx hidx
      obtain ⟨x, y, layer, hx0, hxw, hy0, hyh, hl, -, rfl⟩ := (hmem idx).mp hidx
      have := fragmentIndex_bound width height num_layers x y layer hx0 hxw hy0 hyh hl
      omega)
  refine ⟨b, hb, hlen, ?_⟩
  intro x y layer hx0 hxw hy0 hyh hl
  have hbound := fragmentIndex_bound width height num_layers x y layer hx0 hxw hy0 hyh hl
  rw [hget, Int.toNat_of_nonneg hbound.1]
  by_cases hin : region0 ≤ x ∧ x < region0 + region2 ∧ region1 ≤ y ∧ y < region1 + region3
  · rw [if_pos hin, if_neg]
    intro hcon
    obtain ⟨x', y', layer', hx0', hxw', -, -, hl', hout, he⟩ := (hmem _).mp hcon
    obtain ⟨ex, ey, -⟩ := fragmentIndex_inj width num_layers x y x' y' layer layer' hx0 hxw
      hx0' hxw' hl hl' he
    subst ex ey
    exact hout hin
  · rw [if_neg hin, if_pos]
    exact (hmem _).mpr ⟨x, y, layer, hx0, hxw, hy0, hyh, hl, hin, rfl⟩

theorem clearColorValues_length (st : IceTState) (cf : ColorFormat) :
    (clearColorValues st cf).length = colorChannels cf := by
  cases cf <;> simp [clearColorValues, colorChannels, loadElements_length]

theorem clearDepthValues_length (df : DepthFormat) :
    (clearDepthValues df).length = depthChannels df := by
  cases df <;> simp [clearDepthValues, depthChannels]

theorem icetImageClearAroundRegion_eq (st : IceTState) (image : IceTImageData)
    (region0 region1 region2 region3 : Int)
    (hmagic : image.magic_num = ICET_IMAGE_MAGIC_NUM
      ∨ image.magic_num = (ICET_IMAGE_MAGIC_NUM ||| ICET_IMAGE_FLAG_LAYERED))
    (hvc : image.color_format ∈ [ColorFormat.RGBA_UBYTE, .RGBA_FLOAT, .RGB_FLOAT, .NONE])
    (hvd : image.depth_format ∈ [DepthFormat.FLOAT, .NONE])
    (h0 : 0 ≤ region0) (h1 : 0 ≤ region1) (h2 : 0 ≤ region2) (h3 : 0 ≤ region3)
    (hw : region0 + region2 ≤ image.width) (hh : region1 + region3 ≤ image.height)
    (num_layers : Nat)
    (hL : num_layers = if icetImageIsLayered image then image.num_layers else 1)
    (hcolor : colorChannels image.color_format
      * (image.width * image.height * (num_layers : Int)).toNat ≤ image.color.length)
    (hdepth : depthChannels image.depth_format
      * (image.width * image.height * (num_layers : Int)).toNat ≤ image.depth.length) :
    ∃ color depth, icetImageClearAroundRegion st image region0 region1 region2 region3
        = some ({ image with color := color, depth := depth }, [])
      ∧ color.length = image.color.length ∧ depth.length = image.depth.length
      ∧ ∀ (x y : Int) (layer : Nat), 0 ≤ x → x < image.width → 0 ≤ y → y < image.height →
          layer < num_layers →
          loadFragment image.color_format image.depth_format color depth
              ((y * image.width + x) * (num_layers : Int) + (layer : Int)).toNat
            = if region0 ≤ x ∧ x < region0 + region2 ∧ region1 ≤ y ∧ y < region1 + region3 then
                loadFragment image.color_format image.depth_format image.color image.depth
                  ((y * image.width + x) * (num_layers : Int) + (layer : Int)).toNat
              else clearedFragment st image.color_format image.depth_format := by
  have hmag : isImageMagic image.magic_num = true := by
    rcases hmagic with h | h <;> rw [h] <;> decide
  have hnp : ¬ image.magic_num = ICET_IMAGE_POINTERS_MAGIC_NUM := by
    rcases hmagic with h | h <;> rw [h] <;> decide
  obtain ⟨c, hc, hclen, hcget⟩ := clearAroundRegionLoops_spec image.width image.height
    num_layers region0 region1 region2 region3 (clearColorValues st image.color_format)
    image.color h0 h1 h2 h3 hw hh (by rw [clearColorValues_length]; exact hcolor)
  obtain ⟨d, hd, hdlen, hdget⟩ := clearAroundRegionLoops_spec image.width image.height
    num_layers region0 region1 region2 region3 (clearDepthValues image.depth_format)
    image.depth h0 h1 h2 h3 hw hh (by rw [clearDepthValues_length]; exact hdepth)
  rw [clearColorValues_length] at hcget
  rw [clearDepthValues_length] at hdget
  refine ⟨if image.color_format = .NONE then image.color else c,
    if image.depth_format = .NONE then image.depth else d, ?_, ?_, ?_, ?_⟩
  · unfold icetImageClearAroundRegion
    simp only [← hL]
    have hcol : ∀ cf, image.color_format = cf → cf ≠ .NONE →
        (clearAroundRegionLoops image.width image.height num_layers region0 region1 region2
          region3 (clearColorValues st cf) image.color) = some c := by
      intro cf e _; rw [← e]; exact hc
    have hdep : (clearAroundRegionLoops image.width image.height num_layers region0 region1
          region2 region3 [FLOAT_ONE] image.depth) = some d ∨ image.depth_format ≠ .FLOAT := by
      by_cases e : image.depth_format = .FLOAT
      · left; rw [e] at hd; exact hd
      · right; exact e
    cases hcf : image.color_format with
    | invalid raw => rw [hcf] at hvc; simp at hvc
    | NONE =>
      cases hdf : image.depth_format with
      | invalid raw => rw [hdf] at hvd; simp at hvd
      | NONE => simp
      | FLOAT =>
        rcases hdep with hdep | hdep
        · simp [icetImageGetDepthf, icetImageGetDepthVoid, icetImageGetDepthConstVoid, hdf,
            hmag, hnp, hdep]
        · exact absurd hdf hdep
    | RGBA_UBYTE =>
      have := hcol _ hcf (by simp)
      cases hdf : image.depth_format with
      | invalid raw => rw [hdf] at hvd; simp at hvd
      | NONE =>
        simp [icetImageGetColorui, icetImageGetColorub, icetImageGetColorVoid,
          icetImageGetColorConstVoid, hcf, hmag, hnp, this]
      | FLOAT =>
        rcases hdep with hdep | hdep
        · simp [icetImageGetColorui, icetImageGetColorub, icetImageGetColorVoid,
            icetImageGetColorConstVoid, icetImageGetDepthf, icetImageGetDepthVoid,
            icetImageGetDepthConstVoid, hcf, hdf, hmag, hnp, this, hdep]
        · exact absurd hdf hdep
    | RGBA_FLOAT =>
      have := hcol _ hcf (by simp)
      cases hdf : image.depth_format with
      | invalid raw => rw [hdf] at hvd; simp at hvd
      | NONE =>
        simp [icetImageGetColorf, icetImageGetColorVoid,
          icetImageGetColorConstVoid, hcf, hmag, hnp, this]
      | FLOAT =>
        rcases hdep with hdep | hdep
        · simp [icetImageGetColorf, icetImageGetColorVoid,
            icetImageGetColorConstVoid, icetImageGetDepthf, icetImageGetDepthVoid,
            icetImageGetDepthConstVoid, hcf, hdf, hmag, hnp, this, hdep]
        · exact absurd hdf hdep
    | RGB_FLOAT =>
      have := hcol _ hcf (by simp)
      cases hdf : image.depth_format with
      | invalid raw => rw [hdf] at hvd; simp at hvd
      | NONE =>
        simp [icetImageGetColorf, icetImageGetColorVoid,
          icetImageGetColorConstVoid, hcf, hmag, hnp, this]
      | FLOAT =>
        rcases hdep with hdep | hdep
        · simp [icetImageGetColorf, icetImageGetColorVoid,
            icetImageGetColorConstVoid, icetImageGetDepthf, icetImageGetDepthVoid,
            icetImageGetDepthConstVoid, hcf, hdf, hmag, hnp, this, hdep]
        · exact absurd hdf hdep
  · split_ifs
    · rfl
    · exact hclen
  · split_ifs
    · rfl
    · exact hdlen
  · intro x y layer hx0 hxw hy0 hyh hl
    have ec := hcget x y layer hx0 hxw hy0 hyh hl
    have ed := hdget x y layer hx0 hxw hy0 hyh hl
    have ec' : loadElements
        (colorChannels image.color_format
          * ((y * image.width + x) * (num_layers : Int) + (layer : Int)).toNat)
        (colorChannels image.color_format)
        (if image.color_format = .NONE then image.color else c)
        = loadElements
          (colorChannels image.color_format
            * ((y * image.width + x) * (num_layers : Int) + (layer : Int)).toNat)
          (colorChannels image.color_format) c := by
      split_ifs with e
      · rw [e]; rfl
      · rfl
    have ed' : loadElements
        (depthChannels image.depth_format
          * ((y * image.width + x) * (num_layers : Int) + (layer : Int)).toNat)
        (depthChannels image.depth_format)
        (if image.depth_format = .NONE then image.depth else d)
        = loadElements
          (depthChannels image.depth_format
            * ((y * image.width + x) * (num_layers : Int) + (layer : Int)).toNat)
          (depthChannels image.depth_format) d := by
      split_ifs with e
      · rw [e]; rfl
      · rfl
    unfold loadFragment clearedFragment
    rw [ec', ed', ec, ed]
    split_ifs <;> rfl

/-- Claim C15. For every writable dense image (a buffer image, flat or layered) of
width `w` and height `h` with formats of the data model and `L` fragments per pixel
(the stored layer count, 1 for a flat image), whose buffers hold `w*h*L` fragments, and
every region `(x, y, rw, rh)` with `0 ≤ x`, `0 ≤ y`, `0 ≤ rw`, `0 ≤ rh`, `x+rw ≤ w`,
`y+rh ≤ h`, `icetImageClearAroundRegion` raises no error, keeps the header, sets every
fragment of every pixel outside the region to the background color (the background
word for RGBA8, the background floats for the float formats) and depth 1.0, and leaves
every fragment of every pixel inside the region unchanged; `icetClearImage`, which
passes the region `(0,0,0,0)`, clears every fragment of every pixel. -/
theorem icetImageClearAroundRegion_spec (st : IceTState) (image : IceTImageData)
    (x y rw rh : Int)
    (hmagic : image.magic_num = ICET_IMAGE_MAGIC_NUM
      ∨ image.magic_num = (ICET_IMAGE_MAGIC_NUM ||| ICET_IMAGE_FLAG_LAYERED))
    (hvc : image.color_format ∈ [ColorFormat.RGBA_UBYTE, .RGBA_FLOAT, .RGB_FLOAT, .NONE])
    (hvd : image.depth_format ∈ [DepthFormat.FLOAT, .NONE])
    (hx : 0 ≤ x) (hy : 0 ≤ y) (hrw : 0 ≤ rw) (hrh : 0 ≤ rh)
    (hxw : x + rw ≤ image.width) (hyh : y + rh ≤ image.height)
    (L : Nat) (hL : L = if icetImageIsLayered image then image.num_layers else 1)
    (hcolor : colorChannels image.color_format
      * (image.width * image.height * (L : Int)).toNat ≤ image.color.length)
    (hdepth : depthChannels image.depth_format
      * (image.width * image.height * (L : Int)).toNat ≤ image.depth.length) :
    (∃ r, icetImageClearAroundRegion st image x y rw rh = some (r, [])
      ∧ r.magic_num = image.magic_num ∧ r.color_format = image.color_format
      ∧ r.depth_format = image.depth_format ∧ r.width = image.width
      ∧ r.height = image.height ∧ r.max_num_pixels = image.max_num_pixels
      ∧ r.actual_buffer_size = image.actual_buffer_size ∧ r.num_layers = image.num_layers
      ∧ ∀ (px py : Int) (layer : Nat), 0 ≤ px → px < image.width → 0 ≤ py →
          py < image.height → layer < L →
          loadFragment image.color_format image.depth_format r.color r.depth
              ((py * image.width + px) * (L : Int) + (layer : Int)).toNat
            = if x ≤ px ∧ px < x + rw ∧ y ≤ py ∧ py < y + rh then
                loadFragment image.color_format image.depth_format image.color image.depth
                  ((py * image.width + px) * (L : Int) + (layer : Int)).toNat
              else clearedFragment st image.color_format image.depth_format)
    ∧ (∃ r, icetClearImage st image = some (r, [])
      ∧ ∀ (px py : Int) (layer : Nat), 0 ≤ px → px < image.width → 0 ≤ py →
          py < image.height → layer < L →
          loadFragment image.color_format image.depth_format r.color r.depth
              ((py * image.width + px) * (L : Int) + (layer : Int)).toNat
            = clearedFragment st image.color_format image.depth_format) := by
  constructor
  · obtain ⟨c, d, hr, -, -, hget⟩ := icetImageClearAroundRegion_eq st image x y rw rh hmagic
      hvc hvd hx hy hrw hrh hxw hyh L hL hcolor hdepth
    exact ⟨_, hr, rfl, rfl, rfl, rfl, rfl, rfl, rfl, rfl, hget⟩
  · obtain ⟨c, d, hr, -, -, hget⟩ := icetImageClearAroundRegion_eq st image 0 0 0 0 hmagic
      hvc hvd (le_refl 0) (le_refl 0) (le_refl 0) (le_refl 0) (by omega) (by omega) L hL
      hcolor hdepth
    refine ⟨_, hr, ?_⟩
    intro px py layer h1 h2 h3 h4 h5
    rw [hget px py layer h1 h2 h3 h4 h5, if_neg (by omega)]

/-- Scenario F: in a 4x4 RGBA8 image cleared around the region (1,1,2,2) with the
background word `0xFF000000`, exactly the 12 border pixels become the background word
and the 4 interior pixels (5, 6, 9, 10) keep their colors; clearing with the degenerate
region sets all 16 pixels. -/
theorem icetImageClearAroundRegion_spec_witness :
    ((∃ r, icetImageClearAroundRegion scenarioF_state scenarioF_image 1 1 2 2 = some (r, [])
      ∧ r.magic_num = scenarioF_image.magic_num
      ∧ r.color_format = scenarioF_image.color_format
      ∧ r.depth_format = scenarioF_image.depth_format ∧ r.width = scenarioF_image.width
      ∧ r.height = scenarioF_image.height
      ∧ r.max_num_pixels = scenarioF_image.max_num_pixels
      ∧ r.actual_buffer_size = scenarioF_image.actual_buffer_size
      ∧ r.num_layers = scenarioF_image.num_layers
      ∧ ∀ (px py : Int) (layer : Nat), 0 ≤ px → px < scenarioF_image.width → 0 ≤ py →
          py < scenarioF_image.height → layer < 1 →
          loadFragment scenarioF_image.color_format scenarioF_image.depth_format r.color
              r.depth ((py * scenarioF_image.width + px) * ((1 : Nat) : Int)
                + (layer : Int)).toNat
            = if (1 : Int) ≤ px ∧ px < 1 + 2 ∧ (1 : Int) ≤ py ∧ py < 1 + 2 then
                loadFragment scenarioF_image.color_format scenarioF_image.depth_format
                  scenarioF_image.color scenarioF_image.depth
                  ((py * scenarioF_image.width + px) * ((1 : Nat) : Int) + (layer : Int)).toNat
              else clearedFragment scenarioF_state scenarioF_image.color_format
                scenarioF_image.depth_format)
    ∧ (∃ r, icetClearImage scenarioF_state scenarioF_image = some (r, [])
      ∧ ∀ (px py : Int) (layer : Nat), 0 ≤ px → px < scenarioF_image.width → 0 ≤ py →
          py < scenarioF_image.height → layer < 1 →
          loadFragment scenarioF_image.color_format scenarioF_image.depth_format r.color
              r.depth ((py * scenarioF_image.width + px) * ((1 : Nat) : Int)
                + (layer : Int)).toNat
            = clearedFragment scenarioF_state scenarioF_image.color_format
                scenarioF_image.depth_format))
    ∧ (icetImageClearAroundRegion scenarioF_state scenarioF_image 1 1 2 2).map
        (fun r => (r.1.color, r.2))
      = some ([0, 0, 0, 255, 0, 0, 0, 255, 0, 0, 0, 255, 0, 0, 0, 255,
               0, 0, 0, 255, 6, 6, 6, 6, 7, 7, 7, 7, 0, 0, 0, 255,
               0, 0, 0, 255, 10, 10, 10, 10, 11, 11, 11, 11, 0, 0, 0, 255,
               0, 0, 0, 255, 0, 0, 0, 255, 0, 0, 0, 255, 0, 0, 0, 255], [])
    ∧ (icetClearImage scenarioF_state scenarioF_image).map (fun r => (r.1.color, r.2))
      = some ((List.range 16).flatMap fun _ => [0, 0, 0, 255], []) :=
  ⟨icetImageClearAroundRegion_spec scenarioF_state scenarioF_image 1 1 2 2 (by decide)
      (by decide) (by decide) (by decide) (by decide) (by decide) (by decide) (by decide)
      (by decide) 1 (by decide) (by decide) (by decide), by decide, by decide⟩

/-! ### The scan primitive, copying and interlacing -/

/-- On flat streams the scan step is the step `scanPixel` of the decoder. -/
theorem scanStep_flat (in_data : List SparseCell) (i a f : Nat) :
    (scanStep false in_data i a f).map
        (fun r => (r.1, r.2.in_data, r.2.inactive_before, r.2.active_till_next_runl))
      = (scanPixel in_data i a).map
        (fun r => (r.1.map SparseCell.pixel, r.2.in_data, r.2.inactive_before,
          r.2.active_till_next_runl)) := by
  induction in_data generalizing i a f with
  | nil =>
    cases i with
    | zero => cases a <;> simp [scanStep, scanPixel]
    | succ i => simp [scanStep, scanPixel]
  | cons c rest ih =>
    cases i with
    | succ i => simp [scanStep, scanPixel]
    | zero =>
      cases a with
      | zero =>
        cases c with
        | runLength i2 a2 => simpa [scanStep, scanPixel] using ih i2 a2 0
        | runLengthLayered _ _ _ => simp [scanStep, scanPixel]
        | pixel _ => simp [scanStep, scanPixel]
        | layeredPixel _ => simp [scanStep, scanPixel]
      | succ a =>
        cases c <;> simp [scanStep, scanPixel]
/-! ### The scan primitive -/

theorem scanStep_inactive (layered : Bool) (in_data : List SparseCell) (i a f : Nat) :
    scanStep layered in_data (i + 1) a f = some (none, ⟨in_data, i, a, f⟩) := by
  cases in_data with
  | nil => rfl
  | cons c rest => cases c <;> rfl

theorem scanStep_of_pixels_inactive (layered : Bool) (in_data : List SparseCell) (i a f : Nat)
    (p : Option SparseCell) (ps : List (Option SparseCell))
    (h : (ScanCursor.mk in_data (i + 1) a f).pixels layered = some (p :: ps)) :
    ∃ c, scanStep layered in_data (i + 1) a f = some (p, c) ∧ c.pixels layered = some ps := by
  simp only [ScanCursor.pixels, Option.map_eq_some', List.replicate_succ,
    List.cons_append, List.cons.injEq] at h
  obtain ⟨x, hx, h1, h2⟩ := h
  subst h1
  refine ⟨_, scanStep_inactive _ _ _ _ _, ?_⟩
  simp only [ScanCursor.pixels, Option.map_eq_some']
  exact ⟨x, hx, h2⟩

theorem scanStep_of_pixels (layered : Bool) (in_data : List SparseCell) (i a f : Nat)
    (p : Option SparseCell) (ps : List (Option SparseCell))
    (h : (ScanCursor.mk in_data i a f).pixels layered = some (p :: ps)) :
    ∃ c, scanStep layered in_data i a f = some (p, c) ∧ c.pixels layered = some ps := by
  induction in_data generalizing i a f with
  | nil =>
    cases i with
    | zero => cases a <;> cases f <;> simp [ScanCursor.pixels, streamCells] at h
    | succ i => exact scanStep_of_pixels_inactive _ _ _ _ _ _ _ h
  | cons c rest ih =>
    cases i with
    | succ i => exact scanStep_of_pixels_inactive _ _ _ _ _ _ _ h
    | zero =>
      cases c with
      | runLength i' a' =>
        cases a with
        | zero =>
          cases f with
          | zero =>
            cases layered with
            | true => simp [ScanCursor.pixels, streamCells] at h
            | false =>
              have : (ScanCursor.mk rest i' a' 0).pixels false = some (p :: ps) := by
                simpa [ScanCursor.pixels, streamCells] using h
              obtain ⟨c, hc, hp⟩ := ih i' a' 0 this
              exact ⟨c, by simpa [scanStep] using hc, hp⟩
          | succ f => simp [ScanCursor.pixels, streamCells] at h
        | succ a => simp [ScanCursor.pixels, streamCells] at h
      | runLengthLayered i' a' f' =>
        cases a with
        | zero =>
          cases f with
          | zero =>
            cases layered with
            | false => simp [ScanCursor.pixels, streamCells] at h
            | true =>
              have : (ScanCursor.mk rest i' a' f').pixels true = some (p :: ps) := by
                simpa [ScanCursor.pixels, streamCells] using h
              obtain ⟨c, hc, hp⟩ := ih i' a' f' this
              exact ⟨c, by simpa [scanStep] using hc, hp⟩
          | succ f => simp [ScanCursor.pixels, streamCells] at h
        | succ a => simp [ScanCursor.pixels, streamCells] at h
      | pixel fr =>
        cases a with
        | zero => cases f <;> simp [ScanCursor.pixels, streamCells] at h
        | succ a =>
          cases layered with
          | true => simp [ScanCursor.pixels, streamCells] at h
          | false =>
            simp only [ScanCursor.pixels, streamCells, Option.map_map, Option.map_eq_some',
              Function.comp, List.replicate_zero, List.nil_append, List.cons.injEq,
              Bool.false_eq_true, if_false] at h
            obtain ⟨x, hx, h1, h2⟩ := h
            subst h1
            refine ⟨⟨rest, 0, a, f⟩, by simp [scanStep], ?_⟩
            simp [ScanCursor.pixels, hx, h2]
      | layeredPixel frs =>
        cases a with
        | zero => cases f <;> simp [ScanCursor.pixels, streamCells] at h
        | succ a =>
          cases layered with
          | false => simp [ScanCursor.pixels, streamCells] at h
          | true =>
            by_cases hle : frs.length ≤ f
            · simp only [ScanCursor.pixels, streamCells, Option.map_map, Option.map_eq_some',
                Function.comp, List.replicate_zero, List.nil_append, List.cons.injEq,
                hle, and_self, if_true] at h
              obtain ⟨x, hx, h1, h2⟩ := h
              subst h1
              refine ⟨⟨rest, 0, a, f - frs.length⟩, by simp [scanStep], ?_⟩
              simp [ScanCursor.pixels, hx, h2]
            · simp [ScanCursor.pixels, streamCells, hle] at h

theorem streamCells_append (layered : Bool) (xs ys : List SparseCell) (a f : Nat)
    (p : List (Option SparseCell)) (h : streamCells layered xs a f = some p) :
    streamCells layered (xs ++ ys) a f = (streamCells layered ys 0 0).map fun q => p ++ q := by
  induction xs generalizing a f p with
  | nil =>
    cases a with
    | zero =>
      cases f with
      | zero =>
        simp only [streamCells, Option.some.injEq] at h
        subst h
        simp
      | succ f => simp [streamCells] at h
    | succ a => simp [streamCells] at h
  | cons c xs ih =>
    cases c with
    | runLength i a' =>
      cases a with
      | zero =>
        cases f with
        | zero =>
          cases layered with
          | true => simp [streamCells] at h
          | false =>
            simp only [streamCells, Option.map_eq_some', Bool.false_eq_true, if_false] at h
            obtain ⟨q, hq, hp⟩ := h
            subst hp
            rw [List.cons_append, streamCells, if_neg (by simp), ih a' 0 q hq]
            cases streamCells false ys 0 0 <;> simp [List.append_assoc]
        | succ f => simp [streamCells] at h
      | succ a => simp [streamCells] at h
    | runLengthLayered i a' f' =>
      cases a with
      | zero =>
        cases f with
        | zero =>
          cases layered with
          | false => simp [streamCells] at h
          | true =>
            simp only [streamCells, Option.map_eq_some', if_true] at h
            obtain ⟨q, hq, hp⟩ := h
            subst hp
            rw [List.cons_append, streamCells, if_pos rfl, ih a' f' q hq]
            cases streamCells true ys 0 0 <;> simp [List.append_assoc]
        | succ f => simp [streamCells] at h
      | succ a => simp [streamCells] at h
    | pixel fr =>
      cases a with
      | zero => cases f <;> simp [streamCells] at h
      | succ a =>
        cases layered with
        | true => simp [streamCells] at h
        | false =>
          simp only [streamCells, Option.map_eq_some', Bool.false_eq_true, if_false] at h
          obtain ⟨q, hq, hp⟩ := h
          subst hp
          rw [List.cons_append, streamCells, if_neg (by simp), ih a f q hq]
          cases streamCells false ys 0 0 <;> simp
    | layeredPixel frs =>
      cases a with
      | zero => cases f <;> simp [streamCells] at h
      | succ a =>
        cases layered with
        | false => simp [streamCells] at h
        | true =>
          by_cases hle : frs.length ≤ f
          · simp only [streamCells, Option.map_eq_some', hle, and_self, if_true] at h
            obtain ⟨q, hq, hp⟩ := h
            subst hp
            rw [List.cons_append, streamCells, if_pos ⟨rfl, hle⟩, ih a _ q hq]
            cases streamCells true ys 0 0 <;> simp
          · simp [streamCells, hle] at h

theorem streamCells_isPixel (layered : Bool) (xs : List SparseCell) (a f : Nat)
    (ps : List (Option SparseCell)) (h : streamCells layered xs a f = some ps) :
    ∀ cell, some cell ∈ ps → cell.isPixel layered = true := by
  induction xs generalizing a f ps with
  | nil =>
    cases a <;> cases f <;> simp [streamCells] at h
    subst h
    simp
  | cons c xs ih =>
    cases c with
    | runLength i a' =>
      cases a <;> cases f <;> cases layered <;> simp [streamCells] at h
      obtain ⟨q, hq, rfl⟩ := h
      intro cell hmem
      simp only [List.mem_append, List.mem_replicate, reduceCtorEq, and_false, false_or] at hmem
      exact ih _ _ _ hq cell hmem
    | runLengthLayered i a' f' =>
      cases a <;> cases f <;> cases layered <;> simp [streamCells] at h
      obtain ⟨q, hq, rfl⟩ := h
      intro cell hmem
      simp only [List.mem_append, List.mem_replicate, reduceCtorEq, and_false, false_or] at hmem
      exact ih _ _ _ hq cell hmem
    | pixel fr =>
      cases a <;> cases layered <;> simp [streamCells] at h
      obtain ⟨q, hq, rfl⟩ := h
      intro cell hmem
      rcases List.mem_cons.mp hmem with e | hmem
      · simp only [Option.some.injEq] at e
        subst e
        rfl
      · exact ih _ _ _ hq cell hmem
    | layeredPixel frs =>
      cases a <;> cases layered <;> simp [streamCells] at h
      obtain ⟨-, q, hq, rfl⟩ := h
      intro cell hmem
      rcases List.mem_cons.mp hmem with e | hmem
      · simp only [Option.some.injEq] at e
        subst e
        rfl
      · exact ih _ _ _ hq cell hmem

theorem streamCells_data (layered : Bool) (data : List SparseCell)
    (h : ∀ cell ∈ data, cell.isPixel layered = true) :
    streamCells layered data data.length (data.map SparseCell.fragmentCount).sum
      = some (data.map some) := by
  induction data with
  | nil => rfl
  | cons c data ih =>
    have hc := h c (List.mem_cons_self _ _)
    have ih' := ih (fun cell hm => h cell (List.mem_cons_of_mem _ hm))
    cases c with
    | runLength _ _ => simp [SparseCell.isPixel] at hc
    | runLengthLayered _ _ _ => simp [SparseCell.isPixel] at hc
    | pixel fr =>
      have hl : layered = false := by simpa [SparseCell.isPixel] using hc
      subst hl
      simp only [List.map_cons, List.sum_cons, List.length_cons, SparseCell.fragmentCount,
        Nat.zero_add, streamCells, Bool.false_eq_true, if_false, ih', Option.map_some']
    | layeredPixel frs =>
      have hl : layered = true := by simpa [SparseCell.isPixel] using hc
      subst hl
      simp only [List.map_cons, List.sum_cons, List.length_cons, SparseCell.fragmentCount,
        streamCells, Nat.le_add_right, and_self, if_true, Nat.add_sub_cancel_left, ih',
        Option.map_some']

theorem flat_fragmentCount_sum (data : List SparseCell)
    (h : ∀ cell ∈ data, cell.isPixel false = true) :
    (data.map SparseCell.fragmentCount).sum = 0 := by
  induction data with
  | nil => rfl
  | cons c data ih =>
    have hc := h c (List.mem_cons_self _ _)
    have ih' := ih (fun cell hm => h cell (List.mem_cons_of_mem _ hm))
    cases c <;> simp [SparseCell.isPixel] at hc
    simp [SparseCell.fragmentCount, ih']

theorem streamCells_run (layered : Bool) (w : ScanWriter)
    (h : ∀ cell ∈ w.data, cell.isPixel layered = true) (ha : w.active = w.data.length)
    (hf : w.active_fragments = (w.data.map SparseCell.fragmentCount).sum) :
    streamCells layered (w.header layered :: w.data) 0 0
      = some (List.replicate w.inactive none ++ w.data.map some) := by
  cases layered with
  | false =>
    have := streamCells_data false w.data h
    rw [flat_fragmentCount_sum w.data h] at this
    simp [ScanWriter.header, streamCells, ha, this]
  | true =>
    have := streamCells_data true w.data h
    simp [ScanWriter.header, streamCells, ha, hf, this]

theorem ScanWriter_holds_cells {layered : Bool} {w : ScanWriter}
    {ps : List (Option SparseCell)} (h : w.Holds layered ps) :
    streamCells layered (w.cells layered) 0 0 = some ps := by
  obtain ⟨finished, h1, hd, ha, hf, hps⟩ := h
  unfold ScanWriter.cells
  rw [streamCells_append _ _ _ _ _ _ h1, streamCells_run layered w hd ha hf, hps]
  simp [List.append_assoc]

theorem ScanWriter_holds_emit {layered : Bool} {w : ScanWriter}
    {ps : List (Option SparseCell)} (h : w.Holds layered ps) (p : Option SparseCell)
    (hp : ∀ cell, p = some cell → cell.isPixel layered = true) :
    (w.emit layered p).Holds layered (ps ++ [p]) := by
  have hc := ScanWriter_holds_cells h
  obtain ⟨finished, h1, hd, ha, hf, hps⟩ := h
  cases p with
  | none =>
    unfold ScanWriter.emit
    simp only []
    by_cases hcond : w.active = 0
    · rw [if_pos hcond]
      have hdata : w.data = [] := by
        have : w.data.length = 0 := by omega
        exact List.length_eq_zero.mp this
      refine ⟨finished, h1, hd, ha, hf, ?_⟩
      rw [hps, hdata, List.replicate_succ']
      simp [List.append_assoc]
    · rw [if_neg hcond]
      exact ⟨ps, hc, by simp, rfl, rfl, by simp⟩
  | some cell =>
    have hcell := hp cell rfl
    unfold ScanWriter.emit
    simp only []
    refine ⟨finished, h1, ?_, ?_, ?_, ?_⟩
    · intro c hm
      rcases List.mem_append.mp hm with hm | hm
      · exact hd c hm
      · simp only [List.mem_singleton] at hm
        rw [hm]; exact hcell
    · simp [ha]
    · simp [hf]
    · simp [hps, List.append_assoc]

theorem ScanWriter_emptyRun_holds (layered : Bool) : ScanWriter.emptyRun.Holds layered [] :=
  ⟨[], rfl, by simp [ScanWriter.emptyRun], rfl, rfl, by simp [ScanWriter.emptyRun]⟩

theorem ScanCursor_pixels_isPixel (layered : Bool) (c : ScanCursor)
    (ps : List (Option SparseCell)) (h : c.pixels layered = some ps) :
    ∀ cell, some cell ∈ ps → cell.isPixel layered = true := by
  simp only [ScanCursor.pixels, Option.map_eq_some'] at h
  obtain ⟨q, hq, rfl⟩ := h
  intro cell hmem
  simp only [List.mem_append, List.mem_replicate, reduceCtorEq, and_false, false_or] at hmem
  exact streamCells_isPixel layered _ _ _ _ hq cell hmem

theorem scanPixels_copy (layered : Bool) (ps rest : List (Option SparseCell)) (c : ScanCursor)
    (w : ScanWriter) (qs : List (Option SparseCell))
    (hc : c.pixels layered = some (ps ++ rest)) (hw : w.Holds layered qs) :
    ∃ c' w', scanPixels layered ps.length c (some w) = some (c', some w')
      ∧ c'.pixels layered = some rest ∧ w'.Holds layered (qs ++ ps) := by
  induction ps generalizing c w qs with
  | nil => exact ⟨c, w, rfl, hc, by simpa using hw⟩
  | cons p ps ih =>
    have hpix := ScanCursor_pixels_isPixel layered c _ hc
    obtain ⟨c1, hc1, hp1⟩ := scanStep_of_pixels layered c.in_data c.inactive_before
      c.active_till_next_runl c.active_frags_till_next_runl p (ps ++ rest) hc
    have hw1 := ScanWriter_holds_emit hw p (fun cell e => hpix cell (by rw [e]; simp))
    obtain ⟨c', w', h1, h2, h3⟩ := ih c1 (w.emit layered p) (qs ++ [p]) hp1 hw1
    refine ⟨c', w', ?_, h2, by simpa [List.append_assoc] using h3⟩
    simp only [List.length_cons, scanPixels, hc1, Option.map_some']
    exact h1

theorem scanPixels_skip (layered : Bool) (ps rest : List (Option SparseCell)) (c : ScanCursor)
    (hc : c.pixels layered = some (ps ++ rest)) :
    ∃ c', scanPixels layered ps.length c none = some (c', none)
      ∧ c'.pixels layered = some rest := by
  induction ps generalizing c with
  | nil => exact ⟨c, rfl, hc⟩
  | cons p ps ih =>
    obtain ⟨c1, hc1, hp1⟩ := scanStep_of_pixels layered c.in_data c.inactive_before
      c.active_till_next_runl c.active_frags_till_next_runl p (ps ++ rest) hc
    obtain ⟨c', h1, h2⟩ := ih c1 hp1
    refine ⟨c', ?_, h2⟩
    simp only [List.length_cons, scanPixels, hc1, Option.map_none']
    exact h1

theorem scanPixels_skip_at (layered : Bool) (c : ScanCursor) (ps : List (Option SparseCell))
    (a : Nat) (hc : c.pixels layered = some ps) (ha : a ≤ ps.length) :
    ∃ c', scanPixels layered a c none = some (c', none)
      ∧ c'.pixels layered = some (ps.drop a) := by
  have h := scanPixels_skip layered (ps.take a) (ps.drop a) c (by rw [List.take_append_drop]; exact hc)
  rwa [List.length_take, Nat.min_eq_left ha] at h

theorem scanPixels_copy_at (layered : Bool) (c : ScanCursor) (ps : List (Option SparseCell))
    (b : Nat) (w : ScanWriter) (qs : List (Option SparseCell))
    (hc : c.pixels layered = some ps) (hb : b ≤ ps.length) (hw : w.Holds layered qs) :
    ∃ c' w', scanPixels layered b c (some w) = some (c', some w')
      ∧ c'.pixels layered = some (ps.drop b) ∧ w'.Holds layered (qs ++ ps.take b) := by
  have h := scanPixels_copy layered (ps.take b) (ps.drop b) c w qs
    (by rw [List.take_append_drop]; exact hc) hw
  rwa [List.length_take, Nat.min_eq_left hb] at h

theorem start_cursor_pixels (image : IceTSparseImageData) (ps : List (Option SparseCell))
    (h : image.pixels = some ps) :
    (ScanCursor.mk image.payload 0 0 0).pixels (icetSparseImageIsLayered image) = some ps := by
  simp only [ScanCursor.pixels, List.replicate_zero, List.nil_append, Option.map_id']
  exact h

theorem icetSparseImageSetDimensions_fits (image : IceTSparseImageData) (w h : Int)
    (hfit : w * h ≤ image.max_num_pixels) :
    ∃ r, icetSparseImageSetDimensions (some image) w h = (some r, [])
      ∧ r.magic_num = image.magic_num ∧ r.color_format = image.color_format
      ∧ r.depth_format = image.depth_format ∧ r.width = w ∧ r.height = h
      ∧ r.max_num_pixels = image.max_num_pixels ∧ r.address = image.address := by
  unfold icetSparseImageSetDimensions
  simp only []
  rw [if_neg (by omega)]
  unfold icetClearSparseImage
  simp only []
  split_ifs
  · exact ⟨_, rfl, rfl, rfl, rfl, rfl, rfl, rfl, rfl⟩
  · exact ⟨_, rfl, rfl, rfl, rfl, rfl, rfl, rfl, rfl⟩

theorem copyPixels_general (layered : Bool) (S out : IceTSparseImageData) (off n : Int)
    (ps : List (Option SparseCell))
    (hS : S.pixels = some ps) (hl : icetSparseImageIsLayered S = layered)
    (hlay : icetSparseImageIsLayered S = icetSparseImageIsLayered out)
    (hmax : n ≤ out.max_num_pixels) (hoff : 0 ≤ off) (hn : 0 ≤ n)
    (hwin : off + n ≤ (ps.length : Int)) :
    ∃ out',
      ((scanPixels layered off.toNat ⟨S.payload, 0, 0, 0⟩ none).bind fun skipped =>
        (scanPixels layered n.toNat skipped.1 (some ScanWriter.emptyRun)).map fun r =>
          (r.1,
            icetSparseImageSetActualSize
              ((icetSparseImageSetDimensions (some out) n 1).1.getD out)
              ((r.2.getD ScanWriter.emptyRun).cells layered),
            (icetSparseImageSetDimensions (some out) n 1).2)).map
        (fun r => (r.2.1, r.2.2)) = some (out', [])
      ∧ out'.pixels = some ((ps.drop off.toNat).take n.toNat)
      ∧ icetSparseImageGetNumPixels (some out') = n
      ∧ out'.actual_buffer_size = ICET_IMAGE_DATA_START_INDEX * SIZEOF_WORD
          + payloadBytes out'.color_format out'.depth_format out'.payload
      ∧ out'.magic_num = out.magic_num ∧ out'.color_format = out.color_format
      ∧ out'.depth_format = out.depth_format ∧ out'.max_num_pixels = out.max_num_pixels
      ∧ out'.address = out.address := by
  have hc0 := start_cursor_pixels S ps hS
  rw [hl] at hc0
  obtain ⟨c1, hs1, hp1⟩ := scanPixels_skip_at layered _ ps off.toNat hc0 (by omega)
  obtain ⟨c2, w2, hs2, -, hw2⟩ := scanPixels_copy_at layered c1 (ps.drop off.toNat) n.toNat
    ScanWriter.emptyRun [] hp1 (by rw [List.length_drop]; omega) (ScanWriter_emptyRun_holds layered)
  obtain ⟨r, hr, hm, hcf, hdf, hw, hh, hmx, had⟩ :=
    icetSparseImageSetDimensions_fits out n 1 (by omega)
  refine ⟨icetSparseImageSetActualSize r (w2.cells layered), ?_, ?_, ?_, rfl, hm, hcf, hdf, hmx,
    had⟩
  · rw [hs1, Option.some_bind, hs2, hr]
    rfl
  · have hl2 : icetSparseImageIsLayered (icetSparseImageSetActualSize r (w2.cells layered))
        = layered := by
      rw [← hl, hlay]
      simp only [icetSparseImageIsLayered, icetSparseImageSetActualSize, hm]
    unfold IceTSparseImageData.pixels
    rw [hl2]
    have := ScanWriter_holds_cells hw2
    rw [List.nil_append] at this
    exact this
  · simp only [icetSparseImageGetNumPixels, icetSparseImageSetActualSize, hw, hh, mul_one]

/-- Claim C11.  For every sparse image `S` whose payload decodes to exactly its
`width*height` pixels and whose actual size is the header plus its payload, every
`0 ≤ off ≤ off+n ≤ numPixels(S)` and every output image at another address, of the same
formats and layeredness, with `max_num_pixels ≥ n`, `icetSparseImageCopyPixels(S, off,
n, out)` returns between the two timing events without raising anything; afterwards
`out` has `n` pixels, decodes to the `n`-pixel window of the pixels of `S` that starts
at `off`, its actual size is the header size plus the bytes of its payload, and its
formats, layeredness, capacity and address are what they were.  (`S` is an argument
that the function only reads.) -/
theorem icetSparseImageCopyPixels_window (S out : IceTSparseImageData) (off n : Int)
    (ps : List (Option SparseCell))
    (hS : S.pixels = some ps) (hlen : (ps.length : Int) = S.width * S.height)
    (hsize : S.actual_buffer_size = ICET_IMAGE_DATA_START_INDEX * SIZEOF_WORD
      + payloadBytes S.color_format S.depth_format S.payload)
    (hvc : S.color_format ∈ [ColorFormat.RGBA_UBYTE, .RGBA_FLOAT, .RGB_FLOAT, .NONE])
    (hvd : S.depth_format ∈ [DepthFormat.FLOAT, .NONE])
    (hcf : S.color_format = out.color_format) (hdf : S.depth_format = out.depth_format)
    (hlay : icetSparseImageIsLayered S = icetSparseImageIsLayered out)
    (hmax : n ≤ out.max_num_pixels) (hoff : 0 ≤ off) (hn : 0 ≤ n)
    (hwin : off + n ≤ icetSparseImageGetNumPixels (some S))
    (hdist : S.address ≠ out.address) :
    ∃ out', icetSparseImageCopyPixels S off n out
        = some (out', [.timingCompressBegin, .timingCompressEnd])
      ∧ out'.pixels = some ((ps.drop off.toNat).take n.toNat)
      ∧ icetSparseImageGetNumPixels (some out') = n
      ∧ icetSparseImageGetCompressedBufferSize (some out')
          = ICET_IMAGE_DATA_START_INDEX * SIZEOF_WORD
            + payloadBytes out'.color_format out'.depth_format out'.payload
      ∧ out'.color_format = out.color_format ∧ out'.depth_format = out.depth_format
      ∧ icetSparseImageIsLayered out' = icetSparseImageIsLayered out
      ∧ out'.max_num_pixels = out.max_num_pixels ∧ out'.address = out.address := by
  have hnum : icetSparseImageGetNumPixels (some S) = S.width * S.height := rfl
  unfold icetSparseImageCopyPixels
  rw [if_neg (by simpa [icetSparseImageEqual] using hdist)]
  simp only []
  rw [if_neg (by simp [hcf, hdf, hlay])]
  by_cases hall : off = 0 ∧ n = icetSparseImageGetNumPixels (some S)
  · rw [if_pos hall, if_neg (not_lt.mpr hmax)]
    refine ⟨_, rfl, ?_, ?_, hsize, hcf, hdf, hlay, rfl, rfl⟩
    · have hp : IceTSparseImageData.pixels
          { S with max_num_pixels := out.max_num_pixels, address := out.address } = some ps := hS
      rw [hp, hall.1, Int.toNat_zero, List.drop_zero, List.take_of_length_le (by omega)]
    · rw [hall.2]; rfl
  · rw [if_neg hall]
    have hd := fragmentSizeDiagnostics_valid _ _ hvc hvd
    cases hl : icetSparseImageIsLayered S with
    | false =>
      obtain ⟨out', h1, h2, h3, h4, h5, h6, h7, h8, h9⟩ :=
        copyPixels_general false S out off n ps hS hl hlay hmax hoff hn (by omega)
      refine ⟨out', ?_, h2, h3, h4, h6, h7, ?_, h8, h9⟩
      · simp only [Bool.false_eq_true, if_false, icetSparseImageScanPixels,
          icetSparseImageCopyPixelsInternal, hd, List.append_nil]
        simp only [Option.map_eq_some', Prod.exists] at h1 ⊢
        obtain ⟨a, b, c, h1, h1'⟩ := h1
        simp only [Prod.mk.injEq] at h1'
        refine ⟨a, b, c, h1, ?_⟩
        rw [h1'.1, h1'.2]
        rfl
      · simp only [icetSparseImageIsLayered, h5]
    | true =>
      obtain ⟨out', h1, h2, h3, h4, h5, h6, h7, h8, h9⟩ :=
        copyPixels_general true S out off n ps hS hl hlay hmax hoff hn (by omega)
      refine ⟨out', ?_, h2, h3, h4, h6, h7, ?_, h8, h9⟩
      · simp only [if_true, icetSparseLayeredImageScanPixels,
          icetSparseLayeredImageCopyPixelsInternal, hd, List.append_nil]
        simp only [Option.map_eq_some', Prod.exists] at h1 ⊢
        obtain ⟨a, b, c, h1, h1'⟩ := h1
        simp only [Prod.mk.injEq] at h1'
        refine ⟨a, b, c, h1, ?_⟩
        rw [h1'.1, h1'.2]
        rfl
      · simp only [icetSparseImageIsLayered, h5]

/-- Copying 4 pixels from offset 3 of the 8-pixel stream of scenario C gives the pixels
3, 4, 5 and 6 of the stream. -/
theorem icetSparseImageCopyPixels_window_witness :
    ∃ out', icetSparseImageCopyPixels scenarioC_image 3 4 scenarioC_out
        = some (out', [.timingCompressBegin, .timingCompressEnd])
      ∧ out'.pixels
          = some [some (.pixel { color := [3, 3, 3, 255], depth := [0x3F000000] }), none,
              some (.pixel { color := [5, 5, 5, 255], depth := [0x3F000000] }), none]
      ∧ icetSparseImageGetNumPixels (some out') = 4 := by
  obtain ⟨out', h1, h2, h3, -⟩ := icetSparseImageCopyPixels_window scenarioC_image scenarioC_out
    3 4 [none, none, some (.pixel { color := [2, 2, 2, 255], depth := [0x3F000000] }),
      some (.pixel { color := [3, 3, 3, 255], depth := [0x3F000000] }), none,
      some (.pixel { color := [5, 5, 5, 255], depth := [0x3F000000] }), none, none]
    (by decide) (by decide) (by decide) (by decide) (by decide) (by decide) (by decide)
    (by decide) (by decide) (by decide) (by decide) (by decide) (by decide)
  exact ⟨out', h1, h2, h3⟩

/-! ### Interlacing: the partition arithmetic -/

theorem interlaceIndex_injOn (E a b : Nat) (ha : a < E) (hb : b < E)
    (h : interlaceIndex E a = interlaceIndex E b) : a = b := by
  rw [← interlaceIndex_involutive E a ha, ← interlaceIndex_involutive E b hb, h]

theorem interlaceIndex_perm (E : Nat) :
    List.Perm ((List.range E).map (interlaceIndex E)) (List.range E) := by
  have hnodup : ((List.range E).map (interlaceIndex E)).Nodup := by
    refine List.Nodup.map_on ?_ (List.nodup_range E)
    intro a ha b hb h
    exact interlaceIndex_injOn E a b (List.mem_range.mp ha) (List.mem_range.mp hb) h
  have hsub : (List.range E).map (interlaceIndex E) ⊆ List.range E := by
    intro x hx
    obtain ⟨a, ha, rfl⟩ := List.mem_map.mp hx
    exact List.mem_range.mpr (interlaceIndex_lt E a (List.mem_range.mp ha))
  exact (List.subperm_of_subset hnodup hsub).perm_of_length_le (by simp)

theorem indicator_sum (E r : Nat) :
    ((List.range E).map fun k => if k < r then 1 else 0).sum = min E r := by
  induction E with
  | zero => simp
  | succ E ih =>
    rw [List.range_succ, List.map_append, List.sum_append, ih]
    simp only [List.map_cons, List.map_nil, List.sum_cons, List.sum_nil, Nat.add_zero]
    split_ifs <;> omega

theorem partitionPixels_sum (E n : Nat) (hE : 0 < E) :
    ((List.range E).map fun k => partitionPixels E n k).sum = n := by
  have h : ((List.range E).map fun k => partitionPixels E n k).sum
      = E * (n / E) + ((List.range E).map fun k => if k < n % E then 1 else 0).sum := by
    unfold partitionPixels
    generalize n / E = q
    generalize n % E = r
    induction E with
    | zero => simp
    | succ E ih =>
      by_cases hE0 : 0 < E
      · rw [List.range_succ, List.map_append, List.sum_append, List.map_append, List.sum_append,
          ih hE0]
        simp only [List.map_cons, List.map_nil, List.sum_cons, List.sum_nil, Nat.add_zero]
        ring
      · have : E = 0 := by omega
        subst this
        simp
  rw [h, indicator_sum, Nat.min_eq_right (Nat.mod_lt n hE).le]
  exact Nat.div_add_mod n E

theorem originalStart_succ (E n o : Nat) :
    originalStart E n (o + 1) = originalStart E n o + partitionPixels E n (interlaceIndex E o) := by
  unfold originalStart
  rw [List.range_succ, List.map_append, List.sum_append]
  simp

theorem originalStart_total (E n : Nat) (hE : 0 < E) : originalStart E n E = n := by
  unfold originalStart
  have h := (interlaceIndex_perm E).map (fun k => partitionPixels E n k)
  rw [List.map_map] at h
  have := h.sum_eq
  rw [partitionPixels_sum E n hE] at this
  exact this

theorem originalStart_mono (E n a b : Nat) (h : a ≤ b) :
    originalStart E n a ≤ originalStart E n b := by
  induction b with
  | zero =>
    have : a = 0 := by omega
    subst this
    exact le_refl _
  | succ b ih =>
    by_cases hab : a ≤ b
    · rw [originalStart_succ]
      exact Nat.le_trans (ih hab) (Nat.le_add_right _ _)
    · have : a = b + 1 := by omega
      subst this
      exact le_refl _

theorem originalStart_le (E n o : Nat) (hE : 0 < E) (ho : o ≤ E) : originalStart E n o ≤ n := by
  have := originalStart_mono E n o E ho
  rwa [originalStart_total E n hE] at this

theorem interlacePartitionSize_nat (E n k : Nat) :
    interlacePartitionSize (Int.tdiv (n : Int) (E : Int)) (Int.tmod (n : Int) (E : Int)) (k : Int)
      = ((partitionPixels E n k : Nat) : Int) := by
  unfold interlacePartitionSize partitionPixels
  rw [Int.tdiv_eq_ediv (by omega) (by omega), Int.tmod_eq_emod (by omega) (by omega)]
  by_cases h : k < n % E
  · rw [if_pos (by exact_mod_cast h), if_pos h]
    push_cast
    rfl
  · rw [if_neg (by intro h2; exact h (by exact_mod_cast h2)), if_neg h]
    push_cast
    rfl

theorem specPartitionSize_nat (E n k : Nat) :
    specPartitionSize (E : Int) (n : Int) (k : Int) = ((partitionPixels E n k : Nat) : Int) := by
  unfold specPartitionSize partitionPixels
  by_cases h : k < n % E
  · rw [if_pos (by exact_mod_cast h), if_pos h]
    push_cast
    rfl
  · rw [if_neg (by intro h2; exact h (by exact_mod_cast h2)), if_neg h]
    push_cast
    rfl

theorem originalOffset_nat (E n j : Nat) :
    originalOffset (j : Int) (E : Int) (n : Int)
      = ((originalStart E n (interlaceIndex E j) : Nat) : Int) := by
  unfold originalOffset originalStart
  simp only [interlacedPartitionIdx_eq, Int.toNat_ofNat, specPartitionSize_nat]
  generalize List.range (interlaceIndex E j) = l
  induction l with
  | nil => rfl
  | cons a l ih => simp only [List.map_cons, List.sum_cons, ih, Nat.cast_add]

theorem specInterlaceOffset_nat (E n j : Nat) :
    specInterlaceOffset j (E : Int) (n : Int) = ((interlacedStart E n j : Nat) : Int) := by
  unfold specInterlaceOffset interlacedStart
  simp only [specPartitionSize_nat]
  generalize List.range j = l
  induction l with
  | nil => rfl
  | cons a l ih => simp only [List.map_cons, List.sum_cons, ih, Nat.cast_add]

/-! ### Consecutive chunks of a list -/

theorem flatMap_length_of_mem {α : Type} (f : Nat → List α) (len : Nat → Nat) (l : List Nat)
    (h : ∀ k ∈ l, (f k).length = len k) : (l.flatMap f).length = (l.map len).sum := by
  induction l with
  | nil => rfl
  | cons a l ih =>
    rw [List.flatMap_cons, List.length_append, List.map_cons, List.sum_cons,
      h a (List.mem_cons_self _ _), ih (fun k hk => h k (List.mem_cons_of_mem _ hk))]

theorem flatMap_congr_of_mem {α β : Type} (f g : α → List β) (l : List α)
    (h : ∀ k ∈ l, f k = g k) : l.flatMap f = l.flatMap g := by
  induction l with
  | nil => rfl
  | cons a l ih =>
    rw [List.flatMap_cons, List.flatMap_cons, h a (List.mem_cons_self _ _),
      ih (fun k hk => h k (List.mem_cons_of_mem _ hk))]

theorem chunks_window {α : Type} (f : Nat → List α) (len : Nat → Nat) (E j : Nat)
    (hlen : ∀ k < E, (f k).length = len k) (hj : j < E) :
    (((List.range E).flatMap f).drop ((List.range j).map len).sum).take (len j) = f j := by
  obtain ⟨d, rfl⟩ : ∃ d, E = j + (d + 1) := ⟨E - j - 1, by omega⟩
  have hpre : ((List.range j).flatMap f).length = ((List.range j).map len).sum :=
    flatMap_length_of_mem f len _ (fun k hk => hlen k (by have := List.mem_range.mp hk; omega))
  rw [List.range_add, List.flatMap_append, ← hpre, List.drop_left, List.range_succ_eq_map,
    List.map_cons, List.flatMap_cons, Nat.add_zero, ← hlen j hj, List.take_left]

theorem chunks_consecutive {α : Type} (ps : List α) (start len : Nat → Nat)
    (h0 : start 0 = 0) (hs : ∀ o, start (o + 1) = start o + len o) (E : Nat) :
    (List.range E).flatMap (fun o => (ps.drop (start o)).take (len o)) = ps.take (start E) := by
  induction E with
  | zero => simp [h0]
  | succ E ih =>
    rw [List.range_succ, List.flatMap_append, ih, hs, List.take_add]
    simp

/-! ### Interlacing: the two loops -/

theorem interlaceScan_eq (layered : Bool) (c : ScanCursor) (pixels : Int)
    (out : Option ScanWriter) :
    interlaceScan layered c pixels out = scanPixels layered pixels.toNat c out := by
  cases layered <;> rfl

theorem partitionWindow_fits (E n k : Nat) (hE : 0 < E) (hk : k < E) :
    originalStart E n (interlaceIndex E k) + partitionPixels E n k ≤ n := by
  have h := originalStart_succ E n (interlaceIndex E k)
  rw [interlaceIndex_involutive E k hk] at h
  rw [← h]
  exact originalStart_le E n _ hE (interlaceIndex_lt E k hk)

theorem interlaceRecordLoop_spec (layered : Bool) (E : Nat) (hE : 0 < E)
    (ps : List (Option SparseCell)) (count o : Nat) (ho : o + count = E) (c : ScanCursor)
    (arrays : List (Option ScanCursor))
    (hc : 0 < count → c.pixels layered = some (ps.drop (originalStart E ps.length o)))
    (hal : arrays.length = E)
    (harr : ∀ o' < o, ∃ c', arrays.getD (interlaceIndex E o') none = some c'
      ∧ c'.pixels layered = some (ps.drop (originalStart E ps.length o'))) :
    ∃ arrays', interlaceRecordLoop layered (E : Int) (Int.tdiv (ps.length : Int) (E : Int))
        (Int.tmod (ps.length : Int) (E : Int)) count (o : Int) c arrays = some arrays'
      ∧ ∀ o' < E, ∃ c', arrays'.getD (interlaceIndex E o') none = some c'
          ∧ c'.pixels layered = some (ps.drop (originalStart E ps.length o')) := by
  induction count generalizing o c arrays with
  | zero =>
    have : o = E := by omega
    subst this
    exact ⟨arrays, rfl, harr⟩
  | succ count ih =>
    have hoE : o < E := by omega
    have hidx := interlaceIndex_lt E o hoE
    have hcur := hc (Nat.succ_pos _)
    unfold interlaceRecordLoop
    simp only [interlacedPartitionIdx_eq, interlacePartitionSize_nat, Int.toNat_ofNat,
      interlaceScan_eq]
    rw [if_pos ⟨by omega, by rw [hal]; exact_mod_cast hidx⟩]
    have harr2 : ∀ o' < o + 1,
        ∃ c', (arrays.set (interlaceIndex E o) (some c)).getD (interlaceIndex E o') none = some c'
          ∧ c'.pixels layered = some (ps.drop (originalStart E ps.length o')) := by
      intro o' ho'
      by_cases heq : o' = o
      · subst heq
        refine ⟨c, ?_, hcur⟩
        rw [List.getD_eq_getElem?_getD, List.getElem?_set_self (by rw [hal]; exact hidx)]
        rfl
      · obtain ⟨c', h1, h2⟩ := harr o' (by omega)
        refine ⟨c', ?_, h2⟩
        have hne : interlaceIndex E o ≠ interlaceIndex E o' := by
          intro h
          exact heq (interlaceIndex_injOn E o' o (by omega) hoE h.symm)
        rw [List.getD_eq_getElem?_getD, List.getElem?_set_ne hne, ← List.getD_eq_getElem?_getD]
        exact h1
    have hal2 : (arrays.set (interlaceIndex E o) (some c)).length = E := by
      rw [List.length_set]; exact hal
    have hcast : (o : Int) + 1 = ((o + 1 : Nat) : Int) := by push_cast; rfl
    by_cases hlast : (o : Int) < (E : Int) - 1
    · rw [if_pos hlast]
      have hsucc := originalStart_succ E ps.length o
      have hle := originalStart_le E ps.length (o + 1) hE (by omega)
      obtain ⟨c1, hs1, hp1⟩ := scanPixels_skip_at layered c _
        (partitionPixels E ps.length (interlaceIndex E o)) hcur
        (by rw [List.length_drop]; omega)
      rw [hs1, Option.some_bind, hcast]
      refine ih (o + 1) (by omega) c1 _ ?_ hal2 harr2
      intro _
      rw [hp1, List.drop_drop, hsucc]
    · rw [if_neg hlast, hcast]
      exact ih (o + 1) (by omega) c _ (fun h => by omega) hal2 harr2

theorem interlaceCopyLoop_spec (layered : Bool) (E : Nat) (hE : 0 < E)
    (ps : List (Option SparseCell)) (arrays : List (Option ScanCursor))
    (harr : ∀ j < E, ∃ c', arrays.getD j none = some c'
      ∧ c'.pixels layered = some (ps.drop (originalStart E ps.length (interlaceIndex E j))))
    (count j : Nat) (hj : j + count = E) (w : ScanWriter) (qs : List (Option SparseCell))
    (hw : w.Holds layered qs) :
    ∃ w', interlaceCopyLoop layered (Int.tdiv (ps.length : Int) (E : Int))
        (Int.tmod (ps.length : Int) (E : Int)) arrays count (j : Int) w = some w'
      ∧ w'.Holds layered
          (qs ++ (List.range count).flatMap fun i => partitionWindow E ps (j + i)) := by
  induction count generalizing j w qs with
  | zero => exact ⟨w, rfl, by simpa using hw⟩
  | succ count ih =>
    have hjE : j < E := by omega
    obtain ⟨c, hget, hcp⟩ := harr j hjE
    have hfit := partitionWindow_fits E ps.length j hE hjE
    obtain ⟨c1, w1, hs1, -, hw1⟩ := scanPixels_copy_at layered c _
      (partitionPixels E ps.length j) w qs hcp (by rw [List.length_drop]; omega) hw
    have hcast : (j : Int) + 1 = ((j + 1 : Nat) : Int) := by push_cast; rfl
    obtain ⟨w', h1, h2⟩ := ih (j + 1) (by omega) w1 _ hw1
    refine ⟨w', ?_, ?_⟩
    · unfold interlaceCopyLoop
      simp only [interlacePartitionSize_nat, Int.toNat_ofNat, interlaceScan_eq, hget, hs1,
        Option.some_bind, Option.getD_some, hcast]
      exact h1
    · rw [List.range_succ_eq_map, List.flatMap_cons, List.flatMap_map, ← List.append_assoc]
      have e : (fun i => partitionWindow E ps (j + 1 + i))
          = ((fun i => partitionWindow E ps (j + i)) ∘ Nat.succ) := by
        funext i
        simp only [Function.comp, Nat.succ_eq_add_one]
        congr 1
        omega
      rw [e] at h2
      exact h2

theorem partitionWindow_length (E : Nat) (ps : List (Option SparseCell)) (k : Nat)
    (hE : 0 < E) (hk : k < E) :
    (partitionWindow E ps k).length = partitionPixels E ps.length k := by
  have := partitionWindow_fits E ps.length k hE hk
  unfold partitionWindow
  rw [List.length_take, List.length_drop]
  omega

theorem interlacedPixels_perm (E : Nat) (ps : List (Option SparseCell)) (hE : 0 < E) :
    List.Perm ((List.range E).flatMap (partitionWindow E ps)) ps := by
  have hcons := chunks_consecutive ps (originalStart E ps.length)
    (fun o => partitionPixels E ps.length (interlaceIndex E o)) rfl
    (originalStart_succ E ps.length) E
  rw [originalStart_total E ps.length hE, List.take_length] at hcons
  have hq : (List.range E).flatMap (partitionWindow E ps)
      = ((List.range E).map (interlaceIndex E)).flatMap (fun o =>
          (ps.drop (originalStart E ps.length o)).take
            (partitionPixels E ps.length (interlaceIndex E o))) := by
    rw [List.flatMap_map]
    apply flatMap_congr_of_mem
    intro k hk
    simp only [Function.comp, partitionWindow,
      interlaceIndex_involutive E k (List.mem_range.mp hk)]
  rw [hq]
  have hp := (interlaceIndex_perm E).flatMap_right (fun o =>
    (ps.drop (originalStart E ps.length o)).take
      (partitionPixels E ps.length (interlaceIndex E o)))
  rw [hcons] at hp
  exact hp

theorem icetSparseImageInterlace_eq (S out : IceTSparseImageData) (E : Nat)
    (ps : List (Option SparseCell))
    (hS : S.pixels = some ps) (hlen : (ps.length : Int) = S.width * S.height)
    (hvc : S.color_format ∈ [ColorFormat.RGBA_UBYTE, .RGBA_FLOAT, .RGB_FLOAT, .NONE])
    (hvd : S.depth_format ∈ [DepthFormat.FLOAT, .NONE])
    (hcf : S.color_format = out.color_format) (hdf : S.depth_format = out.depth_format)
    (hlay : icetSparseImageIsLayered S = icetSparseImageIsLayered out)
    (hmax : S.width * S.height ≤ out.max_num_pixels) (hE : 2 ≤ E)
    (hdist : S.address ≠ out.address) :
    ∃ out', icetSparseImageInterlace S (E : Int) out
        = some (out', [.timingInterlaceBegin, .timingInterlaceEnd])
      ∧ out'.pixels = some ((List.range E).flatMap (partitionWindow E ps))
      ∧ out'.width = S.width ∧ out'.height = S.height
      ∧ out'.actual_buffer_size = ICET_IMAGE_DATA_START_INDEX * SIZEOF_WORD
          + payloadBytes out'.color_format out'.depth_format out'.payload
      ∧ out'.magic_num = out.magic_num ∧ out'.color_format = out.color_format
      ∧ out'.depth_format = out.depth_format ∧ out'.max_num_pixels = out.max_num_pixels
      ∧ out'.address = out.address := by
  have hE0 : 0 < E := by omega
  have hd := fragmentSizeDiagnostics_valid _ _ hvc hvd
  have hnum : icetSparseImageGetNumPixels (some S) = (ps.length : Int) := hlen.symm
  obtain ⟨arrays, hrec, harr⟩ := interlaceRecordLoop_spec (icetSparseImageIsLayered S) E hE0 ps
    E 0 (by omega) ⟨S.payload, 0, 0, 0⟩ (List.replicate E none)
    (fun _ => by
      rw [show originalStart E ps.length 0 = 0 from rfl, List.drop_zero]
      exact start_cursor_pixels S ps hS)
    (List.length_replicate _ _) (fun o' ho' => by omega)
  have harr' : ∀ j < E, ∃ c', arrays.getD j none = some c'
      ∧ c'.pixels (icetSparseImageIsLayered S)
        = some (ps.drop (originalStart E ps.length (interlaceIndex E j))) := by
    intro j hj
    obtain ⟨c', h1, h2⟩ := harr (interlaceIndex E j) (interlaceIndex_lt E j hj)
    rw [interlaceIndex_involutive E j hj] at h1
    exact ⟨c', h1, h2⟩
  obtain ⟨w, hcopy, hw⟩ := interlaceCopyLoop_spec (icetSparseImageIsLayered S) E hE0 ps arrays
    harr' E 0 (by omega) ScanWriter.emptyRun [] (ScanWriter_emptyRun_holds _)
  obtain ⟨r, hr, hm, hrcf, hrdf, hrw, hrh, hmx, had⟩ :=
    icetSparseImageSetDimensions_fits out S.width S.height hmax
  refine ⟨icetSparseImageSetActualSize r (w.cells (icetSparseImageIsLayered S)), ?_, ?_, hrw, hrh,
    rfl, hm, hrcf, hrdf, hmx, had⟩
  · unfold icetSparseImageInterlace
    rw [if_neg (by omega)]
    simp only []
    rw [if_neg (by omega), if_neg (by simpa [icetSparseImageEqual] using hdist),
      if_neg (by simp [hcf, hdf, hlay])]
    rw [hnum, Int.toNat_ofNat]
    rw [Nat.cast_zero] at hrec hcopy
    rw [hrec, Option.some_bind, hcopy, hr, hd]
    rfl
  · have hl2 : icetSparseImageIsLayered
        (icetSparseImageSetActualSize r (w.cells (icetSparseImageIsLayered S)))
        = icetSparseImageIsLayered S := by
      rw [hlay]
      simp only [icetSparseImageIsLayered, icetSparseImageSetActualSize, hm]
    unfold IceTSparseImageData.pixels
    rw [hl2]
    have := ScanWriter_holds_cells hw
    simp only [List.nil_append, Nat.zero_add] at this
    exact this

/-- Claim C12.  For every sparse image `S` whose payload decodes to exactly its `n =
width*height` pixels, every `E ≥ 2` and every output image at another address, of the
same formats and layeredness, that can hold `n` pixels, `icetSparseImageInterlace(S, E,
out)` returns between its two timing events without raising anything and leaves in
`out` an image with the width and the height of `S` whose pixels are a permutation of
the pixels of `S`; for every interlaced partition index `0 ≤ j < E`, writing `size(k) =
n / E + (1 if k < n mod E else 0)`, the `size(j)` pixels of the interlaced image that
start at position `Σ_{k<j} size(k)` are, in order, the `size(j)` pixels of `S` that
start at position `icetGetInterlaceOffset(j, E, n)`. -/
theorem icetSparseImageInterlace_offset_lookup (S out : IceTSparseImageData) (E : Int)
    (ps : List (Option SparseCell))
    (hS : S.pixels = some ps) (hlen : (ps.length : Int) = S.width * S.height)
    (hvc : S.color_format ∈ [ColorFormat.RGBA_UBYTE, .RGBA_FLOAT, .RGB_FLOAT, .NONE])
    (hvd : S.depth_format ∈ [DepthFormat.FLOAT, .NONE])
    (hcf : S.color_format = out.color_format) (hdf : S.depth_format = out.depth_format)
    (hlay : icetSparseImageIsLayered S = icetSparseImageIsLayered out)
    (hmax : icetSparseImageGetNumPixels (some S) ≤ out.max_num_pixels) (hE : 2 ≤ E)
    (hdist : S.address ≠ out.address) :
    ∃ out' qs, icetSparseImageInterlace S E out
        = some (out', [.timingInterlaceBegin, .timingInterlaceEnd])
      ∧ out'.pixels = some qs
      ∧ icetSparseImageGetWidth (some out') = icetSparseImageGetWidth (some S)
      ∧ icetSparseImageGetHeight (some out') = icetSparseImageGetHeight (some S)
      ∧ List.Perm qs ps
      ∧ ∀ j : Int, 0 ≤ j → j < E →
          (qs.drop (specInterlaceOffset j.toNat E (icetSparseImageGetNumPixels (some S))).toNat).take
              (specPartitionSize E (icetSparseImageGetNumPixels (some S)) j).toNat
            = (ps.drop (icetGetInterlaceOffset j E
                  (icetSparseImageGetNumPixels (some S))).1.toNat).take
                (specPartitionSize E (icetSparseImageGetNumPixels (some S)) j).toNat
          ∧ ((qs.drop (specInterlaceOffset j.toNat E
                  (icetSparseImageGetNumPixels (some S))).toNat).take
                (specPartitionSize E (icetSparseImageGetNumPixels (some S)) j).toNat).length
              = (specPartitionSize E (icetSparseImageGetNumPixels (some S)) j).toNat := by
  obtain ⟨E', rfl⟩ := Int.eq_ofNat_of_zero_le (show 0 ≤ E by omega)
  have hE' : 2 ≤ E' := by exact_mod_cast hE
  have hE0 : 0 < E' := by omega
  have hnum : icetSparseImageGetNumPixels (some S) = (ps.length : Int) := hlen.symm
  obtain ⟨out', h1, h2, h3, h4, -⟩ := icetSparseImageInterlace_eq S out E' ps hS hlen hvc hvd
    hcf hdf hlay hmax hE' hdist
  refine ⟨out', _, h1, h2, h3, h4, interlacedPixels_perm E' ps hE0, ?_⟩
  intro j hj0 hj
  obtain ⟨j', rfl⟩ := Int.eq_ofNat_of_zero_le hj0
  have hj' : j' < E' := by exact_mod_cast hj
  rw [hnum, icetGetInterlaceOffset_eq _ _ _ (by omega) hj0 hj]
  simp only [Int.toNat_ofNat, specInterlaceOffset_nat, specPartitionSize_nat,
    originalOffset_nat]
  have hwin := chunks_window (partitionWindow E' ps) (partitionPixels E' ps.length) E' j'
    (fun k hk => partitionWindow_length E' ps k hE0 hk) hj'
  unfold interlacedStart
  rw [hwin]
  exact ⟨rfl, partitionWindow_length E' ps j' hE0 hj'⟩

/-- Interlacing the 8 distinct pixels for `E = 4`: partition 1 of the result, its pixels
2 and 3, holds the pixels 4 and 5 of the image. -/
theorem icetSparseImageInterlace_offset_lookup_witness :
    ∃ out' qs, icetSparseImageInterlace distinctPixels 4 scenarioC_out
        = some (out', [.timingInterlaceBegin, .timingInterlaceEnd])
      ∧ out'.pixels = some qs
      ∧ icetSparseImageGetWidth (some out') = 8 ∧ icetSparseImageGetHeight (some out') = 1
      ∧ List.Perm qs ((List.range 8).map fun i =>
          some (.pixel { color := [i, i, i, 255], depth := [0x3F000000] }))
      ∧ (qs.drop 2).take 2 = [some (.pixel { color := [4, 4, 4, 255], depth := [0x3F000000] }),
          some (.pixel { color := [5, 5, 5, 255], depth := [0x3F000000] })] := by
  obtain ⟨out', qs, h1, h2, h3, h4, h5, h6⟩ := icetSparseImageInterlace_offset_lookup
    distinctPixels scenarioC_out 4
    ((List.range 8).map fun i => some (.pixel { color := [i, i, i, 255], depth := [0x3F000000] }))
    (by decide) (by decide) (by decide) (by decide) (by decide) (by decide) (by decide)
    (by decide) (by decide) (by decide)
  refine ⟨out', qs, h1, h2, h3, h4, h5, ?_⟩
  have h := (h6 1 (by decide) (by decide)).1
  have e1 : (specInterlaceOffset (1 : Int).toNat 4
      (icetSparseImageGetNumPixels (some distinctPixels))).toNat = 2 := by decide
  have e2 : (specPartitionSize 4 (icetSparseImageGetNumPixels (some distinctPixels)) 1).toNat
      = 2 := by decide
  have e3 : (icetGetInterlaceOffset 1 4
      (icetSparseImageGetNumPixels (some distinctPixels))).1.toNat = 4 := by decide
  rw [e1, e2, e3] at h
  rw [h]
  decide

/-- Claim C14, as stated, is refuted.  For the 8-pixel image whose pixel `i` is active
with the color `(i, i, i, 255)` and `E = 4`, `icetSparseImageInterlace` produces the
pixels 0, 1, 4, 5, 2, 3, 6, 7 of the image, in this order; the formula gives the source
pixel `bit_reverse(1 mod 4) + (1 / 4) * 4 = 2` for pixel 1 of the result, which is
pixel 1 of the image. -/
theorem icetSparseImageInterlace_not_pixelwise_bit_reverse :
    (icetSparseImageInterlace distinctPixels 4 scenarioC_out).bind (fun r => r.1.pixels)
        = some ([0, 1, 4, 5, 2, 3, 6, 7].map fun i =>
            some (.pixel { color := [i, i, i, 255], depth := [0x3F000000] }))
      ∧ distinctPixels.pixels = some ((List.range 8).map fun i =>
            some (.pixel { color := [i, i, i, 255], depth := [0x3F000000] }))
      ∧ specInterlaceSource 4 1 = 2
      ∧ ¬ ∀ qs ps,
          (icetSparseImageInterlace distinctPixels 4 scenarioC_out).bind (fun r => r.1.pixels)
              = some qs →
            distinctPixels.pixels = some ps →
            ∀ i : Nat, (i : Int) < icetSparseImageGetNumPixels (some distinctPixels) →
              qs[i]? = ps[(specInterlaceSource 4 i).toNat]? := by
  refine ⟨by decide, by decide, by decide, ?_⟩
  intro h
  have := h _ _ (show _ = some ([0, 1, 4, 5, 2, 3, 6, 7].map fun i =>
      some (SparseCell.pixel { color := [i, i, i, 255], depth := [0x3F000000] })) by decide)
    (show _ = some ((List.range 8).map fun i =>
      some (SparseCell.pixel { color := [i, i, i, 255], depth := [0x3F000000] })) by decide)
    1 (by decide)
  revert this
  decide

theorem window_getElem {α : Type} (l : List α) (a s t : Nat) (ht : t < s) :
    ((l.drop a).take s)[t]? = l[a + t]? := by
  rw [List.getElem?_take_of_lt ht, List.getElem?_drop]

/-- Claim C14, amended.  Interlacing permutes partitions, not single pixels: for every
sparse image `S` whose payload decodes to exactly its `n = width*height` pixels, every
`E ≥ 2` and every output image at another address, of the same formats and layeredness,
that can hold `n` pixels, the interlaced image has `n` pixels and, for every interlaced
partition index `0 ≤ j < E` and every `t < size(j)`, its pixel `Σ_{k<j} size(k) + t` is
pixel `icetGetInterlaceOffset(j, E, n) + t` of `S`, where `size(k) = n / E + (1 if k < n
mod E else 0)`: partition `j` of the result is, pixel by pixel, the contiguous run of
`S` that the offset lookup names. -/
theorem icetSparseImageInterlace_pixelwise (S out : IceTSparseImageData) (E : Int)
    (ps : List (Option SparseCell))
    (hS : S.pixels = some ps) (hlen : (ps.length : Int) = S.width * S.height)
    (hvc : S.color_format ∈ [ColorFormat.RGBA_UBYTE, .RGBA_FLOAT, .RGB_FLOAT, .NONE])
    (hvd : S.depth_format ∈ [DepthFormat.FLOAT, .NONE])
    (hcf : S.color_format = out.color_format) (hdf : S.depth_format = out.depth_format)
    (hlay : icetSparseImageIsLayered S = icetSparseImageIsLayered out)
    (hmax : icetSparseImageGetNumPixels (some S) ≤ out.max_num_pixels) (hE : 2 ≤ E)
    (hdist : S.address ≠ out.address) :
    ∃ out' qs, icetSparseImageInterlace S E out
        = some (out', [.timingInterlaceBegin, .timingInterlaceEnd])
      ∧ out'.pixels = some qs
      ∧ qs.length = ps.length
      ∧ ∀ j : Int, 0 ≤ j → j < E →
          ∀ t : Nat, (t : Int) < specPartitionSize E (icetSparseImageGetNumPixels (some S)) j →
            (specInterlaceOffset j.toNat E (icetSparseImageGetNumPixels (some S))).toNat + t
                < qs.length
              ∧ qs[(specInterlaceOffset j.toNat E
                    (icetSparseImageGetNumPixels (some S))).toNat + t]?
                = ps[(icetGetInterlaceOffset j E
                    (icetSparseImageGetNumPixels (some S))).1.toNat + t]? := by
  obtain ⟨E', rfl⟩ := Int.eq_ofNat_of_zero_le (show 0 ≤ E by omega)
  have hE' : 2 ≤ E' := by exact_mod_cast hE
  have hE0 : 0 < E' := by omega
  have hnum : icetSparseImageGetNumPixels (some S) = (ps.length : Int) := hlen.symm
  obtain ⟨out', h1, h2, -⟩ := icetSparseImageInterlace_eq S out E' ps hS hlen hvc hvd
    hcf hdf hlay hmax hE' hdist
  have hperm := interlacedPixels_perm E' ps hE0
  refine ⟨out', _, h1, h2, hperm.length_eq, ?_⟩
  intro j hj0 hj t ht
  obtain ⟨j', rfl⟩ := Int.eq_ofNat_of_zero_le hj0
  have hj' : j' < E' := by exact_mod_cast hj
  rw [hnum, specPartitionSize_nat] at ht
  have ht' : t < partitionPixels E' ps.length j' := by exact_mod_cast ht
  rw [hnum, icetGetInterlaceOffset_eq _ _ _ (by omega) hj0 hj]
  simp only [Int.toNat_ofNat, specInterlaceOffset_nat, originalOffset_nat]
  have hwin := chunks_window (partitionWindow E' ps) (partitionPixels E' ps.length) E' j'
    (fun k hk => partitionWindow_length E' ps k hE0 hk) hj'
  have hwin' : (((List.range E').flatMap (partitionWindow E' ps)).drop
      (interlacedStart E' ps.length j')).take (partitionPixels E' ps.length j')
      = partitionWindow E' ps j' := hwin
  have hget1 : ((List.range E').flatMap (partitionWindow E' ps))[
      interlacedStart E' ps.length j' + t]? = (partitionWindow E' ps j')[t]? := by
    rw [← hwin', window_getElem _ _ _ _ ht']
  have hget2 : (partitionWindow E' ps j')[t]?
      = ps[originalStart E' ps.length (interlaceIndex E' j') + t]? :=
    window_getElem ps _ _ t ht'
  have hsome : t < (partitionWindow E' ps j').length := by
    rw [partitionWindow_length E' ps j' hE0 hj']; exact ht'
  refine ⟨?_, hget1.trans hget2⟩
  by_contra hcon
  rw [List.getElem?_eq_none (Nat.le_of_not_lt hcon), List.getElem?_eq_getElem hsome] at hget1
  exact Option.noConfusion hget1

/-- Interlacing the 8 distinct pixels for `E = 3`: pixel 4 of the result, the second
pixel of partition 1, is pixel 6 of the image. -/
theorem icetSparseImageInterlace_pixelwise_witness :
    ∃ out' qs, icetSparseImageInterlace distinctPixels 3 scenarioC_out
        = some (out', [.timingInterlaceBegin, .timingInterlaceEnd])
      ∧ out'.pixels = some qs
      ∧ qs.length = 8
      ∧ qs[4]? = some (some (.pixel { color := [6, 6, 6, 255], depth := [0x3F000000] })) := by
  obtain ⟨out', qs, h1, h2, h3, h4⟩ := icetSparseImageInterlace_pixelwise
    distinctPixels scenarioC_out 3
    ((List.range 8).map fun i => some (.pixel { color := [i, i, i, 255], depth := [0x3F000000] }))
    (by decide) (by decide) (by decide) (by decide) (by decide) (by decide) (by decide)
    (by decide) (by decide) (by decide)
  refine ⟨out', qs, h1, h2, by rw [h3]; decide, ?_⟩
  have h := (h4 1 (by decide) (by decide) 1 (by decide)).2
  have e1 : (specInterlaceOffset (1 : Int).toNat 3
      (icetSparseImageGetNumPixels (some distinctPixels))).toNat + 1 = 4 := by decide
  have e3 : (icetGetInterlaceOffset 1 3
      (icetSparseImageGetNumPixels (some distinctPixels))).1.toNat + 1 = 6 := by decide
  rw [e1, e3] at h
  rw [h]
  decide

/-! ### Layered images and depth; pointer images; diagnostics -/

theorem baseMagicNum_not_layered (m : Nat) : baseMagicNum m &&& ICET_IMAGE_FLAG_LAYERED = 0 := by
  unfold baseMagicNum
  rw [Nat.land_assoc]
  have : (0xFFFFFFFF ^^^ ICET_IMAGE_FLAG_LAYERED) &&& ICET_IMAGE_FLAG_LAYERED = 0 := by decide
  rw [this, Nat.and_zero]

theorem icetImageSetDimensions_keeps (image : IceTImageData) (w h : Int) :
    ∃ r ev, icetImageSetDimensions (some image) w h = (some r, ev)
      ∧ r.magic_num = image.magic_num ∧ r.color_format = image.color_format
      ∧ r.depth_format = image.depth_format ∧ r.max_num_pixels = image.max_num_pixels
      ∧ r.num_layers = image.num_layers ∧ r.address = image.address := by
  obtain ⟨e1, e2, e3, -, -, e6, -, e8, e9⟩ :=
    icetImageHeaderWritten_header image { image with width := w, height := h }
  unfold icetImageSetDimensions
  simp only []
  split_ifs
  · exact ⟨_, _, rfl, rfl, rfl, rfl, rfl, rfl, rfl⟩
  · exact ⟨_, _, rfl, e1, e2, e3, e6, e8, e9⟩
  · exact ⟨_, _, rfl, e1, e2, e3, e6, e8, e9⟩
  · exact ⟨_, _, rfl, e1, e2, e3, e6, e8, e9⟩

/-- Claim C22, as stated, is refuted.  With the depth format NONE in the state,
`icetSparseLayeredImageAssignBuffer` and `icetLayeredImagePointerAssignBuffer` return a
layered image whose depth format is NONE, and `icetImageAdjustForInput` turns a layered
image with depth into a layered image whose depth format is NONE. -/
theorem layered_image_without_depth :
    (icetSparseLayeredImageAssignBuffer noDepthState (some 1) 2 2).1.map
        (fun r => (icetSparseImageIsLayered r, r.depth_format)) = some (true, .NONE)
    ∧ (icetLayeredImagePointerAssignBuffer noDepthState (some 1) 2 2 2 (some []) (some [])).bind
        (fun r => r.1.map fun i => (icetImageIsLayered i, i.depth_format)) = some (true, .NONE)
    ∧ (icetImageIsLayered layeredPointerImage, layeredPointerImage.depth_format)
        = (true, .FLOAT)
    ∧ (icetImageAdjustForInput noDepthState (some layeredPointerImage)).1.map
        (fun i => (icetImageIsLayered i, i.depth_format)) = some (true, .NONE) := by
  decide

/-- Claim C22, amended.  `icetLayeredImagePointerAssignBuffer` and
`icetSparseLayeredImageAssignBuffer`, given a buffer, return a layered image; its depth
format is D32F when the depth format of the state is D32F, and otherwise it is NONE and
an error has been raised (`INVALID_VALUE` for the state format NONE, `INVALID_ENUM` for
an invalid one; the pointer constructor raises `INVALID_VALUE` in both cases).
`icetImageAdjustForOutput` returns an image that is not layered.
`icetImageAdjustForInput` keeps the magic number and stores the depth format of the
state, so that a layered image keeps a depth format other than NONE exactly when the
state holds one. -/
theorem layered_images_depth (st : IceTState) (address : Nat) (w h : Int) (L : Nat)
    (color_buffer depth_buffer : Option (List Nat)) (image : IceTImageData) :
    (∃ r ev, icetLayeredImagePointerAssignBuffer st (some address) w h L color_buffer
          depth_buffer = some (some r, ev)
        ∧ icetImageIsLayered r = true
        ∧ (st.depth_format = .FLOAT → r.depth_format = .FLOAT)
        ∧ (st.depth_format ≠ .FLOAT →
            r.depth_format = .NONE ∧ Event.raiseError .INVALID_VALUE ∈ ev))
    ∧ (∃ r ev, icetSparseLayeredImageAssignBuffer st (some address) w h = (some r, ev)
        ∧ icetSparseImageIsLayered r = true
        ∧ (st.depth_format = .FLOAT → r.depth_format = .FLOAT)
        ∧ (st.depth_format = .NONE →
            r.depth_format = .NONE ∧ Event.raiseError .INVALID_VALUE ∈ ev)
        ∧ (st.depth_format ≠ .FLOAT → st.depth_format ≠ .NONE →
            r.depth_format = .NONE ∧ Event.raiseError .INVALID_ENUM ∈ ev))
    ∧ (∃ r ev, icetImageAdjustForOutput st (some image) = (some r, ev)
        ∧ icetImageIsLayered r = false)
    ∧ (∃ r ev, icetImageAdjustForInput st (some image) = (some r, ev)
        ∧ r.magic_num = image.magic_num ∧ r.depth_format = st.depth_format
        ∧ (icetImageIsLayered image = true →
            (icetImageIsLayered r = true ∧ (r.depth_format ≠ .NONE ↔ st.depth_format ≠ .NONE)))) := by
  refine ⟨?_, ?_, ?_, ?_⟩
  · refine ⟨_, _, rfl, ?_, ?_, ?_⟩
    · show ((ICET_IMAGE_POINTERS_MAGIC_NUM ||| ICET_IMAGE_FLAG_LAYERED)
        &&& ICET_IMAGE_FLAG_LAYERED != 0) = true
      decide
    · intro hd
      simp [icetImageAssignBuffer, hd]
    · intro hd
      cases hdf : st.depth_format with
      | FLOAT => exact absurd hdf hd
      | NONE => simp [icetImageAssignBuffer, hdf]
      | invalid raw => simp [icetImageAssignBuffer, hdf]
  · unfold icetSparseLayeredImageAssignBuffer icetClearSparseImage
    simp only []
    have hl : ∀ (i : IceTSparseImageData),
        i.magic_num = (ICET_SPARSE_IMAGE_MAGIC_NUM ||| ICET_IMAGE_FLAG_LAYERED) →
        icetSparseImageIsLayered i = true := by
      intro i hi
      unfold icetSparseImageIsLayered
      rw [hi]
      decide
    rw [if_pos (hl _ rfl)]
    refine ⟨_, _, rfl, hl _ rfl, ?_, ?_, ?_⟩
    · intro hd
      simp [icetSparseImageSetActualSize, hd]
    · intro hd
      simp [icetSparseImageSetActualSize, hd]
    · intro hd hn
      cases hdf : st.depth_format with
      | FLOAT => exact absurd hdf hd
      | NONE => exact absurd hdf hn
      | invalid raw => simp [icetSparseImageSetActualSize]
  · have hflag : ∀ (i : IceTImageData), i.magic_num = baseMagicNum image.magic_num →
        icetImageIsLayered i = false := by
      intro i hi
      unfold icetImageIsLayered
      rw [hi, baseMagicNum_not_layered]
      rfl
    have hm0 := (icetImageHeaderWritten_header image
      { image with magic_num := baseMagicNum image.magic_num }).1
    unfold icetImageAdjustForOutput
    simp only []
    split_ifs
    · obtain ⟨r, ev, hr, hm, -⟩ := icetImageSetDimensions_keeps
        { icetImageHeaderWritten image { image with magic_num := baseMagicNum image.magic_num }
          with depth_format := .NONE }
        (icetImageHeaderWritten image
          { image with magic_num := baseMagicNum image.magic_num }).width
        (icetImageHeaderWritten image
          { image with magic_num := baseMagicNum image.magic_num }).height
      exact ⟨r, ev, hr, hflag r (hm.trans hm0)⟩
    · exact ⟨_, _, rfl, hflag _ hm0⟩
    · exact ⟨_, _, rfl, hflag _ hm0⟩
  · obtain ⟨e1, -, e3, -⟩ := icetImageHeaderWritten_header image
      { image with color_format := st.color_format, depth_format := st.depth_format }
    unfold icetImageAdjustForInput
    simp only []
    obtain ⟨r, ev, hr, hm, -, hd, -⟩ := icetImageSetDimensions_keeps
      (icetImageHeaderWritten image
        { image with color_format := st.color_format, depth_format := st.depth_format })
      (icetImageHeaderWritten image
        { image with color_format := st.color_format,
                     depth_format := st.depth_format }).width
      (icetImageHeaderWritten image
        { image with color_format := st.color_format,
                     depth_format := st.depth_format }).height
    replace hm := hm.trans e1
    replace hd := hd.trans e3
    refine ⟨r, ev, hr, hm, hd, ?_⟩
    intro hl
    refine ⟨?_, by rw [hd]⟩
    unfold icetImageIsLayered at hl ⊢
    rw [hm]
    exact hl

/-- With the depth format D32F in the state both constructors return a layered image
with depth, and `icetImageAdjustForInput` keeps the depth of a layered image. -/
theorem layered_images_depth_witness :
    (∃ r ev, icetSparseLayeredImageAssignBuffer zBufferState (some 1) 2 2 = (some r, ev)
        ∧ icetSparseImageIsLayered r = true ∧ r.depth_format = .FLOAT)
    ∧ (∃ r ev, icetImageAdjustForInput zBufferState (some layeredPointerImage) = (some r, ev)
        ∧ icetImageIsLayered r = true ∧ r.depth_format ≠ .NONE) := by
  obtain ⟨-, ⟨r, ev, h1, h2, h3, -⟩, -, ⟨r', ev', h1', -, -, h4'⟩⟩ :=
    layered_images_depth zBufferState 1 2 2 2 none none layeredPointerImage
  exact ⟨⟨r, ev, h1, h2, h3 rfl⟩, ⟨r', ev', h1', (h4' (by decide)).1,
    (h4' (by decide)).2.mpr (by decide)⟩⟩

/-- Claim C27, evaluated where it fails.  For every layered pointer image (dense-pointers
magic with the LAYERED flag) `icetImageGetColorVoid` and `icetImageGetDepthVoid` return
the stored color and depth pointers and raise nothing, like the const accessors; the
test for the pointers magic compares the whole magic number.  For a flat pointer image
they raise `SANITY_CHECK_FAIL` (and return the stored pointer), and the const accessors
raise nothing. -/
theorem layered_pointer_image_writable (image : IceTImageData) :
    (image.magic_num = (ICET_IMAGE_POINTERS_MAGIC_NUM ||| ICET_IMAGE_FLAG_LAYERED) →
      icetImageGetColorVoid image = (some image.color, [])
      ∧ icetImageGetDepthVoid image = (some image.depth, [])
      ∧ icetImageGetColorConstVoid image = (some image.color, [])
      ∧ icetImageGetDepthConstVoid image = (some image.depth, []))
    ∧ (image.magic_num = ICET_IMAGE_POINTERS_MAGIC_NUM →
      icetImageGetColorVoid image = (some image.color, [.raiseError .SANITY_CHECK_FAIL])
      ∧ icetImageGetDepthVoid image = (some image.depth, [.raiseError .SANITY_CHECK_FAIL])
      ∧ icetImageGetColorConstVoid image = (some image.color, [])
      ∧ icetImageGetDepthConstVoid image = (some image.depth, [])) := by
  constructor
  · intro hm
    have h1 : isImageMagic image.magic_num = true := by rw [hm]; decide
    have h2 : image.magic_num ≠ ICET_IMAGE_POINTERS_MAGIC_NUM := by rw [hm]; decide
    simp [icetImageGetColorVoid, icetImageGetDepthVoid, icetImageGetColorConstVoid,
      icetImageGetDepthConstVoid, h1, h2]
  · intro hm
    have h1 : isImageMagic ICET_IMAGE_POINTERS_MAGIC_NUM = true := by decide
    simp [icetImageGetColorVoid, icetImageGetDepthVoid, icetImageGetColorConstVoid,
      icetImageGetDepthConstVoid, h1, hm]

/-- A layered pointer image with two layers hands out its color array for writing
without an error. -/
theorem layered_pointer_image_writable_witness :
    icetImageGetColorVoid layeredPointerImage = (some [1, 2, 3, 4, 5, 6, 7, 8], [])
    ∧ icetImageGetDepthVoid layeredPointerImage = (some [0x3F000000, 0x3F400000], [])
    ∧ icetImageGetColorVoid pointerImage
        = (some [1, 2, 3, 4], [.raiseError .SANITY_CHECK_FAIL]) :=
  ⟨((layered_pointer_image_writable layeredPointerImage).1 rfl).1,
    ((layered_pointer_image_writable layeredPointerImage).1 rfl).2.1,
    ((layered_pointer_image_writable pointerImage).2 rfl).1⟩

/-- Claim C28, as stated, is refuted.  Asking a flat pointer image for a writable buffer
raises `SANITY_CHECK_FAIL`, and creating a layered image while the depth format of the
state is NONE raises `INVALID_VALUE`; neither raises `INVALID_OPERATION`. -/
theorem diagnostics_not_invalid_operation :
    (icetImageGetColorVoid pointerImage).2 = [.raiseError .SANITY_CHECK_FAIL]
    ∧ (icetImageGetDepthVoid pointerImage).2 = [.raiseError .SANITY_CHECK_FAIL]
    ∧ (icetSparseLayeredImageAssignBuffer noDepthState (some 1) 2 2).2
        = [.raiseError .INVALID_VALUE]
    ∧ (icetLayeredImagePointerAssignBuffer noDepthState (some 1) 2 2 2 (some []) (some [])).map
        (fun r => r.2) = some [.raiseError .INVALID_VALUE] := by
  decide

/-- Claim C28, amended.  A request for a writable buffer of a flat pointer image
(`icetImageGetColorVoid`, `icetImageGetDepthVoid`) raises `SANITY_CHECK_FAIL`; a change
of the color or depth format while a frame is being drawn (`icetSetColorFormat`,
`icetSetDepthFormat`) raises `INVALID_OPERATION` and leaves the state as it is; the
creation of a layered image while the depth format of the state is NONE
(`icetLayeredImagePointerAssignBuffer`, `icetSparseLayeredImageAssignBuffer`) raises
`INVALID_VALUE`, and no `INVALID_OPERATION`. -/
theorem diagnostic_kinds :
    (∀ image : IceTImageData, image.magic_num = ICET_IMAGE_POINTERS_MAGIC_NUM →
      (icetImageGetColorVoid image).2 = [.raiseError .SANITY_CHECK_FAIL]
      ∧ (icetImageGetDepthVoid image).2 = [.raiseError .SANITY_CHECK_FAIL])
    ∧ (∀ (st : IceTState) (color_format : ColorFormat) (depth_format : DepthFormat),
      st.is_drawing_frame = true →
      icetSetColorFormat st color_format = (st, [.raiseError .INVALID_OPERATION])
      ∧ icetSetDepthFormat st depth_format = (st, [.raiseError .INVALID_OPERATION]))
    ∧ (∀ (st : IceTState) (address : Nat) (w h : Int) (L : Nat)
        (color_buffer depth_buffer : Option (List Nat)),
      st.depth_format = .NONE →
      (∃ r ev, icetLayeredImagePointerAssignBuffer st (some address) w h L color_buffer
            depth_buffer = some (some r, ev)
          ∧ Event.raiseError .INVALID_VALUE ∈ ev
          ∧ Event.raiseError .INVALID_OPERATION ∉ ev)
      ∧ (∃ r ev, icetSparseLayeredImageAssignBuffer st (some address) w h = (some r, ev)
          ∧ Event.raiseError .INVALID_VALUE ∈ ev
          ∧ Event.raiseError .INVALID_OPERATION ∉ ev)) := by
  refine ⟨?_, ?_, ?_⟩
  · intro image hm
    have h1 : isImageMagic ICET_IMAGE_POINTERS_MAGIC_NUM = true := by decide
    simp [icetImageGetColorVoid, icetImageGetDepthVoid, icetImageGetColorConstVoid,
      icetImageGetDepthConstVoid, h1, hm]
  · intro st cf df hd
    simp [icetSetColorFormat, icetSetDepthFormat, hd]
  · intro st address w h L cb db hd
    constructor
    · refine ⟨_, _, rfl, ?_, ?_⟩
      · simp [icetImageAssignBuffer, hd]
      · simp only [icetImageAssignBuffer, pointerBufferDiagnostics]
        intro hmem
        simp only [List.mem_append] at hmem
        rcases hmem with ((hmem | hmem) | hmem) | hmem
        · rcases hmem with hmem | hmem <;>
            (split_ifs at hmem <;> simp at hmem)
        · split_ifs at hmem <;> simp at hmem
        · split_ifs at hmem <;> simp at hmem
        · split_ifs at hmem <;> simp at hmem
    · unfold icetSparseLayeredImageAssignBuffer icetClearSparseImage
      simp only []
      split_ifs <;> refine ⟨_, _, rfl, ?_, ?_⟩ <;> simp [hd]

/-- The three situations at concrete inputs. -/
theorem diagnostic_kinds_witness :
    (icetImageGetColorVoid pointerImage).2 = [.raiseError .SANITY_CHECK_FAIL]
    ∧ icetSetColorFormat { zBufferState with is_drawing_frame := true } .RGBA_FLOAT
        = ({ zBufferState with is_drawing_frame := true }, [.raiseError .INVALID_OPERATION])
    ∧ ∃ r ev, icetSparseLayeredImageAssignBuffer noDepthState (some 1) 2 2 = (some r, ev)
        ∧ Event.raiseError .INVALID_VALUE ∈ ev
        ∧ Event.raiseError .INVALID_OPERATION ∉ ev :=
  ⟨(diagnostic_kinds.1 pointerImage rfl).1,
    (diagnostic_kinds.2.1 { zBufferState with is_drawing_frame := true } .RGBA_FLOAT .NONE
      rfl).1,
    (diagnostic_kinds.2.2 noDepthState 1 2 2 2 none none rfl).2⟩

/-! ### The guards of `icetComposite` -/

theorem layered_accessors (src : IceTImageData)
    (hm : src.magic_num = (ICET_IMAGE_MAGIC_NUM ||| ICET_IMAGE_FLAG_LAYERED)) :
    icetImageGetDepthf src = icetImageGetDepthf { src with magic_num := ICET_IMAGE_MAGIC_NUM }
    ∧ icetImageGetColorui src
        = icetImageGetColorui { src with magic_num := ICET_IMAGE_MAGIC_NUM }
    ∧ icetImageGetColorf src = icetImageGetColorf { src with magic_num := ICET_IMAGE_MAGIC_NUM }
    ∧ icetImageGetColorcub src
        = icetImageGetColorcub { src with magic_num := ICET_IMAGE_MAGIC_NUM }
    ∧ icetImageGetColorcf src
        = icetImageGetColorcf { src with magic_num := ICET_IMAGE_MAGIC_NUM } := by
  have h1 : isImageMagic (ICET_IMAGE_MAGIC_NUM ||| ICET_IMAGE_FLAG_LAYERED) = true := by decide
  have h2 : isImageMagic ICET_IMAGE_MAGIC_NUM = true := by decide
  have h3 : (ICET_IMAGE_MAGIC_NUM ||| ICET_IMAGE_FLAG_LAYERED) ≠ ICET_IMAGE_POINTERS_MAGIC_NUM := by
    decide
  have h4 : ICET_IMAGE_MAGIC_NUM ≠ ICET_IMAGE_POINTERS_MAGIC_NUM := by decide
  simp only [icetImageGetDepthf, icetImageGetDepthVoid, icetImageGetDepthConstVoid,
    icetImageGetColorui, icetImageGetColorub, icetImageGetColorVoid, icetImageGetColorConstVoid,
    icetImageGetColorf, icetImageGetColorcub, icetImageGetColorcf, hm, h1, h2, h3, h4, if_true,
    if_false, and_self]

/-- Claim C24, evaluated where it fails.  For a layered buffer image `src`,
`icetComposite(dest, src, srcOnTop)` raises `INVALID_OPERATION` and then goes on as it
does for the flat image with the same header and arrays: the events and the destination
are those of that call, `INVALID_OPERATION` first. -/
theorem icetComposite_layered_source (fa : FloatArith) (st : IceTState) (dest : IceTImage)
    (src : IceTImageData) (srcOnTop : Bool)
    (hm : src.magic_num = (ICET_IMAGE_MAGIC_NUM ||| ICET_IMAGE_FLAG_LAYERED)) :
    icetComposite fa st dest (some src) srcOnTop
      = (icetComposite fa st dest (some { src with magic_num := ICET_IMAGE_MAGIC_NUM })
          srcOnTop).map fun r => (r.1, Event.raiseError .INVALID_OPERATION :: r.2) := by
  obtain ⟨a1, a2, a3, a4, a5⟩ := layered_accessors src hm
  have hl : icetImageIsLayered src = true := by
    unfold icetImageIsLayered; rw [hm]; decide
  have hl' : icetImageIsLayered { src with magic_num := ICET_IMAGE_MAGIC_NUM } = false := by
    show (ICET_IMAGE_MAGIC_NUM &&& ICET_IMAGE_FLAG_LAYERED != 0) = false
    decide
  unfold icetComposite
  simp only [hl, hl', a1, a2, a3, a4, a5, if_true, icetImageGetNumPixels,
    icetImageGetColorFormat, icetImageGetDepthFormat, Bool.false_eq_true, if_false,
    List.nil_append, List.singleton_append, List.cons_append]
  repeat' (first | rfl | (rw [Option.map_map]; rfl) | split)

/-- A layered source with two red fragments at depth 0.2 over two blue pixels at depth
0.9: the error is raised and the destination becomes red at depth 0.2. -/
theorem icetComposite_layered_source_witness :
    icetComposite unusedFloatArith zBufferState (some bluePair) (some layeredPair) true
      = some (some { bluePair with color := layeredPair.color, depth := layeredPair.depth },
          [.raiseError .INVALID_OPERATION, .timingBlendBegin, .timingBlendEnd])
    ∧ layeredPair.color ≠ bluePair.color ∧ layeredPair.depth ≠ bluePair.depth := by
  refine ⟨?_, by decide, by decide⟩
  rw [icetComposite_layered_source unusedFloatArith zBufferState (some bluePair) layeredPair
    true rfl]
  decide

/-! ### Adjusting an image for output -/

theorem baseMagicNum_buffer (m : Nat)
    (hmagic : m = ICET_IMAGE_MAGIC_NUM ∨ m = (ICET_IMAGE_MAGIC_NUM ||| ICET_IMAGE_FLAG_LAYERED)) :
    baseMagicNum m = ICET_IMAGE_MAGIC_NUM := by
  rcases hmagic with h | h <;> rw [h] <;> decide

theorem icetImageIsLayered_flat (i : IceTImageData) (hi : i.magic_num = ICET_IMAGE_MAGIC_NUM) :
    icetImageIsLayered i = false := by
  unfold icetImageIsLayered
  rw [hi]
  decide

theorem icetImagePackageForSend_flat (r : IceTImageData)
    (hm : r.magic_num = ICET_IMAGE_MAGIC_NUM)
    (hs : r.actual_buffer_size
      = icetImageBufferSizeType r.color_format r.depth_format r.width r.height)
    (hc : r.color_format ∈ [ColorFormat.RGBA_UBYTE, .RGBA_FLOAT, .RGB_FLOAT, .NONE])
    (hd : r.depth_format ∈ [DepthFormat.FLOAT, .NONE]) (hpos : 0 ≤ r.actual_buffer_size) :
    icetImagePackageForSend r = (r, r.actual_buffer_size, []) := by
  have hnn : ¬ r.actual_buffer_size < 0 := by omega
  unfold icetImagePackageForSend
  simp only [icetImageIsLayered_flat r hm, Bool.false_eq_true, if_false, hnn,
    fragmentSizeDiagnostics_valid _ _ hc hd, ← hs, ne_eq, not_true_eq_false, List.append_nil]

theorem icetImagePackageForSend_stale (r : IceTImageData)
    (hm : r.magic_num = ICET_IMAGE_MAGIC_NUM)
    (hs : r.actual_buffer_size
      ≠ icetImageBufferSizeType r.color_format r.depth_format r.width r.height) :
    Event.raiseError .SANITY_CHECK_FAIL ∈ (icetImagePackageForSend r).2.2 := by
  unfold icetImagePackageForSend
  simp only [icetImageIsLayered_flat r hm, Bool.false_eq_true, if_false, ne_eq, hs,
    not_false_eq_true, if_true, List.mem_append, List.mem_singleton, or_true]

theorem icetImageAdjustForOutput_eq (st : IceTState) (image : IceTImageData) :
    icetImageAdjustForOutput st (some image)
      = if st.composite_one_buffer = true
          ∧ (icetImageHeaderWritten image
              { image with magic_num := baseMagicNum image.magic_num }).color_format ≠ .NONE then
          icetImageSetDimensions
            (some { icetImageHeaderWritten image
                { image with magic_num := baseMagicNum image.magic_num } with
              depth_format := .NONE })
            (icetImageHeaderWritten image
              { image with magic_num := baseMagicNum image.magic_num }).width
            (icetImageHeaderWritten image
              { image with magic_num := baseMagicNum image.magic_num }).height
        else
          (some (icetImageHeaderWritten image
            { image with magic_num := baseMagicNum image.magic_num }), []) := by
  unfold icetImageAdjustForOutput
  simp only [icetImageGetColorFormat, icetImageGetWidth, icetImageGetHeight]
  split_ifs <;> first | rfl | (exfalso; tauto)

/-- Claim C29, where the code fails it.  `icetImageAdjustForOutput(image)` on a non-null
dense buffer image with `0 ≤ width*height ≤ max_num_pixels` clears the LAYERED flag of
the magic number and keeps width, height, `max_num_pixels` and the color format; if the
one-buffer composite mode is enabled and the color format is not NONE it also sets the
depth format to NONE and `actual_buffer_size` to the value of `icetImageBufferSizeType`
for the new header (`7*4 + width*height*colorPixelSize` when that is below `2^31`),
otherwise the depth format and `actual_buffer_size` stay as they are.  When the
one-buffer branch was taken, or the image was flat with `actual_buffer_size` equal to
the size computed from its header, `actual_buffer_size` afterwards equals the size
computed for the resulting flat header, and with formats of the data model and a size
that is not negative `icetImagePackageForSend` raises nothing.  A layered image outside
the one-buffer branch keeps the `actual_buffer_size` of the layered header: where that
differs from the size of the flat header, the sizes disagree afterwards and
`icetImagePackageForSend` raises `SANITY_CHECK_FAIL`.  Applying the operation a second
time changes nothing.  On the null image it does nothing. -/
theorem icetImageAdjustForOutput_spec (st : IceTState) (image : IceTImageData)
    (hmagic : image.magic_num = ICET_IMAGE_MAGIC_NUM
      ∨ image.magic_num = (ICET_IMAGE_MAGIC_NUM ||| ICET_IMAGE_FLAG_LAYERED))
    (hn : 0 ≤ image.width * image.height)
    (hinv : image.width * image.height ≤ image.max_num_pixels) :
    icetImageAdjustForOutput st none = (none, [])
    ∧ ∃ r ev, icetImageAdjustForOutput st (some image) = (some r, ev)
      ∧ r.magic_num = ICET_IMAGE_MAGIC_NUM ∧ icetImageIsLayered r = false
      ∧ r.width = image.width ∧ r.height = image.height
      ∧ r.max_num_pixels = image.max_num_pixels ∧ r.color_format = image.color_format
      ∧ (st.composite_one_buffer = true ∧ image.color_format ≠ .NONE →
          r.depth_format = .NONE
          ∧ r.actual_buffer_size
            = icetImageBufferSizeType image.color_format .NONE image.width image.height
          ∧ (7 * 4 + image.width * image.height * colorPixelSize image.color_format
                < 2 ^ 31 →
              r.actual_buffer_size
                = 7 * 4 + image.width * image.height * colorPixelSize image.color_format))
      ∧ (¬ (st.composite_one_buffer = true ∧ image.color_format ≠ .NONE) →
          r.depth_format = image.depth_format
          ∧ r.actual_buffer_size = image.actual_buffer_size ∧ ev = [])
      ∧ ((st.composite_one_buffer = true ∧ image.color_format ≠ .NONE)
          ∨ (image.magic_num = ICET_IMAGE_MAGIC_NUM
            ∧ image.actual_buffer_size
              = icetImageBufferSizeType image.color_format image.depth_format image.width
                  image.height) →
          r.actual_buffer_size
              = icetImageBufferSizeType r.color_format r.depth_format r.width r.height
          ∧ (image.color_format ∈ [ColorFormat.RGBA_UBYTE, .RGBA_FLOAT, .RGB_FLOAT, .NONE] →
              image.depth_format ∈ [DepthFormat.FLOAT, .NONE] →
              0 ≤ r.actual_buffer_size →
              icetImagePackageForSend r = (r, r.actual_buffer_size, [])))
      ∧ (¬ (st.composite_one_buffer = true ∧ image.color_format ≠ .NONE) →
          image.magic_num = (ICET_IMAGE_MAGIC_NUM ||| ICET_IMAGE_FLAG_LAYERED) →
          image.actual_buffer_size
            = icetLayeredImageBufferSizeType image.color_format image.depth_format
                image.width image.height image.num_layers →
          icetLayeredImageBufferSizeType image.color_format image.depth_format image.width
              image.height image.num_layers
            ≠ icetImageBufferSizeType image.color_format image.depth_format image.width
                image.height →
          r.actual_buffer_size
              ≠ icetImageBufferSizeType r.color_format r.depth_format r.width r.height
          ∧ Event.raiseError .SANITY_CHECK_FAIL ∈ (icetImagePackageForSend r).2.2)
      ∧ icetImageAdjustForOutput st (some r) = (some r, ev) := by
  have hb : baseMagicNum image.magic_num = ICET_IMAGE_MAGIC_NUM :=
    baseMagicNum_buffer _ hmagic
  have hbb : baseMagicNum ICET_IMAGE_MAGIC_NUM = ICET_IMAGE_MAGIC_NUM := by decide
  obtain ⟨e1, e2, e3, e4, e5, e6, e7, e8, e9⟩ :=
    icetImageHeaderWritten_header image { image with magic_num := baseMagicNum image.magic_num }
  simp only [] at e1 e2 e3 e4 e5 e6 e7 e8 e9
  generalize hD : icetImageHeaderWritten image
    { image with magic_num := baseMagicNum image.magic_num } = D at e1 e2 e3 e4 e5 e6 e7 e8 e9
  have hDm : D.magic_num = ICET_IMAGE_MAGIC_NUM := e1.trans hb
  have hDD : icetImageHeaderWritten D { D with magic_num := baseMagicNum D.magic_num } = D := by
    rw [hDm, hbb]
    have : ({ D with magic_num := ICET_IMAGE_MAGIC_NUM } : IceTImageData) = D := by
      cases D
      simp only [] at hDm
      subst hDm
      rfl
    rw [this]
    exact icetImageHeaderWritten_self D
  have hflat : ({ D with magic_num := ICET_IMAGE_MAGIC_NUM } : IceTImageData) = D := by
    cases D
    simp only [] at hDm
    subst hDm
    rfl
  refine ⟨rfl, ?_⟩
  by_cases hone : st.composite_one_buffer = true ∧ image.color_format ≠ .NONE
  · have honeD : st.composite_one_buffer = true ∧ D.color_format ≠ .NONE :=
      ⟨hone.1, by rw [e2]; exact hone.2⟩
    have hset := icetImageSetDimensions_flat { D with depth_format := .NONE } D.width D.height
      hDm (by rw [e4, e5]; exact hn) (by rw [e4, e5, e6]; exact hinv) rfl
    have hadj : icetImageAdjustForOutput st (some image)
        = (some { D with
            depth_format := .NONE
            actual_buffer_size :=
              icetImageBufferSizeType D.color_format .NONE D.width D.height },
          fragmentSizeDiagnostics D.color_format .NONE) := by
      rw [icetImageAdjustForOutput_eq, hD, if_pos honeD]
      exact hset
    refine ⟨_, _, hadj, hDm, icetImageIsLayered_flat _ hDm, e4, e5, e6, e2, ?_, ?_, ?_, ?_, ?_⟩
    · intro _
      refine ⟨rfl, ?_, fun hsz => ?_⟩
      · show icetImageBufferSizeType D.color_format .NONE D.width D.height = _
        rw [e2, e4, e5]
      · show icetImageBufferSizeType D.color_format .NONE D.width D.height = _
        rw [e2, e4, e5, icetImageBufferSizeType_eq_wrap]
        simp only [depthPixelSize, ICET_IMAGE_DATA_START_INDEX, SIZEOF_WORD, add_zero]
        have hc0 : 0 ≤ colorPixelSize image.color_format := by
          have := fragmentSize_nonneg image.color_format .NONE
          simpa [depthPixelSize] using this
        have := Int.mul_nonneg hn hc0
        exact wrapSizeType_of_fits _ (by norm_num; omega) (by norm_num at hsz ⊢; omega)
    · intro hno
      exact absurd hone hno
    · intro _
      refine ⟨rfl, ?_⟩
      intro hc _ hpos
      exact icetImagePackageForSend_flat _ hDm rfl (by show D.color_format ∈ _; rw [e2]; exact hc)
        (by simp) hpos
    · intro hno
      exact absurd hone hno
    · rw [icetImageAdjustForOutput_eq]
      have hRw : ({ D with
            magic_num := baseMagicNum D.magic_num
            depth_format := .NONE
            actual_buffer_size :=
              icetImageBufferSizeType D.color_format .NONE D.width D.height } : IceTImageData)
          = { D with
            depth_format := .NONE
            actual_buffer_size :=
              icetImageBufferSizeType D.color_format .NONE D.width D.height } := by
        rw [hDm, hbb]
      have hw3 : icetImageHeaderWritten
          { D with
            depth_format := .NONE
            actual_buffer_size :=
              icetImageBufferSizeType D.color_format .NONE D.width D.height }
          { D with
            magic_num := baseMagicNum D.magic_num
            depth_format := .NONE
            actual_buffer_size :=
              icetImageBufferSizeType D.color_format .NONE D.width D.height }
          = { D with
            depth_format := .NONE
            actual_buffer_size :=
              icetImageBufferSizeType D.color_format .NONE D.width D.height } := by
        rw [hRw]
        exact icetImageHeaderWritten_self _
      show (if st.composite_one_buffer = true
          ∧ (icetImageHeaderWritten _ _).color_format ≠ .NONE then
          icetImageSetDimensions
            (some { icetImageHeaderWritten _ _ with depth_format := .NONE })
            (icetImageHeaderWritten _ _).width (icetImageHeaderWritten _ _).height
        else (some (icetImageHeaderWritten _ _), [])) = _
      rw [hw3, if_pos honeD]
      exact icetImageSetDimensions_flat
        { D with
          depth_format := .NONE
          actual_buffer_size :=
            icetImageBufferSizeType D.color_format .NONE D.width D.height }
        D.width D.height hDm (by rw [e4, e5]; exact hn) (by rw [e4, e5, e6]; exact hinv) rfl
  · have honeD : ¬ (st.composite_one_buffer = true ∧ D.color_format ≠ .NONE) := by
      rw [e2]; exact hone
    have hadj : icetImageAdjustForOutput st (some image) = (some D, []) := by
      rw [icetImageAdjustForOutput_eq, hD, if_neg honeD]
    refine ⟨_, _, hadj, hDm, icetImageIsLayered_flat _ hDm, e4, e5, e6, e2, ?_, ?_, ?_, ?_, ?_⟩
    · intro h
      exact absurd h hone
    · intro _
      exact ⟨e3, e7, rfl⟩
    · rintro (h | ⟨hm, hs⟩)
      · exact absurd h hone
      · have hs' : D.actual_buffer_size
            = icetImageBufferSizeType D.color_format D.depth_format D.width D.height := by
          rw [e2, e3, e4, e5, e7]; exact hs
        refine ⟨hs', ?_⟩
        intro hc hd hpos
        exact icetImagePackageForSend_flat _ hDm hs' (by rw [e2]; exact hc)
          (by rw [e3]; exact hd) hpos
    · intro _ _ hs hne
      have hs' : D.actual_buffer_size
          ≠ icetImageBufferSizeType D.color_format D.depth_format D.width D.height := by
        rw [e2, e3, e4, e5, e7, hs]; exact hne
      exact ⟨hs', icetImagePackageForSend_stale _ hDm hs'⟩
    · rw [icetImageAdjustForOutput_eq, hDD, if_neg honeD]

/-- The failing input of C29: the layered 2x1 RGBA8 + D32F buffer image `layeredPair`
(one layer, `actual_buffer_size` 48) outside the one-buffer mode.  The result is a flat
image that keeps `actual_buffer_size` 48 where its header gives 44, and
`icetImagePackageForSend` raises `SANITY_CHECK_FAIL`; its color array starts at the four
bytes of the layer count. -/
theorem icetImageAdjustForOutput_spec_witness :
    layeredPair.actual_buffer_size = 48
    ∧ ∃ r ev, icetImageAdjustForOutput zBufferState (some layeredPair) = (some r, ev)
      ∧ r.magic_num = ICET_IMAGE_MAGIC_NUM
      ∧ r.actual_buffer_size = 48
      ∧ icetImageBufferSizeType r.color_format r.depth_format r.width r.height = 44
      ∧ Event.raiseError .SANITY_CHECK_FAIL ∈ (icetImagePackageForSend r).2.2
      ∧ r.color.take 8 = [1, 0, 0, 0, 255, 0, 0, 255] := by
  obtain ⟨-, r, ev, h1, h2, -, h3, h4, -, h5, -, h6, -, h7, -⟩ :=
    icetImageAdjustForOutput_spec zBufferState layeredPair (Or.inr rfl) (by decide) (by decide)
  have hno : ¬ (zBufferState.composite_one_buffer = true
      ∧ layeredPair.color_format ≠ .NONE) := by decide
  have h6' := h6 hno
  have h7' := h7 hno rfl (by decide) (by decide)
  refine ⟨by decide, r, ev, h1, h2, ?_, ?_, h7'.2, ?_⟩
  · rw [h6'.2.1]; decide
  · rw [h5, h6'.1, h3, h4]; decide
  · have : (icetImageAdjustForOutput zBufferState (some layeredPair)).1.map
        (fun r => r.color.take 8) = some [1, 0, 0, 0, 255, 0, 0, 255] := by decide
    rw [h1] at this
    simpa using this

/-! ### Correcting the background -/

theorem correctBackgroundUbyteLoop_spec (bc D0 : List Nat) (n : Nat) :
    let m := (List.range n).foldl
      (fun m p => ICET_UNDER_UBYTE (.src 0) (.dest (4 * p)) m)
      ({ src := bc, dest := D0 } : BlendMem)
    m.src = bc ∧ m.dest.length = D0.length ∧
    ∀ k, m.dest.getD k 0
      = if k < 4 * n ∧ k < D0.length then
          ((bc.getD (k % 4) 0 * (255 - D0.getD (4 * (k / 4) + 3) 0)) / 255 + D0.getD k 0) % 256
        else D0.getD k 0 := by
  induction n with
  | zero => simp
  | succ n ih =>
    simp only [List.range_succ, List.foldl_append, List.foldl_cons, List.foldl_nil]
    obtain ⟨h1, h2, h3⟩ := ih
    generalize (List.range n).foldl _ ({ src := bc, dest := D0 } : BlendMem) = m at h1 h2 h3
    refine ⟨by rw [ICET_UNDER_UBYTE_src, h1], by rw [ICET_UNDER_UBYTE_length, h2], ?_⟩
    intro k
    rw [ICET_UNDER_UBYTE_getD, h2, h1, h3 k, h3 (4 * n + 3)]
    have hk0 : ¬ (4 * n + 3 < 4 * n ∧ 4 * n + 3 < D0.length) := by omega
    rw [if_neg hk0]
    by_cases hk : 4 * n ≤ k ∧ k < 4 * n + 4 ∧ k < D0.length
    · have hq : k / 4 = n := by omega
      have hk2 : k < 4 * (n + 1) ∧ k < D0.length := by omega
      have hk3 : ¬ (k < 4 * n ∧ k < D0.length) := by omega
      have e2 : 0 + (k - 4 * n) = k % 4 := by omega
      rw [if_pos hk, if_pos hk2, if_neg hk3, e2, hq]
    · rw [if_neg hk]
      by_cases hk3 : k < 4 * n ∧ k < D0.length
      · have hk2 : k < 4 * (n + 1) ∧ k < D0.length := by omega
        rw [if_pos hk3, if_pos hk2]
      · have hk2 : ¬ (k < 4 * (n + 1) ∧ k < D0.length) := by omega
        rw [if_neg hk3, if_neg hk2]

/-- Claim C30, as stated, is refuted.  With the true background `(255, 255, 255, 255)`
the fragment color `(255, 0, 0, 0)` has `(bg[0] * (255 - c[3])) / 255 + c[0] = 510` in
channel 0; `icetImageCorrectBackground` stores 254, the sum cast to a byte.  (The opaque
fragment `(9, 8, 7, 255)` is unchanged.) -/
theorem icetImageCorrectBackground_wraps :
    icetImageCorrectBackground unusedFloatArith whiteBackgroundState correctionPair
      = some ({ correctionPair with color := [254, 255, 255, 255, 9, 8, 7, 255] },
          [.timingBlendBegin, .timingBlendEnd])
    ∧ (whiteBackgroundState.true_background_color_word.getD 0 0
          * (255 - correctionPair.color.getD 3 0)) / 255 + correctionPair.color.getD 0 0
        = 510 := by
  decide

theorem under_fits_byte (bg a c : Nat) (hbg : bg ≤ 255) (hc : c ≤ a) (ha : a ≤ 255) :
    (bg * (255 - a)) / 255 + c < 256 := by
  have h1 : bg * (255 - a) ≤ 255 * (255 - a) := Nat.mul_le_mul_right _ hbg
  have h2 : (bg * (255 - a)) / 255 ≤ 255 - a := by
    apply Nat.div_le_of_le_mul
    exact h1
  omega

/-- Claim C30, amended.  `icetImageCorrectBackground(image)` on a dense buffer image: when
background correction is needed and the color format is RGBA8, every fragment color `c`
of the image (`width*height` fragments, times `num_layers` for a layered image) becomes
`ICET_UNDER_UBYTE(true background, c)`: each channel `k` becomes `(bg[k] * (255 - c[3]))
/ 255 + c[k]` reduced modulo 256.  The sum needs no reduction when `bg[k]` is a byte and
`c[k] ≤ c[3] ≤ 255`; so a fragment with alpha 255 is unchanged and a fragment
`(0, 0, 0, 0)` becomes the true background color.  The depth values and the header are
never changed; when correction is not needed, or the color format is RGB32F, the image
is unchanged. -/
theorem icetImageCorrectBackground_spec (fa : FloatArith) (st : IceTState)
    (image : IceTImageData)
    (hmagic : image.magic_num = ICET_IMAGE_MAGIC_NUM
      ∨ image.magic_num = (ICET_IMAGE_MAGIC_NUM ||| ICET_IMAGE_FLAG_LAYERED)) :
    (st.need_background_correction = false →
      icetImageCorrectBackground fa st image = some (image, []))
    ∧ (st.need_background_correction = true → image.color_format = .RGB_FLOAT →
      icetImageCorrectBackground fa st image
        = some (image, [.timingBlendBegin, .timingBlendEnd]))
    ∧ (st.need_background_correction = true → image.color_format = .RGBA_UBYTE →
      ∀ F : Nat,
      F = (if icetImageIsLayered image then image.width * image.height * image.num_layers
            else image.width * image.height).toNat →
      4 * F ≤ image.color.length →
      ∃ color, icetImageCorrectBackground fa st image
          = some ({ image with color := color }, [.timingBlendBegin, .timingBlendEnd])
        ∧ color.length = image.color.length
        ∧ (∀ k, 4 * F ≤ k → color.getD k 0 = image.color.getD k 0)
        ∧ ∀ p k, p < F → k < 4 →
            color.getD (4 * p + k) 0
              = ((st.true_background_color_word.getD k 0
                    * (255 - image.color.getD (4 * p + 3) 0)) / 255
                  + image.color.getD (4 * p + k) 0) % 256
            ∧ (st.true_background_color_word.getD k 0 ≤ 255 →
                image.color.getD (4 * p + k) 0 ≤ image.color.getD (4 * p + 3) 0 →
                image.color.getD (4 * p + 3) 0 ≤ 255 →
                color.getD (4 * p + k) 0
                  = (st.true_background_color_word.getD k 0
                      * (255 - image.color.getD (4 * p + 3) 0)) / 255
                    + image.color.getD (4 * p + k) 0)
            ∧ (image.color.getD (4 * p + 3) 0 = 255 → image.color.getD (4 * p + k) 0 ≤ 255 →
                color.getD (4 * p + k) 0 = image.color.getD (4 * p + k) 0)
            ∧ (image.color.getD (4 * p + 3) 0 = 0 → image.color.getD (4 * p + k) 0 = 0 →
                st.true_background_color_word.getD k 0 ≤ 255 →
                color.getD (4 * p + k) 0 = st.true_background_color_word.getD k 0)) := by
  refine ⟨?_, ?_, ?_⟩
  · intro hn
    simp [icetImageCorrectBackground, hn]
  · intro hn hc
    simp [icetImageCorrectBackground, hn, icetImageGetColorFormat, hc]
  · intro hn hc F hF hlen
    have hmg : isImageMagic image.magic_num = true := by
      rcases hmagic with h | h <;> rw [h] <;> decide
    have hnp : image.magic_num ≠ ICET_IMAGE_POINTERS_MAGIC_NUM := by
      rcases hmagic with h | h <;> rw [h] <;> decide
    have hub : icetImageGetColorub image = (some image.color, []) := by
      simp [icetImageGetColorub, icetImageGetColorVoid, icetImageGetColorConstVoid, hc, hmg, hnp]
    obtain ⟨-, hl, hv⟩ := correctBackgroundUbyteLoop_spec st.true_background_color_word
      image.color F
    refine ⟨correctBackgroundUbyteLoop
      (if icetImageIsLayered image then icetImageGetNumPixels (some image) * image.num_layers
        else icetImageGetNumPixels (some image)) st.true_background_color_word image.color,
      ?_, ?_, ?_, ?_⟩
    · unfold icetImageCorrectBackground
      simp only [hn, not_true_eq_false, if_false, icetImageGetColorFormat, hc, hub,
        List.append_nil, List.singleton_append]
      have hg : guardPointers
          (if icetImageIsLayered image then
            icetImageGetNumPixels (some image) * image.num_layers
          else icetImageGetNumPixels (some image)) [some image.color] = some () := by
        unfold guardPointers
        split_ifs <;> first | rfl | simp_all
      rw [hg]
      rfl
    · unfold correctBackgroundUbyteLoop
      simp only [icetImageGetNumPixels]
      rw [← hF]
      exact hl
    · intro k hk
      unfold correctBackgroundUbyteLoop
      simp only [icetImageGetNumPixels]
      rw [← hF, hv k, if_neg (by omega)]
    · intro p k hp hk
      have hval : (correctBackgroundUbyteLoop
          (if icetImageIsLayered image then
            icetImageGetNumPixels (some image) * image.num_layers
          else icetImageGetNumPixels (some image)) st.true_background_color_word
            image.color).getD (4 * p + k) 0
          = ((st.true_background_color_word.getD k 0
                * (255 - image.color.getD (4 * p + 3) 0)) / 255
              + image.color.getD (4 * p + k) 0) % 256 := by
        unfold correctBackgroundUbyteLoop
        simp only [icetImageGetNumPixels]
        rw [← hF, hv (4 * p + k), if_pos (by omega)]
        have e1 : (4 * p + k) % 4 = k := by omega
        have e2 : (4 * p + k) / 4 = p := by omega
        rw [e1, e2]
      refine ⟨hval, ?_, ?_, ?_⟩
      · intro hbg hca ha
        rw [hval, Nat.mod_eq_of_lt (under_fits_byte _ _ _ hbg hca ha)]
      · intro ha hcb
        rw [hval, ha]
        simp only [Nat.sub_self, Nat.mul_zero, Nat.zero_div, Nat.zero_add]
        exact Nat.mod_eq_of_lt (by omega)
      · intro ha hz hbg
        rw [hval, ha, hz]
        simp only [Nat.sub_zero, Nat.add_zero]
        rw [Nat.mul_div_cancel _ (by decide : 0 < 255)]
        exact Nat.mod_eq_of_lt (by omega)

/-- The opaque second fragment of the 2x1 example keeps its color. -/
theorem icetImageCorrectBackground_spec_witness :
    ∃ color, icetImageCorrectBackground unusedFloatArith whiteBackgroundState correctionPair
        = some ({ correctionPair with color := color }, [.timingBlendBegin, .timingBlendEnd])
      ∧ color.getD (4 * 1 + 0) 0 = 9 ∧ color.getD (4 * 0 + 0) 0 = 254 := by
  obtain ⟨color, h1, -, -, h2⟩ :=
    (icetImageCorrectBackground_spec unusedFloatArith whiteBackgroundState correctionPair
      (Or.inl rfl)).2.2 rfl rfl 2 (by decide) (by decide)
  refine ⟨color, h1, ?_, ?_⟩
  · rw [(h2 1 0 (by decide) (by decide)).2.2.1 (by decide) (by decide)]
    decide
  · rw [(h2 0 0 (by decide) (by decide)).1]
    decide


/-! ### Copying pixels between dense images -/

/-- Claim C25, evaluated where it fails.  `in` is a layered 2x1 image with two layers
whose fragments have the depths 0.25, 0.375 (pixel 0) and 0.5, 0.75 (pixel 1); `out` has
the same shape and depth 1.0 everywhere.  `icetImageCopyPixels(in, 1, out, 0, 1)` raises
nothing and leaves the depths 0.375, 1.0 in pixel 0 of `out`: it copies one depth value
from index 1 to index 0, because the depth accessor does not multiply the pixel size by
the number of layers (the color accessor does).  The claim asks for 0.5, 0.75, the
depths of the two fragments of pixel 1 of `in`. -/
theorem icetImageCopyPixels_layered_depth :
    icetImageCopyPixels layeredDepths 1 layeredFar 0 1
      = some ({ layeredFar with depth := [0x3EC00000, FLOAT_ONE, FLOAT_ONE, FLOAT_ONE] }, [])
    ∧ copyLayers layeredDepths = 2 ∧ copyLayers layeredFar = 2
    ∧ loadElements (2 * 1) 2 layeredDepths.depth = [0x3F000000, 0x3F400000]
    ∧ colorPixelElements { layeredDepths with color_format := .RGBA_UBYTE } = 4 * 2
    ∧ depthPixelElements layeredDepths = 1 := by
  decide

theorem memcpyElements_nat (dest src : List Nat) (d s n : Nat)
    (hs : s + n ≤ src.length) (hd : d + n ≤ dest.length) :
    memcpyElements dest (d : Int) src (s : Int) (n : Int)
      = some (storeElements d (loadElements s n src) dest) := by
  unfold memcpyElements
  rw [if_pos ⟨Int.ofNat_nonneg _, Int.ofNat_nonneg _, by exact_mod_cast hs,
    Int.ofNat_nonneg _, by exact_mod_cast hd⟩]
  simp only [Int.toNat_ofNat]

theorem memcpy_getD (dest src : List Nat) (d s n k : Nat) (hd : d + n ≤ dest.length) :
    (storeElements d (loadElements s n src) dest).getD k 0
      = if d ≤ k ∧ k < d + n then src.getD (s + (k - d)) 0 else dest.getD k 0 := by
  rw [storeElements_getD, loadElements_length, loadElements_getD]
  by_cases h : d ≤ k ∧ k < d + n
  · rw [if_pos ⟨h.1, h.2, by omega⟩, if_pos h, if_pos (by omega)]
  · rw [if_neg h, if_neg (by omega)]

theorem copyRegionLoop_spec (ss ds cnt : Nat) (src : List Nat) (rows so d0 : Nat)
    (dest : List Nat) (hcnt : cnt ≤ ds)
    (hsrc : ∀ j < rows, so + j * ss + cnt ≤ src.length)
    (hdst : ∀ j < rows, d0 + j * ds + cnt ≤ dest.length) :
    ∃ r, copyRegionLoop (ss : Int) (ds : Int) (cnt : Int) src rows (so : Int) (d0 : Int) dest
        = some r
      ∧ r.length = dest.length
      ∧ (∀ j t, j < rows → t < cnt →
          r.getD (d0 + j * ds + t) 0 = src.getD (so + j * ss + t) 0)
      ∧ ∀ k, (∀ j < rows, k < d0 + j * ds ∨ d0 + j * ds + cnt ≤ k) →
          r.getD k 0 = dest.getD k 0 := by
  induction rows generalizing so d0 dest with
  | zero =>
    exact ⟨dest, rfl, rfl, fun j t hj => absurd hj (Nat.not_lt_zero _), fun k _ => rfl⟩
  | succ rows ih =>
    have hs0 := hsrc 0 (Nat.succ_pos _)
    have hd0 := hdst 0 (Nat.succ_pos _)
    rw [Nat.zero_mul, Nat.add_zero] at hs0 hd0
    obtain ⟨r, hr, hlen, hin, hout⟩ := ih (so + ss) (d0 + ds)
      (storeElements d0 (loadElements so cnt src) dest)
      (fun j hj => by
        have := hsrc (j + 1) (by omega)
        rw [Nat.succ_mul] at this
        omega)
      (fun j hj => by
        have := hdst (j + 1) (by omega)
        rw [Nat.succ_mul] at this
        rw [storeElements_length]
        omega)
    refine ⟨r, ?_, ?_, ?_, ?_⟩
    · unfold copyRegionLoop
      rw [memcpyElements_nat dest src d0 so cnt hs0 hd0, Option.some_bind]
      have e1 : (so : Int) + (ss : Int) = ((so + ss : Nat) : Int) := by push_cast; rfl
      have e2 : (d0 : Int) + (ds : Int) = ((d0 + ds : Nat) : Int) := by push_cast; rfl
      rw [e1, e2]
      exact hr
    · rw [hlen, storeElements_length]
    · intro j t hj ht
      cases j with
      | zero =>
        rw [Nat.zero_mul, Nat.add_zero, Nat.zero_mul, Nat.add_zero]
        rw [hout (d0 + t) (fun j' _ => Or.inl (by
          have : 0 ≤ j' * ds := Nat.zero_le _
          omega))]
        rw [memcpy_getD _ _ _ _ _ _ hd0, if_pos (by omega)]
        congr 1
        omega
      | succ j =>
        have := hin j t (by omega) ht
        rw [Nat.succ_mul, Nat.succ_mul]
        have e1 : d0 + (j * ds + ds) + t = d0 + ds + j * ds + t := by omega
        have e2 : so + (j * ss + ss) + t = so + ss + j * ss + t := by omega
        rw [e1, e2]
        exact this
    · intro k hk
      rw [hout k (fun j hj => by
        have := hk (j + 1) (by omega)
        rw [Nat.succ_mul] at this
        omega)]
      have h0 := hk 0 (Nat.succ_pos _)
      rw [Nat.zero_mul, Nat.add_zero] at h0
      rw [memcpy_getD _ _ _ _ _ _ hd0, if_neg (by omega)]

theorem row_window (W x y y' lo w : Nat) (hx : x < W) (hw : lo + w ≤ W)
    (h1 : y' * W + lo ≤ y * W + x) (h2 : y * W + x < y' * W + lo + w) :
    y = y' ∧ lo ≤ x ∧ x < lo + w := by
  rcases Nat.lt_trichotomy y y' with hlt | heq | hgt
  · have := Nat.mul_le_mul_right W (show y + 1 ≤ y' from hlt)
    rw [Nat.succ_mul] at this
    omega
  · subst heq
    exact ⟨rfl, by omega, by omega⟩
  · have := Nat.mul_le_mul_right W (show y' + 1 ≤ y from hgt)
    rw [Nat.succ_mul] at this
    omega

theorem scaled_window (c A B w t : Nat) (ht : t < c)
    (h1 : c * A ≤ c * B + t) (h2 : c * B + t < c * A + c * w) : A ≤ B ∧ B < A + w := by
  constructor
  · by_contra hcon
    have := Nat.mul_le_mul_left c (show B + 1 ≤ A by omega)
    rw [Nat.mul_succ] at this
    omega
  · by_contra hcon
    have := Nat.mul_le_mul_left c (show A + w ≤ B by omega)
    rw [Nat.mul_add] at this
    omega

theorem copyRegion_array (c : Nat) (src dest : List Nat)
    (Win Hin Wout Hout ix iy ox oy w h : Nat)
    (hix : ix + w ≤ Win) (hiy : iy + h ≤ Hin) (hox : ox + w ≤ Wout) (hoy : oy + h ≤ Hout)
    (hsrc : c * (Win * Hin) ≤ src.length) (hdst : c * (Wout * Hout) ≤ dest.length) :
    ∃ r, copyRegionLoop ((Win : Int) * (c : Int)) ((Wout : Int) * (c : Int))
        ((w : Int) * (c : Int)) src h
        ((iy : Int) * (Win : Int) * (c : Int) + (ix : Int) * (c : Int))
        ((oy : Int) * (Wout : Int) * (c : Int) + (ox : Int) * (c : Int)) dest = some r
      ∧ r.length = dest.length
      ∧ ∀ x y, x < Wout → y < Hout →
          loadElements (c * (y * Wout + x)) c r
            = if ox ≤ x ∧ x < ox + w ∧ oy ≤ y ∧ y < oy + h then
                loadElements (c * ((iy + (y - oy)) * Win + (ix + (x - ox)))) c src
              else loadElements (c * (y * Wout + x)) c dest := by
  have hrow : ∀ (W H i0 j0 : Nat) (j : Nat), i0 + w ≤ W → j0 + h ≤ H → j < h →
      j0 * W * c + i0 * c + j * (W * c) + w * c ≤ c * (W * H) := by
    intro W H i0 j0 j hi hj hjh
    have e : j0 * W * c + i0 * c + j * (W * c) + w * c = c * ((j0 + j) * W + (i0 + w)) := by ring
    rw [e]
    apply Nat.mul_le_mul_left
    have := Nat.mul_le_mul_left W (show j0 + j + 1 ≤ H by omega)
    have e2 : W * (j0 + j + 1) = (j0 + j) * W + W := by ring
    rw [e2] at this
    omega
  obtain ⟨r, hr, hlen, hin, hout⟩ := copyRegionLoop_spec (Win * c) (Wout * c) (w * c) src h
    (iy * Win * c + ix * c) (oy * Wout * c + ox * c) dest
    (Nat.mul_le_mul_right c (by omega))
    (fun j hj => Nat.le_trans (hrow Win Hin ix iy j hix hiy hj) hsrc)
    (fun j hj => Nat.le_trans (hrow Wout Hout ox oy j hox hoy hj) hdst)
  refine ⟨r, ?_, hlen, ?_⟩
  · have := hr
    push_cast at this
    exact this
  · intro x y hx hy
    apply ext_getD
    · split_ifs <;> simp [loadElements_length]
    · intro t ht
      rw [loadElements_length] at ht
      rw [loadElements_getD, if_pos ht]
      by_cases hv : ox ≤ x ∧ x < ox + w ∧ oy ≤ y ∧ y < oy + h
      · rw [if_pos hv, loadElements_getD, if_pos ht]
        obtain ⟨i, rfl⟩ : ∃ i, x = ox + i := ⟨x - ox, by omega⟩
        obtain ⟨j, rfl⟩ : ∃ j, y = oy + j := ⟨y - oy, by omega⟩
        have hi : i < w := by omega
        have hj : j < h := by omega
        have hit : i * c + t < w * c := by
          have := Nat.mul_le_mul_right c (show i + 1 ≤ w from hi)
          rw [Nat.succ_mul] at this
          omega
        have := hin j (i * c + t) hj hit
        have e1 : c * ((oy + j) * Wout + (ox + i)) + t
            = oy * Wout * c + ox * c + j * (Wout * c) + (i * c + t) := by ring
        have e2 : c * ((iy + (oy + j - oy)) * Win + (ix + (ox + i - ox))) + t
            = iy * Win * c + ix * c + j * (Win * c) + (i * c + t) := by
          rw [Nat.add_sub_cancel_left, Nat.add_sub_cancel_left]
          ring
        rw [e1, e2]
        exact this
      · rw [if_neg hv, loadElements_getD, if_pos ht]
        apply hout
        intro j hj
        by_contra hcon
        have hc1 : oy * Wout * c + ox * c + j * (Wout * c) ≤ c * (y * Wout + x) + t := by omega
        have hc2 : c * (y * Wout + x) + t < oy * Wout * c + ox * c + j * (Wout * c) + w * c := by
          omega
        have e1 : oy * Wout * c + ox * c + j * (Wout * c) = c * ((oy + j) * Wout + ox) := by ring
        have e3 : w * c = c * w := Nat.mul_comm _ _
        rw [e1] at hc1
        rw [e1, e3] at hc2
        obtain ⟨g1, g2⟩ := scaled_window c _ _ w t ht hc1 hc2
        obtain ⟨k1, k2, k3⟩ := row_window Wout x y (oy + j) ox w hx hox g1 (by omega)
        exact hv ⟨k2, k3, by omega, by omega⟩


theorem flat_not_layered (image : IceTImageData)
    (h : image.magic_num = ICET_IMAGE_MAGIC_NUM
      ∨ image.magic_num = ICET_IMAGE_POINTERS_MAGIC_NUM) :
    icetImageIsLayered image = false ∧ isImageMagic image.magic_num = true := by
  unfold icetImageIsLayered
  rcases h with h | h <;> rw [h] <;> exact ⟨by decide, by decide⟩

theorem colorPixelSizeDiagnostics_valid (cf : ColorFormat)
    (hc : cf ∈ [ColorFormat.RGBA_UBYTE, .RGBA_FLOAT, .RGB_FLOAT, .NONE]) :
    colorPixelSizeDiagnostics cf = [] := by
  cases cf <;> simp at hc <;> rfl

theorem depthPixelSizeDiagnostics_valid (df : DepthFormat)
    (hd : df ∈ [DepthFormat.FLOAT, .NONE]) : depthPixelSizeDiagnostics df = [] := by
  cases df <;> simp at hd <;> rfl

theorem toNat_row_major (y W x : Nat) :
    ((y : Int) * (W : Int) + (x : Int)).toNat = y * W + x := by
  have : (y : Int) * (W : Int) + (x : Int) = ((y * W + x : Nat) : Int) := by push_cast; rfl
  rw [this, Int.toNat_ofNat]

theorem select_load (c : Nat) (cond : Prop) [Decidable cond] (hc0 : ¬ cond → c = 0)
    (r other target : List Nat) (i j : Nat)
    (h : loadElements (c * i) c r = loadElements (c * j) c target) :
    loadElements (c * i) c (if cond then r else other) = loadElements (c * j) c target := by
  by_cases hcond : cond
  · rw [if_pos hcond]; exact h
  · rw [if_neg hcond, hc0 hcond]
    simp [loadElements]

theorem colorChannels_none (cf : ColorFormat) (h : ¬ cf ≠ .NONE) : colorChannels cf = 0 := by
  have : cf = .NONE := by simpa using h
  rw [this]; rfl

theorem depthChannels_none (df : DepthFormat) (h : ¬ df ≠ .NONE) : depthChannels df = 0 := by
  have : df = .NONE := by simpa using h
  rw [this]; rfl

/-- Claim C26.  For every pair of non-layered dense images in different buffers, of the
same color and depth format (formats of the data model; `out` a buffer image, which is
writable) whose arrays hold their `width*height` pixels, and viewports `(ix, iy, w, h)` inside `in` and `(ox,
oy, w, h)` inside `out`, `icetImageCopyRegion` raises nothing, keeps the header of `out`
and makes the color and depth of `out` pixel `(ox + i, oy + j)` equal to those of `in`
pixel `(ix + i, iy + j)` for all `0 ≤ i < w`, `0 ≤ j < h`, pixels being addressed as
`y*width + x`; every other pixel of `out` is unchanged.  For any two images and
viewports, if the formats differ or the viewports differ in width or height, it raises
`INVALID_VALUE` and changes nothing. -/
theorem icetImageCopyRegion_spec (in_image out_image : IceTImageData)
    (ix iy w h ox oy : Int)
    (hin : in_image.magic_num = ICET_IMAGE_MAGIC_NUM
      ∨ in_image.magic_num = ICET_IMAGE_POINTERS_MAGIC_NUM)
    (hout : out_image.magic_num = ICET_IMAGE_MAGIC_NUM)
    (hvc : in_image.color_format ∈ [ColorFormat.RGBA_UBYTE, .RGBA_FLOAT, .RGB_FLOAT, .NONE])
    (hvd : in_image.depth_format ∈ [DepthFormat.FLOAT, .NONE])
    (hcf : in_image.color_format = out_image.color_format)
    (hdf : in_image.depth_format = out_image.depth_format)
    (hdist : in_image.address ≠ out_image.address)
    (hix : 0 ≤ ix) (hiy : 0 ≤ iy) (hw : 0 ≤ w) (hh : 0 ≤ h) (hox : 0 ≤ ox) (hoy : 0 ≤ oy)
    (hixw : ix + w ≤ in_image.width) (hiyh : iy + h ≤ in_image.height)
    (hoxw : ox + w ≤ out_image.width) (hoyh : oy + h ≤ out_image.height)
    (hincolor : colorChannels in_image.color_format
      * (in_image.width * in_image.height).toNat ≤ in_image.color.length)
    (hindepth : depthChannels in_image.depth_format
      * (in_image.width * in_image.height).toNat ≤ in_image.depth.length)
    (houtcolor : colorChannels in_image.color_format
      * (out_image.width * out_image.height).toNat ≤ out_image.color.length)
    (houtdepth : depthChannels in_image.depth_format
      * (out_image.width * out_image.height).toNat ≤ out_image.depth.length) :
    (∃ color depth, icetImageCopyRegion in_image ix iy w h out_image ox oy w h
        = some ({ out_image with color := color, depth := depth }, [])
      ∧ ∀ x y : Int, 0 ≤ x → x < out_image.width → 0 ≤ y → y < out_image.height →
          loadFragment in_image.color_format in_image.depth_format color depth
              (y * out_image.width + x).toNat
            = if ox ≤ x ∧ x < ox + w ∧ oy ≤ y ∧ y < oy + h then
                loadFragment in_image.color_format in_image.depth_format in_image.color
                  in_image.depth ((iy + (y - oy)) * in_image.width + (ix + (x - ox))).toNat
              else
                loadFragment in_image.color_format in_image.depth_format out_image.color
                  out_image.depth (y * out_image.width + x).toNat)
    ∧ ∀ (a b : IceTImageData) (a0 a1 a2 a3 b0 b1 b2 b3 : Int),
        a.color_format ≠ b.color_format ∨ a.depth_format ≠ b.depth_format
          ∨ a2 ≠ b2 ∨ a3 ≠ b3 →
        icetImageCopyRegion a a0 a1 a2 a3 b b0 b1 b2 b3
          = some (b, [.raiseError .INVALID_VALUE]) := by
  constructor
  · obtain ⟨Win, hWin⟩ := Int.eq_ofNat_of_zero_le (show 0 ≤ in_image.width by omega)
    obtain ⟨Hin, hHin⟩ := Int.eq_ofNat_of_zero_le (show 0 ≤ in_image.height by omega)
    obtain ⟨Wout, hWout⟩ := Int.eq_ofNat_of_zero_le (show 0 ≤ out_image.width by omega)
    obtain ⟨Hout, hHout⟩ := Int.eq_ofNat_of_zero_le (show 0 ≤ out_image.height by omega)
    obtain ⟨ix', rfl⟩ := Int.eq_ofNat_of_zero_le hix
    obtain ⟨iy', rfl⟩ := Int.eq_ofNat_of_zero_le hiy
    obtain ⟨w', rfl⟩ := Int.eq_ofNat_of_zero_le hw
    obtain ⟨h', rfl⟩ := Int.eq_ofNat_of_zero_le hh
    obtain ⟨ox', rfl⟩ := Int.eq_ofNat_of_zero_le hox
    obtain ⟨oy', rfl⟩ := Int.eq_ofNat_of_zero_le hoy
    rw [hWin, hHin] at hincolor hindepth
    rw [hWout, hHout] at houtcolor houtdepth
    rw [hWin] at hixw
    rw [hHin] at hiyh
    rw [hWout] at hoxw
    rw [hHout] at hoyh
    have en : ∀ a b : Nat, ((a : Int) * (b : Int)).toNat = a * b := by
      intro a b
      have : (a : Int) * (b : Int) = ((a * b : Nat) : Int) := by push_cast; rfl
      rw [this, Int.toNat_ofNat]
    rw [en] at hincolor hindepth houtcolor houtdepth
    have b1 : ix' + w' ≤ Win := by exact_mod_cast hixw
    have b2 : iy' + h' ≤ Hin := by exact_mod_cast hiyh
    have b3 : ox' + w' ≤ Wout := by exact_mod_cast hoxw
    have b4 : oy' + h' ≤ Hout := by exact_mod_cast hoyh
    obtain ⟨rc, hrc, -, hpc⟩ := copyRegion_array (colorChannels in_image.color_format)
      in_image.color out_image.color Win Hin Wout Hout ix' iy' ox' oy' w' h' b1 b2 b3 b4
      hincolor houtcolor
    obtain ⟨rd, hrd, -, hpd⟩ := copyRegion_array (depthChannels in_image.depth_format)
      in_image.depth out_image.depth Win Hin Wout Hout ix' iy' ox' oy' w' h' b1 b2 b3 b4
      hindepth houtdepth
    obtain ⟨hil, him⟩ := flat_not_layered in_image hin
    obtain ⟨hol, hom⟩ := flat_not_layered out_image (Or.inl hout)
    have hnp : out_image.magic_num ≠ ICET_IMAGE_POINTERS_MAGIC_NUM := by rw [hout]; decide
    have hcall : icetImageCopyRegion in_image ix' iy' w' h' out_image ox' oy' w' h'
        = some ({ out_image with
            color := if in_image.color_format ≠ .NONE then rc else out_image.color
            depth := if in_image.depth_format ≠ .NONE then rd else out_image.depth }, []) := by
      unfold icetImageCopyRegion
      simp only [icetImageGetColorFormat, icetImageGetDepthFormat, icetImageGetWidth,
        copyLayers, hil, hol, ← hcf, ← hdf, ne_eq, not_true_eq_false, or_self, if_false,
        Bool.false_eq_true, icetImageGetColorConstVoid, icetImageGetColorVoid,
        icetImageGetDepthConstVoid, icetImageGetDepthVoid, him, hom, hnp, if_true,
        colorPixelElements, depthPixelElements, hWin, hWout,
        colorPixelSizeDiagnostics_valid _ hvc, depthPixelSizeDiagnostics_valid _ hvd,
        List.append_nil, Int.toNat_ofNat, hdist, hrc, hrd, Option.map_some']
      by_cases hcn : in_image.color_format = .NONE <;>
        by_cases hdn : in_image.depth_format = .NONE <;>
        simp [hcn, hdn]
    refine ⟨_, _, hcall, ?_⟩
    intro x y hx0 hx hy0 hy
    obtain ⟨x', rfl⟩ := Int.eq_ofNat_of_zero_le hx0
    obtain ⟨y', rfl⟩ := Int.eq_ofNat_of_zero_le hy0
    rw [hWout] at hx
    rw [hHout] at hy
    have hx' : x' < Wout := by exact_mod_cast hx
    have hy' : y' < Hout := by exact_mod_cast hy
    have hcond : ((ox' : Int) ≤ (x' : Int) ∧ (x' : Int) < (ox' : Int) + (w' : Int)
          ∧ (oy' : Int) ≤ (y' : Int) ∧ (y' : Int) < (oy' : Int) + (h' : Int))
        ↔ (ox' ≤ x' ∧ x' < ox' + w' ∧ oy' ≤ y' ∧ y' < oy' + h') := by
      constructor <;> (intro hh; omega)
    have hc := hpc x' y' hx' hy'
    have hd := hpd x' y' hx' hy'
    rw [hWout, hWin, toNat_row_major]
    by_cases hv : ox' ≤ x' ∧ x' < ox' + w' ∧ oy' ≤ y' ∧ y' < oy' + h'
    · rw [if_pos hv] at hc hd
      rw [if_pos (hcond.mpr hv)]
      have eidx : (((iy' : Int) + ((y' : Int) - (oy' : Int))) * (Win : Int)
          + ((ix' : Int) + ((x' : Int) - (ox' : Int)))).toNat
          = (iy' + (y' - oy')) * Win + (ix' + (x' - ox')) := by
        have e1 : (y' : Int) - (oy' : Int) = ((y' - oy' : Nat) : Int) := by omega
        have e2 : (x' : Int) - (ox' : Int) = ((x' - ox' : Nat) : Int) := by omega
        rw [e1, e2]
        have : ((iy' : Int) + ((y' - oy' : Nat) : Int)) * (Win : Int)
            + ((ix' : Int) + ((x' - ox' : Nat) : Int))
            = (((iy' + (y' - oy')) * Win + (ix' + (x' - ox')) : Nat) : Int) := by
          push_cast; rfl
        rw [this, Int.toNat_ofNat]
      rw [eidx]
      unfold loadFragment
      rw [select_load _ _ (colorChannels_none _) _ _ _ _ _ hc,
        select_load _ _ (depthChannels_none _) _ _ _ _ _ hd]
    · rw [if_neg hv] at hc hd
      rw [if_neg (fun hh => hv (hcond.mp hh))]
      unfold loadFragment
      rw [select_load _ _ (colorChannels_none _) _ _ _ _ _ hc,
        select_load _ _ (depthChannels_none _) _ _ _ _ _ hd]
  · intro a b a0 a1 a2 a3 b0 b1 b2 b3 hdiff
    unfold icetImageCopyRegion
    simp only [icetImageGetColorFormat, icetImageGetDepthFormat]
    by_cases hf : a.color_format ≠ b.color_format ∨ a.depth_format ≠ b.depth_format
    · rw [if_pos hf]
    · rw [if_neg hf]
      have hv : a2 ≠ b2 ∨ a3 ≠ b3 := by
        rcases hdiff with h1 | h1 | h1 | h1
        · exact absurd (Or.inl h1) hf
        · exact absurd (Or.inr h1) hf
        · exact Or.inl h1
        · exact Or.inr h1
      rw [if_pos hv]

/-- Witness for C26: the 2x2 region at `(1, 0)` of the 3x2 `regionSource` is copied onto
the whole of the 2x2 `regionTarget`; pixel `(1, 1)` of the result is source pixel
`(2, 1)`.  When both handles are the 1x3 image `columnImage`, the hypothesis of different
buffers fails and the rows are copied one after the other within the buffer: the copy
of rows 0 and 1 onto rows 1 and 2 leaves row 0 in all three rows. -/
theorem icetImageCopyRegion_spec_witness :
    (∃ color depth, icetImageCopyRegion regionSource 1 0 2 2 regionTarget 0 0 2 2
        = some ({ regionTarget with color := color, depth := depth }, [])
      ∧ loadFragment .RGBA_UBYTE .FLOAT color depth 3
          = loadFragment .RGBA_UBYTE .FLOAT regionSource.color regionSource.depth 5)
    ∧ icetImageCopyRegion columnImage 0 0 1 2 columnImage 0 1 1 2
        = some ({ columnImage with
            color := [0, 0, 0, 255, 0, 0, 0, 255, 0, 0, 0, 255]
            depth := [0, 0, 0] }, []) := by
  obtain ⟨color, depth, heq, hpix⟩ :=
    (icetImageCopyRegion_spec regionSource regionTarget 1 0 2 2 0 0
      (by decide) (by decide) (by decide) (by decide) (by decide) (by decide) (by decide)
      (by decide) (by decide) (by decide) (by decide) (by decide) (by decide)
      (by decide) (by decide) (by decide) (by decide)
      (by decide) (by decide) (by decide) (by decide)).1
  refine ⟨⟨color, depth, heq, ?_⟩, by decide⟩
  have h := hpix 1 1 (by decide) (by decide) (by decide) (by decide)
  simpa [regionSource, regionTarget, flatImage] using h

/-! ## The capacity invariant -/

theorem icetImageAssignBuffer_capacity (st : IceTState) (buffer : Option Nat) (w h : Int)
    (color depth : List Nat) (image : IceTImageData)
    (hr : (icetImageAssignBuffer st buffer w h color depth).1 = some image) :
    image.width * image.height = image.max_num_pixels := by
  unfold icetImageAssignBuffer at hr
  cases buffer with
  | none => simp at hr
  | some a =>
    simp only [Option.some.injEq] at hr
    subst hr
    rfl

theorem sparse_resize_getD (out : IceTSparseImageData) (w h : Int) :
    ((icetSparseImageSetDimensions (some out) w h).1.getD out).max_num_pixels
        = out.max_num_pixels
      ∧ ((w * h ≤ out.max_num_pixels
            ∧ ((icetSparseImageSetDimensions (some out) w h).1.getD out).width = w
            ∧ ((icetSparseImageSetDimensions (some out) w h).1.getD out).height = h)
        ∨ (((icetSparseImageSetDimensions (some out) w h).1.getD out).width = out.width
            ∧ ((icetSparseImageSetDimensions (some out) w h).1.getD out).height
              = out.height)) := by
  unfold icetSparseImageSetDimensions
  simp only []
  split_ifs with hgt
  · simp
  · unfold icetClearSparseImage
    simp only []
    split_ifs <;> simp [icetSparseImageSetActualSize] <;> omega

theorem sparse_resize_some (out : IceTSparseImageData) (w h : Int) (o : IceTSparseImageData)
    (hr : (icetSparseImageSetDimensions (some out) w h).1 = some o) :
    o = (icetSparseImageSetDimensions (some out) w h).1.getD out := by
  rw [hr]; rfl

theorem copyInternal_capacity (cursor : ScanCursor) (n : Int) (out : IceTSparseImageData)
    (c : ScanCursor) (o : IceTSparseImageData) (ev : List Event)
    (hr : icetSparseImageCopyPixelsInternal cursor n out = some (c, o, ev)
      ∨ icetSparseLayeredImageCopyPixelsInternal cursor n out = some (c, o, ev)) :
    o.max_num_pixels = out.max_num_pixels
      ∧ ((n * 1 ≤ out.max_num_pixels ∧ o.width = n ∧ o.height = 1)
        ∨ (o.width = out.width ∧ o.height = out.height)) := by
  have key := sparse_resize_getD out n 1
  rcases hr with hr | hr
  · unfold icetSparseImageCopyPixelsInternal at hr
    simp only [Option.map_eq_some'] at hr
    obtain ⟨r, -, heq⟩ := hr
    simp only [Prod.mk.injEq] at heq
    obtain ⟨-, ho, -⟩ := heq
    subst ho
    simpa [icetSparseImageSetActualSize] using key
  · unfold icetSparseLayeredImageCopyPixelsInternal at hr
    simp only [Option.map_eq_some'] at hr
    obtain ⟨r, -, heq⟩ := hr
    simp only [Prod.mk.injEq] at heq
    obtain ⟨-, ho, -⟩ := heq
    subst ho
    simpa [icetSparseImageSetActualSize] using key

theorem copyInternal_within (cursor : ScanCursor) (n : Int) (out : IceTSparseImageData)
    (c : ScanCursor) (o : IceTSparseImageData) (ev : List Event) (hout : out.WithinMax)
    (hr : icetSparseImageCopyPixelsInternal cursor n out = some (c, o, ev)
      ∨ icetSparseLayeredImageCopyPixelsInternal cursor n out = some (c, o, ev)) :
    o.WithinMax := by
  obtain ⟨hm, hd⟩ := copyInternal_capacity cursor n out c o ev hr
  unfold IceTSparseImageData.WithinMax at *
  rcases hd with ⟨h1, h2, h3⟩ | ⟨h2, h3⟩
  · rw [h2, h3, hm]; exact h1
  · rw [h2, h3, hm]; exact hout

theorem copyInPlace_fields (cursor : ScanCursor) (n : Int) (out : IceTSparseImageData)
    (c : ScanCursor) (o : IceTSparseImageData)
    (hr : icetSparseImageCopyPixelsInPlaceInternal cursor n out = some (c, o)
      ∨ icetSparseLayeredImageCopyPixelsInPlaceInternal cursor n out = some (c, o)) :
    o.max_num_pixels = out.max_num_pixels ∧ o.width = n ∧ o.height = 1 := by
  rcases hr with hr | hr
  · unfold icetSparseImageCopyPixelsInPlaceInternal at hr
    simp only [Option.map_eq_some'] at hr
    obtain ⟨r, -, heq⟩ := hr
    simp only [Prod.mk.injEq] at heq
    obtain ⟨-, ho⟩ := heq
    subst ho
    simp [icetSparseImageSetActualSize]
  · unfold icetSparseLayeredImageCopyPixelsInPlaceInternal at hr
    simp only [Option.map_eq_some'] at hr
    obtain ⟨r, -, heq⟩ := hr
    simp only [Prod.mk.injEq] at heq
    obtain ⟨-, ho⟩ := heq
    subst ho
    simp [icetSparseImageSetActualSize]

theorem split_first_le (K E n f : Int) (hK : 2 ≤ K) (hE : 0 < E) (hn : 0 ≤ n) :
    splitPartitionNumPixels (icetSparseImageSplitChoosePartitions K E n f) K n f 0 ≤ n := by
  unfold splitPartitionNumPixels
  rw [if_pos (by simp; omega)]
  rw [choosePartitions_getD K E n f (by omega) (by omega) hn 0 (by simp; omega),
    choosePartitions_getD K E n f (by omega) (by omega) hn 1 (by simp; omega)]
  have h1 : 0 ≤ n / E := Int.ediv_nonneg hn (by omega)
  have h2 : 0 ≤ n % E := Int.emod_nonneg n (by omega)
  have h3 : E * (n / E) + n % E = n := Int.ediv_add_emod n E
  have h4 : E / K ≤ E := Int.ediv_le_self K (by omega)
  have h5 : n / E * (E / K) ≤ n / E * E := Int.mul_le_mul_of_nonneg_left h4 h1
  have h6 : n / E * E = E * (n / E) := Int.mul_comm _ _
  have h7 : 0 ≤ E / K := Int.ediv_nonneg (by omega) (by omega)
  simp only [Nat.cast_zero, Nat.cast_one, zero_mul, one_mul, add_zero]
  rcases le_total (E / K) (n % E) with h | h
  · rw [min_eq_left h, min_eq_left h2]; omega
  · rw [min_eq_right h, min_eq_left h2]; omega

theorem splitCopyPartition_within (in_image : IceTSparseImageData) (offsets : List Int)
    (K total f : Int) (is_layered : Bool) (partition : Nat) (cursor : ScanCursor)
    (out : IceTSparseImageData) (c : ScanCursor) (o : IceTSparseImageData) (ev : List Event)
    (hout : out.WithinMax)
    (hfirst : icetSparseImageEqual in_image out = true →
      splitPartitionNumPixels offsets K total f 0 ≤ out.max_num_pixels)
    (hr : splitCopyPartition in_image is_layered partition cursor
        (splitPartitionNumPixels offsets K total f partition) out = some (c, o, ev)) :
    o.WithinMax := by
  unfold splitCopyPartition at hr
  split_ifs at hr with heq hp hl hl
  · subst hp
    simp only [Option.map_eq_some'] at hr
    obtain ⟨r, hr1, hr2⟩ := hr
    simp only [Prod.mk.injEq] at hr2
    obtain ⟨hc, ho, -⟩ := hr2
    have hr1 : icetSparseLayeredImageCopyPixelsInPlaceInternal cursor
        (splitPartitionNumPixels offsets K total f 0) out = some (c, o) := by
      rw [hr1, ← hc, ← ho]
    obtain ⟨h1, h2, h3⟩ := copyInPlace_fields _ _ _ _ _ (Or.inr hr1)
    unfold IceTSparseImageData.WithinMax
    rw [h1, h2, h3, mul_one]
    exact hfirst heq
  · subst hp
    simp only [Option.map_eq_some'] at hr
    obtain ⟨r, hr1, hr2⟩ := hr
    simp only [Prod.mk.injEq] at hr2
    obtain ⟨hc, ho, -⟩ := hr2
    have hr1 : icetSparseImageCopyPixelsInPlaceInternal cursor
        (splitPartitionNumPixels offsets K total f 0) out = some (c, o) := by
      rw [hr1, ← hc, ← ho]
    obtain ⟨h1, h2, h3⟩ := copyInPlace_fields _ _ _ _ _ (Or.inl hr1)
    unfold IceTSparseImageData.WithinMax
    rw [h1, h2, h3, mul_one]
    exact hfirst heq
  · simp only [Option.some.injEq, Prod.mk.injEq] at hr
    obtain ⟨-, ho, -⟩ := hr
    rw [← ho]; exact hout
  · exact copyInternal_within _ _ _ _ _ _ hout (Or.inr hr)
  · exact copyInternal_within _ _ _ _ _ _ hout (Or.inl hr)

theorem splitLoop_within (in_image : IceTSparseImageData) (offsets : List Int)
    (K total f : Int) :
    ∀ (outs : List IceTSparseImageData) (partition : Nat) (cursor : ScanCursor)
      (r : List IceTSparseImageData) (ev : List Event),
      (∀ o ∈ outs, o.WithinMax ∧ (icetSparseImageEqual in_image o = true →
        splitPartitionNumPixels offsets K total f 0 ≤ o.max_num_pixels)) →
      icetSparseImageSplitLoop in_image offsets K total f outs partition cursor
        = some (r, ev) →
      ∀ o ∈ r, o.WithinMax := by
  intro outs
  induction outs with
  | nil =>
    intro partition cursor r ev _ hr o ho
    simp only [icetSparseImageSplitLoop, Option.some.injEq, Prod.mk.injEq] at hr
    rw [← hr.1] at ho
    simp at ho
  | cons out rest ih =>
    intro partition cursor r ev hall hr o ho
    rw [icetSparseImageSplitLoop] at hr
    split_ifs at hr with hfmt
    · simp only [Option.some.injEq, Prod.mk.injEq] at hr
      rw [← hr.1] at ho
      exact (hall o ho).1
    · simp only [Option.bind_eq_some, Option.map_eq_some'] at hr
      obtain ⟨⟨c, o1, ev1⟩, hcopy, t, hloop, heq⟩ := hr
      simp only [Prod.mk.injEq] at heq
      rw [← heq.1] at ho
      rcases List.mem_cons.mp ho with ho | ho
      · rw [ho]
        exact splitCopyPartition_within in_image offsets K total f _ partition cursor out c
          o1 ev1 (hall out (List.mem_cons_self _ _)).1
          (hall out (List.mem_cons_self _ _)).2 hcopy
      · exact ih (partition + 1) c t.1 t.2
          (fun o ho => hall o (List.mem_cons_of_mem _ ho)) hloop o ho

theorem icetSparseImageSplit_within (in_image : IceTSparseImageData) (f K E : Int)
    (outs r : List IceTSparseImageData) (offsets : List Int) (ev : List Event)
    (hE : 0 < E) (hn : 0 ≤ in_image.width * in_image.height) (hin : in_image.WithinMax)
    (hall : ∀ o ∈ outs, o.WithinMax ∧ (o.address = in_image.address → o = in_image))
    (hr : icetSparseImageSplit in_image f K E outs = some (r, offsets, ev)) :
    ∀ o ∈ r, o.WithinMax := by
  unfold icetSparseImageSplit at hr
  split_ifs at hr with hK hbad
  · simp only [Option.some.injEq, Prod.mk.injEq] at hr
    intro o ho
    rw [← hr.1] at ho
    exact (hall o ho).1
  · simp only [Option.map_eq_some'] at hr
    obtain ⟨t, hloop, heq⟩ := hr
    simp only [Prod.mk.injEq] at heq
    intro o ho
    rw [← heq.1] at ho
    rcases List.mem_append.mp ho with ho | ho
    · refine splitLoop_within in_image _ K _ f _ 0 _ t.1 t.2 ?_ hloop o ho
      intro p hp
      have hp2 := hall p (List.mem_of_mem_take hp)
      refine ⟨hp2.1, fun halias => ?_⟩
      have hsame : p = in_image := hp2.2 (by
        unfold icetSparseImageEqual at halias
        exact (of_decide_eq_true halias).symm)
      rw [hsame]
      have h1 := split_first_le K E (in_image.width * in_image.height) f (by omega) hE hn
      unfold IceTSparseImageData.WithinMax at hin
      exact le_trans h1 hin
    · exact (hall o (List.mem_of_mem_drop ho)).1

theorem sparseAssignBuffer_fields (st : IceTState) (address : Nat) (w h : Int)
    (created : IceTSparseImageData)
    (hr : (icetSparseImageAssignBuffer st (some address) w h).1 = some created
      ∨ (icetSparseLayeredImageAssignBuffer st (some address) w h).1 = some created) :
    created.width = w ∧ created.height = h ∧ created.max_num_pixels = w * h := by
  rcases hr with hr | hr
  · unfold icetSparseImageAssignBuffer icetClearSparseImage at hr
    simp only [] at hr
    split_ifs at hr <;>
      (simp only [Option.some.injEq] at hr; subst hr; simp [icetSparseImageSetActualSize])
  · unfold icetSparseLayeredImageAssignBuffer icetClearSparseImage at hr
    simp only [] at hr
    split_ifs at hr <;>
      (simp only [Option.some.injEq] at hr; subst hr; simp [icetSparseImageSetActualSize])

theorem splitAllocLoop_fields (st : IceTState) (in_image : IceTSparseImageData)
    (offsets : List Int) (K total f : Int) :
    ∀ (handles : List IceTSparseImage) (partition out_data : Nat) (cursor : ScanCursor)
      (r : List IceTSparseImage) (ev : List Event),
      icetSparseImageSplitAllocLoop st in_image offsets K total f handles partition out_data
        cursor = some (r, ev) →
      ∀ i : Nat, i < handles.length → ∃ o, r[i]? = some (some o)
        ∧ o.max_num_pixels = 0
        ∧ o.width = splitPartitionNumPixels offsets K total f (partition + i)
        ∧ o.height = 1 := by
  intro handles
  induction handles with
  | nil =>
    intro partition out_data cursor r ev _ i hi
    simp at hi
  | cons handle rest ih =>
    intro partition out_data cursor r ev hr i hi
    rw [icetSparseImageSplitAllocLoop] at hr
    simp only [Option.bind_eq_some, Option.map_eq_some'] at hr
    obtain ⟨created, hcreated, ⟨c, o1, ev1⟩, hcopy, t, hloop, heq⟩ := hr
    simp only [Prod.mk.injEq] at heq
    rw [← heq.1]
    cases i with
    | zero =>
      refine ⟨{ o1 with max_num_pixels := 0 }, by simp, rfl, ?_⟩
      have hfields : created.width
            = splitPartitionNumPixels offsets K total f partition
          ∧ created.height = 1
          ∧ created.max_num_pixels
            = splitPartitionNumPixels offsets K total f partition * 1 := by
        split_ifs at hcreated
        · exact sparseAssignBuffer_fields st out_data _ 1 created (Or.inr hcreated)
        · exact sparseAssignBuffer_fields st out_data _ 1 created (Or.inl hcreated)
      have hcap := copyInternal_capacity cursor
        (splitPartitionNumPixels offsets K total f partition)
        { created with color_format := in_image.color_format,
                       depth_format := in_image.depth_format } c o1 ev1
        (by
          split_ifs at hcopy
          · exact Or.inr hcopy
          · exact Or.inl hcopy)
      obtain ⟨-, hd⟩ := hcap
      simp only [add_zero]
      rcases hd with ⟨-, h2, h3⟩ | ⟨h2, h3⟩
      · exact ⟨h2, h3⟩
      · exact ⟨by rw [h2]; exact hfields.1, by rw [h3]; exact hfields.2.1⟩
    | succ i =>
      have := ih (partition + 1) _ c t.1 t.2 hloop i (by simpa using hi)
      obtain ⟨o, h1, h2, h3, h4⟩ := this
      refine ⟨o, by simpa using h1, h2, ?_, h4⟩
      rw [h3]
      congr 1
      omega

theorem splitAllocLoop_length (st : IceTState) (in_image : IceTSparseImageData)
    (offsets : List Int) (K total f : Int) :
    ∀ (handles : List IceTSparseImage) (partition out_data : Nat) (cursor : ScanCursor)
      (r : List IceTSparseImage) (ev : List Event),
      icetSparseImageSplitAllocLoop st in_image offsets K total f handles partition out_data
        cursor = some (r, ev) → r.length = handles.length := by
  intro handles
  induction handles with
  | nil =>
    intro partition out_data cursor r ev hr
    simp only [icetSparseImageSplitAllocLoop, Option.some.injEq, Prod.mk.injEq] at hr
    rw [← hr.1]
  | cons handle rest ih =>
    intro partition out_data cursor r ev hr
    rw [icetSparseImageSplitAllocLoop] at hr
    simp only [Option.bind_eq_some, Option.map_eq_some'] at hr
    obtain ⟨created, -, ⟨c, o1, ev1⟩, -, t, hloop, heq⟩ := hr
    simp only [Prod.mk.injEq] at heq
    rw [← heq.1]
    simp [ih _ _ _ _ _ hloop]

theorem icetSparseImageSplitAlloc_allocated (st : IceTState) (in_image : IceTSparseImageData)
    (f K E : Int) (out_buffer : Nat) (handles r : List IceTSparseImage) (offsets : List Int)
    (ev : List Event) (hK : 2 ≤ K)
    (hr : icetSparseImageSplitAlloc st in_image f K E out_buffer handles
      = some (r, offsets, ev)) :
    ∀ j : Nat, (j : Int) < K → 1 ≤ j ∨ splitAllocInPlace in_image handles = false →
      ∃ o, r[j]? = some (some o) ∧ o.max_num_pixels = 0
        ∧ o.width = splitPartitionNumPixels offsets K
            (in_image.width * in_image.height) f j
        ∧ o.height = 1 := by
  intro j hj hcase
  unfold icetSparseImageSplitAlloc at hr
  rw [if_neg (by omega)] at hr
  split_ifs at hr with hbad
  have hlen : K.toNat ≤ handles.length := by
    by_contra hcon
    exact hbad (Or.inr (by omega))
  simp only [Option.bind_eq_some, Option.map_eq_some'] at hr
  obtain ⟨fst, hfirst, t, hloop, heq⟩ := hr
  simp only [Prod.mk.injEq] at heq
  obtain ⟨hr1, hoff, -⟩ := heq
  have hfields := splitAllocLoop_fields st in_image _ K _ f _ _ _ _ _ _ hloop
  have htlen := splitAllocLoop_length st in_image _ K _ f _ _ _ _ _ _ hloop
  have hjK : j < K.toNat := by omega
  have hfst : (fst.1 = [] ∧ splitAllocInPlace in_image handles = false)
      ∨ (∃ o0, fst.1 = [some o0] ∧ splitAllocInPlace in_image handles = true) := by
    unfold splitAllocInPlace
    rcases hh : handles.head? with _ | _ | out_image
    · rw [hh] at hfirst
      simp only [Option.some.injEq] at hfirst
      exact Or.inl ⟨by rw [← hfirst], rfl⟩
    · rw [hh] at hfirst
      simp only [Option.some.injEq] at hfirst
      exact Or.inl ⟨by rw [← hfirst], rfl⟩
    · rw [hh] at hfirst
      simp only [] at hfirst ⊢
      split_ifs at hfirst with halias hl
      · simp only [Option.map_eq_some'] at hfirst
        obtain ⟨a, -, ha⟩ := hfirst
        exact Or.inr ⟨a.2, by rw [← ha], halias⟩
      · simp only [Option.map_eq_some'] at hfirst
        obtain ⟨a, -, ha⟩ := hfirst
        exact Or.inr ⟨a.2, by rw [← ha], halias⟩
      · simp only [Option.some.injEq] at hfirst
        exact Or.inl ⟨by rw [← hfirst], by simpa using halias⟩
  rw [← hr1, ← hoff]
  rcases hfst with ⟨hnil, -⟩ | ⟨o0, hone, hplace⟩
  · rw [hnil] at hfields htlen ⊢
    simp only [List.length_nil, List.drop_zero, List.length_take, List.nil_append] at *
    have hj2 : j < min K.toNat handles.length := by omega
    obtain ⟨o, h1, h2, h3, h4⟩ := hfields j hj2
    refine ⟨o, ?_, h2, ?_, h4⟩
    · rw [List.getElem?_append_left (by omega)]
      exact h1
    · rw [h3, zero_add]
      rfl
  · have hj1 : 1 ≤ j := by
      rcases hcase with h | h
      · exact h
      · rw [hplace] at h; simp at h
    rw [hone] at hfields htlen ⊢
    simp only [List.length_singleton, List.length_drop, List.length_take] at *
    have hj2 : j - 1 < min K.toNat handles.length - 1 := by omega
    obtain ⟨o, h1, h2, h3, h4⟩ := hfields (j - 1) hj2
    refine ⟨o, ?_, h2, ?_, h4⟩
    · rw [List.append_assoc, List.getElem?_append_right (by simpa using hj1),
        List.getElem?_append_left (by simp only [List.length_singleton]; omega)]
      simpa using h1
    · rw [h3, show 1 + (j - 1) = j by omega]
      rfl

theorem icetSparseImageSplitAlloc_in_place (st : IceTState) (in_image : IceTSparseImageData)
    (f K E : Int) (out_buffer : Nat) (handles r : List IceTSparseImage) (offsets : List Int)
    (ev : List Event) (hK : 2 ≤ K) (hE : 0 < E)
    (hn : 0 ≤ in_image.width * in_image.height) (hin : in_image.WithinMax)
    (hhead : handles.head? = some (some in_image))
    (hr : icetSparseImageSplitAlloc st in_image f K E out_buffer handles
      = some (r, offsets, ev)) :
    ∃ o, r[0]? = some (some o) ∧ o.WithinMax := by
  unfold icetSparseImageSplitAlloc at hr
  rw [if_neg (by omega)] at hr
  split_ifs at hr with hbad
  simp only [Option.bind_eq_some, Option.map_eq_some'] at hr
  obtain ⟨fst, hfirst, t, hloop, heq⟩ := hr
  simp only [Prod.mk.injEq] at heq
  obtain ⟨hr1, -, -⟩ := heq
  rw [hhead] at hfirst
  simp only [] at hfirst
  have halias : icetSparseImageEqual in_image in_image = true := by
    simp [icetSparseImageEqual]
  rw [if_pos halias] at hfirst
  have h1 := split_first_le K E (in_image.width * in_image.height) f hK hE hn
  have hoff : splitPartitionNumPixels (icetSparseImageSplitChoosePartitions K E
        (in_image.width * in_image.height) f) K (in_image.width * in_image.height) f 0
      = (icetSparseImageSplitChoosePartitions K E (in_image.width * in_image.height) f).getD
          1 0
        - (icetSparseImageSplitChoosePartitions K E (in_image.width * in_image.height)
          f).getD 0 0 := by
    unfold splitPartitionNumPixels
    rw [if_pos (by simp; omega)]
  have hplace : ∃ c o, fst = ([some o], c)
      ∧ (icetSparseImageCopyPixelsInPlaceInternal ⟨in_image.payload, 0, 0, 0⟩
            (splitPartitionNumPixels (icetSparseImageSplitChoosePartitions K E
              (in_image.width * in_image.height) f) K (in_image.width * in_image.height) f
              0) in_image = some (c, o)
        ∨ icetSparseLayeredImageCopyPixelsInPlaceInternal ⟨in_image.payload, 0, 0, 0⟩
            (splitPartitionNumPixels (icetSparseImageSplitChoosePartitions K E
              (in_image.width * in_image.height) f) K (in_image.width * in_image.height) f
              0) in_image = some (c, o)) := by
    rw [hoff]
    split_ifs at hfirst with hl
    · simp only [Option.map_eq_some'] at hfirst
      obtain ⟨a, ha1, ha2⟩ := hfirst
      exact ⟨a.1, a.2, ha2.symm, Or.inr ha1⟩
    · simp only [Option.map_eq_some'] at hfirst
      obtain ⟨a, ha1, ha2⟩ := hfirst
      exact ⟨a.1, a.2, ha2.symm, Or.inl ha1⟩
  obtain ⟨c, o, hfst, hcopy⟩ := hplace
  obtain ⟨h2, h3, h4⟩ := copyInPlace_fields _ _ _ _ _ hcopy
  refine ⟨o, ?_, ?_⟩
  · rw [← hr1, hfst]
    simp
  · unfold IceTSparseImageData.WithinMax at hin ⊢
    rw [h2, h3, h4, mul_one]
    exact le_trans h1 hin

theorem icetSparseImageCopyPixels_within (in_image : IceTSparseImageData) (off n : Int)
    (out r : IceTSparseImageData) (ev : List Event) (hout : out.WithinMax)
    (hr : icetSparseImageCopyPixels in_image off n out = some (r, ev)) : r.WithinMax := by
  unfold icetSparseImageCopyPixels at hr
  simp only [] at hr
  split_ifs at hr with heq hfmt hall hmax hl
  · simp only [Option.some.injEq, Prod.mk.injEq] at hr
    rw [← hr.1]; exact hout
  · simp only [Option.some.injEq, Prod.mk.injEq] at hr
    rw [← hr.1]; exact hout
  · simp only [Option.some.injEq, Prod.mk.injEq] at hr
    rw [← hr.1]
    unfold IceTSparseImageData.WithinMax
    have h2 : n = in_image.width * in_image.height := hall.2
    simp only []
    omega
  · simp only [Option.map_eq_some', Option.bind_eq_some] at hr
    obtain ⟨⟨c, o, ev1⟩, ⟨skipped, -, hcopy⟩, heq2⟩ := hr
    simp only [Prod.mk.injEq] at heq2
    rw [← heq2.1]
    exact copyInternal_within _ _ _ _ _ _ hout (Or.inr hcopy)
  · simp only [Option.map_eq_some', Option.bind_eq_some] at hr
    obtain ⟨⟨c, o, ev1⟩, ⟨skipped, -, hcopy⟩, heq2⟩ := hr
    simp only [Prod.mk.injEq] at heq2
    rw [← heq2.1]
    exact copyInternal_within _ _ _ _ _ _ hout (Or.inl hcopy)

theorem icetSparseImageCopyPixels_whole (in_image out r : IceTSparseImageData)
    (ev : List Event)
    (hr : icetSparseImageCopyPixels in_image 0 (in_image.width * in_image.height) out
      = some (r, ev)) :
    r.max_num_pixels = out.max_num_pixels
      ∧ ((r.width = in_image.width ∧ r.height = in_image.height)
        ∨ (r.width = out.width ∧ r.height = out.height)) := by
  unfold icetSparseImageCopyPixels at hr
  simp only [] at hr
  split_ifs at hr with heq hfmt hall hmax hl
  · simp only [Option.some.injEq, Prod.mk.injEq] at hr
    rw [← hr.1]; exact ⟨rfl, Or.inr ⟨rfl, rfl⟩⟩
  · simp only [Option.some.injEq, Prod.mk.injEq] at hr
    rw [← hr.1]; exact ⟨rfl, Or.inr ⟨rfl, rfl⟩⟩
  · simp only [Option.some.injEq, Prod.mk.injEq] at hr
    rw [← hr.1]; exact ⟨rfl, Or.inl ⟨rfl, rfl⟩⟩
  · simp [icetSparseImageGetNumPixels] at hall
  · simp [icetSparseImageGetNumPixels] at hall

theorem icetSparseImageInterlace_dims (in_image out r : IceTSparseImageData) (E : Int)
    (ev : List Event) (hr : icetSparseImageInterlace in_image E out = some (r, ev)) :
    r.max_num_pixels = out.max_num_pixels
      ∧ ((r.width = in_image.width ∧ r.height = in_image.height)
        ∨ (r.width = out.width ∧ r.height = out.height)) := by
  unfold icetSparseImageInterlace at hr
  simp only [] at hr
  split_ifs at hr with h0 h2 heq hfmt
  · exact icetSparseImageCopyPixels_whole in_image out r ev hr
  · simp only [Option.some.injEq, Prod.mk.injEq] at hr
    rw [← hr.1]; exact ⟨rfl, Or.inr ⟨rfl, rfl⟩⟩
  · simp only [Option.map_eq_some', Option.bind_eq_some] at hr
    obtain ⟨arrays, -, w, -, heq2⟩ := hr
    simp only [Prod.mk.injEq] at heq2
    rw [← heq2.1]
    have key := sparse_resize_getD out in_image.width in_image.height
    simp only [icetSparseImageSetActualSize]
    refine ⟨key.1, ?_⟩
    rcases key.2 with ⟨-, h3, h4⟩ | ⟨h3, h4⟩
    · exact Or.inl ⟨h3, h4⟩
    · exact Or.inr ⟨h3, h4⟩

theorem icetSparseImageInterlaceAlloc_fields (st : IceTState)
    (in_image : IceTSparseImageData) (E : Int) (out_buffer : Nat) (r : IceTSparseImage)
    (ev : List Event)
    (hr : icetSparseImageInterlaceAlloc st in_image E out_buffer = some (r, ev)) :
    ∃ o, r = some o ∧ o.max_num_pixels = 0 ∧ o.width = in_image.width
      ∧ o.height = in_image.height := by
  unfold icetSparseImageInterlaceAlloc at hr
  simp only [Option.bind_eq_some, Option.map_eq_some'] at hr
  obtain ⟨created, hcreated, t, hinter, heq⟩ := hr
  simp only [Prod.mk.injEq] at heq
  have hfields : created.width = in_image.width ∧ created.height = in_image.height
      ∧ created.max_num_pixels = in_image.width * in_image.height := by
    split_ifs at hcreated
    · exact sparseAssignBuffer_fields st out_buffer _ _ created (Or.inr hcreated)
    · exact sparseAssignBuffer_fields st out_buffer _ _ created (Or.inl hcreated)
  obtain ⟨-, hd⟩ := icetSparseImageInterlace_dims in_image _ t.1 E t.2 hinter
  refine ⟨{ t.1 with max_num_pixels := 0 }, heq.1.symm, rfl, ?_⟩
  rcases hd with ⟨h1, h2⟩ | ⟨h1, h2⟩
  · exact ⟨h1, h2⟩
  · exact ⟨by rw [h1]; exact hfields.1, by rw [h2]; exact hfields.2.1⟩

theorem ccCompositeBody_dims (fa : FloatArith) (st : IceTState)
    (front back dest r : IceTSparseImageData) (ev : List Event)
    (hr : ccCompositeBody fa st front back dest = some (r, ev)) :
    (r.width = front.width ∧ r.height = front.height ∧ front.height = back.height)
      ∨ (r.width = dest.width ∧ r.height = dest.height) := by
  unfold ccCompositeBody at hr
  split_ifs at hr with hm hfmt
  · simp only [Option.some.injEq, Prod.mk.injEq] at hr
    rw [← hr.1]; exact Or.inr ⟨rfl, rfl⟩
  · have key := sparse_resize_getD dest front.width front.height
    have hh : front.height = back.height := by
      by_contra hcon
      exact hfmt (Or.inr (Or.inl hcon))
    split at hr
    · rename_i d hd
      simp only [Option.map_eq_some'] at hr
      obtain ⟨w, -, heq⟩ := hr
      simp only [Prod.mk.injEq] at heq
      rw [← heq.1]
      rw [hd] at key
      simp only [Option.getD_some, icetSparseImageSetActualSize] at key ⊢
      rcases key.2 with ⟨-, h3, h4⟩ | ⟨h3, h4⟩
      · exact Or.inl ⟨h3, h4, hh⟩
      · exact Or.inr ⟨h3, h4⟩
    · rename_i resized events _ hd
      simp only [Option.map_eq_some'] at hr
      obtain ⟨d, hd2, heq⟩ := hr
      simp only [Prod.mk.injEq] at heq
      rw [← heq.1]
      rw [hd] at key
      simp only [] at key
      rw [hd2] at key
      simp only [Option.getD_some] at key
      rcases key.2 with ⟨-, h3, h4⟩ | ⟨h3, h4⟩
      · exact Or.inl ⟨h3, h4, hh⟩
      · exact Or.inr ⟨h3, h4⟩

theorem icetCompressedCompressedCompositeAlloc_fields (fa : FloatArith) (st : IceTState)
    (front back : IceTSparseImageData) (dest_buffer : Nat) (r : IceTSparseImage)
    (ev : List Event)
    (hr : icetCompressedCompressedCompositeAlloc fa st front back dest_buffer
      = some (r, ev)) :
    ∃ o, r = some o ∧ o.max_num_pixels = 0 ∧ o.width = front.width
      ∧ o.height = back.height := by
  unfold icetCompressedCompressedCompositeAlloc at hr
  simp only [Option.bind_eq_some, Option.map_eq_some'] at hr
  obtain ⟨created, hcreated, t, hcc, heq⟩ := hr
  simp only [Prod.mk.injEq] at heq
  have hfields : created.width = front.width ∧ created.height = back.height
      ∧ created.max_num_pixels = front.width * back.height := by
    split_ifs at hcreated
    · exact sparseAssignBuffer_fields st dest_buffer _ _ created (Or.inr hcreated)
    · exact sparseAssignBuffer_fields st dest_buffer _ _ created (Or.inl hcreated)
  unfold icetCompressedCompressedComposite at hcc
  simp only [Option.map_eq_some'] at hcc
  obtain ⟨b, hbody, hb⟩ := hcc
  have hd := ccCompositeBody_dims fa st front back created b.1 b.2 hbody
  refine ⟨{ t.1 with max_num_pixels := 0 }, heq.1.symm, rfl, ?_⟩
  rw [← hb]
  simp only []
  rcases hd with ⟨h1, h2, h3⟩ | ⟨h1, h2⟩
  · exact ⟨h1, by rw [h2]; exact h3⟩
  · exact ⟨by rw [h1]; exact hfields.1, by rw [h2]; exact hfields.2.1⟩

theorem icetImageSetDimensions_within (image out : IceTImageData) (w h : Int)
    (hfit : w * h < 2 ^ 31) (hin : image.WithinMax)
    (hr : (icetImageSetDimensions (some image) w h).1 = some out) :
    out.WithinMax := by
  unfold IceTImageData.WithinMax at *
  by_cases hgt : wrapSizeType (w * h) > image.max_num_pixels
  · rw [icetImageSetDimensions_rejects image w h hgt] at hr
    simp only [Option.some.injEq] at hr
    subst hr
    exact hin
  · obtain ⟨r, ev, hr', h1, h2, -, -, -, h6, -⟩ :=
      icetImageSetDimensions_accepts image w h (by omega)
    rw [hr'] at hr
    simp only [Option.some.injEq] at hr
    subst hr
    rw [h1, h2, h6]
    have hle : wrapSizeType (w * h) ≤ image.max_num_pixels := by omega
    generalize w * h = n at hfit hle
    unfold wrapSizeType at hle
    norm_num at hfit hle
    omega

theorem icetSparseImageSetDimensions_within (image out : IceTSparseImageData) (w h : Int)
    (hin : image.WithinMax)
    (hr : (icetSparseImageSetDimensions (some image) w h).1 = some out) :
    out.WithinMax := by
  have key := sparse_resize_getD image w h
  rw [hr] at key
  simp only [Option.getD_some] at key
  unfold IceTSparseImageData.WithinMax at *
  rcases key.2 with ⟨h1, h2, h3⟩ | ⟨h2, h3⟩
  · rw [h2, h3, key.1]; exact h1
  · rw [h2, h3, key.1]; exact hin

theorem icetImageUnpackageFromReceive_within (buffer image : IceTImageData)
    (hr : (icetImageUnpackageFromReceive buffer).1 = some image) :
    image.width * image.height = image.max_num_pixels := by
  unfold icetImageUnpackageFromReceive at hr
  simp only [] at hr
  split_ifs at hr <;>
    (simp only [Option.some.injEq] at hr; subst hr; rfl)

theorem icetSparseImageUnpackageFromReceive_within (buffer image : IceTSparseImageData)
    (hr : (icetSparseImageUnpackageFromReceive buffer).1 = some image) :
    image.width * image.height = image.max_num_pixels := by
  unfold icetSparseImageUnpackageFromReceive at hr
  simp only [] at hr
  split_ifs at hr
  simp only [Option.some.injEq] at hr
  subst hr
  rfl

theorem pointerAssignBuffer_capacity (st : IceTState) (buffer : Option Nat) (w h : Int)
    (L : Nat) (color_buffer depth_buffer : Option (List Nat)) (image : IceTImageData)
    (ev : List Event)
    (hr : icetImagePointerAssignBuffer st buffer w h color_buffer depth_buffer
        = some (some image, ev)
      ∨ icetLayeredImagePointerAssignBuffer st buffer w h L color_buffer depth_buffer
        = some (some image, ev)) :
    image.width * image.height = image.max_num_pixels := by
  rcases hr with hr | hr
  · unfold icetImagePointerAssignBuffer at hr
    simp only [] at hr
    split at hr
    · simp at hr
    · rename_i created hcreated
      have := icetImageAssignBuffer_capacity st buffer w h [] [] created hcreated
      simp only [Option.some.injEq, Prod.mk.injEq] at hr
      rw [← hr.1]
      exact this
  · unfold icetLayeredImagePointerAssignBuffer at hr
    simp only [] at hr
    split at hr
    · simp at hr
    · rename_i created hcreated
      have := icetImageAssignBuffer_capacity st buffer w h [] [] created hcreated
      simp only [Option.some.injEq, Prod.mk.injEq] at hr
      rw [← hr.1]
      exact this

/-- Claim C38.  `icetSparseImageSplit` and `icetSparseImageSplitAlloc` called with
`num_partitions < 2` raise `INVALID_VALUE` between the two compress timing hooks and
return: the output images (handles) are as they were and nothing is stored in
`offsets`.  A split into one partition is not the identity: `out_images[0]` does not
receive the input. -/
theorem split_rejects_fewer_than_two (st : IceTState) (in_image : IceTSparseImageData)
    (f K E : Int) (out_images : List IceTSparseImageData) (out_buffer : Nat)
    (handles : List IceTSparseImage) (hK : K < 2) :
    icetSparseImageSplit in_image f K E out_images
        = some (out_images, [],
            [.timingCompressBegin, .raiseError .INVALID_VALUE, .timingCompressEnd])
      ∧ icetSparseImageSplitAlloc st in_image f K E out_buffer handles
        = some (handles, [],
            [.timingCompressBegin, .raiseError .INVALID_VALUE, .timingCompressEnd]) := by
  unfold icetSparseImageSplit icetSparseImageSplitAlloc
  rw [if_pos hK, if_pos hK]
  exact ⟨rfl, rfl⟩

/-- Witness for C38: a split of the 8-pixel `scenarioC_image` into one partition leaves
the cleared output image `scenarioC_out` as it is, and a null handle stays null. -/
theorem split_rejects_fewer_than_two_witness :
    icetSparseImageSplit scenarioC_image 0 1 1 [scenarioC_out]
        = some ([scenarioC_out], [],
            [.timingCompressBegin, .raiseError .INVALID_VALUE, .timingCompressEnd])
      ∧ icetSparseImageSplitAlloc zBufferState scenarioC_image 0 1 1 100 [none]
        = some ([none], [],
            [.timingCompressBegin, .raiseError .INVALID_VALUE, .timingCompressEnd])
      ∧ scenarioC_out.payload ≠ scenarioC_image.payload :=
  ⟨(split_rejects_fewer_than_two zBufferState scenarioC_image 0 1 1 [scenarioC_out] 100
      [none] (by decide)).1,
    (split_rejects_fewer_than_two zBufferState scenarioC_image 0 1 1 [scenarioC_out] 100
      [none] (by decide)).2, by decide⟩

/-! ### The capacity of a partition -/

theorem split_lower_le (K E n : Int) (hK : 1 ≤ K) (hE : 0 < E) (hdiv : K ∣ E) (hn : 0 ≤ n) :
    n / E * (E / K) ≤ n / K := by
  obtain ⟨h1, h2, h3, h4, h5, h6⟩ := split_arith K E n hK hE hdiv hn
  have hK0 : 0 < K := by omega
  rw [Int.le_ediv_iff_mul_le hK0]
  have e : n / E * (E / K) * K = E * (n / E) := by
    calc n / E * (E / K) * K = n / E * (K * (E / K)) := by ring
      _ = n / E * E := by rw [h1]
      _ = E * (n / E) := by ring
  rw [e]
  omega

/-- Claim C36.  For `n ≥ 0`, `E > 0` and `K ≥ 1` dividing `E`,
`icetSparseImageSplitPartitionNumPixels(n, K, E) = n / K + E / K`, and the pixel count
that `icetSparseImageSplit` and `icetSparseImageSplitAlloc` compute for partition `j <
K` lies between 0 and that value; an output image whose `max_num_pixels` is at least
that value is resized to the partition (`icetSparseImageSetDimensions(out, count, 1)`)
without an error. -/
theorem splitPartitionNumPixels_le_capacity (K E n f : Int) (hK : 1 ≤ K) (hE : 0 < E)
    (hdiv : K ∣ E) (hn : 0 ≤ n) (j : Nat) (hj : (j : Int) < K) :
    icetSparseImageSplitPartitionNumPixels n K E = n / K + E / K
      ∧ 0 ≤ splitPartitionNumPixels (icetSparseImageSplitChoosePartitions K E n f) K n f j
      ∧ splitPartitionNumPixels (icetSparseImageSplitChoosePartitions K E n f) K n f j
          ≤ icetSparseImageSplitPartitionNumPixels n K E
      ∧ ∀ out : IceTSparseImageData,
          icetSparseImageSplitPartitionNumPixels n K E ≤ out.max_num_pixels →
          ∃ r, icetSparseImageSetDimensions (some out)
              (splitPartitionNumPixels (icetSparseImageSplitChoosePartitions K E n f) K n f j)
              1 = (some r, [])
            ∧ r.width
              = splitPartitionNumPixels (icetSparseImageSplitChoosePartitions K E n f) K n f j
            ∧ r.height = 1 := by
  obtain ⟨h1, h2, h3, h4, h5, h6⟩ := split_arith K E n hK hE hdiv hn
  have hlow := split_lower_le K E n hK hE hdiv hn
  have hval : icetSparseImageSplitPartitionNumPixels n K E = n / K + E / K := by
    unfold icetSparseImageSplitPartitionNumPixels
    rw [Int.tdiv_eq_ediv (by omega) (by omega), Int.tdiv_eq_ediv hn (by omega)]
  have hsize := splitPartitionNumPixels_eq K E n f hK hE hdiv hn j hj
  have hL : 0 ≤ n / E * (E / K) := Int.mul_nonneg h3 (by omega)
  have hle : splitPartitionNumPixels (icetSparseImageSplitChoosePartitions K E n f) K n f j
      ≤ n / K + E / K := by
    rw [hsize]
    have := min_le_left (E / K) (max 0 (n % E - j * (E / K)))
    omega
  have hge : 0 ≤ splitPartitionNumPixels (icetSparseImageSplitChoosePartitions K E n f) K n f
      j := by
    rw [hsize]
    have : 0 ≤ min (E / K) (max 0 (n % E - j * (E / K))) :=
      le_min (by omega) (le_max_left _ _)
    omega
  refine ⟨hval, hge, by rw [hval]; exact hle, ?_⟩
  intro out hcap
  rw [hval] at hcap
  unfold icetSparseImageSetDimensions
  simp only []
  rw [if_neg (by omega)]
  unfold icetClearSparseImage
  simp only []
  split_ifs
  · exact ⟨_, rfl, rfl, rfl⟩
  · exact ⟨_, rfl, rfl, rfl⟩

/-- Witness for C36: 10 pixels split into `K = 2` of eventually `E = 4` partitions; the
partitions hold 6 and 4 pixels, the bound is `10/2 + 4/2 = 7`. -/
theorem splitPartitionNumPixels_le_capacity_witness :
    icetSparseImageSplitPartitionNumPixels 10 2 4 = 7
      ∧ splitPartitionNumPixels (icetSparseImageSplitChoosePartitions 2 4 10 0) 2 10 0 0 = 6
      ∧ splitPartitionNumPixels (icetSparseImageSplitChoosePartitions 2 4 10 0) 2 10 0 0
          ≤ icetSparseImageSplitPartitionNumPixels 10 2 4 :=
  ⟨by decide, by decide,
    (splitPartitionNumPixels_le_capacity 2 4 10 0 (by decide) (by decide) (by decide)
      (by decide) 0 (by decide)).2.2.1⟩

/-! ### `ICET_BLEND_UBYTE` on premultiplied colors -/

theorem blend_channel_le (b f fa : Nat) (hb : b ≤ 255) (hf : f ≤ fa) (hfa : fa ≤ 255) :
    (b * (255 - fa)) / 255 + f ≤ 255 := by
  have := under_fits_byte b fa f hb hf hfa
  omega

theorem blend_channel_mono (b ba f fa : Nat) (hb : b ≤ ba) (hf : f ≤ fa) :
    (b * (255 - fa)) / 255 + f ≤ (ba * (255 - fa)) / 255 + fa := by
  have h1 : b * (255 - fa) ≤ ba * (255 - fa) := Nat.mul_le_mul_right _ hb
  have h2 : (b * (255 - fa)) / 255 ≤ (ba * (255 - fa)) / 255 := Nat.div_le_div_right h1
  omega

/-- Claim C37.  For all RGBA8 colors `front = (f0, f1, f2, f3)` and `back = (b0, b1, b2,
b3)` whose color channels are at most their alpha (a byte), `ICET_BLEND_UBYTE(front,
back, dest)` stores in every channel `c` the value `(back[c] * (255 - front[3])) / 255 +
front[c]` itself, which is at most 255, so that the cast to a byte loses nothing, and
every color channel of the result is at most the alpha of the result.  This holds when
`dest` is a third array and in the two uses of the macro, `ICET_OVER_UBYTE` (`dest` is
`back`) and `ICET_UNDER_UBYTE` (`dest` is `front`).  A front `(0, 0, 0, 0)` gives `back`
and a front with alpha 255 gives `front`. -/
theorem ICET_BLEND_UBYTE_premultiplied (f0 f1 f2 f3 b0 b1 b2 b3 : Nat)
    (hf0 : f0 ≤ f3) (hf1 : f1 ≤ f3) (hf2 : f2 ≤ f3) (hf3 : f3 ≤ 255)
    (hb0 : b0 ≤ b3) (hb1 : b1 ≤ b3) (hb2 : b2 ≤ b3) (hb3 : b3 ≤ 255) :
    (∀ d0 d1 d2 d3 : Nat,
      (ICET_BLEND_UBYTE (.src 0) (.src 4) (.dest 0)
          { src := [f0, f1, f2, f3, b0, b1, b2, b3], dest := [d0, d1, d2, d3] }).dest
        = [(b0 * (255 - f3)) / 255 + f0, (b1 * (255 - f3)) / 255 + f1,
            (b2 * (255 - f3)) / 255 + f2, (b3 * (255 - f3)) / 255 + f3])
    ∧ (ICET_OVER_UBYTE (.src 0) (.dest 0)
          { src := [f0, f1, f2, f3], dest := [b0, b1, b2, b3] }).dest
        = [(b0 * (255 - f3)) / 255 + f0, (b1 * (255 - f3)) / 255 + f1,
            (b2 * (255 - f3)) / 255 + f2, (b3 * (255 - f3)) / 255 + f3]
    ∧ (ICET_UNDER_UBYTE (.src 0) (.dest 0)
          { src := [b0, b1, b2, b3], dest := [f0, f1, f2, f3] }).dest
        = [(b0 * (255 - f3)) / 255 + f0, (b1 * (255 - f3)) / 255 + f1,
            (b2 * (255 - f3)) / 255 + f2, (b3 * (255 - f3)) / 255 + f3]
    ∧ ((b0 * (255 - f3)) / 255 + f0 ≤ (b3 * (255 - f3)) / 255 + f3
      ∧ (b1 * (255 - f3)) / 255 + f1 ≤ (b3 * (255 - f3)) / 255 + f3
      ∧ (b2 * (255 - f3)) / 255 + f2 ≤ (b3 * (255 - f3)) / 255 + f3
      ∧ (b3 * (255 - f3)) / 255 + f3 ≤ 255)
    ∧ (f3 = 0 →
        [(b0 * (255 - f3)) / 255 + f0, (b1 * (255 - f3)) / 255 + f1,
            (b2 * (255 - f3)) / 255 + f2, (b3 * (255 - f3)) / 255 + f3]
          = [b0, b1, b2, b3])
    ∧ (f3 = 255 →
        [(b0 * (255 - f3)) / 255 + f0, (b1 * (255 - f3)) / 255 + f1,
            (b2 * (255 - f3)) / 255 + f2, (b3 * (255 - f3)) / 255 + f3]
          = [f0, f1, f2, f3]) := by
  have c0 := blend_channel_le b0 f0 f3 (by omega) hf0 hf3
  have c1 := blend_channel_le b1 f1 f3 (by omega) hf1 hf3
  have c2 := blend_channel_le b2 f2 f3 (by omega) hf2 hf3
  have c3 := blend_channel_le b3 f3 f3 hb3 (le_refl _) hf3
  have m0 : ((b0 * (255 - f3)) / 255 + f0) % 256 = (b0 * (255 - f3)) / 255 + f0 :=
    Nat.mod_eq_of_lt (by omega)
  have m1 : ((b1 * (255 - f3)) / 255 + f1) % 256 = (b1 * (255 - f3)) / 255 + f1 :=
    Nat.mod_eq_of_lt (by omega)
  have m2 : ((b2 * (255 - f3)) / 255 + f2) % 256 = (b2 * (255 - f3)) / 255 + f2 :=
    Nat.mod_eq_of_lt (by omega)
  have m3 : ((b3 * (255 - f3)) / 255 + f3) % 256 = (b3 * (255 - f3)) / 255 + f3 :=
    Nat.mod_eq_of_lt (by omega)
  refine ⟨?_, ?_, ?_, ⟨blend_channel_mono b0 b3 f0 f3 hb0 hf0,
    blend_channel_mono b1 b3 f1 f3 hb1 hf1, blend_channel_mono b2 b3 f2 f3 hb2 hf2, c3⟩,
    ?_, ?_⟩
  · intro d0 d1 d2 d3
    simp [ICET_BLEND_UBYTE, BlendMem.read, BlendMem.write, m0, m1, m2, m3]
  · simp [ICET_OVER_UBYTE, ICET_BLEND_UBYTE, BlendMem.read, BlendMem.write, m0, m1, m2, m3]
  · simp [ICET_UNDER_UBYTE, ICET_BLEND_UBYTE, BlendMem.read, BlendMem.write, m0, m1, m2, m3]
  · intro h
    subst h
    have e0 : f0 = 0 := by omega
    have e1 : f1 = 0 := by omega
    have e2 : f2 = 0 := by omega
    subst e0 e1 e2
    simp
  · intro h
    subst h
    simp

/-- Witness for C37: the half-transparent red `(100, 0, 0, 128)` over the opaque blue
`(0, 0, 200, 255)` gives `(100, 0, 99, 255)`. -/
theorem ICET_BLEND_UBYTE_premultiplied_witness :
    (ICET_OVER_UBYTE (.src 0) (.dest 0)
        { src := [100, 0, 0, 128], dest := [0, 0, 200, 255] }).dest = [100, 0, 99, 255] := by
  have h := (ICET_BLEND_UBYTE_premultiplied 100 0 0 128 0 0 200 255 (by decide) (by decide)
    (by decide) (by decide) (by decide) (by decide) (by decide) (by decide)).2.1
  rw [h]

/-! ### The offset lookup: errors and range -/

theorem icetGetInterlaceOffset_found (j E n : Int) (hj0 : 0 ≤ j) (hj : j < E) :
    ∃ offset, icetGetInterlaceOffset j E n
      = (offset, [.timingInterlaceBegin, .timingInterlaceEnd]) := by
  obtain ⟨j', rfl⟩ := Int.eq_ofNat_of_zero_le hj0
  obtain ⟨E', rfl⟩ := Int.eq_ofNat_of_zero_le (show 0 ≤ E by omega)
  have hj' : j' < E' := by exact_mod_cast hj
  have hloop := getInterlaceOffsetLoop_eq j' E' (Int.tdiv n E') (Int.tmod n E') hj' E' 0 0
    (Nat.zero_le _) (by have := interlaceIndex_lt E' j' hj'; omega)
  unfold icetGetInterlaceOffset
  rw [if_neg (by omega)]
  simp only [Int.toNat_ofNat]
  rw [Nat.cast_zero] at hloop
  rw [hloop]
  exact ⟨_, rfl⟩

/-- Claim C35.  `icetGetInterlaceOffset(j, E, n)` raises an error if and only if `j < 0`
or `j ≥ E`; the error is then `INVALID_VALUE`, nothing else happens and the result is 0.
For every `0 ≤ j < E` the loop finds the partition: the events are the two interlace
timing hooks, `SANITY_CHECK_FAIL` is not raised, and for `n ≥ 0` the result lies between
0 and `n`. -/
theorem icetGetInterlaceOffset_errors (j E n : Int) :
    ((∃ kind, Event.raiseError kind ∈ (icetGetInterlaceOffset j E n).2) ↔ (j < 0 ∨ E ≤ j))
    ∧ (j < 0 ∨ E ≤ j → icetGetInterlaceOffset j E n = (0, [.raiseError .INVALID_VALUE]))
    ∧ (0 ≤ j → j < E →
        (icetGetInterlaceOffset j E n).2 = [.timingInterlaceBegin, .timingInterlaceEnd]
        ∧ Event.raiseError .SANITY_CHECK_FAIL ∉ (icetGetInterlaceOffset j E n).2
        ∧ (0 ≤ n → 0 ≤ (icetGetInterlaceOffset j E n).1
            ∧ (icetGetInterlaceOffset j E n).1 ≤ n)) := by
  have hbad : j < 0 ∨ E ≤ j → icetGetInterlaceOffset j E n
      = (0, [.raiseError .INVALID_VALUE]) := by
    intro h
    unfold icetGetInterlaceOffset
    rw [if_pos h]
  refine ⟨?_, hbad, ?_⟩
  · constructor
    · rintro ⟨kind, hmem⟩
      by_contra hcon
      obtain ⟨offset, hfound⟩ := icetGetInterlaceOffset_found j E n (by omega) (by omega)
      rw [hfound] at hmem
      simp at hmem
    · intro h
      rw [hbad h]
      exact ⟨.INVALID_VALUE, by simp⟩
  · intro hj0 hj
    obtain ⟨offset, hfound⟩ := icetGetInterlaceOffset_found j E n hj0 hj
    refine ⟨by rw [hfound], by rw [hfound]; simp, ?_⟩
    intro hn
    rw [icetGetInterlaceOffset_eq j E n hn hj0 hj]
    obtain ⟨j', rfl⟩ := Int.eq_ofNat_of_zero_le hj0
    obtain ⟨E', rfl⟩ := Int.eq_ofNat_of_zero_le (show 0 ≤ E by omega)
    obtain ⟨n', rfl⟩ := Int.eq_ofNat_of_zero_le hn
    have hj' : j' < E' := by exact_mod_cast hj
    simp only [originalOffset_nat]
    have hle := originalStart_le E' n' (interlaceIndex E' j') (by omega)
      (interlaceIndex_lt E' j' hj').le
    exact ⟨Int.ofNat_nonneg _, by exact_mod_cast hle⟩

/-- Witness for C35: for `E = 4` and `n = 8`, partition 1 is found at offset 4, and the
partition index 4 is rejected. -/
theorem icetGetInterlaceOffset_errors_witness :
    icetGetInterlaceOffset 1 4 8 = (4, [.timingInterlaceBegin, .timingInterlaceEnd])
    ∧ (icetGetInterlaceOffset 1 4 8).1 ≤ 8
    ∧ icetGetInterlaceOffset 4 4 8 = (0, [.raiseError .INVALID_VALUE]) :=
  ⟨by decide,
    (((icetGetInterlaceOffset_errors 1 4 8).2.2 (by decide) (by decide)).2.2
      (by decide)).2,
    (icetGetInterlaceOffset_errors 4 4 8).2.1 (Or.inr (by decide))⟩

/-! ### The partition index map of interlacing -/

theorem interlaceRecordLoop_records (layered : Bool) (E : Nat) (lower rem : Int) :
    ∀ (count o : Nat) (c : ScanCursor) (arrays arrays' : List (Option ScanCursor)),
      o + count = E → arrays.length = E →
      (∀ o' < o, ∃ c', arrays.getD (interlaceIndex E o') none = some c') →
      interlaceRecordLoop layered (E : Int) lower rem count (o : Int) c arrays = some arrays' →
      ∀ o' < E, ∃ c', arrays'.getD (interlaceIndex E o') none = some c' := by
  intro count
  induction count with
  | zero =>
    intro o c arrays arrays' ho _ harr hr
    simp only [interlaceRecordLoop, Option.some.injEq] at hr
    subst hr
    have : o = E := by omega
    subst this
    exact harr
  | succ count ih =>
    intro o c arrays arrays' ho hal harr hr
    have hoE : o < E := by omega
    have hidx := interlaceIndex_lt E o hoE
    rw [interlaceRecordLoop] at hr
    simp only [interlacedPartitionIdx_eq, Int.toNat_ofNat] at hr
    rw [if_pos ⟨Int.ofNat_nonneg _, by rw [hal]; exact_mod_cast hidx⟩] at hr
    have hnext : ∀ o' < o + 1, ∃ c',
        (arrays.set (interlaceIndex E o) (some c)).getD (interlaceIndex E o') none
          = some c' := by
      intro o' ho'
      rw [List.getD_eq_getElem?_getD]
      by_cases hsame : interlaceIndex E o = interlaceIndex E o'
      · rw [← hsame, List.getElem?_set_self (by rw [hal]; exact hidx)]
        exact ⟨c, rfl⟩
      · rw [List.getElem?_set_ne hsame, ← List.getD_eq_getElem?_getD]
        have : o' < o := by
          rcases Nat.lt_or_ge o' o with h | h
          · exact h
          · have : o' = o := by omega
            subst this
            exact absurd rfl hsame
        exact harr o' this
    have hcast : ((o : Int) + 1) = ((o + 1 : Nat) : Int) := by push_cast; rfl
    split_ifs at hr with hlast
    · simp only [Option.bind_eq_some] at hr
      obtain ⟨r, -, hrec⟩ := hr
      rw [hcast] at hrec
      exact ih (o + 1) r.1 _ arrays' (by omega) (by simp [hal]) hnext hrec
    · rw [hcast] at hr
      exact ih (o + 1) c _ arrays' (by omega) (by simp [hal]) hnext hr

/-- Claim C34.  The partition index map of interlacing, `m(o) = BIT_REVERSE(o, E)` if
that value is below `E` and `m(o) = o` otherwise, maps `{0, ..., E-1}` into itself and
is its own inverse there, for every `E ≥ 1`; so every interlaced partition index `j <
E` is `m(o)` for exactly one original index `o < E`.  Whenever the first loop of
`icetSparseImageInterlace` ends, it has stored a cursor for every interlaced partition
index; the second loop, which reads them, runs after it. -/
theorem interlacedPartitionIdx_involution (E : Int) (hE : 1 ≤ E) :
    (∀ o : Int, interlacedPartitionIdx o E
        = if BIT_REVERSE o E < E then BIT_REVERSE o E else o)
    ∧ (∀ o : Int, 0 ≤ o → o < E →
        0 ≤ interlacedPartitionIdx o E ∧ interlacedPartitionIdx o E < E
        ∧ interlacedPartitionIdx (interlacedPartitionIdx o E) E = o)
    ∧ (∀ j : Int, 0 ≤ j → j < E →
        ∃! o : Int, (0 ≤ o ∧ o < E) ∧ interlacedPartitionIdx o E = j)
    ∧ (∀ (layered : Bool) (lower rem : Int) (c : ScanCursor)
        (arrays : List (Option ScanCursor)),
        interlaceRecordLoop layered E lower rem E.toNat 0 c
            (List.replicate E.toNat none) = some arrays →
        ∀ j : Nat, (j : Int) < E → ∃ cursor, arrays.getD j none = some cursor) := by
  obtain ⟨E', rfl⟩ := Int.eq_ofNat_of_zero_le (show 0 ≤ E by omega)
  have hinv : ∀ o : Int, 0 ≤ o → o < (E' : Int) →
      0 ≤ interlacedPartitionIdx o E' ∧ interlacedPartitionIdx o E' < E'
      ∧ interlacedPartitionIdx (interlacedPartitionIdx o E') E' = o := by
    intro o ho0 ho
    obtain ⟨o', rfl⟩ := Int.eq_ofNat_of_zero_le ho0
    have ho' : o' < E' := by exact_mod_cast ho
    rw [interlacedPartitionIdx_eq, interlacedPartitionIdx_eq,
      interlaceIndex_involutive E' o' ho']
    exact ⟨Int.ofNat_nonneg _, by exact_mod_cast interlaceIndex_lt E' o' ho', rfl⟩
  refine ⟨?_, hinv, ?_, ?_⟩
  · intro o
    unfold interlacedPartitionIdx
    simp only []
    split_ifs with h1 h2 h2
    · omega
    · rfl
    · rfl
    · omega
  · intro j hj0 hj
    obtain ⟨h1, h2, h3⟩ := hinv j hj0 hj
    refine ⟨interlacedPartitionIdx j E', ⟨⟨h1, h2⟩, h3⟩, ?_⟩
    rintro o ⟨⟨ho0, ho⟩, hm⟩
    rw [← hm, (hinv o ho0 ho).2.2]
  · intro layered lower rem c arrays hr j hj
    have hj' : j < E' := by exact_mod_cast hj
    simp only [Int.toNat_ofNat] at hr
    have := interlaceRecordLoop_records layered E' lower rem E' 0 c
      (List.replicate E' none) arrays (by omega) (by simp) (by intro o' ho'; omega)
      (by rw [Nat.cast_zero]; exact hr) (interlaceIndex E' j) (interlaceIndex_lt E' j hj')
    rwa [interlaceIndex_involutive E' j hj'] at this

/-- Witness for C34: for `E = 4` the map sends 0, 1, 2, 3 to 0, 2, 1, 3; for `E = 3` it
sends 1 to 2 and 2 to 1 (the reversals of 1 and 2 on two bits). -/
theorem interlacedPartitionIdx_involution_witness :
    (List.range 4).map (fun (o : Nat) => interlacedPartitionIdx (o : Int) 4) = [0, 2, 1, 3]
    ∧ (List.range 3).map (fun (o : Nat) => interlacedPartitionIdx (o : Int) 3) = [0, 2, 1]
    ∧ interlacedPartitionIdx (interlacedPartitionIdx 1 4) 4 = 1 :=
  ⟨by decide, by decide,
    ((interlacedPartitionIdx_involution 4 (by decide)).2.1 1 (by decide) (by decide)).2.2⟩

/-! ### `icetImageClearAroundRegion` writes every fragment outside the region once -/

theorem clearedFragments_strips (width height : Int) (num_layers : Nat)
    (region0 region1 region2 region3 : Int) :
    clearedFragments width height num_layers region0 region1 region2 region3
      = clearedBottom width num_layers region1
        ++ clearedSides width num_layers region0 region1 region2 region3
        ++ clearedTop width height num_layers region1 region3 := rfl

theorem scaled_pair_inj (a a' : Int) (L l l' : Nat) (hl : l < L) (hl' : l' < L)
    (h : a * (L : Int) + (l : Int) = a' * (L : Int) + (l' : Int)) : a = a' ∧ l = l' := by
  rcases lt_trichotomy a a' with h1 | h1 | h1
  · have h2 : (a + 1) * (L : Int) ≤ a' * (L : Int) :=
      Int.mul_le_mul_of_nonneg_right (by omega) (Int.ofNat_nonneg L)
    have h3 : (a + 1) * (L : Int) = a * (L : Int) + (L : Int) := by ring
    omega
  · subst h1
    exact ⟨rfl, by omega⟩
  · have h2 : (a' + 1) * (L : Int) ≤ a * (L : Int) :=
      Int.mul_le_mul_of_nonneg_right (by omega) (Int.ofNat_nonneg L)
    have h3 : (a' + 1) * (L : Int) = a' * (L : Int) + (L : Int) := by ring
    omega

theorem nodup_clearedColumns (width : Int) (num_layers : Nat) (y lo hi : Int) :
    (clearedColumns width num_layers y lo hi).Nodup := by
  unfold clearedColumns
  rw [List.nodup_flatMap]
  constructor
  · intro k _
    apply List.Nodup.map_on _ (List.nodup_range _)
    intro a ha b hb hab
    have := (scaled_pair_inj _ _ num_layers a b (List.mem_range.mp ha) (List.mem_range.mp hb)
      hab).2
    exact this
  · apply List.Nodup.pairwise_of_forall_ne (List.nodup_range _)
    intro a _ b _ hne
    rw [Function.onFun, List.disjoint_left]
    intro idx h1 h2
    simp only [List.mem_map, List.mem_range] at h1 h2
    obtain ⟨l, hl, rfl⟩ := h1
    obtain ⟨l', hl', heq⟩ := h2
    have := (scaled_pair_inj _ _ num_layers l' l hl' hl heq).1
    apply hne
    omega

theorem nodup_rows (w : Int) (L : Nat) (f : Nat → List Int) (y0 : Int) (n : Nat)
    (hmem : ∀ k idx, idx ∈ f k → ∃ (x : Int) (layer : Nat), 0 ≤ x ∧ x < w ∧ layer < L
      ∧ idx = ((y0 + (k : Int)) * w + x) * (L : Int) + (layer : Int))
    (hnd : ∀ k, (f k).Nodup) : ((List.range n).flatMap f).Nodup := by
  rw [List.nodup_flatMap]
  refine ⟨fun k _ => hnd k, ?_⟩
  apply List.Nodup.pairwise_of_forall_ne (List.nodup_range _)
  intro a _ b _ hne
  rw [Function.onFun, List.disjoint_left]
  intro idx h1 h2
  obtain ⟨x, l, hx0, hxw, hl, rfl⟩ := hmem a idx h1
  obtain ⟨x', l', hx0', hxw', hl', heq⟩ := hmem b _ h2
  have := (fragmentIndex_inj w L x _ x' _ l l' hx0 hxw hx0' hxw' hl hl' heq).2.1
  apply hne
  omega

theorem mem_clearedBottom (width : Int) (num_layers : Nat) (region1 idx : Int) :
    idx ∈ clearedBottom width num_layers region1
      ↔ ∃ (x y : Int) (layer : Nat), 0 ≤ x ∧ x < width ∧ 0 ≤ y ∧ y < region1
          ∧ layer < num_layers
          ∧ idx = (y * width + x) * (num_layers : Int) + (layer : Int) := by
  unfold clearedBottom
  simp only [List.mem_flatMap, List.mem_range, mem_clearedColumns]
  constructor
  · rintro ⟨k, hk, x, layer, hx1, hx2, hl, rfl⟩
    exact ⟨x, 0 + k, layer, hx1, hx2, by omega, by omega, hl, rfl⟩
  · rintro ⟨x, y, layer, hx0, hxw, hy0, hy, hl, rfl⟩
    refine ⟨y.toNat, by omega, x, layer, hx0, hxw, hl, ?_⟩
    rw [Int.toNat_of_nonneg hy0, Int.zero_add]

theorem mem_clearedTop (width height : Int) (num_layers : Nat) (region1 region3 idx : Int) :
    idx ∈ clearedTop width height num_layers region1 region3
      ↔ ∃ (x y : Int) (layer : Nat), 0 ≤ x ∧ x < width ∧ region1 + region3 ≤ y ∧ y < height
          ∧ layer < num_layers
          ∧ idx = (y * width + x) * (num_layers : Int) + (layer : Int) := by
  unfold clearedTop
  simp only [List.mem_flatMap, List.mem_range, mem_clearedColumns]
  constructor
  · rintro ⟨k, hk, x, layer, hx1, hx2, hl, rfl⟩
    exact ⟨x, region1 + region3 + k, layer, hx1, hx2, by omega, by omega, hl, rfl⟩
  · rintro ⟨x, y, layer, hx0, hxw, hy0, hy, hl, rfl⟩
    refine ⟨(y - (region1 + region3)).toNat, by omega, x, layer, hx0, hxw, hl, ?_⟩
    rw [Int.toNat_of_nonneg (by omega)]
    have e : region1 + region3 + (y - (region1 + region3)) = y := by omega
    rw [e]

theorem mem_clearedSides (width : Int) (num_layers : Nat)
    (region0 region1 region2 region3 idx : Int) (h0 : 0 ≤ region0) (h2 : 0 ≤ region2)
    (hw : region0 + region2 ≤ width) :
    idx ∈ clearedSides width num_layers region0 region1 region2 region3
      ↔ ∃ (x y : Int) (layer : Nat), 0 ≤ x ∧ x < width
          ∧ (x < region0 ∨ region0 + region2 ≤ x) ∧ region1 ≤ y ∧ y < region1 + region3
          ∧ layer < num_layers
          ∧ idx = (y * width + x) * (num_layers : Int) + (layer : Int) := by
  unfold clearedSides
  split_ifs with hc
  · simp only [List.mem_flatMap, List.mem_range, List.mem_append, mem_clearedColumns]
    constructor
    · rintro ⟨k, hk, ⟨x, layer, hx1, hx2, hl, rfl⟩ | ⟨x, layer, hx1, hx2, hl, rfl⟩⟩
      · exact ⟨x, region1 + k, layer, hx1, by omega, Or.inl hx2, by omega, by omega, hl,
          rfl⟩
      · exact ⟨x, region1 + k, layer, by omega, hx2, Or.inr hx1, by omega, by omega, hl,
          rfl⟩
    · rintro ⟨x, y, layer, hx0, hxw, hside, hy0, hy, hl, rfl⟩
      refine ⟨(y - region1).toNat, by omega, ?_⟩
      rw [Int.toNat_of_nonneg (by omega)]
      have e : region1 + (y - region1) = y := by omega
      rw [e]
      rcases hside with hs | hs
      · exact Or.inl ⟨x, layer, hx0, hs, hl, rfl⟩
      · exact Or.inr ⟨x, layer, hs, hxw, hl, rfl⟩
  · simp only [List.not_mem_nil, false_iff]
    rintro ⟨x, y, layer, hx0, hxw, hside, -⟩
    omega

theorem nodup_clearedBottom (width : Int) (num_layers : Nat) (region1 : Int) :
    (clearedBottom width num_layers region1).Nodup := by
  unfold clearedBottom
  apply nodup_rows width num_layers _ 0 _ _ (fun k => nodup_clearedColumns _ _ _ _ _)
  intro k idx hidx
  obtain ⟨x, layer, h1, h2, h3, h4⟩ := (mem_clearedColumns _ _ _ _ _ _).mp hidx
  exact ⟨x, layer, h1, h2, h3, h4⟩

theorem nodup_clearedTop (width height : Int) (num_layers : Nat) (region1 region3 : Int) :
    (clearedTop width height num_layers region1 region3).Nodup := by
  unfold clearedTop
  apply nodup_rows width num_layers _ (region1 + region3) _ _
    (fun k => nodup_clearedColumns _ _ _ _ _)
  intro k idx hidx
  obtain ⟨x, layer, h1, h2, h3, h4⟩ := (mem_clearedColumns _ _ _ _ _ _).mp hidx
  exact ⟨x, layer, h1, h2, h3, h4⟩

theorem nodup_clearedSides (width : Int) (num_layers : Nat)
    (region0 region1 region2 region3 : Int) (h0 : 0 ≤ region0) (h2 : 0 ≤ region2)
    (hw : region0 + region2 ≤ width) :
    (clearedSides width num_layers region0 region1 region2 region3).Nodup := by
  unfold clearedSides
  split_ifs with hc
  · apply nodup_rows width num_layers _ region1 _ _
    · intro k
      rw [List.nodup_append]
      refine ⟨nodup_clearedColumns _ _ _ _ _, nodup_clearedColumns _ _ _ _ _, ?_⟩
      rw [List.disjoint_left]
      intro idx h1 h2'
      obtain ⟨x, layer, a1, a2, a3, rfl⟩ := (mem_clearedColumns _ _ _ _ _ _).mp h1
      obtain ⟨x', layer', b1, b2, b3, heq⟩ := (mem_clearedColumns _ _ _ _ _ _).mp h2'
      have := (fragmentIndex_inj width num_layers x _ x' _ layer layer' a1 (by omega)
        (by omega) b2 a3 b3 heq).1
      omega
    · intro k idx hidx
      rcases List.mem_append.mp hidx with h | h
      · obtain ⟨x, layer, h1, h2', h3, h4⟩ := (mem_clearedColumns _ _ _ _ _ _).mp h
        exact ⟨x, layer, h1, by omega, h3, h4⟩
      · obtain ⟨x, layer, h1, h2', h3, h4⟩ := (mem_clearedColumns _ _ _ _ _ _).mp h
        exact ⟨x, layer, by omega, h2', h3, h4⟩
  · exact List.nodup_nil

/-- Claim C32.  For every image size, layer count and region lying inside the image, the
loop nest of `icetImageClearAroundRegion` writes, for each buffer, exactly the fragments
`clearedBottom ++ clearedSides ++ clearedTop`, one write each and in this order (the
nest is run once for the color buffer and once for the depth buffer).  The three strips
are pairwise disjoint and without repetition, and a fragment index belongs to one of
them exactly when it is a fragment of a pixel outside the region: every fragment
outside the region is written exactly once and no fragment inside it is written. -/
theorem icetImageClearAroundRegion_writes_once (width height : Int) (num_layers : Nat)
    (region0 region1 region2 region3 : Int)
    (h0 : 0 ≤ region0) (h1 : 0 ≤ region1) (h2 : 0 ≤ region2) (h3 : 0 ≤ region3)
    (hw : region0 + region2 ≤ width) (hh : region1 + region3 ≤ height) :
    (∀ values buffer : List Nat,
      clearAroundRegionLoops width height num_layers region0 region1 region2 region3 values
          buffer
        = (clearedBottom width num_layers region1
            ++ clearedSides width num_layers region0 region1 region2 region3
            ++ clearedTop width height num_layers region1 region3).foldlM
          (fun buffer idx => storeAt values (idx * values.length) buffer) buffer)
    ∧ (clearedBottom width num_layers region1).Disjoint
        (clearedSides width num_layers region0 region1 region2 region3)
    ∧ (clearedBottom width num_layers region1).Disjoint
        (clearedTop width height num_layers region1 region3)
    ∧ (clearedSides width num_layers region0 region1 region2 region3).Disjoint
        (clearedTop width height num_layers region1 region3)
    ∧ (clearedBottom width num_layers region1
        ++ clearedSides width num_layers region0 region1 region2 region3
        ++ clearedTop width height num_layers region1 region3).Nodup
    ∧ (∀ idx : Int,
        idx ∈ clearedBottom width num_layers region1
            ++ clearedSides width num_layers region0 region1 region2 region3
            ++ clearedTop width height num_layers region1 region3
          ↔ ∃ (x y : Int) (layer : Nat), 0 ≤ x ∧ x < width ∧ 0 ≤ y ∧ y < height
              ∧ layer < num_layers
              ∧ ¬ (region0 ≤ x ∧ x < region0 + region2 ∧ region1 ≤ y
                ∧ y < region1 + region3)
              ∧ idx = (y * width + x) * (num_layers : Int) + (layer : Int))
    ∧ (∀ (x y : Int) (layer : Nat), 0 ≤ x → x < width → 0 ≤ y → y < height →
        layer < num_layers →
        (clearedBottom width num_layers region1
            ++ clearedSides width num_layers region0 region1 region2 region3
            ++ clearedTop width height num_layers region1 region3).count
            ((y * width + x) * (num_layers : Int) + (layer : Int))
          = if region0 ≤ x ∧ x < region0 + region2 ∧ region1 ≤ y ∧ y < region1 + region3
            then 0 else 1) := by
  have hmem : ∀ idx : Int,
      idx ∈ clearedBottom width num_layers region1
          ++ clearedSides width num_layers region0 region1 region2 region3
          ++ clearedTop width height num_layers region1 region3
        ↔ ∃ (x y : Int) (layer : Nat), 0 ≤ x ∧ x < width ∧ 0 ≤ y ∧ y < height
            ∧ layer < num_layers
            ∧ ¬ (region0 ≤ x ∧ x < region0 + region2 ∧ region1 ≤ y
              ∧ y < region1 + region3)
            ∧ idx = (y * width + x) * (num_layers : Int) + (layer : Int) := by
    intro idx
    rw [← clearedFragments_strips]
    exact mem_clearedFragments width height num_layers region0 region1 region2 region3 idx
      h0 h1 h2 h3 hw hh
  have d1 : (clearedBottom width num_layers region1).Disjoint
      (clearedSides width num_layers region0 region1 region2 region3) := by
    rw [List.disjoint_left]
    intro idx ha hb
    obtain ⟨x, y, l, a1, a2, a3, a4, a5, rfl⟩ := (mem_clearedBottom _ _ _ _).mp ha
    obtain ⟨x', y', l', b1, b2, -, b4, b5, b6, heq⟩ :=
      (mem_clearedSides _ _ _ _ _ _ _ h0 h2 hw).mp hb
    have := (fragmentIndex_inj width num_layers x y x' y' l l' a1 a2 b1 b2 a5 b6 heq).2.1
    omega
  have d2 : (clearedBottom width num_layers region1).Disjoint
      (clearedTop width height num_layers region1 region3) := by
    rw [List.disjoint_left]
    intro idx ha hb
    obtain ⟨x, y, l, a1, a2, a3, a4, a5, rfl⟩ := (mem_clearedBottom _ _ _ _).mp ha
    obtain ⟨x', y', l', b1, b2, b4, b5, b6, heq⟩ := (mem_clearedTop _ _ _ _ _ _).mp hb
    have := (fragmentIndex_inj width num_layers x y x' y' l l' a1 a2 b1 b2 a5 b6 heq).2.1
    omega
  have d3 : (clearedSides width num_layers region0 region1 region2 region3).Disjoint
      (clearedTop width height num_layers region1 region3) := by
    rw [List.disjoint_left]
    intro idx ha hb
    obtain ⟨x, y, l, a1, a2, -, a3, a4, a5, rfl⟩ :=
      (mem_clearedSides _ _ _ _ _ _ _ h0 h2 hw).mp ha
    obtain ⟨x', y', l', b1, b2, b4, b5, b6, heq⟩ := (mem_clearedTop _ _ _ _ _ _).mp hb
    have := (fragmentIndex_inj width num_layers x y x' y' l l' a1 a2 b1 b2 a5 b6 heq).2.1
    omega
  have hnd : (clearedBottom width num_layers region1
      ++ clearedSides width num_layers region0 region1 region2 region3
      ++ clearedTop width height num_layers region1 region3).Nodup := by
    rw [List.nodup_append, List.nodup_append]
    refine ⟨⟨nodup_clearedBottom _ _ _, nodup_clearedSides _ _ _ _ _ _ h0 h2 hw, d1⟩,
      nodup_clearedTop _ _ _ _ _, ?_⟩
    rw [List.disjoint_left]
    intro idx ha
    rcases List.mem_append.mp ha with ha | ha
    · exact List.disjoint_left.mp d2 ha
    · exact List.disjoint_left.mp d3 ha
  refine ⟨?_, d1, d2, d3, hnd, hmem, ?_⟩
  · intro values buffer
    rw [clearAroundRegionLoops_eq, clearedFragments_strips]
  · intro x y layer hx0 hxw hy0 hyh hl
    split_ifs with hin
    · apply List.count_eq_zero_of_not_mem
      intro hcon
      obtain ⟨x', y', l', b1, b2, b3, b4, b5, hout, heq⟩ := (hmem _).mp hcon
      obtain ⟨e1, e2, -⟩ := fragmentIndex_inj width num_layers x y x' y' layer l' hx0 hxw
        b1 b2 hl b5 heq
      subst e1 e2
      exact hout hin
    · exact List.count_eq_one_of_mem hnd
        ((hmem _).mpr ⟨x, y, layer, hx0, hxw, hy0, hyh, hl, hin, rfl⟩)

/-- Witness for C32: in a 3x3 image with the region `(1, 1, 1, 1)` the nest writes the
eight pixels around the centre, each once, and not the centre pixel 4. -/
theorem icetImageClearAroundRegion_writes_once_witness :
    clearedBottom 3 1 1 ++ clearedSides 3 1 1 1 1 1 ++ clearedTop 3 3 1 1 1
        = [0, 1, 2, 3, 5, 6, 7, 8]
    ∧ (clearedBottom 3 1 1 ++ clearedSides 3 1 1 1 1 1 ++ clearedTop 3 3 1 1 1).Nodup :=
  ⟨by decide,
    (icetImageClearAroundRegion_writes_once 3 3 1 1 1 1 1 (by decide) (by decide) (by decide)
      (by decide) (by decide) (by decide)).2.2.2.2.1⟩

/-! ### Timing hooks are balanced -/

theorem hooksBalanced_filter (b e : Event) (hb : b.isTiming = true) (he : e.isTiming = true)
    (ev : List Event) (h : hooksBalanced b e (ev.filter Event.isTiming)) :
    hooksBalanced b e ev := by
  obtain ⟨h1, h2⟩ := h
  constructor
  · rw [← List.count_filter hb, ← List.count_filter he]
    exact h1
  · intro p hp
    obtain ⟨t, rfl⟩ := (List.mem_inits _ _).mp hp
    have := h2 (p.filter Event.isTiming)
      ((List.mem_inits _ _).mpr ⟨t.filter Event.isTiming, by rw [List.filter_append]⟩)
    rwa [List.count_filter hb, List.count_filter he] at this

theorem timingBalanced_of_filter (ev : List Event)
    (h : ev.filter Event.isTiming = []
      ∨ ev.filter Event.isTiming = [.timingCompressBegin, .timingCompressEnd]
      ∨ ev.filter Event.isTiming = [.timingInterlaceBegin, .timingInterlaceEnd]
      ∨ ev.filter Event.isTiming = [.timingBlendBegin, .timingBlendEnd]) :
    timingBalanced ev := by
  have key : timingBalanced (ev.filter Event.isTiming) := by
    rcases h with h | h | h | h <;> (rw [h]; decide)
  exact ⟨hooksBalanced_filter .timingCompressBegin .timingCompressEnd rfl rfl ev key.1,
    hooksBalanced_filter .timingInterlaceBegin .timingInterlaceEnd rfl rfl ev key.2.1,
    hooksBalanced_filter .timingBlendBegin .timingBlendEnd rfl rfl ev key.2.2⟩

theorem fragmentSizeDiagnostics_quiet (cf : ColorFormat) (df : DepthFormat) :
    (fragmentSizeDiagnostics cf df).filter Event.isTiming = [] := by
  cases cf <;> cases df <;> rfl

theorem sparseSetDimensions_quiet (image : IceTSparseImage) (w h : Int) :
    (icetSparseImageSetDimensions image w h).2.filter Event.isTiming = [] := by
  unfold icetSparseImageSetDimensions
  cases image with
  | none => rfl
  | some data =>
    simp only []
    split_ifs <;> rfl

theorem copyInternal_quiet (cursor : ScanCursor) (n : Int) (out : IceTSparseImageData)
    (c : ScanCursor) (o : IceTSparseImageData) (ev : List Event)
    (hr : icetSparseImageCopyPixelsInternal cursor n out = some (c, o, ev)
      ∨ icetSparseLayeredImageCopyPixelsInternal cursor n out = some (c, o, ev)) :
    ev.filter Event.isTiming = [] := by
  rcases hr with hr | hr
  · unfold icetSparseImageCopyPixelsInternal at hr
    simp only [Option.map_eq_some'] at hr
    obtain ⟨r, -, heq⟩ := hr
    simp only [Prod.mk.injEq] at heq
    rw [← heq.2.2]
    exact sparseSetDimensions_quiet _ _ _
  · unfold icetSparseLayeredImageCopyPixelsInternal at hr
    simp only [Option.map_eq_some'] at hr
    obtain ⟨r, -, heq⟩ := hr
    simp only [Prod.mk.injEq] at heq
    rw [← heq.2.2]
    exact sparseSetDimensions_quiet _ _ _

theorem icetSparseImageCopyPixels_timing (in_image : IceTSparseImageData) (off n : Int)
    (out r : IceTSparseImageData) (ev : List Event)
    (hr : icetSparseImageCopyPixels in_image off n out = some (r, ev)) :
    ev.filter Event.isTiming = [.timingCompressBegin, .timingCompressEnd] := by
  unfold icetSparseImageCopyPixels at hr
  simp only [] at hr
  split_ifs at hr with heq hfmt hall hmax hl
  · simp only [Option.some.injEq, Prod.mk.injEq] at hr
    rw [← hr.2]; rfl
  · simp only [Option.some.injEq, Prod.mk.injEq] at hr
    rw [← hr.2]; rfl
  · simp only [Option.some.injEq, Prod.mk.injEq] at hr
    rw [← hr.2]; rfl
  · simp only [Option.map_eq_some', Option.bind_eq_some] at hr
    obtain ⟨⟨c, o, ev1⟩, ⟨skipped, -, hcopy⟩, heq2⟩ := hr
    simp only [Prod.mk.injEq] at heq2
    rw [← heq2.2]
    simp only [List.filter_append, fragmentSizeDiagnostics_quiet,
      copyInternal_quiet _ _ _ _ _ _ (Or.inr hcopy), List.append_nil]
    rfl
  · simp only [Option.map_eq_some', Option.bind_eq_some] at hr
    obtain ⟨⟨c, o, ev1⟩, ⟨skipped, -, hcopy⟩, heq2⟩ := hr
    simp only [Prod.mk.injEq] at heq2
    rw [← heq2.2]
    simp only [List.filter_append, fragmentSizeDiagnostics_quiet,
      copyInternal_quiet _ _ _ _ _ _ (Or.inl hcopy), List.append_nil]
    rfl

theorem splitCopyPartition_quiet (in_image : IceTSparseImageData) (is_layered : Bool)
    (partition : Nat) (cursor : ScanCursor) (n : Int) (out : IceTSparseImageData)
    (c : ScanCursor) (o : IceTSparseImageData) (ev : List Event)
    (hr : splitCopyPartition in_image is_layered partition cursor n out = some (c, o, ev)) :
    ev.filter Event.isTiming = [] := by
  unfold splitCopyPartition at hr
  split_ifs at hr with heq hp hl hl
  · simp only [Option.map_eq_some'] at hr
    obtain ⟨r, -, hr2⟩ := hr
    simp only [Prod.mk.injEq] at hr2
    rw [← hr2.2.2]; rfl
  · simp only [Option.map_eq_some'] at hr
    obtain ⟨r, -, hr2⟩ := hr
    simp only [Prod.mk.injEq] at hr2
    rw [← hr2.2.2]; rfl
  · simp only [Option.some.injEq, Prod.mk.injEq] at hr
    rw [← hr.2.2]; rfl
  · exact copyInternal_quiet _ _ _ _ _ _ (Or.inr hr)
  · exact copyInternal_quiet _ _ _ _ _ _ (Or.inl hr)

theorem splitLoop_quiet (in_image : IceTSparseImageData) (offsets : List Int)
    (K total f : Int) :
    ∀ (outs : List IceTSparseImageData) (partition : Nat) (cursor : ScanCursor)
      (r : List IceTSparseImageData) (ev : List Event),
      icetSparseImageSplitLoop in_image offsets K total f outs partition cursor
        = some (r, ev) →
      ev.filter Event.isTiming = [] := by
  intro outs
  induction outs with
  | nil =>
    intro partition cursor r ev hr
    simp only [icetSparseImageSplitLoop, Option.some.injEq, Prod.mk.injEq] at hr
    rw [← hr.2]; rfl
  | cons out rest ih =>
    intro partition cursor r ev hr
    rw [icetSparseImageSplitLoop] at hr
    split_ifs at hr with hfmt
    · simp only [Option.some.injEq, Prod.mk.injEq] at hr
      rw [← hr.2]; rfl
    · simp only [Option.bind_eq_some, Option.map_eq_some'] at hr
      obtain ⟨⟨c, o1, ev1⟩, hcopy, t, hloop, heq⟩ := hr
      simp only [Prod.mk.injEq] at heq
      rw [← heq.2, List.filter_append, splitCopyPartition_quiet _ _ _ _ _ _ _ _ _ hcopy,
        ih _ _ t.1 t.2 hloop]
      rfl

theorem icetSparseImageSplit_timing (in_image : IceTSparseImageData) (f K E : Int)
    (outs r : List IceTSparseImageData) (offsets : List Int) (ev : List Event)
    (hr : icetSparseImageSplit in_image f K E outs = some (r, offsets, ev)) :
    ev.filter Event.isTiming = [.timingCompressBegin, .timingCompressEnd] := by
  unfold icetSparseImageSplit at hr
  split_ifs at hr with hK hbad
  · simp only [Option.some.injEq, Prod.mk.injEq] at hr
    rw [← hr.2.2]; rfl
  · simp only [Option.map_eq_some'] at hr
    obtain ⟨t, hloop, heq⟩ := hr
    simp only [Prod.mk.injEq] at heq
    rw [← heq.2.2]
    simp only [List.filter_append, fragmentSizeDiagnostics_quiet,
      splitLoop_quiet _ _ _ _ _ _ _ _ t.1 t.2 hloop, List.append_nil]
    rfl

theorem sparseAssignBuffer_quiet (st : IceTState) (buffer : Option Nat) (w h : Int) :
    (icetSparseImageAssignBuffer st buffer w h).2.filter Event.isTiming = []
      ∧ (icetSparseLayeredImageAssignBuffer st buffer w h).2.filter Event.isTiming = [] := by
  unfold icetSparseImageAssignBuffer icetSparseLayeredImageAssignBuffer
  cases buffer with
  | none => exact ⟨rfl, rfl⟩
  | some a =>
    simp only []
    constructor
    · split_ifs <;> rfl
    · cases st.depth_format <;> (simp only []; split_ifs <;> rfl)

theorem splitAllocLoop_quiet (st : IceTState) (in_image : IceTSparseImageData)
    (offsets : List Int) (K total f : Int) :
    ∀ (handles : List IceTSparseImage) (partition out_data : Nat) (cursor : ScanCursor)
      (r : List IceTSparseImage) (ev : List Event),
      icetSparseImageSplitAllocLoop st in_image offsets K total f handles partition out_data
        cursor = some (r, ev) →
      ev.filter Event.isTiming = [] := by
  intro handles
  induction handles with
  | nil =>
    intro partition out_data cursor r ev hr
    simp only [icetSparseImageSplitAllocLoop, Option.some.injEq, Prod.mk.injEq] at hr
    rw [← hr.2]; rfl
  | cons handle rest ih =>
    intro partition out_data cursor r ev hr
    rw [icetSparseImageSplitAllocLoop] at hr
    simp only [Option.bind_eq_some, Option.map_eq_some'] at hr
    obtain ⟨created, -, ⟨c, o1, ev1⟩, hcopy, t, hloop, heq⟩ := hr
    simp only [Prod.mk.injEq] at heq
    have hcopy' : ev1.filter Event.isTiming = [] := by
      split_ifs at hcopy
      · exact copyInternal_quiet _ _ _ _ _ _ (Or.inr hcopy)
      · exact copyInternal_quiet _ _ _ _ _ _ (Or.inl hcopy)
    rw [← heq.2]
    simp only [List.filter_append, hcopy', ih _ _ _ t.1 t.2 hloop, List.append_nil]
    have h1 := sparseAssignBuffer_quiet st (some out_data)
      (splitPartitionNumPixels offsets K total f partition) 1
    split_ifs <;> simp [h1.1, h1.2, icetSparseImageIsNull] <;> rfl

theorem icetSparseImageSplitAlloc_timing (st : IceTState) (in_image : IceTSparseImageData)
    (f K E : Int) (out_buffer : Nat) (handles r : List IceTSparseImage) (offsets : List Int)
    (ev : List Event)
    (hr : icetSparseImageSplitAlloc st in_image f K E out_buffer handles
      = some (r, offsets, ev)) :
    ev.filter Event.isTiming = [.timingCompressBegin, .timingCompressEnd] := by
  unfold icetSparseImageSplitAlloc at hr
  split_ifs at hr with hK hbad
  · simp only [Option.some.injEq, Prod.mk.injEq] at hr
    rw [← hr.2.2]; rfl
  · simp only [Option.bind_eq_some, Option.map_eq_some'] at hr
    obtain ⟨fst, -, t, hloop, heq⟩ := hr
    simp only [Prod.mk.injEq] at heq
    rw [← heq.2.2]
    simp only [List.filter_append, fragmentSizeDiagnostics_quiet,
      splitAllocLoop_quiet _ _ _ _ _ _ _ _ _ _ t.1 t.2 hloop, List.append_nil]
    rfl

theorem icetSparseImageInterlace_timing (in_image out r : IceTSparseImageData) (E : Int)
    (ev : List Event) (hr : icetSparseImageInterlace in_image E out = some (r, ev)) :
    ev.filter Event.isTiming = []
      ∨ ev.filter Event.isTiming = [.timingCompressBegin, .timingCompressEnd]
      ∨ ev.filter Event.isTiming = [.timingInterlaceBegin, .timingInterlaceEnd] := by
  unfold icetSparseImageInterlace at hr
  simp only [] at hr
  split_ifs at hr with h0 h2 heq hfmt
  · exact Or.inr (Or.inl (icetSparseImageCopyPixels_timing _ _ _ _ _ _ hr))
  · simp only [Option.some.injEq, Prod.mk.injEq] at hr
    rw [← hr.2]
    exact Or.inl rfl
  · simp only [Option.map_eq_some', Option.bind_eq_some] at hr
    obtain ⟨arrays, -, w, -, heq2⟩ := hr
    simp only [Prod.mk.injEq] at heq2
    rw [← heq2.2]
    refine Or.inr (Or.inr ?_)
    simp only [List.filter_append, fragmentSizeDiagnostics_quiet, sparseSetDimensions_quiet,
      List.append_nil]
    rfl

theorem icetGetInterlaceOffset_timing (j E n : Int) :
    (icetGetInterlaceOffset j E n).2.filter Event.isTiming = []
      ∨ (icetGetInterlaceOffset j E n).2.filter Event.isTiming
        = [.timingInterlaceBegin, .timingInterlaceEnd] := by
  unfold icetGetInterlaceOffset
  split_ifs
  · exact Or.inl rfl
  · simp only []
    split
    · exact Or.inr rfl
    · exact Or.inr rfl

theorem accessors_quiet (image : IceTImageData) :
    (icetImageGetColorConstVoid image).2.filter Event.isTiming = []
    ∧ (icetImageGetColorVoid image).2.filter Event.isTiming = []
    ∧ (icetImageGetColorcub image).2.filter Event.isTiming = []
    ∧ (icetImageGetColorub image).2.filter Event.isTiming = []
    ∧ (icetImageGetColorui image).2.filter Event.isTiming = []
    ∧ (icetImageGetColorcf image).2.filter Event.isTiming = []
    ∧ (icetImageGetColorf image).2.filter Event.isTiming = []
    ∧ (icetImageGetDepthConstVoid image).2.filter Event.isTiming = []
    ∧ (icetImageGetDepthVoid image).2.filter Event.isTiming = []
    ∧ (icetImageGetDepthcf image).2.filter Event.isTiming = []
    ∧ (icetImageGetDepthf image).2.filter Event.isTiming = [] := by
  have c1 : (icetImageGetColorConstVoid image).2.filter Event.isTiming = [] := by
    unfold icetImageGetColorConstVoid; split_ifs <;> rfl
  have c2 : (icetImageGetColorVoid image).2.filter Event.isTiming = [] := by
    unfold icetImageGetColorVoid
    simp only []
    split_ifs
    · simp only [List.filter_append, c1]; rfl
    · exact c1
  have d1 : (icetImageGetDepthConstVoid image).2.filter Event.isTiming = [] := by
    unfold icetImageGetDepthConstVoid; split_ifs <;> rfl
  have d2 : (icetImageGetDepthVoid image).2.filter Event.isTiming = [] := by
    unfold icetImageGetDepthVoid
    simp only []
    split_ifs
    · simp only [List.filter_append, d1]; rfl
    · exact d1
  have c4 : (icetImageGetColorub image).2.filter Event.isTiming = [] := by
    unfold icetImageGetColorub; split_ifs
    · rfl
    · exact c2
  refine ⟨c1, c2, ?_, c4, c4, ?_, ?_, d1, d2, ?_, ?_⟩
  · unfold icetImageGetColorcub; split_ifs
    · rfl
    · exact c1
  · unfold icetImageGetColorcf; split_ifs
    · rfl
    · exact c1
  · unfold icetImageGetColorf; split_ifs
    · rfl
    · exact c2
  · unfold icetImageGetDepthcf; split_ifs
    · rfl
    · exact d1
  · unfold icetImageGetDepthf; split_ifs
    · rfl
    · exact d2

theorem quiet_colorcub (image : IceTImageData) :
    (icetImageGetColorcub image).2.filter Event.isTiming = [] := (accessors_quiet image).2.2.1

theorem quiet_colorub (image : IceTImageData) :
    (icetImageGetColorub image).2.filter Event.isTiming = [] := (accessors_quiet image).2.2.2.1

theorem quiet_colorui (image : IceTImageData) :
    (icetImageGetColorui image).2.filter Event.isTiming = [] :=
  (accessors_quiet image).2.2.2.2.1

theorem quiet_colorcf (image : IceTImageData) :
    (icetImageGetColorcf image).2.filter Event.isTiming = [] :=
  (accessors_quiet image).2.2.2.2.2.1

theorem quiet_colorf (image : IceTImageData) :
    (icetImageGetColorf image).2.filter Event.isTiming = [] :=
  (accessors_quiet image).2.2.2.2.2.2.1

theorem quiet_depthf (image : IceTImageData) :
    (icetImageGetDepthf image).2.filter Event.isTiming = [] :=
  (accessors_quiet image).2.2.2.2.2.2.2.2.2.2

theorem icetComposite_timing (fa : FloatArith) (st : IceTState) (dest src r : IceTImage)
    (srcOnTop : Bool) (ev : List Event)
    (hr : icetComposite fa st dest src srcOnTop = some (r, ev)) :
    ev.filter Event.isTiming = []
      ∨ ev.filter Event.isTiming = [.timingBlendBegin, .timingBlendEnd] := by
  unfold icetComposite at hr
  cases src with
  | none => simp at hr
  | some s =>
    simp only [] at hr
    have q0 : (if icetImageIsLayered s = true then [Event.raiseError .INVALID_OPERATION]
        else []).filter Event.isTiming = [] := by
      split_ifs <;> rfl
    generalize (if icetImageIsLayered s = true then [Event.raiseError .INVALID_OPERATION]
        else []) = ev0 at hr q0
    repeat' split at hr
    all_goals first
      | (simp at hr; done)
      | (simp only [Option.map_eq_some', Prod.mk.injEq] at hr
         obtain ⟨u, -, -, rfl⟩ := hr
         simp [List.filter_append, q0, quiet_colorcub, quiet_colorub, quiet_colorui,
           quiet_colorcf, quiet_colorf, quiet_depthf, Event.isTiming])
      | (simp only [Option.some.injEq, Prod.mk.injEq] at hr
         obtain ⟨-, rfl⟩ := hr
         simp [List.filter_append, q0, quiet_colorcub, quiet_colorub, quiet_colorui,
           quiet_colorcf, quiet_colorf, quiet_depthf, Event.isTiming])

theorem icetImageCorrectBackground_timing (fa : FloatArith) (st : IceTState)
    (image r : IceTImageData) (ev : List Event)
    (hr : icetImageCorrectBackground fa st image = some (r, ev)) :
    ev.filter Event.isTiming = []
      ∨ ev.filter Event.isTiming = [.timingBlendBegin, .timingBlendEnd] := by
  unfold icetImageCorrectBackground at hr
  repeat' split at hr
  all_goals first
    | (simp at hr; done)
    | (simp only [Option.map_eq_some', Prod.mk.injEq] at hr
       obtain ⟨u, -, -, rfl⟩ := hr
       simp [List.filter_append, quiet_colorub, quiet_colorf, Event.isTiming])
    | (simp only [Option.some.injEq, Prod.mk.injEq] at hr
       obtain ⟨-, rfl⟩ := hr
       simp [List.filter_append, quiet_colorub, quiet_colorf, Event.isTiming])

/-- Claim C31.  In every execution of `icetSparseImageCopyPixels`,
`icetSparseImageSplit`, `icetSparseImageSplitAlloc`, `icetSparseImageInterlace`,
`icetGetInterlaceOffset`, `icetComposite` and `icetImageCorrectBackground`, whatever
exit it takes, the calls of the timing hooks are balanced: each begin hook (compress,
interlace, blend) is called as often as its end hook, and no end hook is called before
its begin hook. -/
theorem timing_hooks_balanced :
    (∀ (in_image out r : IceTSparseImageData) (off n : Int) (ev : List Event),
      icetSparseImageCopyPixels in_image off n out = some (r, ev) → timingBalanced ev)
    ∧ (∀ (in_image : IceTSparseImageData) (f K E : Int)
        (outs r : List IceTSparseImageData) (offsets : List Int) (ev : List Event),
      icetSparseImageSplit in_image f K E outs = some (r, offsets, ev) → timingBalanced ev)
    ∧ (∀ (st : IceTState) (in_image : IceTSparseImageData) (f K E : Int) (out_buffer : Nat)
        (handles r : List IceTSparseImage) (offsets : List Int) (ev : List Event),
      icetSparseImageSplitAlloc st in_image f K E out_buffer handles = some (r, offsets, ev) →
      timingBalanced ev)
    ∧ (∀ (in_image out r : IceTSparseImageData) (E : Int) (ev : List Event),
      icetSparseImageInterlace in_image E out = some (r, ev) → timingBalanced ev)
    ∧ (∀ j E n : Int, timingBalanced (icetGetInterlaceOffset j E n).2)
    ∧ (∀ (fa : FloatArith) (st : IceTState) (dest src r : IceTImage) (srcOnTop : Bool)
        (ev : List Event),
      icetComposite fa st dest src srcOnTop = some (r, ev) → timingBalanced ev)
    ∧ (∀ (fa : FloatArith) (st : IceTState) (image r : IceTImageData) (ev : List Event),
      icetImageCorrectBackground fa st image = some (r, ev) → timingBalanced ev) := by
  refine ⟨?_, ?_, ?_, ?_, ?_, ?_, ?_⟩
  · intro in_image out r off n ev hr
    exact timingBalanced_of_filter ev
      (Or.inr (Or.inl (icetSparseImageCopyPixels_timing _ _ _ _ _ _ hr)))
  · intro in_image f K E outs r offsets ev hr
    exact timingBalanced_of_filter ev
      (Or.inr (Or.inl (icetSparseImageSplit_timing _ _ _ _ _ _ _ _ hr)))
  · intro st in_image f K E out_buffer handles r offsets ev hr
    exact timingBalanced_of_filter ev
      (Or.inr (Or.inl (icetSparseImageSplitAlloc_timing _ _ _ _ _ _ _ _ _ _ hr)))
  · intro in_image out r E ev hr
    rcases icetSparseImageInterlace_timing _ _ _ _ _ hr with h | h | h
    · exact timingBalanced_of_filter ev (Or.inl h)
    · exact timingBalanced_of_filter ev (Or.inr (Or.inl h))
    · exact timingBalanced_of_filter ev (Or.inr (Or.inr (Or.inl h)))
  · intro j E n
    rcases icetGetInterlaceOffset_timing j E n with h | h
    · exact timingBalanced_of_filter _ (Or.inl h)
    · exact timingBalanced_of_filter _ (Or.inr (Or.inr (Or.inl h)))
  · intro fa st dest src r srcOnTop ev hr
    rcases icetComposite_timing _ _ _ _ _ _ _ hr with h | h
    · exact timingBalanced_of_filter ev (Or.inl h)
    · exact timingBalanced_of_filter ev (Or.inr (Or.inr (Or.inr h)))
  · intro fa st image r ev hr
    rcases icetImageCorrectBackground_timing _ _ _ _ _ hr with h | h
    · exact timingBalanced_of_filter ev (Or.inl h)
    · exact timingBalanced_of_filter ev (Or.inr (Or.inr (Or.inr h)))

/-- Witness for C31: the error exit of `icetSparseImageSplit` for one partition, and a
blend of two pixels whose images carry a depth buffer (a warning is raised between the
two blend hooks). -/
theorem timing_hooks_balanced_witness :
    timingBalanced [.timingCompressBegin, .raiseError .INVALID_VALUE, .timingCompressEnd]
    ∧ timingBalanced [.timingBlendBegin, .raiseWarning .INVALID_VALUE, .timingBlendEnd] :=
  ⟨timing_hooks_balanced.2.1 scenarioC_image 0 1 1 [scenarioC_out] [scenarioC_out] []
      [.timingCompressBegin, .raiseError .INVALID_VALUE, .timingCompressEnd] (by decide),
    timing_hooks_balanced.2.2.2.2.2.1 unusedFloatArith blendState (some tallPair)
      (some tallPair) (some { tallPair with color := [0, 0, 255, 255, 0, 0, 255, 255] }) true
      [.timingBlendBegin, .raiseWarning .INVALID_VALUE, .timingBlendEnd] (by decide)⟩

/-! ### The viewports of a rendered tile -/

theorem minInt_eq (x y : Int) : minInt x y = min x y := by
  unfold minInt MIN
  by_cases h : x < y
  · simp [h, min_eq_left h.le]
  · simp [h, min_eq_right (not_lt.mp h)]

/-- The viewports `renderTile` stores in its case 0. -/
theorem renderTile_outside (s : TileState) (own_buffer tile_buffer : IceTImage)
    (drawfunc : Viewport → IceTImage → IceTImage)
    (h0 : ¬ s.contained_mask
      ∨ s.contained_viewport.x + s.contained_viewport.width < s.tile_viewport.x
      ∨ s.contained_viewport.y + s.contained_viewport.height < s.tile_viewport.y
      ∨ s.contained_viewport.x > s.tile_viewport.x + s.tile_viewport.width
      ∨ s.contained_viewport.y > s.tile_viewport.y + s.tile_viewport.height) :
    (renderTile s own_buffer drawfunc tile_buffer).screen_viewport = ⟨0, 0, 0, 0⟩
    ∧ (renderTile s own_buffer drawfunc tile_buffer).target_viewport = ⟨0, 0, 0, 0⟩ := by
  unfold renderTile
  simp only [if_pos h0]
  split_ifs <;> exact ⟨rfl, rfl⟩

/-- The viewports `renderTile` stores in its case 1. -/
theorem renderTile_inside (s : TileState) (own_buffer tile_buffer : IceTImage)
    (drawfunc : Viewport → IceTImage → IceTImage)
    (h0 : ¬ (¬ s.contained_mask
      ∨ s.contained_viewport.x + s.contained_viewport.width < s.tile_viewport.x
      ∨ s.contained_viewport.y + s.contained_viewport.height < s.tile_viewport.y
      ∨ s.contained_viewport.x > s.tile_viewport.x + s.tile_viewport.width
      ∨ s.contained_viewport.y > s.tile_viewport.y + s.tile_viewport.height))
    (h1 : s.contained_viewport.x ≥ s.tile_viewport.x
      ∧ s.contained_viewport.y ≥ s.tile_viewport.y
      ∧ s.contained_viewport.width + s.contained_viewport.x
        ≤ s.tile_viewport.width + s.tile_viewport.x
      ∧ s.contained_viewport.height + s.contained_viewport.y
        ≤ s.tile_viewport.height + s.tile_viewport.y) :
    (renderTile s own_buffer drawfunc tile_buffer).screen_viewport
        = ⟨s.contained_viewport.x - s.tile_viewport.x,
            s.contained_viewport.y - s.tile_viewport.y,
            s.contained_viewport.width, s.contained_viewport.height⟩
    ∧ (renderTile s own_buffer drawfunc tile_buffer).target_viewport
        = ⟨s.contained_viewport.x - s.tile_viewport.x,
            s.contained_viewport.y - s.tile_viewport.y,
            s.contained_viewport.width, s.contained_viewport.height⟩ := by
  unfold renderTile
  simp only [if_neg h0, if_pos h1]
  exact ⟨rfl, rfl⟩

/-- The viewports `renderTile` stores in its case 2. -/
theorem renderTile_clipped (s : TileState) (own_buffer tile_buffer : IceTImage)
    (drawfunc : Viewport → IceTImage → IceTImage)
    (h0 : ¬ (¬ s.contained_mask
      ∨ s.contained_viewport.x + s.contained_viewport.width < s.tile_viewport.x
      ∨ s.contained_viewport.y + s.contained_viewport.height < s.tile_viewport.y
      ∨ s.contained_viewport.x > s.tile_viewport.x + s.tile_viewport.width
      ∨ s.contained_viewport.y > s.tile_viewport.y + s.tile_viewport.height))
    (h1 : ¬ (s.contained_viewport.x ≥ s.tile_viewport.x
      ∧ s.contained_viewport.y ≥ s.tile_viewport.y
      ∧ s.contained_viewport.width + s.contained_viewport.x
        ≤ s.tile_viewport.width + s.tile_viewport.x
      ∧ s.contained_viewport.height + s.contained_viewport.y
        ≤ s.tile_viewport.height + s.tile_viewport.y))
    (h2 : ¬ s.floating_viewport ∨ s.contained_viewport.width > s.physical_render_width
      ∨ s.contained_viewport.height > s.physical_render_height) :
    (renderTile s own_buffer drawfunc tile_buffer).screen_viewport
        = (renderTile s own_buffer drawfunc tile_buffer).target_viewport
    ∧ (renderTile s own_buffer drawfunc tile_buffer).target_viewport
        = ⟨if s.contained_viewport.x ≤ s.tile_viewport.x then 0
            else s.contained_viewport.x - s.tile_viewport.x,
          if s.contained_viewport.y ≤ s.tile_viewport.y then 0
            else s.contained_viewport.y - s.tile_viewport.y,
          if s.contained_viewport.x ≤ s.tile_viewport.x then
            min s.tile_viewport.width
              (s.contained_viewport.x + s.contained_viewport.width - s.tile_viewport.x)
          else min s.contained_viewport.width
              (s.tile_viewport.x + s.tile_viewport.width - s.contained_viewport.x),
          if s.contained_viewport.y ≤ s.tile_viewport.y then
            min s.tile_viewport.height
              (s.contained_viewport.y + s.contained_viewport.height - s.tile_viewport.y)
          else min s.contained_viewport.height
              (s.tile_viewport.y + s.tile_viewport.height - s.contained_viewport.y)⟩ := by
  unfold renderTile
  simp only [if_neg h0, if_neg h1, if_pos h2, minInt_eq]
  refine ⟨rfl, ?_⟩
  split_ifs <;> rfl

/-- The viewports `renderTile` stores in its case 3. -/
theorem renderTile_floating (s : TileState) (own_buffer tile_buffer : IceTImage)
    (drawfunc : Viewport → IceTImage → IceTImage)
    (h0 : ¬ (¬ s.contained_mask
      ∨ s.contained_viewport.x + s.contained_viewport.width < s.tile_viewport.x
      ∨ s.contained_viewport.y + s.contained_viewport.height < s.tile_viewport.y
      ∨ s.contained_viewport.x > s.tile_viewport.x + s.tile_viewport.width
      ∨ s.contained_viewport.y > s.tile_viewport.y + s.tile_viewport.height))
    (h1 : ¬ (s.contained_viewport.x ≥ s.tile_viewport.x
      ∧ s.contained_viewport.y ≥ s.tile_viewport.y
      ∧ s.contained_viewport.width + s.contained_viewport.x
        ≤ s.tile_viewport.width + s.tile_viewport.x
      ∧ s.contained_viewport.height + s.contained_viewport.y
        ≤ s.tile_viewport.height + s.tile_viewport.y))
    (h2 : ¬ (¬ s.floating_viewport ∨ s.contained_viewport.width > s.physical_render_width
      ∨ s.contained_viewport.height > s.physical_render_height)) :
    (renderTile s own_buffer drawfunc tile_buffer).screen_viewport
        = ⟨if s.contained_viewport.x < s.tile_viewport.x then
            s.tile_viewport.x - s.contained_viewport.x else 0,
          if s.contained_viewport.y < s.tile_viewport.y then
            s.tile_viewport.y - s.contained_viewport.y else 0,
          if s.contained_viewport.x < s.tile_viewport.x then
            min (s.contained_viewport.width - (s.tile_viewport.x - s.contained_viewport.x))
              s.tile_viewport.width
          else min (s.tile_viewport.width - (s.contained_viewport.x - s.tile_viewport.x))
              s.contained_viewport.width,
          if s.contained_viewport.y < s.tile_viewport.y then
            min (s.contained_viewport.height - (s.tile_viewport.y - s.contained_viewport.y))
              s.tile_viewport.height
          else min (s.tile_viewport.height - (s.contained_viewport.y - s.tile_viewport.y))
              s.contained_viewport.height⟩
    ∧ (renderTile s own_buffer drawfunc tile_buffer).target_viewport
        = ⟨if s.contained_viewport.x < s.tile_viewport.x then 0
            else s.contained_viewport.x - s.tile_viewport.x,
          if s.contained_viewport.y < s.tile_viewport.y then 0
            else s.contained_viewport.y - s.tile_viewport.y,
          if s.contained_viewport.x < s.tile_viewport.x then
            min (s.contained_viewport.width - (s.tile_viewport.x - s.contained_viewport.x))
              s.tile_viewport.width
          else min (s.tile_viewport.width - (s.contained_viewport.x - s.tile_viewport.x))
              s.contained_viewport.width,
          if s.contained_viewport.y < s.tile_viewport.y then
            min (s.contained_viewport.height - (s.tile_viewport.y - s.contained_viewport.y))
              s.tile_viewport.height
          else min (s.tile_viewport.height - (s.contained_viewport.y - s.tile_viewport.y))
              s.contained_viewport.height⟩ := by
  unfold renderTile
  simp only [if_neg h0, if_neg h1, if_neg h2, minInt_eq]
  split_ifs <;> exact ⟨rfl, rfl⟩

/-- Claim C33.  For every tile viewport and contained viewport with non-negative widths
and heights, whichever case `renderTile` takes (geometry outside the tile, geometry
inside the tile, clipped to the tile, floating viewport), the `screen_viewport` and the
`target_viewport` it stores have the same width and the same height, both non-negative,
and `target_viewport` lies within the tile: `0 ≤ x`, `0 ≤ y`, `x + width ≤` tile width,
`y + height ≤` tile height.  In the floating-viewport case `screen_viewport` lies
within the readback viewport `(0, 0, contained width, contained height)`. -/
theorem renderTile_viewports (s : TileState) (own_buffer tile_buffer : IceTImage)
    (drawfunc : Viewport → IceTImage → IceTImage)
    (htw : 0 ≤ s.tile_viewport.width) (hth : 0 ≤ s.tile_viewport.height)
    (hcw : 0 ≤ s.contained_viewport.width) (hch : 0 ≤ s.contained_viewport.height) :
    (renderTile s own_buffer drawfunc tile_buffer).screen_viewport.width
        = (renderTile s own_buffer drawfunc tile_buffer).target_viewport.width
    ∧ (renderTile s own_buffer drawfunc tile_buffer).screen_viewport.height
        = (renderTile s own_buffer drawfunc tile_buffer).target_viewport.height
    ∧ 0 ≤ (renderTile s own_buffer drawfunc tile_buffer).target_viewport.width
    ∧ 0 ≤ (renderTile s own_buffer drawfunc tile_buffer).target_viewport.height
    ∧ 0 ≤ (renderTile s own_buffer drawfunc tile_buffer).target_viewport.x
    ∧ 0 ≤ (renderTile s own_buffer drawfunc tile_buffer).target_viewport.y
    ∧ (renderTile s own_buffer drawfunc tile_buffer).target_viewport.x
        + (renderTile s own_buffer drawfunc tile_buffer).target_viewport.width
        ≤ s.tile_viewport.width
    ∧ (renderTile s own_buffer drawfunc tile_buffer).target_viewport.y
        + (renderTile s own_buffer drawfunc tile_buffer).target_viewport.height
        ≤ s.tile_viewport.height
    ∧ (usesFloatingViewport s = true →
        0 ≤ (renderTile s own_buffer drawfunc tile_buffer).screen_viewport.x
        ∧ 0 ≤ (renderTile s own_buffer drawfunc tile_buffer).screen_viewport.y
        ∧ (renderTile s own_buffer drawfunc tile_buffer).screen_viewport.x
            + (renderTile s own_buffer drawfunc tile_buffer).screen_viewport.width
            ≤ s.contained_viewport.width
        ∧ (renderTile s own_buffer drawfunc tile_buffer).screen_viewport.y
            + (renderTile s own_buffer drawfunc tile_buffer).screen_viewport.height
            ≤ s.contained_viewport.height) := by
  by_cases h0 : ¬ s.contained_mask
      ∨ s.contained_viewport.x + s.contained_viewport.width < s.tile_viewport.x
      ∨ s.contained_viewport.y + s.contained_viewport.height < s.tile_viewport.y
      ∨ s.contained_viewport.x > s.tile_viewport.x + s.tile_viewport.width
      ∨ s.contained_viewport.y > s.tile_viewport.y + s.tile_viewport.height
  · obtain ⟨hs, ht⟩ := renderTile_outside s own_buffer tile_buffer drawfunc h0
    have hnf : usesFloatingViewport s = false := by
      unfold usesFloatingViewport
      exact decide_eq_false (fun h => h.1 h0)
    rw [hs, ht, hnf]
    simp [htw, hth]
  by_cases h1 : s.contained_viewport.x ≥ s.tile_viewport.x
      ∧ s.contained_viewport.y ≥ s.tile_viewport.y
      ∧ s.contained_viewport.width + s.contained_viewport.x
        ≤ s.tile_viewport.width + s.tile_viewport.x
      ∧ s.contained_viewport.height + s.contained_viewport.y
        ≤ s.tile_viewport.height + s.tile_viewport.y
  · obtain ⟨hs, ht⟩ := renderTile_inside s own_buffer tile_buffer drawfunc h0 h1
    have hnf : usesFloatingViewport s = false := by
      unfold usesFloatingViewport
      exact decide_eq_false (fun h => h.2.1 h1)
    rw [hs, ht, hnf]
    refine ⟨rfl, rfl, hcw, hch, ?_, ?_, ?_, ?_, fun h => absurd h (by simp)⟩ <;>
      dsimp only <;> omega
  by_cases h2 : ¬ s.floating_viewport ∨ s.contained_viewport.width > s.physical_render_width
      ∨ s.contained_viewport.height > s.physical_render_height
  · obtain ⟨hs, ht⟩ := renderTile_clipped s own_buffer tile_buffer drawfunc h0 h1 h2
    have hnf : usesFloatingViewport s = false := by
      unfold usesFloatingViewport
      exact decide_eq_false (fun h => h.2.2 h2)
    have hx : ¬ (s.contained_viewport.x + s.contained_viewport.width < s.tile_viewport.x) :=
      fun h => h0 (Or.inr (Or.inl h))
    have hy : ¬ (s.contained_viewport.y + s.contained_viewport.height < s.tile_viewport.y) :=
      fun h => h0 (Or.inr (Or.inr (Or.inl h)))
    have hx2 : ¬ (s.contained_viewport.x > s.tile_viewport.x + s.tile_viewport.width) :=
      fun h => h0 (Or.inr (Or.inr (Or.inr (Or.inl h))))
    have hy2 : ¬ (s.contained_viewport.y > s.tile_viewport.y + s.tile_viewport.height) :=
      fun h => h0 (Or.inr (Or.inr (Or.inr (Or.inr h))))
    rw [hs, ht, hnf]
    refine ⟨rfl, rfl, ?_, ?_, ?_, ?_, ?_, ?_, fun h => absurd h (by simp)⟩ <;>
      dsimp only <;> split_ifs <;> omega
  · obtain ⟨hs, ht⟩ := renderTile_floating s own_buffer tile_buffer drawfunc h0 h1 h2
    have hx : ¬ (s.contained_viewport.x + s.contained_viewport.width < s.tile_viewport.x) :=
      fun h => h0 (Or.inr (Or.inl h))
    have hy : ¬ (s.contained_viewport.y + s.contained_viewport.height < s.tile_viewport.y) :=
      fun h => h0 (Or.inr (Or.inr (Or.inl h)))
    have hx2 : ¬ (s.contained_viewport.x > s.tile_viewport.x + s.tile_viewport.width) :=
      fun h => h0 (Or.inr (Or.inr (Or.inr (Or.inl h))))
    have hy2 : ¬ (s.contained_viewport.y > s.tile_viewport.y + s.tile_viewport.height) :=
      fun h => h0 (Or.inr (Or.inr (Or.inr (Or.inr h))))
    rw [hs, ht]
    refine ⟨rfl, rfl, ?_, ?_, ?_, ?_, ?_, ?_, fun _ => ⟨?_, ?_, ?_, ?_⟩⟩ <;>
      dsimp only <;> split_ifs <;> omega

theorem renderTile_viewports_witness :
    (renderTile staleViewportState none idleDraw none).screen_viewport = ⟨50, 0, 0, 50⟩
    ∧ (renderTile staleViewportState none idleDraw none).target_viewport = ⟨0, 10, 0, 50⟩
    ∧ usesFloatingViewport staleViewportState = true
    ∧ (renderTile staleViewportState none idleDraw none).screen_viewport.width
        = (renderTile staleViewportState none idleDraw none).target_viewport.width
    ∧ (renderTile staleViewportState none idleDraw none).target_viewport.y
        + (renderTile staleViewportState none idleDraw none).target_viewport.height
        ≤ staleViewportState.tile_viewport.height :=
  have h := renderTile_viewports staleViewportState none none idleDraw
    (by decide) (by decide) (by decide) (by decide)
  ⟨by decide, by decide, by decide, h.1, h.2.2.2.2.2.2.2.1⟩

/-! ### Decompression when no background correction is needed -/

/-- Claim C39.  When the state says that no background correction is needed,
`icetDecompressSubImageCorrectBackground` does not stop after the normal decompression:
whatever the included body with `CORRECT_BACKGROUND` is, the call is the normal
decompression `icetDecompressSubImage` followed by that body on the image the normal
decompression produced.  It is equivalent to `icetDecompressSubImage` exactly when the
second pass leaves that image as it is and raises nothing. -/
theorem icetDecompressSubImageCorrectBackground_runs_both
    (correcting_body : IceTState → IceTSparseImageData → Int → Int → IceTImageData →
      Option (IceTImageData × List Event))
    (st : IceTState) (compressed_image : IceTSparseImageData) (offset : Int)
    (image : IceTImageData) (hneed : st.need_background_correction = false) :
    icetDecompressSubImageCorrectBackground correcting_body st compressed_image offset image
        = (icetDecompressSubImage st compressed_image offset image).bind (fun normal =>
            (correcting_body st compressed_image offset
                (icetSparseImageGetNumPixels (some compressed_image)) normal.1).map
              fun r => (r.1, normal.2 ++ r.2))
    ∧ (icetDecompressSubImageCorrectBackground correcting_body st compressed_image offset
          image = icetDecompressSubImage st compressed_image offset image
        ↔ ∀ normal, icetDecompressSubImage st compressed_image offset image = some normal →
            correcting_body st compressed_image offset
                (icetSparseImageGetNumPixels (some compressed_image)) normal.1
              = some (normal.1, [])) := by
  have h : icetDecompressSubImageCorrectBackground correcting_body st compressed_image
        offset image
      = (icetDecompressSubImage st compressed_image offset image).bind (fun normal =>
          (correcting_body st compressed_image offset
              (icetSparseImageGetNumPixels (some compressed_image)) normal.1).map
            fun r => (r.1, normal.2 ++ r.2)) := by
    unfold icetDecompressSubImageCorrectBackground
    simp [hneed]
  refine ⟨h, ?_⟩
  rw [h]
  cases hn : icetDecompressSubImage st compressed_image offset image with
  | none => simp
  | some normal =>
    obtain ⟨img, ev⟩ := normal
    simp only [Option.some_bind, Option.some.injEq, forall_eq']
    cases hb : correcting_body st compressed_image offset
        (icetSparseImageGetNumPixels (some compressed_image)) img with
    | none => simp
    | some r =>
      obtain ⟨img2, ev2⟩ := r
      simp [Prod.ext_iff]

theorem icetDecompressSubImageCorrectBackground_runs_both_witness :
    blueBackgroundState.need_background_correction = false
    ∧ (icetDecompressSubImage blueBackgroundState translucentBack 0
        (colorOnlyPixel [0, 0, 0, 0])).map (fun r => (r.1.color, r.2))
      = some ([10, 20, 30, 128], [])
    ∧ (icetDecompressSubImageCorrectBackground (decompressCorrectingBody unusedFloatArith)
        blueBackgroundState translucentBack 0 (colorOnlyPixel [0, 0, 0, 0])).map
          (fun r => (r.1.color, r.2))
      = some ([10, 20, 157, 255], [])
    ∧ ¬ (icetDecompressSubImageCorrectBackground (decompressCorrectingBody unusedFloatArith)
          blueBackgroundState translucentBack 0 (colorOnlyPixel [0, 0, 0, 0])
        = icetDecompressSubImage blueBackgroundState translucentBack 0
          (colorOnlyPixel [0, 0, 0, 0])) :=
  ⟨rfl, by decide, by decide,
    fun h =>
      absurd
        (((icetDecompressSubImageCorrectBackground_runs_both
            (decompressCorrectingBody unusedFloatArith) blueBackgroundState translucentBack 0
            (colorOnlyPixel [0, 0, 0, 0]) rfl).2.mp h)
          ({ colorOnlyPixel [0, 0, 0, 0] with color := [10, 20, 30, 128] }, [])
          (by decide))
        (by decide)⟩

/-! ### Reuse of the rendered floating viewport -/

/-- Claim C40.  In the floating-viewport case, when the time stamp of the rendered
viewport is newer than the one of the frame start, `renderTile` compares the stored
rendered viewport with the viewport about to be rendered, `(contained x, contained y,
physical width, physical height)`, component by component and joins the four
comparisons with "or": as soon as one component agrees it returns the render buffer,
calls no draw function, stores nothing and raises nothing, also when the other
components differ.  `SANITY_CHECK_FAIL` is raised only when all four components differ,
and the tile is then rendered again. -/
theorem renderTile_reuses_on_any_match (s : TileState) (own_buffer tile_buffer : IceTImage)
    (drawfunc : Viewport → IceTImage → IceTImage)
    (hfloat : usesFloatingViewport s = true)
    (hnewer : s.rendered_viewport_time > s.is_drawing_frame_time) :
    ((s.rendered_viewport.x = s.contained_viewport.x
        ∨ s.rendered_viewport.y = s.contained_viewport.y
        ∨ s.rendered_viewport.width = s.physical_render_width
        ∨ s.rendered_viewport.height = s.physical_render_height) →
      (renderTile s own_buffer drawfunc tile_buffer).image = own_buffer
      ∧ (renderTile s own_buffer drawfunc tile_buffer).drawn = none
      ∧ (renderTile s own_buffer drawfunc tile_buffer).stored_viewport = none
      ∧ (renderTile s own_buffer drawfunc tile_buffer).events = [])
    ∧ (¬ (s.rendered_viewport.x = s.contained_viewport.x
        ∨ s.rendered_viewport.y = s.contained_viewport.y
        ∨ s.rendered_viewport.width = s.physical_render_width
        ∨ s.rendered_viewport.height = s.physical_render_height) →
      (renderTile s own_buffer drawfunc tile_buffer).events
        = [.raiseError .SANITY_CHECK_FAIL]
      ∧ (renderTile s own_buffer drawfunc tile_buffer).drawn
        = some ⟨0, 0, s.contained_viewport.width, s.contained_viewport.height⟩
      ∧ (renderTile s own_buffer drawfunc tile_buffer).stored_viewport
        = some ⟨s.contained_viewport.x, s.contained_viewport.y, s.physical_render_width,
            s.physical_render_height⟩) := by
  unfold usesFloatingViewport at hfloat
  simp only [decide_eq_true_eq] at hfloat
  obtain ⟨h0, h1, h2⟩ := hfloat
  unfold renderTile
  simp only [if_neg h0, if_neg h1, if_neg h2, if_pos hnewer]
  have hb : (s.rendered_viewport.x == s.contained_viewport.x
        || s.rendered_viewport.y == s.contained_viewport.y
        || s.rendered_viewport.width == s.physical_render_width
        || s.rendered_viewport.height == s.physical_render_height) = true
      ↔ (s.rendered_viewport.x = s.contained_viewport.x
        ∨ s.rendered_viewport.y = s.contained_viewport.y
        ∨ s.rendered_viewport.width = s.physical_render_width
        ∨ s.rendered_viewport.height = s.physical_render_height) := by
    simp only [Bool.or_eq_true, beq_iff_eq, or_assoc]
  constructor
  · intro h
    rw [if_neg (not_not.mpr (hb.mpr h))]
    exact ⟨rfl, rfl, rfl, rfl⟩
  · intro h
    rw [if_pos (fun hc => h (hb.mp hc))]
    exact ⟨rfl, rfl, rfl⟩

theorem renderTile_reuses_on_any_match_witness :
    usesFloatingViewport staleViewportState = true
    ∧ staleViewportState.rendered_viewport_time > staleViewportState.is_drawing_frame_time
    ∧ staleViewportState.rendered_viewport = ⟨0, 0, 100, 100⟩
    ∧ staleViewportState.contained_viewport.x = 50
    ∧ staleViewportState.contained_viewport.y = 10
    ∧ staleViewportState.physical_render_width = 100
    ∧ staleViewportState.physical_render_height = 100
    ∧ (renderTile staleViewportState none idleDraw none).image = none
    ∧ (renderTile staleViewportState none idleDraw none).drawn = none
    ∧ (renderTile staleViewportState none idleDraw none).stored_viewport = none
    ∧ (renderTile staleViewportState none idleDraw none).events = [] :=
  ⟨by decide, by decide, rfl, rfl, rfl, rfl, rfl,
    (renderTile_reuses_on_any_match staleViewportState none none idleDraw (by decide)
      (by decide)).1 (by decide)⟩

end IceT
